import Mathlib

/-!
OpenColorIO legacy `Lut1D`: kernels, no-op detection and cache identity.

A shallow embedding of `src/OpenColorIO/ops/Lut1D/Lut1DOp.cpp`.

Conventions of the embedding:

* `float` arithmetic is read in two ways.  The sections up to "No-op
  detection and cache identity" read it over exact rationals: a pixel value
  is a `CFloat`, either `nan` or an exact number.  They carry the statements
  about the control and data flow of the code: NaN pass-through, the alpha
  channel, which channel reads which data, finalization and the cache ID.
  The sections "Binary32 arithmetic", "The kernels in binary32 arithmetic"
  and "No-op detection in binary32 arithmetic" give the arithmetic of the
  compiled code, IEEE 754 binary32 with rounding to nearest, overflow to an
  infinity and NaN: a pixel value is a `Binary32`.  They carry the
  statements about the values the kernels and the no-op test compute.
  LUT samples and domain bounds are finite numbers in both readings.
* A `std::vector<float>` is a `List ℚ`; a pointer into it is an index.
  A read outside the vector has no defined result and is `none`.
* `size_t` subtraction `size() - 1` wraps around for the empty vector; an
  `int` index is an integer without a range over exact rationals, and the
  conversion of a `float` to `int` has no defined result outside of the
  range of `int` in binary32.
* Division is exact division of rationals; every statement about a value
  computed through a quotient carries the hypothesis that the divisor is
  not zero.
* Mutable members (`m_cacheID`, `m_isNoOp`) are passed explicitly: a method
  that may change them returns the new object next to its result.  A C++
  exception is an `Except.error` carrying the message.
-/

namespace Lut1DOp

/-! ## Values -/

/-- A `float` as the kernels see it: NaN, or an exact number. -/
inductive CFloat where
  | nan : CFloat
  | num (q : ℚ) : CFloat
  deriving DecidableEq, Repr

/-- The `IsNan` test of `MathUtils.h`. -/
def IsNan : CFloat → Bool
  | CFloat.nan => true
  | CFloat.num _ => false

/-- The C `roundf`: nearest integer, halfway cases away from zero. -/
def roundf (x : ℚ) : ℚ :=
  if 0 ≤ x then (⌊x + 1 / 2⌋ : ℤ) else (⌈x - 1 / 2⌉ : ℤ)

/-- The conversion `static_cast<int>(x)`: truncation toward zero. -/
def static_cast_int (x : ℚ) : ℤ :=
  if 0 ≤ x then ⌊x⌋ else ⌈x⌉

/-- The value `(float)(v.size() - 1)`; the subtraction is done on `size_t`
and wraps for the empty vector. -/
def sizeMinusOne (v : List ℚ) : ℚ :=
  if v.length = 0 then ((2 ^ 64 - 1 : ℕ) : ℚ) else ((v.length - 1 : ℕ) : ℚ)

/-- The read `simple_lut[k]` through an `int` index. -/
def readAt (simple_lut : List ℚ) (k : ℤ) : Option ℚ :=
  if 0 ≤ k then simple_lut[k.toNat]? else none

/-! ## The legacy struct -/

/-- The tolerance kind `Lut1D::ErrorType`; `other` is any value cast into the
enum that is neither of the two enumerators. -/
inductive ErrorType where
  | ERROR_ABSOLUTE : ErrorType
  | ERROR_RELATIVE : ErrorType
  | other (code : ℤ) : ErrorType
  deriving DecidableEq, Repr

/-- The bit depths the struct records; only `BIT_DEPTH_F32` is named here. -/
inductive BitDepth where
  | BIT_DEPTH_F32 : BitDepth
  | other (code : ℕ) : BitDepth
  deriving DecidableEq, Repr

/-- The legacy `Lut1D` struct, with its two mutable cache members. -/
structure Lut1D where
  maxerror : ℚ
  errortype : ErrorType
  from_min : Fin 3 → ℚ
  from_max : Fin 3 → ℚ
  luts : Fin 3 → List ℚ
  inputBitDepth : BitDepth
  outputBitDepth : BitDepth
  m_cacheID : String
  m_isNoOp : Bool

/-! ## Pixel loop shared by the four kernels -/

/-- One guarded channel update,
`if(!IsNan(rgbaBuffer[c])) rgbaBuffer[c] = f(rgbaBuffer[c]);`: a NaN stays as it is, a
number is replaced by the value `f` computes from it. -/
def applyChannel (f : ℚ → Option ℚ) (v : CFloat) : Option CFloat :=
  match IsNan v, v with
  | false, CFloat.num x => (f x).map CFloat.num
  | _, _ => some v

/-- The loop `for(pixelIndex...) { ...; rgbaBuffer += 4; }` common to the
kernels: the first three floats of each pixel go through the channel
functions, the pointer then moves on by four floats.  A buffer that ends
inside a pixel gives `none`. -/
def pixelLoop (f0 f1 f2 : ℚ → Option ℚ) : ℕ → List CFloat → Option (List CFloat)
  | 0, rgbaBuffer => some rgbaBuffer
  | n + 1, r :: g :: b :: a :: rest =>
    match applyChannel f0 r, applyChannel f1 g, applyChannel f2 b,
        pixelLoop f0 f1 f2 n rest with
    | some r', some g', some b', some rest' => some (r' :: g' :: b' :: a :: rest')
    | _, _, _, _ => none
  | _ + 1, _ => none

/-! ## Forward kernels -/

/-- Source `clamp`: clamp to `[minVal, maxVal]`, round, convert to `int`. -/
def clamp (k minVal maxVal : ℚ) : ℤ :=
  static_cast_int (roundf (max (min k maxVal) minVal))

/-- Source `lookupNearest_1D`. -/
def lookupNearest_1D (index maxIndex : ℚ) (simple_lut : List ℚ) : Option ℚ :=
  readAt simple_lut (clamp index 0 maxIndex)

/-- Source `lookupLinear_1D`. -/
def lookupLinear_1D (index maxIndex : ℚ) (simple_lut : List ℚ) : Option ℚ :=
  let indexLow := clamp (⌊index⌋ : ℤ) 0 maxIndex
  let indexHigh := clamp (⌈index⌉ : ℤ) 0 maxIndex
  let delta := index - (indexLow : ℚ)
  match readAt simple_lut indexLow, readAt simple_lut indexHigh with
  | some lo, some hi => some (lo + delta * (hi - lo))
  | _, _ => none

/-- Channel `i` of `Lut1D_Nearest`, with the set-up of the kernel. -/
def Lut1D_Nearest_channel (lut : Lut1D) (i : Fin 3) (x : ℚ) : Option ℚ :=
  let maxIndex := sizeMinusOne (lut.luts i)
  let mInv := 1 / (lut.from_max i - lut.from_min i)
  let b := lut.from_min i
  let mInv_x_maxIndex := mInv * maxIndex
  lookupNearest_1D (mInv_x_maxIndex * (x - b)) maxIndex (lut.luts i)

/-- Source `Lut1D_Nearest`. -/
def Lut1D_Nearest (rgbaBuffer : List CFloat) (numPixels : ℤ) (lut : Lut1D) :
    Option (List CFloat) :=
  pixelLoop (Lut1D_Nearest_channel lut 0) (Lut1D_Nearest_channel lut 1)
    (Lut1D_Nearest_channel lut 2) numPixels.toNat rgbaBuffer

/-- Channel `i` of `Lut1D_Linear`, with the set-up of the kernel. -/
def Lut1D_Linear_channel (lut : Lut1D) (i : Fin 3) (x : ℚ) : Option ℚ :=
  let maxIndex := sizeMinusOne (lut.luts i)
  let mInv := 1 / (lut.from_max i - lut.from_min i)
  let b := lut.from_min i
  let mInv_x_maxIndex := mInv * maxIndex
  lookupLinear_1D (mInv_x_maxIndex * (x - b)) maxIndex (lut.luts i)

/-- Source `Lut1D_Linear`. -/
def Lut1D_Linear (rgbaBuffer : List CFloat) (numPixels : ℤ) (lut : Lut1D) :
    Option (List CFloat) :=
  pixelLoop (Lut1D_Linear_channel lut 0) (Lut1D_Linear_channel lut 1)
    (Lut1D_Linear_channel lut 2) numPixels.toNat rgbaBuffer

/-! ## Inverse kernels -/

/-- The binary search of `std::lower_bound(start, end, v)` over the range
of `len` elements starting at index `first`: halve the range, keep the
upper part when the middle element is below `v`.  The middle element always
lies inside the range, so the `none` case of the read does not occur. -/
def lower_bound_loop (lut : List ℚ) (v : ℚ) : ℕ → ℕ → ℕ → ℕ
  | 0, first, _ => first
  | fuel + 1, first, len =>
    if len = 0 then first
    else
      let half := len / 2
      let middle := first + half
      match lut[middle]? with
      | some m =>
        if m < v then lower_bound_loop lut v fuel (middle + 1) (len - half - 1)
        else lower_bound_loop lut v fuel first half
      | none => first

/-- The call `std::lower_bound(start, end, v)` over the whole vector, as an
index; the range shrinks at every step, so its length is fuel enough. -/
def lower_bound (lut : List ℚ) (v : ℚ) : ℕ :=
  lower_bound_loop lut v lut.length 0 lut.length

/-- The two bracketing positions both inverse lookups compute from
`lower_bound`: `lowbound` steps back unless at `start`, `highbound` steps
forward unless at `end - 1`. -/
def bracket (lut : List ℚ) (v : ℚ) : ℤ × ℤ :=
  let lb : ℤ := lower_bound lut v
  let lowbound := if lb ≠ 0 then lb - 1 else lb
  let highbound := if lowbound < (lut.length : ℤ) - 1 then lowbound + 1 else lowbound
  (lowbound, highbound)

/-- Source `reverseLookupNearest_1D`. -/
def reverseLookupNearest_1D (v : ℚ) (lut : List ℚ) : Option ℚ :=
  let lowbound := (bracket lut v).1
  let highbound := (bracket lut v).2
  match readAt lut lowbound, readAt lut highbound with
  | some lo, some hi =>
    if |v - lo| < |v - hi| then some (lowbound : ℚ) else some (highbound : ℚ)
  | _, _ => none

/-- Source `reverseLookupLinear_1D`. -/
def reverseLookupLinear_1D (v : ℚ) (lut : List ℚ) (invMaxIndex : ℚ) : Option ℚ :=
  let lowbound := (bracket lut v).1
  let highbound := (bracket lut v).2
  match readAt lut lowbound, readAt lut highbound with
  | some lo, some hi =>
    let delta : ℚ := if hi > lo then (v - lo) / (hi - lo) else 0
    some (max (((lowbound : ℚ) + delta) * invMaxIndex) 0)
  | _, _ => none

/-- Channel `i` of `Lut1D_NearestInverse`, with the set-up of the kernel. -/
def Lut1D_NearestInverse_channel (lut : Lut1D) (i : Fin 3) (x : ℚ) : Option ℚ :=
  let m := (lut.from_max i - lut.from_min i) / sizeMinusOne (lut.luts i)
  let b := lut.from_min i
  (reverseLookupNearest_1D x (lut.luts i)).map (fun r => m * r + b)

/-- Source `Lut1D_NearestInverse`. -/
def Lut1D_NearestInverse (rgbaBuffer : List CFloat) (numPixels : ℤ) (lut : Lut1D) :
    Option (List CFloat) :=
  pixelLoop (Lut1D_NearestInverse_channel lut 0) (Lut1D_NearestInverse_channel lut 1)
    (Lut1D_NearestInverse_channel lut 2) numPixels.toNat rgbaBuffer

/-- Channel `i` of `Lut1D_LinearInverse`.  The source passes
`invMaxIndex[0]` to the lookup of every channel. -/
def Lut1D_LinearInverse_channel (lut : Lut1D) (i : Fin 3) (x : ℚ) : Option ℚ :=
  let m := lut.from_max i - lut.from_min i
  let b := lut.from_min i
  let invMaxIndex : Fin 3 → ℚ := fun j => 1 / sizeMinusOne (lut.luts j)
  (reverseLookupLinear_1D x (lut.luts i) (invMaxIndex 0)).map (fun r => m * r + b)

/-- Source `Lut1D_LinearInverse`. -/
def Lut1D_LinearInverse (rgbaBuffer : List CFloat) (numPixels : ℤ) (lut : Lut1D) :
    Option (List CFloat) :=
  pixelLoop (Lut1D_LinearInverse_channel lut 0) (Lut1D_LinearInverse_channel lut 1)
    (Lut1D_LinearInverse_channel lut 2) numPixels.toNat rgbaBuffer

/-! ## No-op detection and cache identity -/

/-- The helpers the struct code calls whose bodies `Lut1DOp.cpp` does not
contain: the tolerance comparisons of `MathUtils.h` and the MD5 routines with
`GetPrintableHash` of `HashUtils.h`.  They are parameters of the embedding.
A comparison receives the identity value, which is NaN for a one-sample
channel, the LUT sample and the tolerance.  The MD5 state is the sequence of
floats appended so far; `md5_finish` maps it to the 16-byte digest. -/
structure Helpers where
  EqualWithAbsError : CFloat → ℚ → ℚ → Bool
  EqualWithRelError : CFloat → ℚ → ℚ → Bool
  md5_finish : List ℚ → List ℕ
  GetPrintableHash : List ℕ → String

/-- The identity value `m*x+b` with `x = i * inorm` and
`inorm = 1.0f / (size - 1.0f)`.  For a one-sample channel `inorm` is `1/0`
and `x = 0 * inorm` is NaN. -/
def identval (size : ℕ) (m b : ℚ) (i : ℕ) : CFloat :=
  if (size : ℚ) - 1 = 0 then CFloat.nan
  else
    let inorm : ℚ := 1 / ((size : ℚ) - 1)
    let x : ℚ := (i : ℚ) * inorm
    CFloat.num (m * x + b)

/-- The inner loop of `IsLut1DNoOp` from sample `i` on: `ok false` is the
early `return false`, `ok true` means the loop ran to its end, an error is
the `throw`. -/
def noOpSamples (H : Helpers) (maxerror : ℚ) (errortype : ErrorType) (size : ℕ) (m b : ℚ) :
    ℕ → List ℚ → Except String Bool
  | _, [] => Except.ok true
  | i, lutval :: rest =>
    match errortype with
    | ErrorType.ERROR_ABSOLUTE =>
      if !H.EqualWithAbsError (identval size m b i) lutval maxerror then Except.ok false
      else noOpSamples H maxerror errortype size m b (i + 1) rest
    | ErrorType.ERROR_RELATIVE =>
      if !H.EqualWithRelError (identval size m b i) lutval maxerror then Except.ok false
      else noOpSamples H maxerror errortype size m b (i + 1) rest
    | ErrorType.other _ => Except.error "Unknown error type."

/-- The body of the channel loop of `IsLut1DNoOp` for one channel; an
empty channel is skipped. -/
def noOpChannel (H : Helpers) (lut : Lut1D) (maxerror : ℚ) (errortype : ErrorType)
    (channel : Fin 3) : Except String Bool :=
  if (lut.luts channel).length = 0 then Except.ok true
  else
    let m := lut.from_max channel - lut.from_min channel
    let b := lut.from_min channel
    noOpSamples H maxerror errortype (lut.luts channel).length m b 0 (lut.luts channel)

/-- Source `IsLut1DNoOp`. -/
def IsLut1DNoOp (H : Helpers) (lut : Lut1D) (maxerror : ℚ) (errortype : ErrorType) :
    Except String Bool :=
  if ¬ (maxerror > 0) then Except.ok false
  else
    match noOpChannel H lut maxerror errortype 0 with
    | Except.error e => Except.error e
    | Except.ok false => Except.ok false
    | Except.ok true =>
      match noOpChannel H lut maxerror errortype 1 with
      | Except.error e => Except.error e
      | Except.ok false => Except.ok false
      | Except.ok true =>
        match noOpChannel H lut maxerror errortype 2 with
        | Except.error e => Except.error e
        | Except.ok false => Except.ok false
        | Except.ok true => Except.ok true

/-- The floats `Lut1D::finalize` feeds to MD5, in the order of its
`md5_append` calls: `from_min`, `from_max`, then the three sample arrays. -/
def hashInput (l : Lut1D) : List ℚ :=
  [l.from_min 0, l.from_min 1, l.from_min 2] ++ [l.from_max 0, l.from_max 1, l.from_max 2]
    ++ l.luts 0 ++ l.luts 1 ++ l.luts 2

/-- Source `Lut1D::finalize`. -/
def Lut1D.finalize (H : Helpers) (l : Lut1D) : Except String Lut1D :=
  match IsLut1DNoOp H l l.maxerror l.errortype with
  | Except.error e => Except.error e
  | Except.ok true => Except.ok { l with m_isNoOp := true, m_cacheID := "<NULL 1D>" }
  | Except.ok false =>
    Except.ok { l with m_isNoOp := false,
                       m_cacheID := H.GetPrintableHash (H.md5_finish (hashInput l)) }

/-- Source `Lut1D::getCacheID`; returns the string and the object after the call. -/
def Lut1D.getCacheID (H : Helpers) (l : Lut1D) : Except String (String × Lut1D) :=
  if l.luts 0 = [] ∨ l.luts 1 = [] ∨ l.luts 2 = [] then
    Except.error "Cannot compute cacheID of invalid Lut1D"
  else if l.m_cacheID ≠ "" then Except.ok (l.m_cacheID, l)
  else
    match l.finalize H with
    | Except.error e => Except.error e
    | Except.ok l' => Except.ok (l'.m_cacheID, l')

/-- Source `Lut1D::isNoOp`; returns the flag and the object after the call. -/
def Lut1D.isNoOp (H : Helpers) (l : Lut1D) : Except String (Bool × Lut1D) :=
  if l.luts 0 = [] ∨ l.luts 1 = [] ∨ l.luts 2 = [] then
    Except.error "Cannot compute noOp of invalid Lut1D"
  else if l.m_cacheID ≠ "" then Except.ok (l.m_isNoOp, l)
  else
    match l.finalize H with
    | Except.error e => Except.error e
    | Except.ok l' => Except.ok (l'.m_isNoOp, l')

/-- Source `Lut1D::unfinalize`. -/
def Lut1D.unfinalize (l : Lut1D) : Lut1D :=
  { l with m_cacheID := "", m_isNoOp := false }

/-- Source `Lut1D::Lut1D()` / `Lut1D::Create()`: empty channels over the domain
`[0, 1]`, relative tolerance `std::numeric_limits<float>::min()`, nothing cached. -/
def Lut1D.Create : Lut1D :=
  { maxerror := 1 / 2 ^ 126
    errortype := ErrorType.ERROR_RELATIVE
    from_min := fun _ => 0
    from_max := fun _ => 1
    luts := fun _ => []
    inputBitDepth := BitDepth.BIT_DEPTH_F32
    outputBitDepth := BitDepth.BIT_DEPTH_F32
    m_cacheID := ""
    m_isNoOp := false }

/-- The cache ID a call of `getCacheID` returns, when it returns one. -/
def Lut1D.cacheIDString (H : Helpers) (l : Lut1D) : Option String :=
  match l.getCacheID H with
  | Except.ok r => some r.1
  | Except.error _ => none

/-- The flag a call of `isNoOp` returns, when it returns one. -/
def Lut1D.noOpFlag (H : Helpers) (l : Lut1D) : Option Bool :=
  match l.isNoOp H with
  | Except.ok r => some r.1
  | Except.error _ => none

/-! ## Vocabulary of the specification -/

/-- The normalized index of the specification,
`(value - from_min) / (from_max - from_min) * (N-1)`, for channel `c`. -/
def normalizedIndex (lut : Lut1D) (c : Fin 3) (x : ℚ) : ℚ :=
  (x - lut.from_min c) / (lut.from_max c - lut.from_min c) * (((lut.luts c).length : ℚ) - 1)

/-- The specification's test on one sample: sample `s` at index `i` of channel `c` equals
the identity value of that index within `maxerror` under the declared `errortype`, as the
comparison helper of that error type decides it. -/
def Lut1D.sampleWithinTolerance (H : Helpers) (l : Lut1D) (c : Fin 3) (i : ℕ) (s : ℚ) : Bool :=
  match l.errortype with
  | ErrorType.ERROR_ABSOLUTE =>
    H.EqualWithAbsError
      (identval (l.luts c).length (l.from_max c - l.from_min c) (l.from_min c) i) s l.maxerror
  | ErrorType.ERROR_RELATIVE =>
    H.EqualWithRelError
      (identval (l.luts c).length (l.from_max c - l.from_min c) (l.from_min c) i) s l.maxerror
  | ErrorType.other _ => false

/-- The identity value of the specification for index `i` of channel `c`,
`from_min[c] + (from_max[c] - from_min[c]) * i/(N-1)`. -/
def Lut1D.identityValue (l : Lut1D) (c : Fin 3) (i : ℕ) : ℚ :=
  l.from_min c + (l.from_max c - l.from_min c) * ((i : ℚ) / (((l.luts c).length : ℚ) - 1))

/-- The cached members agree with the content: an object that holds a cache ID
holds what `finalize` computes from its present content.  Objects that were never
finalized, and objects finalized or unfinalized through the methods, are of this kind. -/
def Lut1D.CacheCurrent (H : Helpers) (l : Lut1D) : Prop :=
  l.m_cacheID ≠ "" → l.finalize H = Except.ok l

/-- Modelled from the spec: the tolerance test for `ERROR_ABSOLUTE`, `EqualWithAbsError`
of `MathUtils.h`, whose body `Lut1DOp.cpp` does not contain: the two values differ by at
most the tolerance; a NaN identity value is within tolerance of nothing. -/
def withinAbsError : CFloat → ℚ → ℚ → Bool
  | CFloat.nan, _, _ => false
  | CFloat.num x1, x2, e => decide (|x1 - x2| ≤ e)

/-- Modelled from the spec: the tolerance test for `ERROR_RELATIVE`, `EqualWithRelError`
of `MathUtils.h`, whose body `Lut1DOp.cpp` does not contain: the two values differ by at
most the tolerance times the magnitude of the first; a NaN identity value is within
tolerance of nothing. -/
def withinRelError : CFloat → ℚ → ℚ → Bool
  | CFloat.nan, _, _ => false
  | CFloat.num x1, x2, e => decide (|x1 - x2| ≤ e * |x1|)

/-- A stand-in for the MD5 digest in concrete examples: the numerators and denominators
of the floats fed to it.  It only serves to instantiate `Helpers`. -/
def exampleDigest (input : List ℚ) : List ℕ :=
  input.flatMap (fun q => [q.num.natAbs, q.den])

/-- A stand-in for `GetPrintableHash` in concrete examples: a dollar sign followed by
the decimal digits of the digest entries. -/
def examplePrintable (digest : List ℕ) : String :=
  String.join ("$" :: digest.map (fun n => toString n ++ "."))

/-- The helpers used in concrete examples. -/
def exampleHelpers : Helpers :=
  { EqualWithAbsError := withinAbsError
    EqualWithRelError := withinRelError
    md5_finish := exampleDigest
    GetPrintableHash := examplePrintable }

/-! ## Concrete tables used in examples -/

/-- The 256-sample LUT that squares its input, as `CreateSquareLut` of the unit tests. -/
def squareLut : Lut1D :=
  { Lut1D.Create with
    maxerror := 1 / 100000
    luts := fun _ => (List.range 256).map (fun (i : ℕ) => ((i : ℚ) / 255) * ((i : ℚ) / 255)) }

/-- A LUT with two samples in every channel. -/
def twoSampleLut : Lut1D :=
  { Lut1D.Create with luts := fun _ => [0, 1] }

/-- The same LUT as `twoSampleLut` except for the red channel, which has three samples. -/
def threeSampleRedLut : Lut1D :=
  { Lut1D.Create with
    luts := fun c => if c = 0 then [0, 1 / 2, 1] else [0, 1] }

/-- The exact two-sample identity LUT with an absolute tolerance of zero. -/
def zeroToleranceIdentityLut : Lut1D :=
  { Lut1D.Create with
    maxerror := 0
    errortype := ErrorType.ERROR_ABSOLUTE
    luts := fun _ => [0, 1] }

/-- The exact two-sample identity LUT with an absolute tolerance of `1/10`. -/
def identityLut : Lut1D :=
  { Lut1D.Create with
    maxerror := 1 / 10
    errortype := ErrorType.ERROR_ABSOLUTE
    luts := fun _ => [0, 1] }

/-- The LUT `identityLut` with its first red sample moved to `1/100`, inside the
tolerance. -/
def nearIdentityLut : Lut1D :=
  { identityLut with luts := fun c => if c = 0 then [1 / 100, 1] else [0, 1] }

/-- The LUT `identityLut` with its first red sample moved to `1/2`, outside the
tolerance. -/
def bentLut : Lut1D :=
  { identityLut with luts := fun c => if c = 0 then [1 / 2, 1] else [0, 1] }


/-! ## Assignment -/

/-- Source `Lut1D::operator=`, the assignment `self = l`: tolerance, domain, samples and
bit depths are copied; the cached members of `self` are not touched. -/
def Lut1D.assign (self l : Lut1D) : Lut1D :=
  { self with
    maxerror := l.maxerror
    errortype := l.errortype
    from_min := fun i => l.from_min i
    from_max := fun i => l.from_max i
    luts := fun i => l.luts i
    inputBitDepth := l.inputBitDepth
    outputBitDepth := l.outputBitDepth }

/-- The object after a call of `getCacheID` (unchanged when the call throws). -/
def Lut1D.afterGetCacheID (H : Helpers) (l : Lut1D) : Lut1D :=
  match l.getCacheID H with
  | Except.ok r => r.2
  | Except.error _ => l

/-- The message of the exception a call of `isNoOp` throws, when it throws. -/
def Lut1D.isNoOpError (H : Helpers) (l : Lut1D) : Option String :=
  match l.isNoOp H with
  | Except.ok _ => none
  | Except.error e => some e

/-- The message of the exception a call of `getCacheID` throws, when it throws. -/
def Lut1D.getCacheIDError (H : Helpers) (l : Lut1D) : Option String :=
  match l.getCacheID H with
  | Except.ok _ => none
  | Except.error e => some e

/-- The text `msg` contains the text `part`. -/
def containsText (msg part : String) : Prop :=
  part.data <:+: msg.data

instance (msg part : String) : Decidable (containsText msg part) :=
  inferInstanceAs (Decidable (part.data <:+: msg.data))

/-- The LUT `bentLut` after a call of `getCacheID`, which finalizes it. -/
def finalizedBentLut : Lut1D :=
  bentLut.afterGetCacheID exampleHelpers

/-- The identity LUT, finalized by a call of `getCacheID`, whose `errortype` member is
then overwritten with the value 0, which is neither of the enumerators. -/
def staleUnknownTypeLut : Lut1D :=
  { identityLut.afterGetCacheID exampleHelpers with errortype := ErrorType.other 0 }


/-! ## Text input shared by the format readers -/

/-- The input stream as successive `getline` calls see it: `lines` are the lines that
`getline` extracts while the stream stays `good()`; `last` is what the first `getline`
that leaves the stream not good puts into the buffer (the characters behind the last
newline, or the head of a line that does not fit the buffer). -/
structure IStream where
  lines : List String
  last : String
  good : Bool
deriving DecidableEq

/-- Results of fallible code can be compared. -/
instance instDecidableEqExcept {ε α : Type} [DecidableEq ε] [DecidableEq α] :
    DecidableEq (Except ε α)
  | Except.ok a, Except.ok b =>
    if h : a = b then isTrue (by rw [h]) else isFalse (fun he => h (Except.ok.inj he))
  | Except.error a, Except.error b =>
    if h : a = b then isTrue (by rw [h]) else isFalse (fun he => h (Except.error.inj he))
  | Except.ok _, Except.error _ => isFalse (fun he => by cases he)
  | Except.error _, Except.ok _ => isFalse (fun he => by cases he)

-- The results of the readers are compared member by member.
deriving instance DecidableEq for Lut1D

/-- The call `istream.getline(lineBuffer, MAX_LINE_SIZE)` as the readers use it: the
content of the buffer after the call and the stream after the call.  On a stream that is
not good the call extracts nothing and leaves an empty buffer. -/
def IStream.getline (s : IStream) : String × IStream :=
  if s.good then
    match s.lines with
    | l :: ls => (l, { s with lines := ls })
    | [] => (s.last, { s with good := false })
  else ("", s)

/-- The stream over a text whose lines all end with a newline. -/
def IStream.ofLines (lines : List String) : IStream :=
  { lines := lines, last := "", good := true }

/-- Modelled from the spec: `pystring::startswith` (a line "beginning, case-sensitively,
with" a tag), whose body is in `pystring`, not in the reader: `pre` is an initial segment
of `str`. -/
def startswith (str pre : String) : Bool :=
  pre.data.isPrefixOf str.data

/-- Modelled from the spec: `pystring::lower` (tags are matched "in any letter case"),
whose body is in `pystring`, not in the reader: every letter is replaced by its lower
case. -/
def lower (str : String) : String :=
  String.mk (str.data.map Char.toLower)

/-- The calls of the C library's `sscanf` the readers make, by the conversions of the
format: each function gives the converted values when the call returns the number of
conversions of its format, and `none` when it returns less. -/
structure Scanf where
  sscanf_d : (format buffer : String) → Option ℤ
  sscanf_f : (format buffer : String) → Option ℚ
  sscanf_ff : (format buffer : String) → Option (ℚ × ℚ)
  sscanf_fff : (format buffer : String) → Option (ℚ × ℚ × ℚ)
  sscanf_ddd : (format buffer : String) → Option (ℤ × ℤ × ℤ)
  sscanf_dddfff : (format buffer : String) → Option ((ℤ × ℤ × ℤ) × (ℚ × ℚ × ℚ))


/-! ## The `.spi1d` reader (`FileFormatSpi1D.cpp`) -/

/-- Source `LocalFileFormat::ThrowErrorMessage` of the `.spi1d` reader: the message of the
exception it throws. -/
def Spi1D.ThrowErrorMessage (error fileName : String) (line : ℤ) (lineContent : String) :
    String :=
  "Error parsing .spi1d file (" ++ fileName ++ ").  "
    ++ (if line ≠ -1 then "At line (" ++ toString line ++ "): '" ++ lineContent ++ "'.  "
        else "")
    ++ error

/-- The local variables of `read` that the header loop sets. -/
structure Spi1D.Header where
  lut_size : ℤ
  from_min : ℚ
  from_max : ℚ
  version : ℤ
  components : ℤ
  currentLine : ℤ
deriving DecidableEq

/-- The initial values of the header variables. -/
def Spi1D.Header.init : Spi1D.Header :=
  { lut_size := -1, from_min := 0, from_max := 1, version := -1, components := -1,
    currentLine := 0 }

/-- The body of the header loop of `read` behind its `getline`: the line counter is
advanced and the line is matched against the four tags. -/
def Spi1D.headerLine (S : Scanf) (fileName : String) (h : Spi1D.Header) (headerLine : String) :
    Except String Spi1D.Header :=
  let currentLine := h.currentLine + 1
  if startswith headerLine "Version" then
    match S.sscanf_d "Version %d" headerLine with
    | none =>
      Except.error (Spi1D.ThrowErrorMessage "Invalid 'Version' Tag." fileName currentLine
        headerLine)
    | some version =>
      if version ≠ 1 then
        Except.error (Spi1D.ThrowErrorMessage "Only format version 1 supported." fileName
          currentLine headerLine)
      else Except.ok { h with currentLine := currentLine, version := version }
  else if startswith headerLine "From" then
    match S.sscanf_ff "From %f %f" headerLine with
    | none =>
      Except.error (Spi1D.ThrowErrorMessage "Invalid 'From' Tag." fileName currentLine
        headerLine)
    | some (from_min, from_max) =>
      Except.ok { h with currentLine := currentLine, from_min := from_min, from_max := from_max }
  else if startswith headerLine "Components" then
    match S.sscanf_d "Components %d" headerLine with
    | none =>
      Except.error (Spi1D.ThrowErrorMessage "Invalid 'Components' Tag." fileName currentLine
        headerLine)
    | some components => Except.ok { h with currentLine := currentLine, components := components }
  else if startswith headerLine "Length" then
    match S.sscanf_d "Length %d" headerLine with
    | none =>
      Except.error (Spi1D.ThrowErrorMessage "Invalid 'Length' Tag." fileName currentLine
        headerLine)
    | some lut_size => Except.ok { h with currentLine := currentLine, lut_size := lut_size }
  else Except.ok { h with currentLine := currentLine }

/-- The header loop `do { getline; ... } while (istream.good() && !startswith(headerLine, brace))`
on a good stream, with `getline` unfolded: a line of `lines` is taken while there is one
and the loop goes on unless the line starts with a brace; when `lines` is used up the
loop body runs once more on `last` and the stream is no longer good.  The result is the
header variables and the stream behind the loop. -/
def Spi1D.headerLoop (S : Scanf) (fileName : String) :
    List String → String → Spi1D.Header → Except String (Spi1D.Header × IStream)
  | [], last, h =>
    match Spi1D.headerLine S fileName h last with
    | Except.error e => Except.error e
    | Except.ok h' => Except.ok (h', { lines := [], last := last, good := false })
  | l :: ls, last, h =>
    match Spi1D.headerLine S fileName h l with
    | Except.error e => Except.error e
    | Except.ok h' =>
      if startswith l "\x7b" then Except.ok (h', { lines := ls, last := last, good := true })
      else Spi1D.headerLoop S fileName ls last h'

/-- The header part of `read` ("PARSE HEADER INFO"): on a stream that is not good the
loop body runs once on the empty buffer. -/
def Spi1D.parseHeader (S : Scanf) (fileName : String) (istream : IStream) :
    Except String (Spi1D.Header × IStream) :=
  if istream.good then Spi1D.headerLoop S fileName istream.lines istream.last Spi1D.Header.init
  else
    match Spi1D.headerLine S fileName Spi1D.Header.init "" with
    | Except.error e => Except.error e
    | Except.ok h' => Except.ok (h', istream)

/-- The four checks of `read` behind the header loop. -/
def Spi1D.checkHeader (fileName : String) (h : Spi1D.Header) : Except String Unit :=
  if h.version = -1 then
    Except.error (Spi1D.ThrowErrorMessage "Could not find 'Version' Tag." fileName (-1) "")
  else if h.lut_size = -1 then
    Except.error (Spi1D.ThrowErrorMessage "Could not find 'Length' Tag." fileName (-1) "")
  else if h.components = -1 then
    Except.error (Spi1D.ThrowErrorMessage "Could not find 'Components' Tag." fileName (-1) "")
  else if h.components < 0 ∨ h.components > 3 then
    Except.error (Spi1D.ThrowErrorMessage "Components must be [1,2,3]." fileName (-1) "")
  else Except.ok ()

/-- The values one data line adds to the three channels, by the `if` chain in the data
loop of `read`; `none` when no branch applies and the line is skipped. -/
def Spi1D.row (S : Scanf) (components : ℤ) (lineBuffer : String) : Option (ℚ × ℚ × ℚ) :=
  match (if components = 1 then S.sscanf_f "%f" lineBuffer else none) with
  | some v => some (v, v, v)
  | none =>
    match (if components = 2 then S.sscanf_ff "%f %f" lineBuffer else none) with
    | some (v0, v1) => some (v0, v1, 0)
    | none =>
      match (if components = 3 then S.sscanf_fff "%f %f %f" lineBuffer else none) with
      | some (v0, v1, v2) => some (v0, v1, v2)
      | none => none

/-- The three channels being filled and the counter `lineCount`. -/
structure Spi1D.Data where
  luts : Fin 3 → List ℚ
  lineCount : ℤ

/-- One pass of the body of the data loop up to its `break` test: the `push_back`s and
`++lineCount` of the branch that applies. -/
def Spi1D.dataLine (S : Scanf) (components : ℤ) (d : Spi1D.Data) (lineBuffer : String) :
    Spi1D.Data :=
  match Spi1D.row S components lineBuffer with
  | some (v0, v1, v2) =>
    { luts := fun c => d.luts c ++ [if c = 0 then v0 else if c = 1 then v1 else v2]
      lineCount := d.lineCount + 1 }
  | none => d

/-- The data loop `while (istream.good()) { ...; if(lineCount == lut_size) break; getline }`
with `getline` unfolded.  The head of the list is the line in the buffer; when the list
is used up, the `getline` that fetched the buffer has left the stream not good and the
loop ends without looking at the buffer. -/
def Spi1D.dataLoop (S : Scanf) (components lut_size : ℤ) :
    List String → Spi1D.Data → Spi1D.Data
  | [], d => d
  | lineBuffer :: rest, d =>
    let d' := Spi1D.dataLine S components d lineBuffer
    if d'.lineCount = lut_size then d' else Spi1D.dataLoop S components lut_size rest d'

/-- Source `LocalFileFormat::read` of the `.spi1d` reader; the result is the `lut` of the
cached file.  A negative `lut_size` makes `reserve` throw `std::length_error`, whose
message is "vector::reserve". -/
def Spi1D.read (S : Scanf) (istream : IStream) (fileName : String) : Except String Lut1D :=
  match Spi1D.parseHeader S fileName istream with
  | Except.error e => Except.error e
  | Except.ok (h, istream) =>
    match Spi1D.checkHeader fileName h with
    | Except.error e => Except.error e
    | Except.ok () =>
      if h.lut_size < 0 then Except.error "vector::reserve"
      else
        let d := if istream.good then
            Spi1D.dataLoop S h.components h.lut_size istream.lines
              { luts := fun _ => [], lineCount := 0 }
          else { luts := fun _ => [], lineCount := 0 }
        if d.lineCount ≠ h.lut_size then
          Except.error (Spi1D.ThrowErrorMessage "Not enough entries found." fileName (-1) "")
        else
          Except.ok { Lut1D.Create with
            from_min := fun _ => h.from_min
            from_max := fun _ => h.from_max
            luts := d.luts
            maxerror := 1 / 100000
            errortype := ErrorType.ERROR_RELATIVE }


/-! ## The legacy `Lut3D` struct and the `.spi3d` reader (`FileFormatSpi3D.cpp`) -/

/-- The members of the legacy `Lut3D` struct the readers set. -/
structure Lut3D where
  from_min : Fin 3 → ℚ
  from_max : Fin 3 → ℚ
  size : Fin 3 → ℤ
  lut : List ℚ
deriving DecidableEq

/-- Modelled from the spec: `GetLut3DIndex_RedFast` of `Lut3DOp.h`, which is not under
`src/`: the position of the first float of cell `(r, g, b)` in the red-fastest storage
order, `3*(r + Nr*(g + Ng*b))`. -/
def GetLut3DIndex_RedFast (indexR indexG indexB sizeR sizeG _sizeB : ℤ) : ℤ :=
  3 * (indexR + sizeR * (indexG + sizeG * indexB))

/-- The value an `int` variable holds for the arithmetic result `z`: `int` has 32 bits,
and a result outside its range wraps around in two's complement, as it does in the
compiled code. -/
def wrapInt32 (z : ℤ) : ℤ :=
  (z + 2 ^ 31) % 2 ^ 32 - 2 ^ 31

/-- The product `a * b` of two `int` values, as an `int`. -/
def mulInt32 (a b : ℤ) : ℤ :=
  wrapInt32 (a * b)

/-- The message of the `std::length_error` that `reserve` and `resize` throw for a size
that is negative as an `int`. -/
def lengthError : String :=
  "std::length_error"

/-- The call `v.resize(n)` for an `int` `n` that is not negative: the vector is cut or
filled up with zeros. -/
def resizeVector (v : List ℚ) (n : ℤ) : List ℚ :=
  v.take n.toNat ++ List.replicate (n.toNat - v.length) 0

/-- The assignment `lut[i] = x`; a position outside the vector has no defined result. -/
def writeAt (lut : List ℚ) (i : ℤ) (x : ℚ) : Option (List ℚ) :=
  if 0 ≤ i ∧ i < lut.length then some (lut.set i.toNat x) else none

/-- The message of the exception for an entry that falls outside of the cube. -/
def Spi3D.outsideMessage (fileName : String) (rIndex gIndex bIndex : ℤ) : String :=
  "Error parsing .spi3d file (" ++ fileName ++ "). " ++ "Data is invalid. "
    ++ "A LUT entry is specified (" ++ toString rIndex ++ " " ++ toString gIndex ++ " "
    ++ toString bIndex ++ ") that falls outside of the cube."

/-- The table being filled and the counter `entriesRemaining`. -/
structure Spi3D.Table where
  lut : List ℚ
  entriesRemaining : ℤ
deriving DecidableEq

/-- The body of the table loop of `read` behind its `getline`.  The result is `none` when
an assignment to `lut` lies outside the vector, an error when the body throws. -/
def Spi3D.tableLine (S : Scanf) (fileName : String) (rSize gSize bSize : ℤ) (t : Spi3D.Table)
    (lineBuffer : String) : Option (Except String Spi3D.Table) :=
  match S.sscanf_dddfff "%d %d %d %f %f %f" lineBuffer with
  | none => some (Except.ok t)
  | some ((rIndex, gIndex, bIndex), (redValue, greenValue, blueValue)) =>
    if rIndex < 0 ∨ rIndex ≥ rSize ∨ gIndex < 0 ∨ gIndex ≥ gSize ∨ bIndex < 0 ∨ bIndex ≥ bSize
    then some (Except.error (Spi3D.outsideMessage fileName rIndex gIndex bIndex))
    else
      let index := GetLut3DIndex_RedFast rIndex gIndex bIndex rSize gSize bSize
      if index < 0 ∨ index ≥ (t.lut.length : ℤ) then
        some (Except.error (Spi3D.outsideMessage fileName rIndex gIndex bIndex))
      else
        match writeAt t.lut (index + 0) redValue with
        | none => none
        | some lut0 =>
          match writeAt lut0 (index + 1) greenValue with
          | none => none
          | some lut1 =>
            match writeAt lut1 (index + 2) blueValue with
            | none => none
            | some lut2 =>
              some (Except.ok { lut := lut2, entriesRemaining := t.entriesRemaining - 1 })

/-- The table loop `while (istream.good() && entriesRemaining > 0) { getline; ... }` on a
good stream, with `getline` unfolded: a line of `lines` is taken while there is one; when
`lines` is used up the body runs once more on `last`, after which the stream is no longer
good. -/
def Spi3D.tableLoop (S : Scanf) (fileName : String) (rSize gSize bSize : ℤ) :
    List String → String → Spi3D.Table → Option (Except String Spi3D.Table)
  | [], last, t =>
    if t.entriesRemaining > 0 then Spi3D.tableLine S fileName rSize gSize bSize t last
    else some (Except.ok t)
  | l :: ls, last, t =>
    if t.entriesRemaining > 0 then
      match Spi3D.tableLine S fileName rSize gSize bSize t l with
      | none => none
      | some (Except.error e) => some (Except.error e)
      | some (Except.ok t') => Spi3D.tableLoop S fileName rSize gSize bSize ls last t'
    else some (Except.ok t)

/-- Source `LocalFileFormat::read` of the `.spi3d` reader; `create` is the object
`Lut3D::Create()` returns, and the result is the `lut` of the cached file.  The result is
`none` when an assignment to the LUT array lies outside the array. -/
def Spi3D.read (S : Scanf) (create : Lut3D) (istream : IStream) (fileName : String) :
    Option (Except String Lut3D) :=
  let (line1, istream) := istream.getline
  if !startswith (lower line1) "spilut" then
    some (Except.error ("Error parsing .spi3d file (" ++ fileName ++ ").  "
      ++ "LUT does not appear to be valid spilut format. "
      ++ "Expected 'SPILUT'.  Found: '" ++ line1 ++ "'."))
  else
    let (_, istream) := istream.getline
    let (line3, istream) := istream.getline
    match S.sscanf_ddd "%d %d %d" line3 with
    | none =>
      some (Except.error ("Error parsing .spi3d file (" ++ fileName ++ "). "
        ++ "Error while reading LUT size. Found: '" ++ line3 ++ "'."))
    | some (rSize, gSize, bSize) =>
      if rSize * gSize * bSize * 3 < 0 then some (Except.error lengthError)
      else
        let t0 : Spi3D.Table :=
          { lut := resizeVector create.lut (rSize * gSize * bSize * 3)
            entriesRemaining := rSize * gSize * bSize }
        let result :=
          if istream.good then
            Spi3D.tableLoop S fileName rSize gSize bSize istream.lines istream.last t0
          else some (Except.ok t0)
        match result with
        | none => none
        | some (Except.error e) => some (Except.error e)
        | some (Except.ok t) =>
          if t.entriesRemaining > 0 then
            some (Except.error ("Error parsing .spi3d file (" ++ fileName ++ "). "
              ++ "Not enough entries found."))
          else
            some (Except.ok { create with
              size := fun i => if i = 0 then rSize else if i = 1 then gSize else bSize
              lut := t.lut })


/-! ## The Iridas `.cube` reader (`FileFormatIridasCube.cpp`) -/

/-- The helpers of `ParseUtils` and `pystring` the reader calls whose bodies are not in
the reader: `nextlines` gives the lines the successive calls of `nextline` return until
it returns false; `strip` and `split` are the `pystring` functions; the conversions give
the converted value when they return true. -/
structure ParseUtils where
  nextlines : IStream → List String
  strip : String → String
  split : String → List String
  StringToInt : String → Option ℤ
  StringToFloat : String → Option ℚ
  StringVecToFloatVec : List String → Option (List ℚ)

/-- Source `LocalFileFormat::ThrowErrorMessage` of the Iridas reader: the message of the
exception it throws. -/
def IridasCube.ThrowErrorMessage (error fileName : String) (line : ℤ) (lineContent : String) :
    String :=
  "Error parsing Iridas .cube file (" ++ fileName ++ ").  "
    ++ (if line ≠ -1 then "At line (" ++ toString line ++ "): '" ++ lineContent ++ "'.  "
        else "")
    ++ error

/-- Source `LocalCachedFile` of the Iridas reader. -/
structure IridasCube.LocalCachedFile where
  has1D : Bool
  has3D : Bool
  lut1D : Lut1D
  lut3D : Lut3D

/-- The local variables of `read` that the line loop sets. -/
structure IridasCube.Parsed where
  raw : List ℚ
  size3d : Fin 3 → ℤ
  size1d : ℤ
  in1d : Bool
  in3d : Bool
  domain_min : Fin 3 → ℚ
  domain_max : Fin 3 → ℚ
  lineNumber : ℤ

/-- The initial values of the variables of `read`. -/
def IridasCube.Parsed.init : IridasCube.Parsed :=
  { raw := [], size3d := fun _ => 0, size1d := 0, in1d := false, in3d := false,
    domain_min := fun _ => 0, domain_max := fun _ => 1, lineNumber := 0 }

/-- The body of the line loop of `read`.  The argument of `raw.reserve` is a product of
`int` values; a negative one makes `reserve` throw `std::length_error`. -/
def IridasCube.parseLine (P : ParseUtils) (fileName : String) (st : IridasCube.Parsed)
    (line : String) : Except String IridasCube.Parsed :=
  let lineNumber := st.lineNumber + 1
  let st := { st with lineNumber := lineNumber }
  if startswith line "#" then Except.ok st
  else
    match P.split (lower (P.strip line)) with
    | [] => Except.ok st
    | tag :: args =>
      if lower tag = "title" then Except.ok st
      else if lower tag = "lut_1d_size" then
        match args with
        | [arg] =>
          match P.StringToInt arg with
          | some size1d =>
            if mulInt32 3 size1d < 0 then Except.error lengthError
            else Except.ok { st with size1d := size1d, in1d := true }
          | none =>
            Except.error (IridasCube.ThrowErrorMessage "Malformed LUT_1D_SIZE tag." fileName
              lineNumber line)
        | _ =>
          Except.error (IridasCube.ThrowErrorMessage "Malformed LUT_1D_SIZE tag." fileName
            lineNumber line)
      else if lower tag = "lut_2d_size" then
        Except.error (IridasCube.ThrowErrorMessage "Unsupported tag: 'LUT_2D_SIZE'." fileName
          lineNumber line)
      else if lower tag = "lut_3d_size" then
        match args with
        | [arg] =>
          match P.StringToInt arg with
          | some size =>
            if mulInt32 (mulInt32 (mulInt32 3 size) size) size < 0 then
              Except.error lengthError
            else Except.ok { st with size3d := fun _ => size, in3d := true }
          | none =>
            Except.error (IridasCube.ThrowErrorMessage "Malformed LUT_3D_SIZE tag." fileName
              lineNumber line)
        | _ =>
          Except.error (IridasCube.ThrowErrorMessage "Malformed LUT_3D_SIZE tag." fileName
            lineNumber line)
      else if lower tag = "domain_min" then
        match args with
        | [a0, a1, a2] =>
          match P.StringToFloat a0, P.StringToFloat a1, P.StringToFloat a2 with
          | some v0, some v1, some v2 =>
            Except.ok { st with
              domain_min := fun i => if i = 0 then v0 else if i = 1 then v1 else v2 }
          | _, _, _ =>
            Except.error (IridasCube.ThrowErrorMessage "Malformed DOMAIN_MIN tag." fileName
              lineNumber line)
        | _ =>
          Except.error (IridasCube.ThrowErrorMessage "Malformed DOMAIN_MIN tag." fileName
            lineNumber line)
      else if lower tag = "domain_max" then
        match args with
        | [a0, a1, a2] =>
          match P.StringToFloat a0, P.StringToFloat a1, P.StringToFloat a2 with
          | some v0, some v1, some v2 =>
            Except.ok { st with
              domain_max := fun i => if i = 0 then v0 else if i = 1 then v1 else v2 }
          | _, _, _ =>
            Except.error (IridasCube.ThrowErrorMessage "Malformed DOMAIN_MAX tag." fileName
              lineNumber line)
        | _ =>
          Except.error (IridasCube.ThrowErrorMessage "Malformed DOMAIN_MAX tag." fileName
            lineNumber line)
      else
        match P.StringVecToFloatVec (tag :: args) with
        | some [v0, v1, v2] => Except.ok { st with raw := st.raw ++ [v0, v1, v2] }
        | _ =>
          Except.error (IridasCube.ThrowErrorMessage "Malformed color triples specified."
            fileName lineNumber line)

/-- The loop `while(nextline(istream, line))` of `read` over the lines `nextline` returns. -/
def IridasCube.parseLines (P : ParseUtils) (fileName : String) :
    List String → IridasCube.Parsed → Except String IridasCube.Parsed
  | [], st => Except.ok st
  | line :: rest, st =>
    match IridasCube.parseLine P fileName st line with
    | Except.error e => Except.error e
    | Except.ok st' => IridasCube.parseLines P fileName rest st'

/-- The second part of `read`, "Interpret the parsed data, validate LUT sizes"; `create3D`
is the object `Lut3D::Create()` returns.  The products of the sizes are products of `int`
values, and `found` is `static_cast<int>(raw.size()/3)`. -/
def IridasCube.interpret (create3D : Lut3D) (fileName : String) (st : IridasCube.Parsed) :
    Except String IridasCube.LocalCachedFile :=
  let cachedFile : IridasCube.LocalCachedFile :=
    { has1D := false, has3D := false, lut1D := Lut1D.Create, lut3D := create3D }
  let found : ℤ := wrapInt32 ((st.raw.length / 3 : ℕ) : ℤ)
  if st.in1d then
    if st.size1d ≠ found then
      Except.error (IridasCube.ThrowErrorMessage
        ("Incorrect number of lut1d entries. " ++ "Found " ++ toString (st.raw.length / 3)
          ++ ", expected " ++ toString st.size1d ++ ".") fileName (-1) "")
    else if st.size1d > 0 then
      Except.ok { cachedFile with
        has1D := true
        lut1D := { cachedFile.lut1D with
          from_min := st.domain_min
          from_max := st.domain_max
          luts := fun channel =>
            (List.range st.size1d.toNat).map (fun i => st.raw.getD (3 * i + channel.val) 0)
          maxerror := 1 / 100000
          errortype := ErrorType.ERROR_RELATIVE } }
    else Except.ok cachedFile
  else if st.in3d then
    if mulInt32 (mulInt32 (st.size3d 0) (st.size3d 1)) (st.size3d 2) ≠ found then
      Except.error (IridasCube.ThrowErrorMessage
        ("Incorrect number of 3D LUT entries. " ++ "Found " ++ toString (st.raw.length / 3)
          ++ ", expected "
          ++ toString (mulInt32 (mulInt32 (st.size3d 0) (st.size3d 1)) (st.size3d 2)) ++ ".")
        fileName (-1) "")
    else
      Except.ok { cachedFile with
        has3D := true
        lut3D := { cachedFile.lut3D with
          from_min := st.domain_min
          from_max := st.domain_max
          size := st.size3d
          lut := st.raw } }
  else
    Except.error (IridasCube.ThrowErrorMessage "LUT type (1D/3D) unspecified." fileName (-1) "")

/-- Source `LocalFileFormat::read` of the Iridas reader. -/
def IridasCube.read (P : ParseUtils) (create3D : Lut3D) (istream : IStream)
    (fileName : String) : Except String IridasCube.LocalCachedFile :=
  if !istream.good then
    Except.error "File stream empty when trying to read Iridas .cube LUT"
  else
    match IridasCube.parseLines P fileName (P.nextlines istream) IridasCube.Parsed.init with
    | Except.error e => Except.error e
    | Except.ok st => IridasCube.interpret create3D fileName st


/-! ## A small `sscanf` for concrete examples -/

/-- The directives of the formats the readers use. -/
inductive ScanDirective where
  | literal (c : Char) : ScanDirective
  | space : ScanDirective
  | int : ScanDirective
  | float : ScanDirective

/-- The directives of a format string: `%d`, `%f`, white space and literal characters. -/
def scanFormat : List Char → List ScanDirective
  | '%' :: 'd' :: rest => ScanDirective.int :: scanFormat rest
  | '%' :: 'f' :: rest => ScanDirective.float :: scanFormat rest
  | c :: rest =>
    (if c.isWhitespace then ScanDirective.space else ScanDirective.literal c) :: scanFormat rest
  | [] => []

/-- The value of a sequence of decimal digits read after the value `acc`, the number of
digits read, and the characters behind the digits. -/
def scanDigits : List Char → ℕ → ℕ → ℕ × ℕ × List Char
  | c :: rest, acc, count =>
    if c.isDigit then scanDigits rest (10 * acc + (c.toNat - '0'.toNat)) (count + 1)
    else (acc, count, c :: rest)
  | [], acc, count => (acc, count, [])

/-- An optional sign: the factor it stands for and the characters behind it. -/
def scanSign : List Char → ℤ × List Char
  | '-' :: rest => (-1, rest)
  | '+' :: rest => (1, rest)
  | rest => (1, rest)

/-- The conversion `%d`: white space, an optional sign, decimal digits. -/
def scanInt (buffer : List Char) : Option (ℤ × List Char) :=
  let (sign, rest) := scanSign (buffer.dropWhile Char.isWhitespace)
  let (value, count, rest) := scanDigits rest 0 0
  if count = 0 then none else some (sign * (value : ℤ), rest)

/-- The conversion `%f` for numbers written as digits with an optional fraction: white
space, an optional sign, digits, and optionally a point followed by digits. -/
def scanFloat (buffer : List Char) : Option (ℚ × List Char) :=
  let (sign, rest) := scanSign (buffer.dropWhile Char.isWhitespace)
  let (whole, count, rest) := scanDigits rest 0 0
  match rest with
  | '.' :: rest' =>
    let (frac, fcount, rest'') := scanDigits rest' 0 0
    if count + fcount = 0 then none
    else some ((sign : ℚ) * ((whole : ℚ) + (frac : ℚ) / 10 ^ fcount), rest'')
  | _ => if count = 0 then none else some ((sign : ℚ) * (whole : ℚ), rest)

/-- The values `sscanf` converts, in order, before the first directive that fails. -/
def scanAll : List ScanDirective → List Char → List (ℤ ⊕ ℚ)
  | [], _ => []
  | ScanDirective.literal c :: fs, b :: bs => if b = c then scanAll fs bs else []
  | ScanDirective.literal _ :: _, [] => []
  | ScanDirective.space :: fs, buffer => scanAll fs (buffer.dropWhile Char.isWhitespace)
  | ScanDirective.int :: fs, buffer =>
    match scanInt buffer with
    | some (v, rest) => Sum.inl v :: scanAll fs rest
    | none => []
  | ScanDirective.float :: fs, buffer =>
    match scanFloat buffer with
    | some (v, rest) => Sum.inr v :: scanAll fs rest
    | none => []

/-- The values `sscanf(buffer, format, ...)` converts. -/
def scanValues (format buffer : String) : List (ℤ ⊕ ℚ) :=
  scanAll (scanFormat format.data) buffer.data

/-- The `sscanf` used in concrete examples. -/
def exampleScanf : Scanf :=
  { sscanf_d := fun format buffer =>
      match scanValues format buffer with
      | [Sum.inl a] => some a
      | _ => none
    sscanf_f := fun format buffer =>
      match scanValues format buffer with
      | [Sum.inr a] => some a
      | _ => none
    sscanf_ff := fun format buffer =>
      match scanValues format buffer with
      | [Sum.inr a, Sum.inr b] => some (a, b)
      | _ => none
    sscanf_fff := fun format buffer =>
      match scanValues format buffer with
      | [Sum.inr a, Sum.inr b, Sum.inr c] => some (a, b, c)
      | _ => none
    sscanf_ddd := fun format buffer =>
      match scanValues format buffer with
      | [Sum.inl a, Sum.inl b, Sum.inl c] => some (a, b, c)
      | _ => none
    sscanf_dddfff := fun format buffer =>
      match scanValues format buffer with
      | [Sum.inl a, Sum.inl b, Sum.inl c, Sum.inr x, Sum.inr y, Sum.inr z] =>
        some ((a, b, c), (x, y, z))
      | _ => none }

/-- The `Lut3D` used for `Lut3D::Create()` in concrete examples. -/
def exampleLut3D : Lut3D :=
  { from_min := fun _ => 0, from_max := fun _ => 1, size := fun _ => 0, lut := [] }


/-! ## Notions used to state the properties of the readers -/

/-- The header of a `.spi1d` text in the words of the spec, "the lines up to the first
line starting with" a brace, that line included; all lines and the unterminated rest of
the text when no line starts with a brace.  These are the lines the header loop of `read`
runs its body on. -/
def Spi1D.headerLines : List String → String → List String
  | [], last => [last]
  | l :: ls, last => if startswith l "\x7b" then [l] else l :: Spi1D.headerLines ls last

/-- The header of the text in a stream; on a stream that is not good the header loop sees
one empty line. -/
def Spi1D.header (istream : IStream) : List String :=
  if istream.good then Spi1D.headerLines istream.lines istream.last else [""]

/-- The body of the header loop run on the successive lines of a list. -/
def Spi1D.headerFold (S : Scanf) (fileName : String) :
    List String → Spi1D.Header → Except String Spi1D.Header
  | [], h => Except.ok h
  | l :: ls, h =>
    match Spi1D.headerLine S fileName h l with
    | Except.error e => Except.error e
    | Except.ok h' => Spi1D.headerFold S fileName ls h'

/-- The stream behind the header loop. -/
def Spi1D.headerRest : List String → String → IStream
  | [], last => { lines := [], last := last, good := false }
  | l :: ls, last =>
    if startswith l "\x7b" then { lines := ls, last := last, good := true }
    else Spi1D.headerRest ls last

/-- The stream behind the header part of `read`. -/
def Spi1D.bodyStream (istream : IStream) : IStream :=
  if istream.good then Spi1D.headerRest istream.lines istream.last else istream

/-- The value a data row holds for a channel. -/
def channelValue (v : ℚ × ℚ × ℚ) (c : Fin 3) : ℚ :=
  if c = 0 then v.1 else if c = 1 then v.2.1 else v.2.2

/-- The channels and the row count behind the data loop of `read`. -/
def Spi1D.dataOf (S : Scanf) (h : Spi1D.Header) (rest : IStream) : Spi1D.Data :=
  if rest.good then
    Spi1D.dataLoop S h.components h.lut_size rest.lines { luts := fun _ => [], lineCount := 0 }
  else { luts := fun _ => [], lineCount := 0 }

/-! ## Example texts for the `.spi1d` reader -/

/-- A one-component text with two rows and the domain `[-0.5, 2]`. -/
def spi1dBroadcastText : IStream :=
  IStream.ofLines ["Version 1", "From -0.5 2.0", "Length 2", "Components 1", "\x7b", "0.0", "1.0",
    "\x7d"]

/-- A text that declares `Length 0`. -/
def spi1dLengthZeroText : IStream :=
  IStream.ofLines ["Version 1", "From 0.0 1.0", "Length 0", "Components 1", "\x7b", "\x7d"]

/-- A text that declares `Components 0`. -/
def spi1dComponentsZeroText : IStream :=
  IStream.ofLines ["Version 1", "From 0.0 1.0", "Length 2", "Components 0", "\x7b", "0.0", "1.0",
    "\x7d"]

/-- A text whose header has neither a `Version` nor a `Length` line. -/
def spi1dNoVersionNoLengthText : IStream :=
  IStream.ofLines ["From 0.0 1.0", "Components 1", "\x7b", "0.0", "1.0", "\x7d"]

/-- A text whose header has the line `Length -1`. -/
def spi1dLengthMinusOneText : IStream :=
  IStream.ofLines ["Version 1", "From 0.0 1.0", "Length -1", "Components 1", "\x7b", "0.0", "1.0",
    "\x7d"]

/-- A text with one row where `Length 2` is declared. -/
def spi1dShortText : IStream :=
  IStream.ofLines ["Version 1", "From 0.0 1.0", "Length 2", "Components 1", "\x7b", "0.0", "\x7d"]

/-! ## Notions for the `.spi3d` reader -/

/-- The rows the lines of a `.spi3d` text hold: what `sscanf` converts from the lines
that have the six values of a row, an index triple and a value triple. -/
def Spi3D.rows (S : Scanf) (ls : List String) : List ((ℤ × ℤ × ℤ) × (ℚ × ℚ × ℚ)) :=
  ls.filterMap (S.sscanf_dddfff "%d %d %d %f %f %f")

/-- An index triple that lies in the cube of the declared sizes. -/
def Spi3D.inCube (rSize gSize bSize : ℤ) (idx : ℤ × ℤ × ℤ) : Prop :=
  0 ≤ idx.1 ∧ idx.1 < rSize ∧ 0 ≤ idx.2.1 ∧ idx.2.1 < gSize ∧ 0 ≤ idx.2.2 ∧ idx.2.2 < bSize

instance (rSize gSize bSize : ℤ) (idx : ℤ × ℤ × ℤ) :
    Decidable (Spi3D.inCube rSize gSize bSize idx) := by
  unfold Spi3D.inCube
  infer_instance

/-- The number of the cell of an index triple in the red-fastest order. -/
def Spi3D.cell (rSize gSize : ℤ) (idx : ℤ × ℤ × ℤ) : ℕ :=
  (idx.1 + rSize * (idx.2.1 + gSize * idx.2.2)).toNat

/-- The three assignments the table loop makes for a row. -/
def Spi3D.place (rSize gSize : ℤ) (lut : List ℚ) (row : (ℤ × ℤ × ℤ) × (ℚ × ℚ × ℚ)) :
    List ℚ :=
  ((lut.set (3 * Spi3D.cell rSize gSize row.1) row.2.1).set
    (3 * Spi3D.cell rSize gSize row.1 + 1) row.2.2.1).set
    (3 * Spi3D.cell rSize gSize row.1 + 2) row.2.2.2

/-- The test and the body of the table loop run on the successive lines of a list. -/
def Spi3D.tableFold (S : Scanf) (fileName : String) (rSize gSize bSize : ℤ) :
    List String → Spi3D.Table → Option (Except String Spi3D.Table)
  | [], t => some (Except.ok t)
  | l :: ls, t =>
    if t.entriesRemaining > 0 then
      match Spi3D.tableLine S fileName rSize gSize bSize t l with
      | none => none
      | some (Except.error e) => some (Except.error e)
      | some (Except.ok t') => Spi3D.tableFold S fileName rSize gSize bSize ls t'
    else some (Except.ok t)

/-- The lines of a text behind its first three lines, the unterminated rest included. -/
def Spi3D.tableLines (istream : IStream) : List String :=
  istream.lines.drop 3 ++ [istream.last]

/-! ## Example texts for the `.spi3d` reader -/

/-- The text of the unit test: a cube of 2 x 2 x 2 cells with its eight rows. -/
def spi3dSampleText : IStream :=
  IStream.ofLines ["SPILUT 1.0", "3 3", "2 2 2", "0 0 0 0.0 0.0 0.0", "0 0 1 0.0 0.0 0.9",
    "0 1 0 0.0 0.7 0.0", "0 1 1 0.0 0.8 0.8", "1 0 0 0.7 0.0 0.1", "1 0 1 0.7 0.6 0.1",
    "1 1 0 0.6 0.7 0.1", "1 1 1 0.6 0.7 0.7"]

/-- The rows of the unit test in another order, followed by further text. -/
def spi3dShuffledText : IStream :=
  IStream.ofLines ["SPILUT 1.0", "3 3", "2 2 2", "1 1 1 0.6 0.7 0.7", "0 0 1 0.0 0.0 0.9",
    "1 0 0 0.7 0.0 0.1", "0 1 1 0.0 0.8 0.8", "0 1 0 0.0 0.7 0.0", "1 0 1 0.7 0.6 0.1",
    "1 1 0 0.6 0.7 0.1", "0 0 0 0.0 0.0 0.0", "5 5 5 1.0 1.0 1.0", "anything"]

/-- The text of the unit test with the row `0 2 0`, which lies outside of the cube, in
second place. -/
def spi3dOutsideText : IStream :=
  IStream.ofLines ["SPILUT 1.0", "3 3", "2 2 2", "0 0 0 0.0 0.0 0.0", "0 2 0 0.0 0.0 0.9",
    "0 1 0 0.0 0.7 0.0", "0 1 1 0.0 0.8 0.8", "1 0 0 0.7 0.0 0.1", "1 0 1 0.7 0.6 0.1",
    "1 1 0 0.6 0.7 0.1", "1 1 1 0.6 0.7 0.7"]

/-- The text of the unit test with the row of cell `1 0 0` replaced by a second row for
cell `0 0 1`: eight rows, none of which carries the index triple `1 0 0`. -/
def spi3dDuplicateRowText : IStream :=
  IStream.ofLines ["SPILUT 1.0", "3 3", "2 2 2", "0 0 0 0.0 0.0 0.0", "0 0 1 0.0 0.0 0.9",
    "0 1 0 0.0 0.7 0.0", "0 1 1 0.0 0.8 0.8", "0 0 1 0.7 0.0 0.1", "1 0 1 0.7 0.6 0.1",
    "1 1 0 0.6 0.7 0.1", "1 1 1 0.6 0.7 0.7"]

/-! ## Notions for the Iridas `.cube` reader -/

/-- The kinds of well-formed lines of a 3D `.cube` text: a line the loop passes over (a
comment, a line without words, a title), a `LUT_3D_SIZE` line, a `DOMAIN_MIN` line, a
`DOMAIN_MAX` line, and a line of three floats. -/
inductive IridasCube.Item where
  | ignored : IridasCube.Item
  | size3d (n : ℤ) : IridasCube.Item
  | domainMin (v0 v1 v2 : ℚ) : IridasCube.Item
  | domainMax (v0 v1 v2 : ℚ) : IridasCube.Item
  | triple (v0 v1 v2 : ℚ) : IridasCube.Item
deriving DecidableEq

/-- The kind of a line, by the tests of the line loop of `read`; `none` for a line that
is malformed or belongs to a 1D or 2D text. -/
def IridasCube.classify (P : ParseUtils) (line : String) : Option IridasCube.Item :=
  if startswith line "#" then some IridasCube.Item.ignored
  else
    match P.split (lower (P.strip line)) with
    | [] => some IridasCube.Item.ignored
    | tag :: args =>
      if lower tag = "title" then some IridasCube.Item.ignored
      else if lower tag = "lut_1d_size" then none
      else if lower tag = "lut_2d_size" then none
      else if lower tag = "lut_3d_size" then
        match args with
        | [arg] =>
          match P.StringToInt arg with
          | some n => some (IridasCube.Item.size3d n)
          | none => none
        | _ => none
      else if lower tag = "domain_min" then
        match args with
        | [a0, a1, a2] =>
          match P.StringToFloat a0, P.StringToFloat a1, P.StringToFloat a2 with
          | some v0, some v1, some v2 => some (IridasCube.Item.domainMin v0 v1 v2)
          | _, _, _ => none
        | _ => none
      else if lower tag = "domain_max" then
        match args with
        | [a0, a1, a2] =>
          match P.StringToFloat a0, P.StringToFloat a1, P.StringToFloat a2 with
          | some v0, some v1, some v2 => some (IridasCube.Item.domainMax v0 v1 v2)
          | _, _, _ => none
        | _ => none
      else
        match P.StringVecToFloatVec (tag :: args) with
        | some [v0, v1, v2] => some (IridasCube.Item.triple v0 v1 v2)
        | _ => none

/-- The sizes the `LUT_3D_SIZE` lines declare, in the order of the text. -/
def IridasCube.sizes : List IridasCube.Item → List ℤ
  | [] => []
  | IridasCube.Item.size3d n :: rest => n :: IridasCube.sizes rest
  | _ :: rest => IridasCube.sizes rest

/-- The floats of the triple lines, in the order of the text. -/
def IridasCube.triples : List IridasCube.Item → List ℚ
  | [] => []
  | IridasCube.Item.triple v0 v1 v2 :: rest => v0 :: v1 :: v2 :: IridasCube.triples rest
  | _ :: rest => IridasCube.triples rest

/-- The number of triple lines. -/
def IridasCube.tripleCount : List IridasCube.Item → ℕ
  | [] => 0
  | IridasCube.Item.triple _ _ _ :: rest => IridasCube.tripleCount rest + 1
  | _ :: rest => IridasCube.tripleCount rest

/-- The domain minimum the text declares: that of its last `DOMAIN_MIN` line, `d` when
there is none. -/
def IridasCube.declaredMin : List IridasCube.Item → (Fin 3 → ℚ) → (Fin 3 → ℚ)
  | [], d => d
  | IridasCube.Item.domainMin v0 v1 v2 :: rest, _ =>
    IridasCube.declaredMin rest (fun i => if i = 0 then v0 else if i = 1 then v1 else v2)
  | _ :: rest, d => IridasCube.declaredMin rest d

/-- The domain maximum the text declares: that of its last `DOMAIN_MAX` line, `d` when
there is none. -/
def IridasCube.declaredMax : List IridasCube.Item → (Fin 3 → ℚ) → (Fin 3 → ℚ)
  | [], d => d
  | IridasCube.Item.domainMax v0 v1 v2 :: rest, _ =>
    IridasCube.declaredMax rest (fun i => if i = 0 then v0 else if i = 1 then v1 else v2)
  | _ :: rest, d => IridasCube.declaredMax rest d

/-- What the line loop does to its variables for a well-formed line. -/
def IridasCube.applyItem (st : IridasCube.Parsed) : IridasCube.Item → IridasCube.Parsed
  | IridasCube.Item.ignored => { st with lineNumber := st.lineNumber + 1 }
  | IridasCube.Item.size3d n =>
    { st with lineNumber := st.lineNumber + 1, size3d := fun _ => n, in3d := true }
  | IridasCube.Item.domainMin v0 v1 v2 =>
    { st with
      lineNumber := st.lineNumber + 1
      domain_min := fun i => if i = 0 then v0 else if i = 1 then v1 else v2 }
  | IridasCube.Item.domainMax v0 v1 v2 =>
    { st with
      lineNumber := st.lineNumber + 1
      domain_max := fun i => if i = 0 then v0 else if i = 1 then v1 else v2 }
  | IridasCube.Item.triple v0 v1 v2 =>
    { st with lineNumber := st.lineNumber + 1, raw := st.raw ++ [v0, v1, v2] }

/-! ## Example helpers and texts for the Iridas `.cube` reader -/

/-- The words of a line, separated by blanks. -/
def exampleWords (chars : List Char) : List String :=
  ((chars.splitOn ' ').filter (fun w => w ≠ [])).map String.mk

/-- The helpers used in concrete examples: `nextline` returns the lines that hold a word;
numbers are read by the conversions of the example `sscanf` and must fill the word. -/
def exampleParse : ParseUtils :=
  { nextlines := fun istream =>
      (istream.lines ++ [istream.last]).filter (fun l => exampleWords l.data ≠ [])
    strip := fun str => str
    split := fun str => exampleWords str.data
    StringToInt := fun str =>
      match scanInt str.data with
      | some (v, []) => some v
      | _ => none
    StringToFloat := fun str =>
      match scanFloat str.data with
      | some (v, []) => some v
      | _ => none
    StringVecToFloatVec := fun strs =>
      strs.mapM (fun str =>
        match scanFloat str.data with
        | some (v, []) => some v
        | _ => none) }

/-- The text of the unit test: a cube of 2 x 2 x 2 cells with its eight triples. -/
def iridasSampleText : IStream :=
  IStream.ofLines ["LUT_3D_SIZE 2", "DOMAIN_MIN 0.0 0.0 0.0", "DOMAIN_MAX 1.0 1.0 1.0",
    "0.0 0.0 0.0", "1.0 0.0 0.0", "0.0 1.0 0.0", "1.0 1.0 0.0", "0.0 0.0 1.0", "1.0 0.0 1.0",
    "0.0 1.0 1.0", "1.0 1.0 1.0"]

/-- The text of the unit test with its last triple removed. -/
def iridasShortText : IStream :=
  IStream.ofLines ["LUT_3D_SIZE 2", "DOMAIN_MIN 0.0 0.0 0.0", "DOMAIN_MAX 1.0 1.0 1.0",
    "0.0 0.0 0.0", "1.0 0.0 0.0", "0.0 1.0 0.0", "1.0 1.0 0.0", "0.0 0.0 1.0", "1.0 0.0 1.0",
    "0.0 1.0 1.0"]


/-! ## The Truelight `.cub` reader (`FileFormatTruelight.cpp`) -/

/-- Source `LocalCachedFile` of the Truelight reader. -/
structure Truelight.LocalCachedFile where
  has1D : Bool
  has3D : Bool
  lut1D : Lut1D
  lut3D : Lut3D

/-- The local variables of `read` that the line loop sets. -/
structure Truelight.Parsed where
  raw1d : List ℚ
  raw3d : List ℚ
  size3d : Fin 3 → ℤ
  size1d : ℤ
  in1d : Bool
  in3d : Bool

/-- The initial values of the variables of `read`. -/
def Truelight.Parsed.init : Truelight.Parsed :=
  { raw1d := [], raw3d := [], size3d := fun _ => 0, size1d := 0, in1d := false, in3d := false }

/-- The block `if(in1d || in3d)` at the end of the loop body: a line of three floats is
appended to the 1D or to the 3D samples. -/
def Truelight.dataBlock (P : ParseUtils) (st : Truelight.Parsed) (parts : List String) :
    Truelight.Parsed :=
  if st.in1d || st.in3d then
    match P.StringVecToFloatVec parts with
    | some [v0, v1, v2] =>
      if st.in1d then { st with raw1d := st.raw1d ++ [v0, v1, v2] }
      else if st.in3d then { st with raw3d := st.raw3d ++ [v0, v1, v2] }
      else st
    | _ => st
  else st

/-- The body of the line loop of `read`: the variables after the line, and whether the
loop is left by `break`. -/
def Truelight.parseLine (P : ParseUtils) (st : Truelight.Parsed) (line : String) :
    Except String (Truelight.Parsed × Bool) :=
  match P.split (lower (P.strip line)) with
  | [] => Except.ok (st, false)
  | p0 :: rest =>
    if startswith p0 "#" then
      match rest with
      | [] => Except.ok (st, false)
      | p1 :: args =>
        if p1 = "width" then
          match args with
          | [a0, a1, a2] =>
            match P.StringToInt a0, P.StringToInt a1, P.StringToInt a2 with
            | some s0, some s1, some s2 =>
              if 3 * s0 * s1 * s2 < 0 then Except.error lengthError
              else
                Except.ok (Truelight.dataBlock P
                  { st with size3d := fun i => if i = 0 then s0 else if i = 1 then s1 else s2 }
                  (p0 :: p1 :: args), false)
            | _, _, _ => Except.error "Malformed width tag in Truelight .cub LUT."
          | _ => Except.error "Malformed width tag in Truelight .cub LUT."
        else if p1 = "lutlength" then
          match args with
          | [a0] =>
            match P.StringToInt a0 with
            | some n =>
              if 3 * n < 0 then Except.error lengthError
              else
                Except.ok (Truelight.dataBlock P { st with size1d := n } (p0 :: p1 :: args),
                  false)
            | none => Except.error "Malformed lutlength tag in Truelight .cub LUT."
          | _ => Except.error "Malformed lutlength tag in Truelight .cub LUT."
        else if p1 = "inputlut" then
          Except.ok (Truelight.dataBlock P { st with in1d := true, in3d := false }
            (p0 :: p1 :: args), false)
        else if p1 = "cube" then
          Except.ok (Truelight.dataBlock P { st with in3d := true, in1d := false }
            (p0 :: p1 :: args), false)
        else if p1 = "end" then
          Except.ok ({ st with in3d := false, in1d := false }, true)
        else Except.ok (Truelight.dataBlock P st (p0 :: p1 :: args), false)
    else Except.ok (Truelight.dataBlock P st (p0 :: rest), false)

/-- The loop `while(nextline(istream, line))` of `read` over the lines `nextline`
returns. -/
def Truelight.parseLines (P : ParseUtils) :
    List String → Truelight.Parsed → Except String Truelight.Parsed
  | [], st => Except.ok st
  | line :: rest, st =>
    match Truelight.parseLine P st line with
    | Except.error e => Except.error e
    | Except.ok (st', true) => Except.ok st'
    | Except.ok (st', false) => Truelight.parseLines P rest st'

/-- The second part of `read`, "Interpret the parsed data, validate LUT sizes"; `create3D`
is the object `Lut3D::Create()` returns.  The result is `none` when the 1D samples are
scaled by `1.0f / 0`, which is no finite number. -/
def Truelight.interpret (create3D : Lut3D) (st : Truelight.Parsed) :
    Option (Except String Truelight.LocalCachedFile) :=
  let product := st.size3d 0 * st.size3d 1 * st.size3d 2
  if st.size1d ≠ ((st.raw1d.length / 3 : ℕ) : ℤ) then
    some (Except.error ("Parse error in Truelight .cub LUT. "
      ++ "Incorrect number of lut1d entries. "
      ++ "Found " ++ toString (st.raw1d.length / 3) ++ ", expected " ++ toString st.size1d
      ++ "."))
  else if product ≠ ((st.raw3d.length / 3 : ℕ) : ℤ) then
    some (Except.error ("Parse error in Truelight .cub LUT. "
      ++ "Incorrect number of 3D LUT entries. "
      ++ "Found " ++ toString (st.raw3d.length / 3) ++ ", expected " ++ toString product
      ++ "."))
  else
    let has1D : Bool := decide (st.size1d > 0)
    let has3D : Bool := decide (product > 0)
    if has1D ∧ has3D ∧ ∃ channel : Fin 3, st.size3d channel = 1 then none
    else
      let descale : Fin 3 → ℚ := fun channel =>
        if has3D then 1 / ((st.size3d channel - 1 : ℤ) : ℚ) else 1
      let lut1D : Lut1D :=
        if has1D then
          { Lut1D.Create with
            luts := fun channel =>
              (List.range st.size1d.toNat).map
                (fun i => st.raw1d.getD (3 * i + channel.val) 0 * descale channel)
            maxerror := 1 / 100000
            errortype := ErrorType.ERROR_RELATIVE }
        else Lut1D.Create
      let lut3D : Lut3D :=
        if has3D then { create3D with size := st.size3d, lut := st.raw3d } else create3D
      some (Except.ok { has1D := has1D, has3D := has3D, lut1D := lut1D, lut3D := lut3D })

/-- Source `LocalFileFormat::read` of the Truelight reader; the file name is not used. -/
def Truelight.read (P : ParseUtils) (create3D : Lut3D) (istream : IStream) :
    Option (Except String Truelight.LocalCachedFile) :=
  if !istream.good then
    some (Except.error "File stream empty when trying to read Truelight .cub LUT")
  else
    match P.nextlines istream with
    | [] => some (Except.error "LUT doesn't seem to be a Truelight .cub LUT.")
    | line :: rest =>
      if !startswith (lower line) "# truelight cube" then
        some (Except.error "LUT doesn't seem to be a Truelight .cub LUT.")
      else
        match Truelight.parseLines P rest Truelight.Parsed.init with
        | Except.error e => some (Except.error e)
        | Except.ok st => Truelight.interpret create3D st

/-- A line at which the line loop of `read` is left: its first word starts with `#` and
its second word is `end`. -/
def Truelight.isEndLine (P : ParseUtils) (line : String) : Bool :=
  match P.split (lower (P.strip line)) with
  | p0 :: p1 :: _ => startswith p0 "#" && decide (p1 = "end")
  | _ => false

/-- A `.cub` text with a shaper of two entries, the end marker, and a line of three
floats behind the marker. -/
def truelightShaperText : IStream :=
  IStream.ofLines ["# Truelight Cube v2.0", "# lutLength 2", "# InputLUT",
    " 0.000000 0.000000 0.000000", " 1.000000 1.000000 1.000000", "", "# end", "",
    " # This last line confirms 'end' tag is obeyed", " 1.23456 1.23456 1.23456"]

/-- The same text with other lines behind the end marker: a malformed tag and a line of
three floats. -/
def truelightShaperOtherTailText : IStream :=
  IStream.ofLines ["# Truelight Cube v2.0", "# lutLength 2", "# InputLUT",
    " 0.000000 0.000000 0.000000", " 1.000000 1.000000 1.000000", "", "# end",
    "# width 2 2", " 0.5 0.5 0.5", "# lutLength x"]


/-! ## The Nuke `.vf` reader (`FileFormatVF.cpp`) -/

/-- Source `LocalFileFormat::ThrowErrorMessage` of the `.vf` reader: the message of the
exception it throws. -/
def VF.ThrowErrorMessage (error fileName : String) (line : ℤ) (lineContent : String) :
    String :=
  "Error parsing Nuke .vf file (" ++ fileName ++ ").  "
    ++ (if line ≠ -1 then "At line (" ++ toString line ++ "): '" ++ lineContent ++ "'.  "
        else "")
    ++ error

/-- Source `LocalCachedFile` of the `.vf` reader. -/
structure VF.LocalCachedFile where
  lut3D : Lut3D
  m44 : List ℚ
  useMatrix : Bool

/-- The local variables of `read` that the line loop sets. -/
structure VF.Parsed where
  raw3d : List ℚ
  size3d : Fin 3 → ℤ
  global_transform : List ℚ
  in3d : Bool
  lineNumber : ℤ

/-- The initial values of the variables of `read`, behind the first line. -/
def VF.Parsed.init : VF.Parsed :=
  { raw3d := [], size3d := fun _ => 0, global_transform := [], in3d := false,
    lineNumber := 1 }

/-- The body of the line loop of `read`. -/
def VF.parseLine (P : ParseUtils) (fileName : String) (st : VF.Parsed) (line : String) :
    Except String VF.Parsed :=
  let lineNumber := st.lineNumber + 1
  let st := { st with lineNumber := lineNumber }
  match P.split (lower (P.strip line)) with
  | [] => Except.ok st
  | p0 :: args =>
    if startswith p0 "#" then Except.ok st
    else if !st.in3d then
      if p0 = "grid_size" then
        match args with
        | [a0, a1, a2] =>
          match P.StringToInt a0, P.StringToInt a1, P.StringToInt a2 with
          | some s0, some s1, some s2 =>
            if 3 * s0 * s1 * s2 < 0 then Except.error lengthError
            else
              Except.ok { st with
                size3d := fun i => if i = 0 then s0 else if i = 1 then s1 else s2 }
          | _, _, _ =>
            Except.error (VF.ThrowErrorMessage "Malformed grid_size tag." fileName lineNumber
              line)
        | _ =>
          Except.error (VF.ThrowErrorMessage "Malformed grid_size tag." fileName lineNumber
            line)
      else if p0 = "global_transform" then
        if (p0 :: args).length ≠ 17 then
          Except.error (VF.ThrowErrorMessage
            ("Malformed global_transform tag. " ++ "16 floats expected.") fileName lineNumber
            line)
        else
          match P.StringVecToFloatVec args with
          | some floats =>
            if floats.length ≠ 16 then
              Except.error (VF.ThrowErrorMessage
                ("Malformed global_transform tag. " ++ "Could not convert to float array.")
                fileName lineNumber line)
            else Except.ok { st with global_transform := floats }
          | none =>
            Except.error (VF.ThrowErrorMessage
              ("Malformed global_transform tag. " ++ "Could not convert to float array.")
              fileName lineNumber line)
      else if p0 = "data" then Except.ok { st with in3d := true }
      else Except.ok st
    else
      match P.StringVecToFloatVec (p0 :: args) with
      | some [v0, v1, v2] => Except.ok { st with raw3d := st.raw3d ++ [v0, v1, v2] }
      | _ => Except.ok st

/-- The loop `while(nextline(istream, line))` of `read` over the lines `nextline`
returns. -/
def VF.parseLines (P : ParseUtils) (fileName : String) :
    List String → VF.Parsed → Except String VF.Parsed
  | [], st => Except.ok st
  | line :: rest, st =>
    match VF.parseLine P fileName st line with
    | Except.error e => Except.error e
    | Except.ok st' => VF.parseLines P fileName rest st'

/-- Modelled from the spec: `GetLut3DIndex_BlueFast` of `Lut3DOp.h`, which is not under
`src/`: the position of the first float of cell `(r, g, b)` in the order with "the last
axis varying fastest", `3*(b + Nb*(g + Ng*r))`. -/
def GetLut3DIndex_BlueFast (indexR indexG indexB _sizeR sizeG sizeB : ℤ) : ℤ :=
  3 * (indexB + sizeB * (indexG + sizeG * indexR))

/-- The reads `raw3d[i+0]`, `raw3d[i+1]`, `raw3d[i+2]` of the three loops on `bIndex`,
`gIndex` and `rIndex` of `read`, in the order of the `push_back`s; a read outside the
vector is `none`. -/
def VF.lookups (raw3d : List ℚ) (size3d : Fin 3 → ℤ) : List (Option ℚ) :=
  (List.range (size3d 2).toNat).flatMap (fun bIndex =>
    (List.range (size3d 1).toNat).flatMap (fun gIndex =>
      (List.range (size3d 0).toNat).flatMap (fun rIndex =>
        [readAt raw3d (GetLut3DIndex_BlueFast rIndex gIndex bIndex
            (size3d 0) (size3d 1) (size3d 2) + 0),
          readAt raw3d (GetLut3DIndex_BlueFast rIndex gIndex bIndex
            (size3d 0) (size3d 1) (size3d 2) + 1),
          readAt raw3d (GetLut3DIndex_BlueFast rIndex gIndex bIndex
            (size3d 0) (size3d 1) (size3d 2) + 2)])))

/-- The values of a list of reads, `none` when one of the reads is outside its vector. -/
def allSome : List (Option ℚ) → Option (List ℚ)
  | [] => some []
  | none :: _ => none
  | some x :: rest =>
    match allSome rest with
    | some xs => some (x :: xs)
    | none => none

/-- The matrix `m44` of the cached file: the sixteen floats of `global_transform` with
the first three columns scaled by the three grid sizes. -/
def VF.scaledMatrix (global_transform : List ℚ) (size3d : Fin 3 → ℤ) : List ℚ :=
  (List.range 16).map (fun k =>
    if k % 4 = 0 then global_transform.getD k 0 * (size3d 0 : ℚ)
    else if k % 4 = 1 then global_transform.getD k 0 * (size3d 1 : ℚ)
    else if k % 4 = 2 then global_transform.getD k 0 * (size3d 2 : ℚ)
    else global_transform.getD k 0)

/-- The second part of `read`, "Interpret the parsed data, validate LUT sizes"; `create3D`
is the object `Lut3D::Create()` returns.  The result is `none` when a read of `raw3d`
lies outside the vector. -/
def VF.interpret (create3D : Lut3D) (fileName : String) (st : VF.Parsed) :
    Option (Except String VF.LocalCachedFile) :=
  let product := st.size3d 0 * st.size3d 1 * st.size3d 2
  if product ≠ ((st.raw3d.length / 3 : ℕ) : ℤ) then
    some (Except.error (VF.ThrowErrorMessage
      ("Incorrect number of 3D LUT entries. " ++ "Found " ++ toString (st.raw3d.length / 3)
        ++ ", expected " ++ toString product ++ ".") fileName (-1) ""))
  else if product = 0 then
    some (Except.error (VF.ThrowErrorMessage "No 3D LUT entries found." fileName (-1) ""))
  else
    match allSome (VF.lookups st.raw3d st.size3d) with
    | none => none
    | some lut =>
      some (Except.ok
        { lut3D := { create3D with size := st.size3d, lut := lut }
          m44 := if st.global_transform.length = 16 then
              VF.scaledMatrix st.global_transform st.size3d
            else List.replicate 16 0
          useMatrix := decide (st.global_transform.length = 16) })

/-- Source `LocalFileFormat::read` of the `.vf` reader. -/
def VF.read (P : ParseUtils) (create3D : Lut3D) (istream : IStream) (fileName : String) :
    Option (Except String VF.LocalCachedFile) :=
  if !istream.good then
    some (Except.error "File stream empty when trying to read .vf LUT")
  else
    match P.nextlines istream with
    | [] =>
      some (Except.error (VF.ThrowErrorMessage "Expecting '#Inventor V2.1 ascii'." fileName 1
        ""))
    | line :: rest =>
      if !startswith (lower line) "#inventor" then
        some (Except.error (VF.ThrowErrorMessage "Expecting '#Inventor V2.1 ascii'." fileName 1
          line))
      else
        match VF.parseLines P fileName rest VF.Parsed.init with
        | Except.error e => some (Except.error e)
        | Except.ok st => VF.interpret create3D fileName st

/-- The floats of the data triples of a `.vf` text, in file order: what the line loop of
`read` collects. -/
def VF.fileTriples (P : ParseUtils) (fileName : String) (istream : IStream) : List ℚ :=
  match VF.parseLines P fileName (P.nextlines istream).tail VF.Parsed.init with
  | Except.ok st => st.raw3d
  | Except.error _ => []

/-- The triples a list of floats holds: triple number `j` is made of the floats at the
positions `3*j`, `3*j + 1` and `3*j + 2`. -/
def triplesOf (floats : List ℚ) : List (ℚ × ℚ × ℚ) :=
  (List.range (floats.length / 3)).map (fun j =>
    (floats.getD (3 * j) 0, floats.getD (3 * j + 1) 0, floats.getD (3 * j + 2) 0))

/-- The number a cell has in the order in which the third axis varies fastest, from the
number `j` it has in the order in which the first axis varies fastest, for axes of the
lengths `n1`, `n2` and `n3`. -/
def swapIndex (n1 n2 n3 j : ℕ) : ℕ :=
  j / n1 / n2 + n3 * (j / n1 % n2 + n2 * (j % n1))

/-- The text of the unit test: a grid of 2 x 2 x 2 cells with its eight triples. -/
def vfSampleText : IStream :=
  IStream.ofLines ["#Inventor V2.1 ascii", "grid_size 2 2 2",
    "global_transform 1 0 0 0  0 1 0 0  0 0 1 0  0 0 0 1 ", "data", "0 0 0", "0 0 1", "0 1 0",
    "0 1 1", "1 0 0", "1 0 1", "1 1 0", "1 1 1"]

/-- A text that declares the grid sizes -1, -1 and 1 and holds one triple. -/
def vfNegativeSizeText : IStream :=
  IStream.ofLines ["#Inventor V2.1 ascii", "grid_size -1 -1 1", "data", "0.5 0.25 0.75"]


/-! ## The operators the readers append (`CreateLut1DOp`, `buildFileOps`) -/

/-- The enum `TransformDirection`. -/
inductive TransformDirection where
  | TRANSFORM_DIR_UNKNOWN : TransformDirection
  | TRANSFORM_DIR_FORWARD : TransformDirection
  | TRANSFORM_DIR_INVERSE : TransformDirection
deriving DecidableEq

/-- The enum `Interpolation`; `other` is any value that is none of the five
enumerators the code names. -/
inductive Interpolation where
  | INTERP_UNKNOWN : Interpolation
  | INTERP_NEAREST : Interpolation
  | INTERP_LINEAR : Interpolation
  | INTERP_TETRAHEDRAL : Interpolation
  | INTERP_BEST : Interpolation
  | other (code : ℕ) : Interpolation
deriving DecidableEq

/-- The direction opposite to a direction. -/
def TransformDirection.flip : TransformDirection → TransformDirection
  | TransformDirection.TRANSFORM_DIR_FORWARD => TransformDirection.TRANSFORM_DIR_INVERSE
  | TransformDirection.TRANSFORM_DIR_INVERSE => TransformDirection.TRANSFORM_DIR_FORWARD
  | TransformDirection.TRANSFORM_DIR_UNKNOWN => TransformDirection.TRANSFORM_DIR_UNKNOWN

/-- Modelled from the spec: the class `Lut1DOpData`, whose code is not under `src/`: the
members `CreateLut1DOp` sets, and the direction, which is forward for a new object and
which `inverse()` flips ("each appended operator's own direction is flipped"). -/
structure Lut1DOpData where
  inputBitDepth : BitDepth
  outputBitDepth : BitDepth
  interpolation : Interpolation
  values : List ℚ
  direction : TransformDirection
deriving DecidableEq

/-- Modelled from the spec: `Lut1DOpData::inverse()`, a copy with the direction
flipped. -/
def Lut1DOpData.inverse (data : Lut1DOpData) : Lut1DOpData :=
  { data with direction := data.direction.flip }

/-- The operators in an `OpRcPtrVec`: the `Lut1DOp` of this file, and a record of the
call for each operator that is created by code that is not under `src/`
(`CreateMinMaxOp`, `CreateLut3DOp`, `CreateMatrixOp`). -/
inductive Op where
  | lut1D (data : Lut1DOpData) : Op
  | minMax (min max : List ℚ) (direction : TransformDirection) : Op
  | lut3D (lut : Lut3D) (interpolation : Interpolation) (direction : TransformDirection) : Op
  | matrix (m44 : List ℚ) (direction : TransformDirection) : Op
deriving DecidableEq

/-- Source `Lut1DOp::getDirection` and the direction recorded for the other operators. -/
def Op.getDirection : Op → TransformDirection
  | Op.lut1D data => data.direction
  | Op.minMax _ _ direction => direction
  | Op.lut3D _ _ direction => direction
  | Op.matrix _ direction => direction

/-- The operator with its direction flipped. -/
def Op.flip : Op → Op
  | Op.lut1D data => Op.lut1D data.inverse
  | Op.minMax min max direction => Op.minMax min max direction.flip
  | Op.lut3D lut interpolation direction => Op.lut3D lut interpolation direction.flip
  | Op.matrix m44 direction => Op.matrix m44 direction.flip

/-- Source `CreateLut1DOp(ops, lut, direction)` for a `Lut1DOpData`: the vector `ops`
behind the call, and the message of the exception when the call throws. -/
def CreateLut1DOpData (ops : List Op) (lut : Lut1DOpData) (direction : TransformDirection) :
    List Op × Option String :=
  if direction ≠ TransformDirection.TRANSFORM_DIR_FORWARD
      ∧ direction ≠ TransformDirection.TRANSFORM_DIR_INVERSE then
    (ops, some ("Cannot apply Lut1DOp op, " ++ "unspecified transform direction."))
  else if direction = TransformDirection.TRANSFORM_DIR_FORWARD then
    (ops ++ [Op.lut1D lut], none)
  else (ops ++ [Op.lut1D lut.inverse], none)

/-- Modelled from the spec: `CreateMinMaxOp`, whose code is not under `src/`: the call is
recorded as the operator it appends. -/
def CreateMinMaxOp (ops : List Op) (min max : List ℚ) (direction : TransformDirection) :
    List Op × Option String :=
  (ops ++ [Op.minMax min max direction], none)

/-- Modelled from the spec: `CreateLut3DOp`, whose code is not under `src/`: the call is
recorded as the operator it appends. -/
def CreateLut3DOp (ops : List Op) (lut : Lut3D) (interpolation : Interpolation)
    (direction : TransformDirection) : List Op × Option String :=
  (ops ++ [Op.lut3D lut interpolation direction], none)

/-- Modelled from the spec: `CreateMatrixOp`, whose code is not under `src/`: the call is
recorded as the operator it appends. -/
def CreateMatrixOp (ops : List Op) (m44 : List ℚ) (direction : TransformDirection) :
    List Op × Option String :=
  (ops ++ [Op.matrix m44 direction], none)

/-- Two calls one after the other: the second is made when the first did not throw. -/
def andThen (first : List Op × Option String) (second : List Op → List Op × Option String) :
    List Op × Option String :=
  match first with
  | (ops, none) => second ops
  | (ops, some e) => (ops, some e)

/-- Source `CreateLut1DOp(ops, lut, interpolation, direction)` for the legacy `Lut1D`: the
vector `ops` behind the call, and the message of the exception when the call throws. -/
def CreateLut1DOp (ops : List Op) (lut : Lut1D) (interpolation : Interpolation)
    (direction : TransformDirection) : List Op × Option String :=
  if direction = TransformDirection.TRANSFORM_DIR_UNKNOWN then
    (ops, some ("Cannot apply Lut1DOp op, " ++ "unspecified transform direction."))
  else if lut.luts 0 = [] ∨ lut.luts 1 = [] ∨ lut.luts 2 = [] then
    (ops, some "Cannot apply lut1d op, no LUT data provided.")
  else if (lut.luts 0).length ≠ (lut.luts 1).length
      ∨ (lut.luts 0).length ≠ (lut.luts 2).length then
    (ops, some ("Cannot apply lut1d op, "
      ++ "the LUT for each channel must have the same dimensions."))
  else
    match interpolation with
    | Interpolation.INTERP_UNKNOWN =>
      (ops, some "Cannot apply Lut1DOp, unspecified interpolation.")
    | Interpolation.INTERP_TETRAHEDRAL | Interpolation.other _ =>
      (ops, some ("Cannot apply Lut1DOp op, the specified "
        ++ "interpolation is not allowed for 1D LUTs."))
    | Interpolation.INTERP_BEST | Interpolation.INTERP_NEAREST
    | Interpolation.INTERP_LINEAR =>
      let data : Lut1DOpData :=
        { inputBitDepth := lut.inputBitDepth
          outputBitDepth := lut.outputBitDepth
          interpolation := interpolation
          values := (List.range (lut.luts 0).length).flatMap (fun i =>
            [(lut.luts 0).getD i 0, (lut.luts 1).getD i 0, (lut.luts 2).getD i 0])
          direction := TransformDirection.TRANSFORM_DIR_FORWARD }
      let min := [lut.from_min 0, lut.from_min 1, lut.from_min 2]
      let max := [lut.from_max 0, lut.from_max 1, lut.from_max 2]
      if direction = TransformDirection.TRANSFORM_DIR_INVERSE then
        andThen (CreateLut1DOpData ops data TransformDirection.TRANSFORM_DIR_INVERSE)
          (fun ops => CreateMinMaxOp ops min max TransformDirection.TRANSFORM_DIR_INVERSE)
      else
        andThen (CreateMinMaxOp ops min max TransformDirection.TRANSFORM_DIR_FORWARD)
          (fun ops => CreateLut1DOpData ops data TransformDirection.TRANSFORM_DIR_FORWARD)

/-- The `Lut1DOpData` that `CreateLut1DOp` fills from a legacy `Lut1D`: the bit depths,
the interpolation, and the samples of the three channels interleaved. -/
def lut1DOpDataOf (lut : Lut1D) (interpolation : Interpolation) : Lut1DOpData :=
  { inputBitDepth := lut.inputBitDepth
    outputBitDepth := lut.outputBitDepth
    interpolation := interpolation
    values := (List.range (lut.luts 0).length).flatMap (fun i =>
      [(lut.luts 0).getD i 0, (lut.luts 1).getD i 0, (lut.luts 2).getD i 0])
    direction := TransformDirection.TRANSFORM_DIR_FORWARD }

/-- The range operator `CreateLut1DOp` asks for: the domain of the legacy `Lut1D`. -/
def minMaxOf (lut : Lut1D) (direction : TransformDirection) : Op :=
  Op.minMax [lut.from_min 0, lut.from_min 1, lut.from_min 2]
    [lut.from_max 0, lut.from_max 1, lut.from_max 2] direction

/-- The message of `buildFileOps` for an unknown direction. -/
def unspecifiedDirection : String :=
  "Cannot build file format transform," ++ " unspecified transform direction."

/-- Source `LocalFileFormat::buildFileOps` of the Truelight reader; `untypedCachedFile`
is `none` when the cast to the cached file of this reader fails, `combine` is
`CombineTransformDirections`, and `fileDirection`, `fileInterpolation` are the direction
and the interpolation of the file transform. -/
def Truelight.buildFileOps (combine : TransformDirection → TransformDirection →
      TransformDirection) (ops : List Op)
    (untypedCachedFile : Option Truelight.LocalCachedFile)
    (fileDirection : TransformDirection) (fileInterpolation : Interpolation)
    (dir : TransformDirection) : List Op × Option String :=
  match untypedCachedFile with
  | none => (ops, some "Cannot build Truelight .cub Op. Invalid cache type.")
  | some cachedFile =>
    let newDir := combine dir fileDirection
    if newDir = TransformDirection.TRANSFORM_DIR_UNKNOWN then (ops, some unspecifiedDirection)
    else if newDir = TransformDirection.TRANSFORM_DIR_FORWARD then
      andThen
        (if cachedFile.has1D then
          CreateLut1DOp ops cachedFile.lut1D Interpolation.INTERP_LINEAR newDir
        else (ops, none))
        (fun ops => CreateLut3DOp ops cachedFile.lut3D fileInterpolation newDir)
    else if newDir = TransformDirection.TRANSFORM_DIR_INVERSE then
      andThen (CreateLut3DOp ops cachedFile.lut3D fileInterpolation newDir)
        (fun ops =>
          if cachedFile.has1D then
            CreateLut1DOp ops cachedFile.lut1D Interpolation.INTERP_LINEAR newDir
          else (ops, none))
    else (ops, none)

/-- Source `LocalFileFormat::buildFileOps` of the `.vf` reader, with the parameters of
`Truelight.buildFileOps`. -/
def VF.buildFileOps (combine : TransformDirection → TransformDirection →
      TransformDirection) (ops : List Op)
    (untypedCachedFile : Option VF.LocalCachedFile)
    (fileDirection : TransformDirection) (fileInterpolation : Interpolation)
    (dir : TransformDirection) : List Op × Option String :=
  match untypedCachedFile with
  | none => (ops, some "Cannot build .vf Op. Invalid cache type.")
  | some cachedFile =>
    let newDir := combine dir fileDirection
    if newDir = TransformDirection.TRANSFORM_DIR_UNKNOWN then (ops, some unspecifiedDirection)
    else if newDir = TransformDirection.TRANSFORM_DIR_FORWARD then
      andThen
        (if cachedFile.useMatrix then CreateMatrixOp ops cachedFile.m44 newDir
        else (ops, none))
        (fun ops => CreateLut3DOp ops cachedFile.lut3D fileInterpolation newDir)
    else if newDir = TransformDirection.TRANSFORM_DIR_INVERSE then
      andThen (CreateLut3DOp ops cachedFile.lut3D fileInterpolation newDir)
        (fun ops =>
          if cachedFile.useMatrix then CreateMatrixOp ops cachedFile.m44 newDir
          else (ops, none))
    else (ops, none)

/-- A legacy `Lut1D` that `CreateLut1DOp` accepts: three channels of the same length,
none of them empty. -/
def Lut1D.sameDimensions (lut : Lut1D) : Prop :=
  lut.luts 0 ≠ [] ∧ (lut.luts 0).length = (lut.luts 1).length
    ∧ (lut.luts 0).length = (lut.luts 2).length

/-- The LUT of the unit test `throw_op`: two samples in each channel. -/
def throwOpLut : Lut1D :=
  { Lut1D.Create with
    luts := fun _ => [1 / 10, 11 / 10]
    maxerror := 1 / 100000
    errortype := ErrorType.ERROR_RELATIVE }

/-! ## The format registry, the file load and the file cache (`FileTransform.cpp`) -/

/-- The struct `FormatInfo` a file format declares: a name, an extension and the
capability bits. -/
structure FormatInfo where
  name : String
  extension : String
  capabilities : ℕ
deriving DecidableEq

/-- Modelled from the spec: the capability bits ("capability bits READ/BAKE/WRITE"),
whose enumerators are declared in `FileTransform.h`, not under `src/`: no capability. -/
def FORMAT_CAPABILITY_NONE : ℕ := 0

/-- Modelled from the spec: the bit of the capability to read. -/
def FORMAT_CAPABILITY_READ : ℕ := 1

/-- Modelled from the spec: the bit of the capability to bake. -/
def FORMAT_CAPABILITY_BAKE : ℕ := 2

/-- Modelled from the spec: the bit of the capability to write. -/
def FORMAT_CAPABILITY_WRITE : ℕ := 4

/-- The test `capabilities & bit` of `registerFileFormat`. -/
def FormatInfo.hasCapability (info : FormatInfo) (bit : ℕ) : Bool :=
  decide (Nat.land info.capabilities bit ≠ 0)

/-- A `FileFormat *`: the registry holds the formats by address, and two formats are the
same when their addresses are. -/
abbrev FileFormat : Type := ℕ

/-- A `CachedFileRcPtr`: `none` is the null pointer, `some` the address of the object. -/
abbrev CachedFileRcPtr : Type := Option ℕ

/-- The members of the class `FormatRegistry`; a `std::map` is the function that gives
the value stored under a key, `none` when `find` returns `end()`. -/
structure FormatRegistry where
  m_formatsByName : String → Option FileFormat
  m_formatsByExtension : String → Option (List FileFormat)
  m_rawFormats : List FileFormat
  m_readFormatNames : List String
  m_readFormatExtensions : List String
  m_bakeFormatNames : List String
  m_bakeFormatExtensions : List String
  m_writeFormatNames : List String
  m_writeFormatExtensions : List String

/-- A registry in which no format is registered. -/
def FormatRegistry.empty : FormatRegistry :=
  { m_formatsByName := fun _ => none
    m_formatsByExtension := fun _ => none
    m_rawFormats := []
    m_readFormatNames := []
    m_readFormatExtensions := []
    m_bakeFormatNames := []
    m_bakeFormatExtensions := []
    m_writeFormatNames := []
    m_writeFormatExtensions := [] }

/-- Source `FormatRegistry::getFileFormatByName`; `none` is `NULL`. -/
def FormatRegistry.getFileFormatByName (reg : FormatRegistry) (name : String) :
    Option FileFormat :=
  reg.m_formatsByName (lower name)

/-- Source `FormatRegistry::getFileFormatForExtension`: the vector `possibleFormats`
behind the call, which is assigned only when the extension is found. -/
def FormatRegistry.getFileFormatForExtension (reg : FormatRegistry) (extension : String)
    (possibleFormats : List FileFormat) : List FileFormat :=
  match reg.m_formatsByExtension (lower extension) with
  | some formats => formats
  | none => possibleFormats

/-- The statements of the loop body of `registerFileFormat` behind its two checks: what
one format info adds to the registry. -/
def FormatRegistry.addInfo (reg : FormatRegistry) (format : FileFormat) (info : FormatInfo) :
    FormatRegistry :=
  { m_formatsByName := fun key =>
      if key = lower info.name then some format else reg.m_formatsByName key
    m_formatsByExtension := fun key =>
      if key = info.extension then some ((reg.m_formatsByExtension key).getD [] ++ [format])
      else reg.m_formatsByExtension key
    m_rawFormats := reg.m_rawFormats
    m_readFormatNames :=
      if info.hasCapability FORMAT_CAPABILITY_READ then reg.m_readFormatNames ++ [info.name]
      else reg.m_readFormatNames
    m_readFormatExtensions :=
      if info.hasCapability FORMAT_CAPABILITY_READ then
        reg.m_readFormatExtensions ++ [info.extension]
      else reg.m_readFormatExtensions
    m_bakeFormatNames :=
      if info.hasCapability FORMAT_CAPABILITY_BAKE then reg.m_bakeFormatNames ++ [info.name]
      else reg.m_bakeFormatNames
    m_bakeFormatExtensions :=
      if info.hasCapability FORMAT_CAPABILITY_BAKE then
        reg.m_bakeFormatExtensions ++ [info.extension]
      else reg.m_bakeFormatExtensions
    m_writeFormatNames :=
      if info.hasCapability FORMAT_CAPABILITY_WRITE then reg.m_writeFormatNames ++ [info.name]
      else reg.m_writeFormatNames
    m_writeFormatExtensions :=
      if info.hasCapability FORMAT_CAPABILITY_WRITE then
        reg.m_writeFormatExtensions ++ [info.extension]
      else reg.m_writeFormatExtensions }

/-- The message of `registerFileFormat` for a format without format info. -/
def noFormatInfoMessage : String :=
  "FileFormat Registry error. " ++ "A file format did not provide the required format info."

/-- The message of `registerFileFormat` for a format info without capability. -/
def noCapabilityMessage : String :=
  "FileFormat Registry error. " ++ "A file format does not define either"
    ++ " reading or writing."

/-- The message of `registerFileFormat` for a name that is registered already. -/
def duplicateNameMessage (name : String) : String :=
  "Cannot register multiple file formats named, '" ++ name ++ "'."

/-- The loop of `registerFileFormat` over the format infos from the one at hand on: the
registry behind the loop, and the message of the exception when the loop throws. -/
def FormatRegistry.registerInfos (reg : FormatRegistry) (format : FileFormat) :
    List FormatInfo → FormatRegistry × Option String
  | [] => (reg, none)
  | info :: rest =>
    if info.capabilities = FORMAT_CAPABILITY_NONE then (reg, some noCapabilityMessage)
    else if (reg.getFileFormatByName info.name).isSome then
      (reg, some (duplicateNameMessage info.name))
    else FormatRegistry.registerInfos (reg.addInfo format info) format rest

/-- Source `FormatRegistry::registerFileFormat`; `getFormatInfo` is the virtual method of
the formats.  The result is the registry behind the call, and the message of the
exception when the call throws. -/
def FormatRegistry.registerFileFormat (getFormatInfo : FileFormat → List FormatInfo)
    (reg : FormatRegistry) (format : FileFormat) : FormatRegistry × Option String :=
  let formatInfoVec := getFormatInfo format
  if formatInfoVec = [] then (reg, some noFormatInfoMessage)
  else
    match reg.registerInfos format formatInfoVec with
    | (reg, none) => ({ reg with m_rawFormats := reg.m_rawFormats ++ [format] }, none)
    | (reg, some e) => (reg, some e)

/-- Source `FormatRegistry::getNumRawFormats`. -/
def FormatRegistry.getNumRawFormats (reg : FormatRegistry) : ℤ :=
  (reg.m_rawFormats.length : ℤ)

/-- Source `FormatRegistry::getRawFormatByIndex`; `none` is `NULL`. -/
def FormatRegistry.getRawFormatByIndex (reg : FormatRegistry) (index : ℤ) :
    Option FileFormat :=
  if index < 0 ∨ index ≥ reg.getNumRawFormats then none
  else reg.m_rawFormats[index.toNat]?

/-- Source `FormatRegistry::getNumFormats`. -/
def FormatRegistry.getNumFormats (reg : FormatRegistry) (capability : ℕ) : ℤ :=
  if capability = FORMAT_CAPABILITY_READ then (reg.m_readFormatNames.length : ℤ)
  else if capability = FORMAT_CAPABILITY_BAKE then (reg.m_bakeFormatNames.length : ℤ)
  else if capability = FORMAT_CAPABILITY_WRITE then (reg.m_writeFormatNames.length : ℤ)
  else 0

/-- The bounds check and the read of one of the vectors of names or extensions. -/
def stringByIndex (strings : List String) (index : ℤ) : String :=
  if index < 0 ∨ index ≥ (strings.length : ℤ) then ""
  else strings.getD index.toNat ""

/-- Source `FormatRegistry::getFormatNameByIndex`. -/
def FormatRegistry.getFormatNameByIndex (reg : FormatRegistry) (capability : ℕ)
    (index : ℤ) : String :=
  if capability = FORMAT_CAPABILITY_READ then stringByIndex reg.m_readFormatNames index
  else if capability = FORMAT_CAPABILITY_BAKE then stringByIndex reg.m_bakeFormatNames index
  else if capability = FORMAT_CAPABILITY_WRITE then
    stringByIndex reg.m_writeFormatNames index
  else ""

/-- Source `FormatRegistry::getFormatExtensionByIndex`. -/
def FormatRegistry.getFormatExtensionByIndex (reg : FormatRegistry) (capability : ℕ)
    (index : ℤ) : String :=
  if capability = FORMAT_CAPABILITY_READ then stringByIndex reg.m_readFormatExtensions index
  else if capability = FORMAT_CAPABILITY_BAKE then
    stringByIndex reg.m_bakeFormatExtensions index
  else if capability = FORMAT_CAPABILITY_WRITE then
    stringByIndex reg.m_writeFormatExtensions index
  else ""

/-- Source `FileFormat::getName`, from the format infos of the format. -/
def FileFormat.getName (formatInfoVec : List FormatInfo) : String :=
  match formatInfoVec with
  | info :: _ => info.name
  | [] => "Unknown Format"

/-- What `LoadFileUncached` takes from its surroundings: the virtual methods of the
formats (`read` gives the message of the exception when it throws), whether a file
stream opened in text or binary mode is good, `pystring::os::path::splitext`, and
`IsDebugLoggingEnabled()`. -/
structure FileFormats where
  getFormatInfo : FileFormat → List FormatInfo
  isBinary : FileFormat → Bool
  read : FileFormat → (filepath : String) → Except String CachedFileRcPtr
  good : (filepath : String) → (binary : Bool) → Bool
  splitext : (filepath : String) → String × String
  IsDebugLoggingEnabled : Bool

/-- Modelled from the spec: `pystring::replace(extension, ".", "", 1)` (the extension
"without the leading dot"): the first dot is removed. -/
def removeFirstDot (extension : String) : String :=
  String.mk (extension.data.erase '.')

/-- The message of `LoadFileUncached` for a file stream that is not good. -/
def notOpenedMessage (filepath : String) : String :=
  "The specified FileTransform srcfile, '" ++ filepath ++ "', could not be opened. "
    ++ "Please confirm the file exists with " ++ "appropriate read permissions."

/-- The body of the `try` block of both loops of `LoadFileUncached`: whether `read` of
the format is invoked, and the cached file, or the message of the exception. -/
def openAndRead (E : FileFormats) (filepath : String) (tryFormat : FileFormat) :
    Bool × Except String CachedFileRcPtr :=
  if E.good filepath (E.isBinary tryFormat) then (true, E.read tryFormat filepath)
  else (false, Except.error (notOpenedMessage filepath))

/-- The state of `LoadFileUncached` between two formats: the formats whose `read` has been
invoked so far, in the order of the calls, and `primaryErrorText`. -/
structure LoadState where
  invoked : List FileFormat
  primaryErrorText : String
deriving DecidableEq

/-- The state with the call of `read` recorded, when there is one. -/
def LoadState.record (s : LoadState) (tryFormat : FileFormat) (called : Bool) : LoadState :=
  { s with invoked := if called then s.invoked ++ [tryFormat] else s.invoked }

/-- The assignment `primaryErrorText = e.what()` in the handler of the first loop of
`LoadFileUncached`: the text so far is replaced. -/
def assignText (_primaryErrorText what : String) : String :=
  what

/-- The first loop of `LoadFileUncached`, over the formats registered for the extension:
the state behind the loop, and the format and the cached file when the function returns
from inside the loop. -/
def primaryLoop (E : FileFormats) (filepath : String) :
    List FileFormat → LoadState → LoadState × Option (FileFormat × CachedFileRcPtr)
  | [], s => (s, none)
  | tryFormat :: rest, s =>
    match openAndRead E filepath tryFormat with
    | (called, Except.ok cachedFile) => (s.record tryFormat called, some (tryFormat, cachedFile))
    | (called, Except.error what) =>
      let primaryErrorText :=
        s.primaryErrorText ++ FileFormat.getName (E.getFormatInfo tryFormat)
      let primaryErrorText := primaryErrorText ++ " failed with: '"
      let primaryErrorText := assignText primaryErrorText what
      let primaryErrorText := primaryErrorText ++ "'.  "
      primaryLoop E filepath rest
        { (s.record tryFormat called) with primaryErrorText := primaryErrorText }

/-- The second loop of `LoadFileUncached`, over the raw formats from index `findex` on,
listed in `rawFormats`: a format found in `possibleFormats` is passed over. -/
def altLoop (E : FileFormats) (filepath : String) (possibleFormats : List FileFormat) :
    List FileFormat → LoadState → LoadState × Option (FileFormat × CachedFileRcPtr)
  | [], s => (s, none)
  | altFormat :: rest, s =>
    if altFormat ∈ possibleFormats then altLoop E filepath possibleFormats rest s
    else
      match openAndRead E filepath altFormat with
      | (called, Except.ok cachedFile) =>
        (s.record altFormat called, some (altFormat, cachedFile))
      | (called, Except.error _) =>
        altLoop E filepath possibleFormats rest (s.record altFormat called)

/-- The message of `LoadFileUncached` when no format has read the file. -/
def couldNotBeLoadedMessage (E : FileFormats) (filepath : String)
    (possibleFormats : List FileFormat) (primaryErrorText : String) : String :=
  let os := "The specified transform file '" ++ filepath ++ "' could not be loaded.  "
  let os := os ++
    (if E.IsDebugLoggingEnabled then "(Refer to debug log for errors from all formats). "
    else "(Enable debug log for errors from all formats). ")
  if possibleFormats ≠ [] then
    os ++ "All formats have been tried including "
      ++ "formats registered for the given extension. "
      ++ "These formats gave the following errors: " ++ primaryErrorText
  else os

/-- What one call of `LoadFileUncached` does: the formats whose `read` it invokes, in the
order of the calls, and `returnFormat` and `returnCachedFile`, or the message of the
exception. -/
structure LoadResult where
  invoked : List FileFormat
  result : Except String (FileFormat × CachedFileRcPtr)
deriving DecidableEq

/-- Source `LoadFileUncached`. -/
def LoadFileUncached (E : FileFormats) (formatRegistry : FormatRegistry)
    (filepath : String) : LoadResult :=
  let extension := (E.splitext filepath).2
  let extension := removeFirstDot extension
  let possibleFormats := formatRegistry.getFileFormatForExtension extension []
  match primaryLoop E filepath possibleFormats { invoked := [], primaryErrorText := "" } with
  | (s, some found) => { invoked := s.invoked, result := Except.ok found }
  | (s, none) =>
    match altLoop E filepath possibleFormats formatRegistry.m_rawFormats s with
    | (s, some found) => { invoked := s.invoked, result := Except.ok found }
    | (s, none) =>
      { invoked := s.invoked
        result := Except.error
          (couldNotBeLoadedMessage E filepath possibleFormats s.primaryErrorText) }

/-- The struct `FileCacheResult` without its mutex. -/
structure FileCacheResult where
  format : Option FileFormat
  ready : Bool
  error : Bool
  cachedFile : CachedFileRcPtr
  exceptionText : String
deriving DecidableEq

/-- The constructor of `FileCacheResult`. -/
def FileCacheResult.new : FileCacheResult :=
  { format := none, ready := false, error := false, cachedFile := none, exceptionText := "" }

/-- The map `g_fileCache`: the entry stored under a path, `none` when `find` returns
`end()`. -/
abbrev FileCacheMap : Type := String → Option FileCacheResult

/-- What a call of `LoadFileUncached` does to its caller: it returns a format and a cached
file, or throws a `std::exception` with a message, or throws something else. -/
inductive LoadOutcome where
  | returns (format : Option FileFormat) (cachedFile : CachedFileRcPtr) : LoadOutcome
  | throws (what : String) : LoadOutcome
  | throwsOther : LoadOutcome
deriving DecidableEq

/-- The part of `GetCachedFileAndFormat` behind the load: the exception of the entry is
thrown again, or its format and cached file are checked and returned. -/
def FileCacheResult.outcome (result : FileCacheResult) (filepath : String) :
    Except String (FileFormat × ℕ) :=
  if result.error then Except.error result.exceptionText
  else
    match result.format, result.cachedFile with
    | none, _ =>
      Except.error ("The specified file load " ++ filepath
        ++ " appeared to succeed, but no format " ++ "was returned.")
    | some _, none =>
      Except.error ("The specified file load " ++ filepath
        ++ " appeared to succeed, but no cachedFile " ++ "was returned.")
    | some format, some cachedFile => Except.ok (format, cachedFile)

/-- The entry of a path behind the load of `GetCachedFileAndFormat`, from what
`LoadFileUncached` does. -/
def FileCacheResult.load (result : FileCacheResult) (filepath : String) :
    LoadOutcome → FileCacheResult
  | LoadOutcome.returns format cachedFile =>
    { result with ready := true, error := false, format := format, cachedFile := cachedFile }
  | LoadOutcome.throws what =>
    { result with ready := true, error := true, format := none, exceptionText := what }
  | LoadOutcome.throwsOther =>
    { result with
      ready := true, error := true, format := none
      exceptionText := "An unknown error occurred in LoadFileUncached, " ++ filepath }

/-- What one call of `GetCachedFileAndFormat` does: the cache behind the call, whether
`LoadFileUncached` is invoked, and the format and the cached file, or the message of the
exception. -/
structure GetResult where
  cache : FileCacheMap
  invoked : Bool
  outcome : Except String (FileFormat × ℕ)

/-- Source `GetCachedFileAndFormat`, run by one thread; `load` is what `LoadFileUncached`
does if it is invoked by this call. -/
def GetCachedFileAndFormat (load : LoadOutcome) (g_fileCache : FileCacheMap)
    (filepath : String) : GetResult :=
  let result := (g_fileCache filepath).getD FileCacheResult.new
  if result.ready = false then
    let result := result.load filepath load
    { cache := fun key => if key = filepath then some result else g_fileCache key
      invoked := true
      outcome := result.outcome filepath }
  else
    { cache := fun key => if key = filepath then some result else g_fileCache key
      invoked := false
      outcome := result.outcome filepath }

/-- Source `ClearFileTransformCaches`. -/
def ClearFileTransformCaches (_g_fileCache : FileCacheMap) : FileCacheMap :=
  fun _ => none

/-- A call on the file cache: `GetCachedFileAndFormat` for a path, with what
`LoadFileUncached` does if that call invokes it, or `ClearFileTransformCaches`. -/
inductive CacheCall where
  | get (filepath : String) (load : LoadOutcome) : CacheCall
  | clear : CacheCall
deriving DecidableEq

/-- The file cache behind one call. -/
def CacheCall.run (g_fileCache : FileCacheMap) : CacheCall → FileCacheMap
  | CacheCall.get filepath load => (GetCachedFileAndFormat load g_fileCache filepath).cache
  | CacheCall.clear => ClearFileTransformCaches g_fileCache

/-- The file cache behind a sequence of calls. -/
def runCalls (g_fileCache : FileCacheMap) (calls : List CacheCall) : FileCacheMap :=
  calls.foldl CacheCall.run g_fileCache

/-- What `LoadFileUncached` does, as `GetCachedFileAndFormat` sees it. -/
def LoadResult.toOutcome (r : LoadResult) : LoadOutcome :=
  match r.result with
  | Except.ok (format, cachedFile) => LoadOutcome.returns (some format) cachedFile
  | Except.error what => LoadOutcome.throws what

/-! ## Notions for the claims on the registry and the file load -/

/-- The format infos at the head of a list that the loop of `registerFileFormat` adds to
the registry: those before the first one it rejects. -/
def FormatRegistry.acceptedInfos (reg : FormatRegistry) (format : FileFormat) :
    List FormatInfo → List FormatInfo
  | [] => []
  | info :: rest =>
    if info.capabilities = FORMAT_CAPABILITY_NONE then []
    else if (reg.getFileFormatByName info.name).isSome then []
    else info :: FormatRegistry.acceptedInfos (reg.addInfo format info) format rest

/-- The registry behind the calls of `registerFileFormat` for a list of formats, one call
after the other, a call that throws being left by its caller as it is. -/
def registerAll (getFormatInfo : FileFormat → List FormatInfo) (reg : FormatRegistry)
    (formats : List FileFormat) : FormatRegistry :=
  formats.foldl (fun reg format => (reg.registerFileFormat getFormatInfo format).1) reg

/-- The format infos that the calls of `registerFileFormat` for a list of formats add to
the registry, in the order in which they are added. -/
def registeredInfos (getFormatInfo : FileFormat → List FormatInfo) :
    FormatRegistry → List FileFormat → List FormatInfo
  | _, [] => []
  | reg, format :: rest =>
    reg.acceptedInfos format (getFormatInfo format)
      ++ registeredInfos getFormatInfo (reg.registerFileFormat getFormatInfo format).1 rest

/-- Every call of `registerFileFormat` for a list of formats returns without an
exception. -/
def allRegister (getFormatInfo : FileFormat → List FormatInfo) :
    FormatRegistry → List FileFormat → Prop
  | _, [] => True
  | reg, format :: rest =>
    (reg.registerFileFormat getFormatInfo format).2 = none
      ∧ allRegister getFormatInfo (reg.registerFileFormat getFormatInfo format).1 rest

/-- The names of the format infos with a capability bit, in the order of the list. -/
def namesWith (bit : ℕ) (infos : List FormatInfo) : List String :=
  (infos.filter (fun info => info.hasCapability bit)).map (fun info => info.name)

/-- The extensions of the format infos with a capability bit, in the order of the list. -/
def extensionsWith (bit : ℕ) (infos : List FormatInfo) : List String :=
  (infos.filter (fun info => info.hasCapability bit)).map (fun info => info.extension)

/-- The vectors of names and extensions of the registry list the format infos `infos`:
for each capability, the names and the extensions of the infos with its bit, in the order
of `infos`. -/
def FormatRegistry.Enumerates (reg : FormatRegistry) (infos : List FormatInfo) : Prop :=
  reg.m_readFormatNames = namesWith FORMAT_CAPABILITY_READ infos
    ∧ reg.m_readFormatExtensions = extensionsWith FORMAT_CAPABILITY_READ infos
    ∧ reg.m_bakeFormatNames = namesWith FORMAT_CAPABILITY_BAKE infos
    ∧ reg.m_bakeFormatExtensions = extensionsWith FORMAT_CAPABILITY_BAKE infos
    ∧ reg.m_writeFormatNames = namesWith FORMAT_CAPABILITY_WRITE infos
    ∧ reg.m_writeFormatExtensions = extensionsWith FORMAT_CAPABILITY_WRITE infos

instance allRegister.decidable (getFormatInfo : FileFormat → List FormatInfo) :
    ∀ (reg : FormatRegistry) (formats : List FileFormat),
      Decidable (allRegister getFormatInfo reg formats)
  | _, [] => isTrue trivial
  | reg, format :: rest =>
    @instDecidableAnd _ _ _
      (allRegister.decidable getFormatInfo (reg.registerFileFormat getFormatInfo format).1 rest)

/-- The format infos of the example formats, by address.  Formats 0 to 5 are the formats
under `src/` with the infos they declare (CCC, Iridas cube, spi1d, spi3d, Truelight, Nuke
vf); format 6 declares two names with one extension, as the unit test `AllFormats` says
of `flame` and `lustre`; format 7 declares an extension in upper case; format 8 is named
as format 4 in another letter case; the second info of format 9 has no capability; format
10 is named `resolve_cube` and shares the extension of format 1, as the unit test
`AllFormats` says; the formats from 11 on give no format info. -/
def exampleFormatInfo : FileFormat → List FormatInfo
  | 0 => [{ name := "ColorCorrectionCollection", extension := "ccc",
            capabilities := FORMAT_CAPABILITY_READ }]
  | 1 => [{ name := "iridas_cube", extension := "cube",
            capabilities := Nat.lor FORMAT_CAPABILITY_READ FORMAT_CAPABILITY_BAKE }]
  | 2 => [{ name := "spi1d", extension := "spi1d", capabilities := FORMAT_CAPABILITY_READ }]
  | 3 => [{ name := "spi3d", extension := "spi3d", capabilities := FORMAT_CAPABILITY_READ }]
  | 4 => [{ name := "truelight", extension := "cub",
            capabilities := Nat.lor FORMAT_CAPABILITY_READ FORMAT_CAPABILITY_BAKE }]
  | 5 => [{ name := "nukevf", extension := "vf", capabilities := FORMAT_CAPABILITY_READ }]
  | 6 => [{ name := "flame", extension := "3dl", capabilities := FORMAT_CAPABILITY_READ },
          { name := "lustre", extension := "3dl", capabilities := FORMAT_CAPABILITY_READ }]
  | 7 => [{ name := "Upper", extension := "CUB", capabilities := FORMAT_CAPABILITY_READ }]
  | 8 => [{ name := "TrueLight", extension := "tl", capabilities := FORMAT_CAPABILITY_READ }]
  | 9 => [{ name := "first", extension := "one", capabilities := FORMAT_CAPABILITY_READ },
          { name := "second", extension := "two", capabilities := FORMAT_CAPABILITY_NONE }]
  | 10 => [{ name := "resolve_cube", extension := "cube",
             capabilities := Nat.lor FORMAT_CAPABILITY_READ FORMAT_CAPABILITY_BAKE }]
  | _ => []

/-- The registry of the formats under `src/`, registered in the order of the constructor
of `FormatRegistry`. -/
def exampleRegistry : FormatRegistry :=
  registerAll exampleFormatInfo FormatRegistry.empty [0, 1, 2, 3, 4, 5]

/-- An example of `pystring::os::path::splitext` for file names without a directory: the
name is split in front of its last dot. -/
def exampleSplitext (filepath : String) : String × String :=
  let tail := filepath.data.reverse.takeWhile (fun c => decide (c ≠ '.'))
  if tail.length = filepath.data.length then (filepath, "")
  else
    (String.mk (filepath.data.take (filepath.data.length - tail.length - 1)),
      String.mk ('.' :: tail.reverse))

/-- The messages of the exceptions the `read` of the example formats throws. -/
def exampleReadError : FileFormat → String
  | 1 => "not an Iridas cube"
  | 10 => "not a Resolve cube"
  | _ => "unreadable"

/-- Example formats and files: every file opens, no format is binary, and every `read`
throws, but for format 3, which reads every file into the object at address 7. -/
def exampleFormats : FileFormats :=
  { getFormatInfo := exampleFormatInfo
    isBinary := fun _ => false
    read := fun format _ =>
      if format = 3 then Except.ok (some 7)
      else Except.error (exampleReadError format)
    good := fun _ _ => true
    splitext := exampleSplitext
    IsDebugLoggingEnabled := false }

/-- The formats `LoadFileUncached` tries for a file, in the order of the trials: the
formats the registry gives for the extension of the file, then the raw formats that are
not among them. -/
def candidateFormats (E : FileFormats) (formatRegistry : FormatRegistry)
    (filepath : String) : List FileFormat :=
  formatRegistry.getFileFormatForExtension (removeFirstDot (E.splitext filepath).2) []
    ++ formatRegistry.m_rawFormats.filter (fun format =>
      decide (format ∉ formatRegistry.getFileFormatForExtension
        (removeFirstDot (E.splitext filepath).2) []))

/-- The formats of a list tried one after the other up to the first one that reads the
file: the formats whose `read` is invoked, and the format that reads the file with its
cached file. -/
def tryInOrder (E : FileFormats) (filepath : String) :
    List FileFormat → List FileFormat × Option (FileFormat × CachedFileRcPtr)
  | [] => ([], none)
  | format :: rest =>
    match openAndRead E filepath format with
    | (called, Except.ok cachedFile) =>
      (if called then [format] else [], some (format, cachedFile))
    | (called, Except.error _) =>
      ((if called then [format] else []) ++ (tryInOrder E filepath rest).1,
        (tryInOrder E filepath rest).2)

/-- A format cannot read a file: the file stream is not good, or `read` throws. -/
def cannotRead (E : FileFormats) (filepath : String) (format : FileFormat) : Prop :=
  E.good filepath (E.isBinary format) = false
    ∨ ∃ what : String, E.read format filepath = Except.error what

/-! ## `BuildFileTransformOps` and the CCC reader (`FileTransform.cpp`, `FileFormatCCC.cpp`) -/

/-- The classes of the exceptions the code throws and catches: `Exception`,
`ExceptionMissingFile`, and any other `std::exception`. -/
inductive ExceptionKind where
  | Exception : ExceptionKind
  | ExceptionMissingFile : ExceptionKind
  | otherStdException : ExceptionKind
deriving DecidableEq

/-- Modelled from the spec: whether a handler `catch (Exception & e)` catches an
exception of a class.  The classes are declared in `OpenColorIO.h`, not under `src/`:
`ExceptionMissingFile` is a kind of `Exception` (the "missing-resource" kind of the
error taxonomy), which the readers throw "rather than Exception". -/
def ExceptionKind.isException : ExceptionKind → Bool
  | ExceptionKind.Exception => true
  | ExceptionKind.ExceptionMissingFile => true
  | ExceptionKind.otherStdException => false

/-- An exception in flight: its class and the text `what()` returns. -/
structure Thrown where
  kind : ExceptionKind
  what : String
deriving DecidableEq

/-- Modelled from the spec: the operators of the pipeline as `BuildFileTransformOps` and
the CCC reader see them.  `FileNoOp` is the file marker, an operator whose data is a
`FileNoOpData` with a path and the flag `getComplete()`, which `CreateFileNoOp` appends
with the flag not set; `cdl` records a call of `BuildCDLOps` for a transform, by its
address, and a direction; `other` is any other operator.  `CreateFileNoOp`,
`FileNoOpData` and `BuildCDLOps` are not under `src/`. -/
inductive PipelineOp where
  | FileNoOp (path : String) (complete : Bool) : PipelineOp
  | cdl (transform : ℕ) (direction : TransformDirection) : PipelineOp
  | other (op : Op) : PipelineOp
deriving DecidableEq

/-- Modelled from the spec: `Platform::Strcasecmp` (paths are "compared ignoring case"),
which is not under `src/`: 0 when the two texts agree in lower case. -/
def Strcasecmp (str1 str2 : String) : ℤ :=
  if lower str1 = lower str2 then 0 else 1

/-- The message of `BuildFileTransformOps` for a file that is being loaded already. -/
def recursionMessage (filepath : String) : String :=
  "Reference to: " ++ filepath ++ " is creating a recursion."

/-- The loop "Verify the recursion is valid" of `BuildFileTransformOps`: whether it
throws. -/
def createsRecursion (filepath : String) : List PipelineOp → Bool
  | [] => false
  | PipelineOp.FileNoOp path complete :: rest =>
    if !complete ∧ Strcasecmp path filepath = 0 then true
    else createsRecursion filepath rest
  | _ :: rest => createsRecursion filepath rest

/-- The message of the exception the handler of `BuildFileTransformOps` throws. -/
def failedWhileLoadingMessage (filepath what : String) : String :=
  "The transform file: " ++ filepath ++ " failed while loading ops with this error: "
    ++ what

/-- The handler `catch (Exception & e)` of `BuildFileTransformOps`: the exception that
leaves the function when `thrown` is thrown inside the `try` block. -/
def rethrown (filepath : String) (thrown : Thrown) : Thrown :=
  if thrown.kind.isException then
    { kind := ExceptionKind.Exception
      what := failedWhileLoadingMessage filepath thrown.what }
  else thrown

/-- Source `BuildFileTransformOps`: the vector `ops` behind the call, and the exception
when the call throws.  `src` is `fileTransform.getSrc()`; `resolveFileLocation` is the
method of the context; `getCachedFileAndFormat` is what `GetCachedFileAndFormat` does for
a path, the format and cached file, or the text of its `Exception`; `buildFileOps` is
the virtual method of the formats, which gets the vector `ops` and the cached file and
gives the operators it appends, and the exception when it throws. -/
def BuildFileTransformOps (ops : List PipelineOp) (src : String)
    (resolveFileLocation : String → Except Thrown String)
    (getCachedFileAndFormat : String → Except String (FileFormat × ℕ))
    (buildFileOps : FileFormat → List PipelineOp → ℕ → List PipelineOp × Option Thrown) :
    List PipelineOp × Option Thrown :=
  if src = "" then
    (ops, some { kind := ExceptionKind.Exception
                 what := "The transform file has not been specified." })
  else
    match resolveFileLocation src with
    | Except.error thrown => (ops, some thrown)
    | Except.ok filepath =>
      if createsRecursion filepath ops then
        (ops, some { kind := ExceptionKind.Exception, what := recursionMessage filepath })
      else
        match getCachedFileAndFormat filepath with
        | Except.error what =>
          (ops, some (rethrown filepath { kind := ExceptionKind.Exception, what := what }))
        | Except.ok (format, cachedFile) =>
          match buildFileOps format (ops ++ [PipelineOp.FileNoOp filepath false]) cachedFile with
          | (appended, some thrown) =>
            (ops ++ [PipelineOp.FileNoOp filepath false] ++ appended,
              some (rethrown filepath thrown))
          | (appended, none) =>
            (ops ++ [PipelineOp.FileNoOp filepath true] ++ appended, none)

/-- Source `LocalCachedFile` of the CCC reader: the transforms of the file by id and by
position, each transform by its address. -/
structure CCC.LocalCachedFile where
  transformMap : String → Option ℕ
  transformVec : List ℕ

/-- Source `LocalFileFormat::buildFileOps` of the CCC reader: the operators it appends to
`ops`, and the exception when it throws.  `untypedCachedFile` is `none` when the cast to
the cached file of this reader fails; `combine` is `CombineTransformDirections`;
`fileDirection` and `cccid` are `getDirection()` and `getCCCId()` of the file transform;
`resolveStringVar` is the method of the context; `StringToInt` gives the index when the
strict conversion returns true. -/
def CCC.buildFileOps (combine : TransformDirection → TransformDirection → TransformDirection)
    (resolveStringVar : String → String) (StringToInt : String → Option ℤ)
    (untypedCachedFile : Option CCC.LocalCachedFile) (fileDirection : TransformDirection)
    (cccid : String) (dir : TransformDirection) : List PipelineOp × Option Thrown :=
  match untypedCachedFile with
  | none =>
    ([], some { kind := ExceptionKind.Exception
                what := "Cannot build .ccc Op. Invalid cache type." })
  | some cachedFile =>
    let newDir := combine dir fileDirection
    if newDir = TransformDirection.TRANSFORM_DIR_UNKNOWN then
      ([], some { kind := ExceptionKind.Exception
                  what := "Cannot build ASC FileTransform,"
                    ++ " unspecified transform direction." })
    else
      let cccid := resolveStringVar cccid
      if cccid = "" then
        ([], some { kind := ExceptionKind.ExceptionMissingFile
                    what := "You must specify which cccid to load from the ccc file"
                      ++ " (either by name or index)." })
      else
        match cachedFile.transformMap cccid with
        | some transform => ([PipelineOp.cdl transform newDir], none)
        | none =>
          match StringToInt cccid with
          | some cccindex =>
            let maxindex : ℤ := (cachedFile.transformVec.length : ℤ) - 1
            if cccindex < 0 ∨ cccindex > maxindex then
              ([], some { kind := ExceptionKind.ExceptionMissingFile
                          what := "The specified cccindex " ++ toString cccindex
                            ++ " is outside the valid range for this file [0,"
                            ++ toString maxindex ++ "]" })
            else
              match cachedFile.transformVec[cccindex.toNat]? with
              | some transform => ([PipelineOp.cdl transform newDir], none)
              | none => ([], none)
          | none =>
            ([], some { kind := ExceptionKind.ExceptionMissingFile
                        what := "You must specify a valid cccid to load from the ccc file"
                          ++ " (either by name or index). id='" ++ cccid ++ "' "
                          ++ "is not found in the file, and is not parsable as an "
                          ++ "integer index." })

/-- A cached file of the CCC reader with two transforms, with the ids `cc0001` and
`cc0002`. -/
def exampleCCCFile : CCC.LocalCachedFile :=
  { transformMap := fun id =>
      if id = "cc0001" then some 100 else if id = "cc0002" then some 200 else none
    transformVec := [100, 200] }

/-- An example of the strict `StringToInt`: the digits of a text that holds digits
only. -/
def exampleStringToInt (str : String) : Option ℤ :=
  if str.data ≠ [] ∧ str.data.all Char.isDigit then
    some ((str.data.foldl (fun n c => 10 * n + (c.toNat - 48)) 0 : ℕ) : ℤ)
  else none

/-- The `buildFileOps` of the CCC reader as the virtual method `BuildFileTransformOps`
calls, for a file transform with a `cccid` and the forward direction. -/
def exampleCCCBuild (cccid : String) (dir : TransformDirection) :
    FileFormat → List PipelineOp → ℕ → List PipelineOp × Option Thrown :=
  fun _ _ _ =>
    CCC.buildFileOps (fun d _ => d) (fun s => s) exampleStringToInt (some exampleCCCFile)
      TransformDirection.TRANSFORM_DIR_FORWARD cccid dir

/-! ## Example texts for the tags of the Iridas `.cube` reader -/

/-- The text of the unit test with a `LUT_2D_SIZE` line in front of its triples. -/
def iridas2DTagText : IStream :=
  IStream.ofLines ["LUT_3D_SIZE 2", "DOMAIN_MIN 0.0 0.0 0.0", "DOMAIN_MAX 1.0 1.0 1.0",
    "LUT_2D_SIZE 2", "0.0 0.0 0.0", "1.0 0.0 0.0", "0.0 1.0 0.0", "1.0 1.0 0.0",
    "0.0 0.0 1.0", "1.0 0.0 1.0", "0.0 1.0 1.0", "1.0 1.0 1.0"]

/-- A line of a `.cube` text with a tag the line loop tests for: it is no comment and
its first word is, in lower case, the tag. -/
def IridasCube.hasTag (P : ParseUtils) (line tag : String) : Prop :=
  startswith line "#" = false
    ∧ ∃ (word : String) (args : List String),
      P.split (lower (P.strip line)) = word :: args ∧ lower word = tag

/-- The text of the unit test `ReadFailure` with the wrong `LUT_3D_SIZE` tag. -/
def iridasWrongSizeText : IStream :=
  IStream.ofLines ["LUT_3D_SIZE 2 2", "DOMAIN_MIN 0.0 0.0 0.0", "DOMAIN_MAX 1.0 1.0 1.0",
    "0.0 0.0 0.0", "1.0 0.0 0.0", "0.0 1.0 0.0", "1.0 1.0 0.0", "0.0 0.0 1.0", "1.0 0.0 1.0",
    "0.0 1.0 1.0", "1.0 1.0 1.0"]

/-- A `.cub` text whose second line is a `width` tag with two sizes. -/
def truelightBadWidthText : IStream :=
  IStream.ofLines ["# Truelight Cube v2.0", "# width 2 2"]

/-- A `.spi1d` text whose second line, the `From` tag, holds one number only. -/
def spi1dBadFromText : IStream :=
  IStream.ofLines ["Version 1", "From 0.0", "Length 2", "Components 1", "\x7b", "0.0", "1.0",
    "\x7d"]

/-- A `.vf` text whose second line, the `grid_size` tag, holds two sizes only. -/
def vfBadGridText : IStream :=
  IStream.ofLines ["#Inventor V2.1 ascii", "grid_size 2 2", "data", "0 0 0"]

/-- A `.cube` text that declares the size 2048 and holds no triple. -/
def iridasSize2048Text : IStream :=
  IStream.ofLines ["LUT_3D_SIZE 2048"]
/-! ## The `.spi3d` reader with `int` arithmetic in 32 bits

`Spi3D.read` above reads the products and sums of the `int` variables of the reader as
exact integers.  The definitions of this section follow the same source lines with every
`int` operation wrapped into 32 bits. -/

/-- The sum `a + b` of two `int` values, as an `int`. -/
def addInt32 (a b : ℤ) : ℤ :=
  wrapInt32 (a + b)

/-- Modelled from the spec: `GetLut3DIndex_RedFast` of `Lut3DOp.h`, which is not under
`src/`, with its result `3*(r + Nr*(g + Ng*b))` computed on `int` values. -/
def Machine.GetLut3DIndex_RedFast (indexR indexG indexB sizeR sizeG _sizeB : ℤ) : ℤ :=
  mulInt32 3 (addInt32 indexR (mulInt32 sizeR (addInt32 indexG (mulInt32 sizeG indexB))))

/-- The body of the table loop of `read` behind its `getline`, with `int` arithmetic in 32
bits: `index` is an `int`, it is compared with `(int)lut3d->lut.size()`, and the three
assignments go to `lut[index+0]`, `lut[index+1]` and `lut[index+2]`.  The result is `none`
when an assignment to `lut` lies outside the vector, an error when the body throws. -/
def Machine.Spi3D.tableLine (S : Scanf) (fileName : String) (rSize gSize bSize : ℤ)
    (t : Spi3D.Table) (lineBuffer : String) : Option (Except String Spi3D.Table) :=
  match S.sscanf_dddfff "%d %d %d %f %f %f" lineBuffer with
  | none => some (Except.ok t)
  | some ((rIndex, gIndex, bIndex), (redValue, greenValue, blueValue)) =>
    if rIndex < 0 ∨ rIndex ≥ rSize ∨ gIndex < 0 ∨ gIndex ≥ gSize ∨ bIndex < 0 ∨ bIndex ≥ bSize
    then some (Except.error (Spi3D.outsideMessage fileName rIndex gIndex bIndex))
    else
      let index := Machine.GetLut3DIndex_RedFast rIndex gIndex bIndex rSize gSize bSize
      if index < 0 ∨ index ≥ wrapInt32 (t.lut.length : ℤ) then
        some (Except.error (Spi3D.outsideMessage fileName rIndex gIndex bIndex))
      else
        match writeAt t.lut (addInt32 index 0) redValue with
        | none => none
        | some lut0 =>
          match writeAt lut0 (addInt32 index 1) greenValue with
          | none => none
          | some lut1 =>
            match writeAt lut1 (addInt32 index 2) blueValue with
            | none => none
            | some lut2 =>
              some (Except.ok
                { lut := lut2, entriesRemaining := wrapInt32 (t.entriesRemaining - 1) })

/-- The table loop of `read`, as `Spi3D.tableLoop`, over the loop body with `int`
arithmetic in 32 bits. -/
def Machine.Spi3D.tableLoop (S : Scanf) (fileName : String) (rSize gSize bSize : ℤ) :
    List String → String → Spi3D.Table → Option (Except String Spi3D.Table)
  | [], last, t =>
    if t.entriesRemaining > 0 then
      Machine.Spi3D.tableLine S fileName rSize gSize bSize t last
    else some (Except.ok t)
  | l :: ls, last, t =>
    if t.entriesRemaining > 0 then
      match Machine.Spi3D.tableLine S fileName rSize gSize bSize t l with
      | none => none
      | some (Except.error e) => some (Except.error e)
      | some (Except.ok t') => Machine.Spi3D.tableLoop S fileName rSize gSize bSize ls last t'
    else some (Except.ok t)

/-- Source `LocalFileFormat::read` of the `.spi3d` reader with `int` arithmetic in 32
bits: the argument `rSize * gSize * bSize * 3` of `resize` and the counter
`entriesRemaining = rSize * gSize * bSize` are products of `int` values; a negative
argument makes `resize` throw `std::length_error`.  The result is `none` when an
assignment to the LUT array lies outside the array. -/
def Machine.Spi3D.read (S : Scanf) (create : Lut3D) (istream : IStream) (fileName : String) :
    Option (Except String Lut3D) :=
  let (line1, istream) := istream.getline
  if !startswith (lower line1) "spilut" then
    some (Except.error ("Error parsing .spi3d file (" ++ fileName ++ ").  "
      ++ "LUT does not appear to be valid spilut format. "
      ++ "Expected 'SPILUT'.  Found: '" ++ line1 ++ "'."))
  else
    let (_, istream) := istream.getline
    let (line3, istream) := istream.getline
    match S.sscanf_ddd "%d %d %d" line3 with
    | none =>
      some (Except.error ("Error parsing .spi3d file (" ++ fileName ++ "). "
        ++ "Error while reading LUT size. Found: '" ++ line3 ++ "'."))
    | some (rSize, gSize, bSize) =>
      if mulInt32 (mulInt32 (mulInt32 rSize gSize) bSize) 3 < 0 then
        some (Except.error lengthError)
      else
        let t0 : Spi3D.Table :=
          { lut := resizeVector create.lut (mulInt32 (mulInt32 (mulInt32 rSize gSize) bSize) 3)
            entriesRemaining := mulInt32 (mulInt32 rSize gSize) bSize }
        let result :=
          if istream.good then
            Machine.Spi3D.tableLoop S fileName rSize gSize bSize istream.lines istream.last t0
          else some (Except.ok t0)
        match result with
        | none => none
        | some (Except.error e) => some (Except.error e)
        | some (Except.ok t) =>
          if t.entriesRemaining > 0 then
            some (Except.error ("Error parsing .spi3d file (" ++ fileName ++ "). "
              ++ "Not enough entries found."))
          else
            some (Except.ok { create with
              size := fun i => if i = 0 then rSize else if i = 1 then gSize else bSize
              lut := t.lut })

/-- The line of a `.spi3d` text that declares the sizes: its third line. -/
def Spi3D.sizeLine (istream : IStream) : String :=
  istream.getline.2.getline.2.getline.1

/-- The sizes a `.spi3d` text declares are such that three times their product, the
number of floats of the table, is an `int`. -/
def Spi3D.SizesFit (S : Scanf) (istream : IStream) : Prop :=
  ∀ rSize gSize bSize : ℤ,
    S.sscanf_ddd "%d %d %d" (Spi3D.sizeLine istream) = some (rSize, gSize, bSize) →
    -2 ^ 31 ≤ rSize * gSize * bSize * 3 ∧ rSize * gSize * bSize * 3 < 2 ^ 31

/-- A text that declares the sizes `2 715827883 1`, whose product times three wraps to 2,
with one row for the cell `0 0 0`. -/
def spi3dWrapText : IStream :=
  IStream.ofLines ["SPILUT 1.0", "3 3", "2 715827883 1", "0 0 0 0.1 0.2 0.3"]

/-- A text that declares the sizes `65536 65536 1`, whose product wraps to 0, with a row
whose green index 70000 is not below the green size. -/
def spi3dWrapZeroText : IStream :=
  IStream.ofLines ["SPILUT 1.0", "3 3", "65536 65536 1", "0 70000 0 0.1 0.2 0.3"]
/-! ## Binary32 arithmetic

The kernels above read `float` arithmetic over exact rationals.  This section gives the
arithmetic of the compiled code: a `float` is an IEEE 754 binary32 value, and every
operation rounds its exact result to the nearest binary32 value, ties to even, with
overflow to an infinity and gradual underflow.  The two zeros are one value, as they are
under `==`; every division by zero in the code divides by a difference of two equal
values or by a converted size, which is `+0`, so the sign of a quotient by zero is the
sign of its dividend. -/

/-- A binary32 value: NaN, an infinity with its sign, or a finite number. -/
inductive Binary32 where
  | nan : Binary32
  | inf (negative : Bool) : Binary32
  | fin (q : ℚ) : Binary32
deriving DecidableEq

/-- The search for the spacing of the binary32 numbers at the magnitude `a`: the spacing
`u` is doubled until `a < 2^24 * u`. -/
def Binary32.quantumLoop : ℕ → ℚ → ℚ → ℚ
  | 0, u, _ => u
  | fuel + 1, u, a => if a < 2 ^ 24 * u then u else Binary32.quantumLoop fuel (2 * u) a

/-- The spacing of the binary32 numbers at the magnitude `a`: `2^(e-23)` for
`2^e ≤ a < 2^(e+1)`, with `e` kept between -126 (subnormal numbers have the spacing
`2^-149`) and 127. -/
def Binary32.quantum (a : ℚ) : ℚ :=
  Binary32.quantumLoop 253 (1 / 2 ^ 149) a

/-- The nearest integer, halfway cases to the even one. -/
def Binary32.roundHalfEven (x : ℚ) : ℤ :=
  if x - (⌊x⌋ : ℤ) < 1 / 2 then ⌊x⌋
  else if 1 / 2 < x - (⌊x⌋ : ℤ) then ⌊x⌋ + 1
  else if ⌊x⌋ % 2 = 0 then ⌊x⌋
  else ⌊x⌋ + 1

/-- The binary32 value of an exact result: the nearest multiple of the spacing, ties to
even; a magnitude that rounds to `2^128` or more overflows to the infinity of its sign. -/
def Binary32.round (q : ℚ) : Binary32 :=
  let u := Binary32.quantum |q|
  let r : ℚ := (Binary32.roundHalfEven (|q| / u) : ℚ) * u
  if 2 ^ 128 ≤ r then Binary32.inf (decide (q < 0))
  else Binary32.fin (if q < 0 then -r else r)

/-- A number that is a binary32 value: rounding leaves it as it is. -/
def Binary32.Exact (q : ℚ) : Prop :=
  Binary32.round q = Binary32.fin q

instance (q : ℚ) : Decidable (Binary32.Exact q) := by
  unfold Binary32.Exact
  infer_instance

/-- The sum `a + b` of two `float` values. -/
def Binary32.add : Binary32 → Binary32 → Binary32
  | Binary32.nan, _ => Binary32.nan
  | _, Binary32.nan => Binary32.nan
  | Binary32.inf s, Binary32.inf t => if s = t then Binary32.inf s else Binary32.nan
  | Binary32.inf s, Binary32.fin _ => Binary32.inf s
  | Binary32.fin _, Binary32.inf t => Binary32.inf t
  | Binary32.fin x, Binary32.fin y => Binary32.round (x + y)

/-- The difference `a - b` of two `float` values. -/
def Binary32.sub : Binary32 → Binary32 → Binary32
  | Binary32.nan, _ => Binary32.nan
  | _, Binary32.nan => Binary32.nan
  | Binary32.inf s, Binary32.inf t => if s = t then Binary32.nan else Binary32.inf s
  | Binary32.inf s, Binary32.fin _ => Binary32.inf s
  | Binary32.fin _, Binary32.inf t => Binary32.inf (!t)
  | Binary32.fin x, Binary32.fin y => Binary32.round (x - y)

/-- The product `a * b` of two `float` values; an infinity times zero is NaN. -/
def Binary32.mul : Binary32 → Binary32 → Binary32
  | Binary32.nan, _ => Binary32.nan
  | _, Binary32.nan => Binary32.nan
  | Binary32.inf s, Binary32.inf t => Binary32.inf (s != t)
  | Binary32.inf s, Binary32.fin y =>
    if y = 0 then Binary32.nan else Binary32.inf (s != decide (y < 0))
  | Binary32.fin x, Binary32.inf t =>
    if x = 0 then Binary32.nan else Binary32.inf (decide (x < 0) != t)
  | Binary32.fin x, Binary32.fin y => Binary32.round (x * y)

/-- The quotient `a / b` of two `float` values; zero by zero and infinity by infinity are
NaN, another number by zero is an infinity. -/
def Binary32.div : Binary32 → Binary32 → Binary32
  | Binary32.nan, _ => Binary32.nan
  | _, Binary32.nan => Binary32.nan
  | Binary32.inf _, Binary32.inf _ => Binary32.nan
  | Binary32.inf s, Binary32.fin y => Binary32.inf (s != decide (y < 0))
  | Binary32.fin _, Binary32.inf _ => Binary32.fin 0
  | Binary32.fin x, Binary32.fin y =>
    if y = 0 then (if x = 0 then Binary32.nan else Binary32.inf (decide (x < 0)))
    else Binary32.round (x / y)

/-- The comparison `a < b` of two `float` values; it is false when one of them is NaN. -/
def Binary32.lt : Binary32 → Binary32 → Bool
  | Binary32.nan, _ => false
  | _, Binary32.nan => false
  | Binary32.inf s, Binary32.inf t => s && !t
  | Binary32.inf s, Binary32.fin _ => s
  | Binary32.fin _, Binary32.inf t => !t
  | Binary32.fin x, Binary32.fin y => decide (x < y)

/-- The call `std::min(a, b)`, which is `(b < a) ? b : a`. -/
def Binary32.min (a b : Binary32) : Binary32 :=
  if Binary32.lt b a then b else a

/-- The call `std::max(a, b)`, which is `(a < b) ? b : a`. -/
def Binary32.max (a b : Binary32) : Binary32 :=
  if Binary32.lt a b then b else a

/-- The call `std::floor(a)`. -/
def Binary32.floor : Binary32 → Binary32
  | Binary32.fin q => Binary32.fin (⌊q⌋ : ℤ)
  | a => a

/-- The call `std::ceil(a)`. -/
def Binary32.ceil : Binary32 → Binary32
  | Binary32.fin q => Binary32.fin (⌈q⌉ : ℤ)
  | a => a

/-- The call `roundf(a)`: nearest integer, halfway cases away from zero. -/
def Binary32.roundf : Binary32 → Binary32
  | Binary32.fin q => Binary32.fin (Lut1DOp.roundf q)
  | a => a

/-- The call `fabsf(a)`. -/
def Binary32.fabsf : Binary32 → Binary32
  | Binary32.nan => Binary32.nan
  | Binary32.inf _ => Binary32.inf false
  | Binary32.fin q => Binary32.fin |q|

/-- The conversion `static_cast<int>(a)`: truncation toward zero; it has no defined result
for NaN, for an infinity and for a number whose truncation is not an `int`. -/
def Binary32.toInt : Binary32 → Option ℤ
  | Binary32.fin q =>
    if -2 ^ 31 ≤ static_cast_int q ∧ static_cast_int q < 2 ^ 31 then some (static_cast_int q)
    else none
  | _ => none

/-- The conversion `(float) z` of an integer. -/
def Binary32.ofInt (z : ℤ) : Binary32 :=
  Binary32.round z

/-- The `IsNan` test of `MathUtils.h` on a binary32 value. -/
def Machine.IsNan : Binary32 → Bool
  | Binary32.nan => true
  | _ => false

/-! ## The kernels in binary32 arithmetic

The definitions of this section follow the source lines of the kernels as those of the
section "Forward kernels" do, with each `float` operation in binary32: every operation of
an expression rounds its result to binary32, with no wider intermediate and no fused
multiply-add.  The samples and
the domain bounds of a `Lut1D` are finite numbers, read as the binary32 values they are. -/

/-- The value `(float)(v.size() - 1)`; the subtraction is done on `size_t` and wraps for
the empty vector. -/
def Machine.sizeMinusOne (v : List ℚ) : Binary32 :=
  Binary32.ofInt (if v.length = 0 then ((2 ^ 64 - 1 : ℕ) : ℤ) else ((v.length - 1 : ℕ) : ℤ))

/-- One guarded channel update,
`if(!IsNan(rgbaBuffer[c])) rgbaBuffer[c] = f(rgbaBuffer[c]);`. -/
def Machine.applyChannel (f : Binary32 → Option Binary32) (v : Binary32) : Option Binary32 :=
  if Machine.IsNan v then some v else f v

/-- The loop `for(pixelIndex...) { ...; rgbaBuffer += 4; }` common to the kernels, as
`pixelLoop`, over binary32 values. -/
def Machine.pixelLoop (f0 f1 f2 : Binary32 → Option Binary32) :
    ℕ → List Binary32 → Option (List Binary32)
  | 0, rgbaBuffer => some rgbaBuffer
  | n + 1, r :: g :: b :: a :: rest =>
    match Machine.applyChannel f0 r, Machine.applyChannel f1 g, Machine.applyChannel f2 b,
        Machine.pixelLoop f0 f1 f2 n rest with
    | some r', some g', some b', some rest' => some (r' :: g' :: b' :: a :: rest')
    | _, _, _, _ => none
  | _ + 1, _ => none

/-- Source `clamp`: `std::min`, `std::max`, `roundf` and the conversion to `int`; the
result is `none` when the conversion has no defined result. -/
def Machine.clamp (k minVal maxVal : Binary32) : Option ℤ :=
  Binary32.toInt (Binary32.roundf (Binary32.max (Binary32.min k maxVal) minVal))

/-- Source `lookupNearest_1D`. -/
def Machine.lookupNearest_1D (index maxIndex : Binary32) (simple_lut : List ℚ) :
    Option Binary32 :=
  match Machine.clamp index (Binary32.fin 0) maxIndex with
  | some k => (readAt simple_lut k).map Binary32.fin
  | none => none

/-- Source `lookupLinear_1D`. -/
def Machine.lookupLinear_1D (index maxIndex : Binary32) (simple_lut : List ℚ) :
    Option Binary32 :=
  match Machine.clamp (Binary32.floor index) (Binary32.fin 0) maxIndex,
      Machine.clamp (Binary32.ceil index) (Binary32.fin 0) maxIndex with
  | some indexLow, some indexHigh =>
    let delta := Binary32.sub index (Binary32.ofInt indexLow)
    match readAt simple_lut indexLow, readAt simple_lut indexHigh with
    | some lo, some hi =>
      some (Binary32.add (Binary32.fin lo)
        (Binary32.mul delta (Binary32.sub (Binary32.fin hi) (Binary32.fin lo))))
    | _, _ => none
  | _, _ => none

/-- The factor `mInv_x_maxIndex[i]` of the set-up of the forward kernels. -/
def Machine.mInv_x_maxIndex (lut : Lut1D) (i : Fin 3) : Binary32 :=
  let maxIndex := Machine.sizeMinusOne (lut.luts i)
  let mInv := Binary32.div (Binary32.fin 1)
    (Binary32.sub (Binary32.fin (lut.from_max i)) (Binary32.fin (lut.from_min i)))
  Binary32.mul mInv maxIndex

/-- The index `mInv_x_maxIndex[i] * (rgbaBuffer[i] - b[i])` the forward kernels pass to
their lookup. -/
def Machine.index (lut : Lut1D) (i : Fin 3) (x : Binary32) : Binary32 :=
  let b := Binary32.fin (lut.from_min i)
  Binary32.mul (Machine.mInv_x_maxIndex lut i) (Binary32.sub x b)

/-- Channel `i` of `Lut1D_Nearest`. -/
def Machine.Lut1D_Nearest_channel (lut : Lut1D) (i : Fin 3) (x : Binary32) : Option Binary32 :=
  Machine.lookupNearest_1D (Machine.index lut i x) (Machine.sizeMinusOne (lut.luts i))
    (lut.luts i)

/-- Source `Lut1D_Nearest`. -/
def Machine.Lut1D_Nearest (rgbaBuffer : List Binary32) (numPixels : ℤ) (lut : Lut1D) :
    Option (List Binary32) :=
  Machine.pixelLoop (Machine.Lut1D_Nearest_channel lut 0) (Machine.Lut1D_Nearest_channel lut 1)
    (Machine.Lut1D_Nearest_channel lut 2) numPixels.toNat rgbaBuffer

/-- Channel `i` of `Lut1D_Linear`. -/
def Machine.Lut1D_Linear_channel (lut : Lut1D) (i : Fin 3) (x : Binary32) : Option Binary32 :=
  Machine.lookupLinear_1D (Machine.index lut i x) (Machine.sizeMinusOne (lut.luts i))
    (lut.luts i)

/-- Source `Lut1D_Linear`. -/
def Machine.Lut1D_Linear (rgbaBuffer : List Binary32) (numPixels : ℤ) (lut : Lut1D) :
    Option (List Binary32) :=
  Machine.pixelLoop (Machine.Lut1D_Linear_channel lut 0) (Machine.Lut1D_Linear_channel lut 1)
    (Machine.Lut1D_Linear_channel lut 2) numPixels.toNat rgbaBuffer

/-- The binary search of `std::lower_bound(start, end, v)`, as `lower_bound_loop`, with
the comparison `*middle < v` of `float` values. -/
def Machine.lower_bound_loop (lut : List ℚ) (v : Binary32) : ℕ → ℕ → ℕ → ℕ
  | 0, first, _ => first
  | fuel + 1, first, len =>
    if len = 0 then first
    else
      let half := len / 2
      let middle := first + half
      match lut[middle]? with
      | some m =>
        if Binary32.lt (Binary32.fin m) v then
          Machine.lower_bound_loop lut v fuel (middle + 1) (len - half - 1)
        else Machine.lower_bound_loop lut v fuel first half
      | none => first

/-- The call `std::lower_bound(start, end, v)` over the whole vector, as an index. -/
def Machine.lower_bound (lut : List ℚ) (v : Binary32) : ℕ :=
  Machine.lower_bound_loop lut v lut.length 0 lut.length

/-- The two bracketing positions both inverse lookups compute from `lower_bound`. -/
def Machine.bracket (lut : List ℚ) (v : Binary32) : ℤ × ℤ :=
  let lb : ℤ := Machine.lower_bound lut v
  let lowbound := if lb ≠ 0 then lb - 1 else lb
  let highbound := if lowbound < (lut.length : ℤ) - 1 then lowbound + 1 else lowbound
  (lowbound, highbound)

/-- Source `reverseLookupNearest_1D`. -/
def Machine.reverseLookupNearest_1D (v : Binary32) (lut : List ℚ) : Option Binary32 :=
  let lowbound := (Machine.bracket lut v).1
  let highbound := (Machine.bracket lut v).2
  match readAt lut lowbound, readAt lut highbound with
  | some lo, some hi =>
    if Binary32.lt (Binary32.fabsf (Binary32.sub v (Binary32.fin lo)))
        (Binary32.fabsf (Binary32.sub v (Binary32.fin hi))) then
      some (Binary32.ofInt lowbound)
    else some (Binary32.ofInt highbound)
  | _, _ => none

/-- Source `reverseLookupLinear_1D`. -/
def Machine.reverseLookupLinear_1D (v : Binary32) (lut : List ℚ) (invMaxIndex : Binary32) :
    Option Binary32 :=
  let lowbound := (Machine.bracket lut v).1
  let highbound := (Machine.bracket lut v).2
  match readAt lut lowbound, readAt lut highbound with
  | some lo, some hi =>
    let delta : Binary32 :=
      if Binary32.lt (Binary32.fin lo) (Binary32.fin hi) then
        Binary32.div (Binary32.sub v (Binary32.fin lo))
          (Binary32.sub (Binary32.fin hi) (Binary32.fin lo))
      else Binary32.fin 0
    some (Binary32.max (Binary32.mul (Binary32.add (Binary32.ofInt lowbound) delta) invMaxIndex)
      (Binary32.fin 0))
  | _, _ => none

/-- Channel `i` of `Lut1D_NearestInverse`, with the set-up of the kernel. -/
def Machine.Lut1D_NearestInverse_channel (lut : Lut1D) (i : Fin 3) (x : Binary32) :
    Option Binary32 :=
  let m := Binary32.div
    (Binary32.sub (Binary32.fin (lut.from_max i)) (Binary32.fin (lut.from_min i)))
    (Machine.sizeMinusOne (lut.luts i))
  let b := Binary32.fin (lut.from_min i)
  (Machine.reverseLookupNearest_1D x (lut.luts i)).map
    (fun r => Binary32.add (Binary32.mul m r) b)

/-- Source `Lut1D_NearestInverse`. -/
def Machine.Lut1D_NearestInverse (rgbaBuffer : List Binary32) (numPixels : ℤ) (lut : Lut1D) :
    Option (List Binary32) :=
  Machine.pixelLoop (Machine.Lut1D_NearestInverse_channel lut 0)
    (Machine.Lut1D_NearestInverse_channel lut 1) (Machine.Lut1D_NearestInverse_channel lut 2)
    numPixels.toNat rgbaBuffer

/-- Channel `i` of `Lut1D_LinearInverse`.  The source passes `invMaxIndex[0]` to the
lookup of every channel. -/
def Machine.Lut1D_LinearInverse_channel (lut : Lut1D) (i : Fin 3) (x : Binary32) :
    Option Binary32 :=
  let m := Binary32.sub (Binary32.fin (lut.from_max i)) (Binary32.fin (lut.from_min i))
  let b := Binary32.fin (lut.from_min i)
  let invMaxIndex : Fin 3 → Binary32 := fun j =>
    Binary32.div (Binary32.fin 1) (Machine.sizeMinusOne (lut.luts j))
  (Machine.reverseLookupLinear_1D x (lut.luts i) (invMaxIndex 0)).map
    (fun r => Binary32.add (Binary32.mul m r) b)

/-- Source `Lut1D_LinearInverse`. -/
def Machine.Lut1D_LinearInverse (rgbaBuffer : List Binary32) (numPixels : ℤ) (lut : Lut1D) :
    Option (List Binary32) :=
  Machine.pixelLoop (Machine.Lut1D_LinearInverse_channel lut 0)
    (Machine.Lut1D_LinearInverse_channel lut 1) (Machine.Lut1D_LinearInverse_channel lut 2)
    numPixels.toNat rgbaBuffer

/-- The magnitude of the rounded value of `q`. -/
def Binary32.magnitude (q : ℚ) : ℚ :=
  (Binary32.roundHalfEven (|q| / Binary32.quantum |q|) : ℚ) * Binary32.quantum |q|

/-- The largest finite binary32 number. -/
def Binary32.maxFinite : ℚ :=
  2 ^ 128 - 2 ^ 104

/-- The samples and the domain bounds of a `Lut1D` are binary32 values. -/
def Lut1D.IsBinary32 (lut : Lut1D) : Prop :=
  ∀ i : Fin 3, Binary32.Exact (lut.from_min i) ∧ Binary32.Exact (lut.from_max i)
    ∧ ∀ s ∈ lut.luts i, Binary32.Exact s

instance Lut1D.IsBinary32.decidable (lut : Lut1D) : Decidable lut.IsBinary32 := by
  unfold Lut1D.IsBinary32
  infer_instance


/-- The exact results of the five operations that compute the index of the forward kernels
for the channel value `x`, each taken on the exact results of the ones before it: the
width `from_max - from_min`, its inverse, the factor `mInv * maxIndex`, the difference
`x - b` and the index. -/
def Machine.indexOps (lut : Lut1D) (i : Fin 3) (x : ℚ) : List ℚ :=
  let w := lut.from_max i - lut.from_min i
  let n : ℚ := ((lut.luts i).length - 1 : ℕ)
  [w, 1 / w, 1 / w * n, x - lut.from_min i, 1 / w * n * (x - lut.from_min i)]

/-- The test that every channel value of the pixels a forward kernel runs over that is not
NaN has an index that is not NaN. -/
def Machine.indicesDefined (lut : Lut1D) (rgbaBuffer : List Binary32) (numPixels : ℕ) : Bool :=
  (List.range numPixels).all (fun q =>
    (List.finRange 3).all (fun i =>
      match rgbaBuffer[4 * q + i.val]? with
      | some y => Machine.IsNan y || !Machine.IsNan (Machine.index lut i y)
      | none => true))

/-! ## Tables with binary32 samples used in examples -/

/-- The three-sample LUT `y = x + 1/8` over the domain `[0, 1]`, the LUT of the unit test
`extrapolation_errors` with an offset that is a binary32 value. -/
def eighthLut : Lut1D :=
  { Lut1D.Create with
    maxerror := 1 / 2 ^ 17
    luts := fun _ => [1 / 8, 5 / 8, 9 / 8] }

/-- A three-sample LUT over the domain `[-2^127, 2^127]`, whose bounds are binary32 values
and whose width is not. -/
def wideLut : Lut1D :=
  { Lut1D.Create with
    from_min := fun _ => -(2 ^ 127)
    from_max := fun _ => 2 ^ 127
    luts := fun _ => [0, 1 / 2, 1] }

/-- The four-sample identity LUT over the domain `[0, 3]` scaled to `[0, 1]`: the samples
`0, 1, 2, 3`. -/
def fourLut : Lut1D :=
  { Lut1D.Create with luts := fun _ => [0, 1, 2, 3] }

/-- The two-sample LUT `[0, 1]` over the domain `[0, 41]`. -/
def fortyOneLut : Lut1D :=
  { Lut1D.Create with
    from_max := fun _ => 41
    luts := fun _ => [0, 1] }

/-- The two-sample LUT `[0, 1]` over the domain `[-7.5, 1.1f]`, where `1.1f` is the
binary32 value `9227469/2^23` nearest 1.1. -/
def offsetDomainLut : Lut1D :=
  { Lut1D.Create with
    from_min := fun _ => -(15 / 2)
    from_max := fun _ => 9227469 / 2 ^ 23
    luts := fun _ => [0, 1] }

/-- The two-sample LUT `[-2^127, 2^127]` over the domain `[0, 1]`: the difference of its
samples is not a binary32 value. -/
def wideSampleLut : Lut1D :=
  { Lut1D.Create with luts := fun _ => [-(2 ^ 127), 2 ^ 127] }

/-- The identity LUT of 14 samples `0, 1, ..., 13` over the domain `[0, 7]`. -/
def fourteenLut : Lut1D :=
  { Lut1D.Create with
    from_max := fun _ => 7
    luts := fun _ => (List.range 14).map (fun i => (i : ℚ)) }

/-- The LUT of 42 samples `0, 1, ..., 41` over the domain `[0, 1]`. -/
def fortyTwoLut : Lut1D :=
  { Lut1D.Create with luts := fun _ => (List.range 42).map (fun i => (i : ℚ)) }

/-- The identity LUT of 30 samples `0, 1, ..., 29` over the domain `[0, 1831]`. -/
def thirtyLut : Lut1D :=
  { Lut1D.Create with
    from_max := fun _ => 1831
    luts := fun _ => (List.range 30).map (fun i => (i : ℚ)) }

/-- The helpers the struct code calls whose bodies `Lut1DOp.cpp` does not contain, as
`Helpers`, with the tolerance comparisons over binary32 values: a comparison receives the
identity value, the LUT sample and the tolerance. -/
structure Machine.Helpers where
  EqualWithAbsError : Binary32 → Binary32 → Binary32 → Bool
  EqualWithRelError : Binary32 → Binary32 → Binary32 → Bool
  md5_finish : List ℚ → List ℕ
  GetPrintableHash : List ℕ → String

/-- The identity value `m*x+b` with `x = static_cast<float>(i) * inorm` and
`inorm = 1.0f / (static_cast<float>(size) - 1.0f)`, every operation in binary32.  For a
one-sample channel `inorm` is `1/0`, plus infinity, and `x = 0 * inorm` is NaN. -/
def Machine.identval (size : ℕ) (m b : Binary32) (i : ℕ) : Binary32 :=
  let inorm := Binary32.div (Binary32.fin 1)
    (Binary32.sub (Binary32.ofInt (size : ℤ)) (Binary32.fin 1))
  let x := Binary32.mul (Binary32.ofInt (i : ℤ)) inorm
  Binary32.add (Binary32.mul m x) b

/-- The inner loop of `IsLut1DNoOp` from sample `i` on, as `noOpSamples`. -/
def Machine.noOpSamples (H : Machine.Helpers) (maxerror : ℚ) (errortype : ErrorType)
    (size : ℕ) (m b : Binary32) : ℕ → List ℚ → Except String Bool
  | _, [] => Except.ok true
  | i, lutval :: rest =>
    match errortype with
    | ErrorType.ERROR_ABSOLUTE =>
      if !H.EqualWithAbsError (Machine.identval size m b i) (Binary32.fin lutval)
          (Binary32.fin maxerror) then Except.ok false
      else Machine.noOpSamples H maxerror errortype size m b (i + 1) rest
    | ErrorType.ERROR_RELATIVE =>
      if !H.EqualWithRelError (Machine.identval size m b i) (Binary32.fin lutval)
          (Binary32.fin maxerror) then Except.ok false
      else Machine.noOpSamples H maxerror errortype size m b (i + 1) rest
    | ErrorType.other _ => Except.error "Unknown error type."

/-- The body of the channel loop of `IsLut1DNoOp` for one channel; an empty channel is
skipped. -/
def Machine.noOpChannel (H : Machine.Helpers) (lut : Lut1D) (maxerror : ℚ)
    (errortype : ErrorType) (channel : Fin 3) : Except String Bool :=
  if (lut.luts channel).length = 0 then Except.ok true
  else
    let m := Binary32.sub (Binary32.fin (lut.from_max channel))
      (Binary32.fin (lut.from_min channel))
    let b := Binary32.fin (lut.from_min channel)
    Machine.noOpSamples H maxerror errortype (lut.luts channel).length m b 0
      (lut.luts channel)

/-- Source `IsLut1DNoOp`. -/
def Machine.IsLut1DNoOp (H : Machine.Helpers) (lut : Lut1D) (maxerror : ℚ)
    (errortype : ErrorType) : Except String Bool :=
  if ¬ (maxerror > 0) then Except.ok false
  else
    match Machine.noOpChannel H lut maxerror errortype 0 with
    | Except.error e => Except.error e
    | Except.ok false => Except.ok false
    | Except.ok true =>
      match Machine.noOpChannel H lut maxerror errortype 1 with
      | Except.error e => Except.error e
      | Except.ok false => Except.ok false
      | Except.ok true =>
        match Machine.noOpChannel H lut maxerror errortype 2 with
        | Except.error e => Except.error e
        | Except.ok false => Except.ok false
        | Except.ok true => Except.ok true

/-- Source `Lut1D::finalize`. -/
def Machine.finalize (H : Machine.Helpers) (l : Lut1D) : Except String Lut1D :=
  match Machine.IsLut1DNoOp H l l.maxerror l.errortype with
  | Except.error e => Except.error e
  | Except.ok true => Except.ok { l with m_isNoOp := true, m_cacheID := "<NULL 1D>" }
  | Except.ok false =>
    Except.ok { l with m_isNoOp := false,
                       m_cacheID := H.GetPrintableHash (H.md5_finish (hashInput l)) }

/-- Source `Lut1D::isNoOp`; returns the flag and the object after the call. -/
def Machine.isNoOp (H : Machine.Helpers) (l : Lut1D) : Except String (Bool × Lut1D) :=
  if l.luts 0 = [] ∨ l.luts 1 = [] ∨ l.luts 2 = [] then
    Except.error "Cannot compute noOp of invalid Lut1D"
  else if l.m_cacheID ≠ "" then Except.ok (l.m_isNoOp, l)
  else
    match Machine.finalize H l with
    | Except.error e => Except.error e
    | Except.ok l' => Except.ok (l'.m_isNoOp, l')

/-- The flag a call of `isNoOp` returns, when it returns one. -/
def Machine.noOpFlag (H : Machine.Helpers) (l : Lut1D) : Option Bool :=
  match Machine.isNoOp H l with
  | Except.ok r => some r.1
  | Except.error _ => none

/-- The test the code makes on one sample: the comparison helper of the declared
`errortype` on the identity value the code computes for index `i` of channel `c`, the
sample `s` and `maxerror`. -/
def Machine.sampleWithinTolerance (H : Machine.Helpers) (l : Lut1D) (c : Fin 3) (i : ℕ)
    (s : ℚ) : Bool :=
  match l.errortype with
  | ErrorType.ERROR_ABSOLUTE =>
    H.EqualWithAbsError
      (Machine.identval (l.luts c).length
        (Binary32.sub (Binary32.fin (l.from_max c)) (Binary32.fin (l.from_min c)))
        (Binary32.fin (l.from_min c)) i) (Binary32.fin s) (Binary32.fin l.maxerror)
  | ErrorType.ERROR_RELATIVE =>
    H.EqualWithRelError
      (Machine.identval (l.luts c).length
        (Binary32.sub (Binary32.fin (l.from_max c)) (Binary32.fin (l.from_min c)))
        (Binary32.fin (l.from_min c)) i) (Binary32.fin s) (Binary32.fin l.maxerror)
  | ErrorType.other _ => false

/-- The cached members agree with the content, as `Lut1D.CacheCurrent`: an object that
holds a cache ID holds what `finalize` computes from its present content. -/
def Machine.CacheCurrent (H : Machine.Helpers) (l : Lut1D) : Prop :=
  l.m_cacheID ≠ "" → Machine.finalize H l = Except.ok l

/-- The exact results of the operations that compute the identity value of index `i` of
channel `c`, each taken on the exact results of the ones before it: the width `m`, the
converted size and index, `size - 1`, `inorm`, `x`, `m * x` and `m * x + b`. -/
def Machine.identvalOps (l : Lut1D) (c : Fin 3) (i : ℕ) : List ℚ :=
  let m := l.from_max c - l.from_min c
  let size : ℚ := ((l.luts c).length : ℚ)
  let inorm := 1 / (size - 1)
  let x := (i : ℚ) * inorm
  [m, size, (i : ℚ), size - 1, inorm, x, m * x, m * x + l.from_min c]

/-- The comparison `a <= b` of two `float` values; it is false when one of them is NaN. -/
def Binary32.le : Binary32 → Binary32 → Bool
  | Binary32.nan, _ => false
  | _, Binary32.nan => false
  | Binary32.inf s, Binary32.inf t => s || !t
  | Binary32.inf s, Binary32.fin _ => s
  | Binary32.fin _, Binary32.inf t => !t
  | Binary32.fin x, Binary32.fin y => decide (x ≤ y)

/-- The negation `-a` of a `float` value. -/
def Binary32.neg : Binary32 → Binary32
  | Binary32.nan => Binary32.nan
  | Binary32.inf s => Binary32.inf (!s)
  | Binary32.fin x => Binary32.fin (-x)

/-- Modelled from the spec: the tolerance test for `ERROR_ABSOLUTE`, `EqualWithAbsError`
of `MathUtils.h`, whose body `Lut1DOp.cpp` does not contain, in binary32:
`((x1 > x2) ? x1 - x2 : x2 - x1) <= e`. -/
def Machine.withinAbsError (x1 x2 e : Binary32) : Bool :=
  Binary32.le (if Binary32.lt x2 x1 then Binary32.sub x1 x2 else Binary32.sub x2 x1) e

/-- Modelled from the spec: the tolerance test for `ERROR_RELATIVE`, `EqualWithRelError`
of `MathUtils.h`, whose body `Lut1DOp.cpp` does not contain, in binary32:
`((x1 > x2) ? x1 - x2 : x2 - x1) <= e * ((x1 > 0) ? x1 : -x1)`. -/
def Machine.withinRelError (x1 x2 e : Binary32) : Bool :=
  Binary32.le (if Binary32.lt x2 x1 then Binary32.sub x1 x2 else Binary32.sub x2 x1)
    (Binary32.mul e (if Binary32.lt (Binary32.fin 0) x1 then x1 else Binary32.neg x1))

/-- The helpers used in concrete examples in binary32. -/
def Machine.exampleHelpers : Machine.Helpers :=
  { EqualWithAbsError := Machine.withinAbsError
    EqualWithRelError := Machine.withinRelError
    md5_finish := exampleDigest
    GetPrintableHash := examplePrintable }

/-- The four-sample LUT `[0, 1/3, 2/3, 1]` with its two middle samples rounded to
binary32, `11184811/2^25` and `11184811/2^24`, and the absolute tolerance `2^-30`. -/
def thirdsLut : Lut1D :=
  { Lut1D.Create with
    maxerror := 1 / 2 ^ 30
    errortype := ErrorType.ERROR_ABSOLUTE
    luts := fun _ => [0, 11184811 / 2 ^ 25, 11184811 / 2 ^ 24, 1] }

/-- The two-sample LUT `[from_min, from_max]` over the domain `[-7.5, 1.1f]`, with the
absolute tolerance `2^-24`. -/
def offsetIdentityLut : Lut1D :=
  { Lut1D.Create with
    maxerror := 1 / 2 ^ 24
    errortype := ErrorType.ERROR_ABSOLUTE
    from_min := fun _ => -(15 / 2)
    from_max := fun _ => 9227469 / 2 ^ 23
    luts := fun _ => [-(15 / 2), 9227469 / 2 ^ 23] }

/-! ## The pixel loop -/

theorem applyChannel_nan (f : ℚ → Option ℚ) : applyChannel f CFloat.nan = some CFloat.nan :=
  rfl

theorem getElem?_cons4 {α : Type} (a b c d : α) (l : List α) (i : ℕ) :
    (a :: b :: c :: d :: l)[i + 4]? = l[i]? := by
  simp [List.getElem?_cons_succ]

theorem lower_bound_loop_le (lut : List ℚ) (v : ℚ) :
    ∀ (fuel first len : ℕ), first + len ≤ lut.length →
      first ≤ lower_bound_loop lut v fuel first len ∧
      lower_bound_loop lut v fuel first len ≤ first + len
  | 0, first, len, _ => by simp [lower_bound_loop]
  | fuel + 1, first, len, h => by
    unfold lower_bound_loop
    by_cases hlen : len = 0
    · simp [hlen]
    · simp only [hlen, if_false]
      have hmid : first + len / 2 < lut.length := by omega
      rw [List.getElem?_eq_getElem hmid]
      simp only []
      split
      · have ih := lower_bound_loop_le lut v fuel (first + len / 2 + 1) (len - len / 2 - 1)
          (by omega)
        omega
      · have ih := lower_bound_loop_le lut v fuel first (len / 2) (by omega)
        omega

theorem lower_bound_le (lut : List ℚ) (v : ℚ) : lower_bound lut v ≤ lut.length := by
  have h := lower_bound_loop_le lut v lut.length 0 lut.length (by omega)
  simpa [lower_bound] using h.2

theorem lower_bound_loop_eq (lut : List ℚ) (v : ℚ) (k : ℕ)
    (hlow : ∀ i (hi : i < lut.length), i < k → lut[i] < v)
    (hhigh : ∀ i (hi : i < lut.length), k ≤ i → ¬ lut[i] < v) :
    ∀ (fuel first len : ℕ), first + len ≤ lut.length → len ≤ fuel →
      first ≤ k → k ≤ first + len → lower_bound_loop lut v fuel first len = k
  | 0, first, len, _, hf, h1, h2 => by
    simp only [lower_bound_loop]; omega
  | fuel + 1, first, len, h, hf, h1, h2 => by
    unfold lower_bound_loop
    by_cases hlen : len = 0
    · simp only [hlen, if_true]; omega
    · simp only [hlen, if_false]
      have hmid : first + len / 2 < lut.length := by omega
      rw [List.getElem?_eq_getElem hmid]
      simp only []
      split
      · rename_i hlt
        have hk : first + len / 2 < k := by
          by_contra hc
          exact hhigh _ hmid (by omega) hlt
        exact lower_bound_loop_eq lut v k hlow hhigh fuel _ _ (by omega) (by omega)
          (by omega) (by omega)
      · rename_i hnlt
        have hk : k ≤ first + len / 2 := by
          by_contra hc
          exact hnlt (hlow _ hmid (by omega))
        exact lower_bound_loop_eq lut v k hlow hhigh fuel _ _ (by omega) (by omega)
          (by omega) (by omega)

theorem lower_bound_eq (lut : List ℚ) (v : ℚ) (k : ℕ) (hk : k ≤ lut.length)
    (hlow : ∀ i (hi : i < lut.length), i < k → lut[i] < v)
    (hhigh : ∀ i (hi : i < lut.length), k ≤ i → ¬ lut[i] < v) :
    lower_bound lut v = k :=
  lower_bound_loop_eq lut v k hlow hhigh lut.length 0 lut.length (by omega) le_rfl
    (Nat.zero_le k) (by omega)

/-! ## Rounding, clamping and reads -/

theorem roundf_of_nonneg {x : ℚ} (hx : 0 ≤ x) : roundf x = (round x : ℤ) := by
  simp only [roundf, if_pos hx, round_eq]

theorem static_cast_int_intCast (z : ℤ) : static_cast_int (z : ℚ) = z := by
  unfold static_cast_int
  split <;> simp

theorem clamp_eq_round (k maxVal : ℚ) :
    clamp k 0 maxVal = round (max (min k maxVal) 0) := by
  unfold clamp
  rw [roundf_of_nonneg (le_max_right _ _), static_cast_int_intCast]

theorem clamp_intCast (z m : ℤ) : clamp (z : ℚ) 0 (m : ℚ) = max (min z m) 0 := by
  rw [clamp_eq_round]
  have : max (min (z : ℚ) (m : ℚ)) 0 = ((max (min z m) 0 : ℤ) : ℚ) := by push_cast; rfl
  rw [this, round_intCast]

theorem sizeMinusOne_of_pos {v : List ℚ} (h : 1 ≤ v.length) :
    sizeMinusOne v = ((v.length - 1 : ℕ) : ℚ) := by
  unfold sizeMinusOne
  rw [if_neg (by omega)]

theorem sizeMinusOne_eq_intCast {v : List ℚ} (h : 1 ≤ v.length) :
    sizeMinusOne v = (((v.length : ℤ) - 1 : ℤ) : ℚ) := by
  rw [sizeMinusOne_of_pos h]
  push_cast [Nat.cast_sub h]
  ring

theorem readAt_of_lt (lut : List ℚ) (k : ℤ) (h0 : 0 ≤ k) (h1 : k < lut.length) :
    readAt lut k = lut[k.toNat]? ∧ (readAt lut k).isSome := by
  unfold readAt
  rw [if_pos h0]
  refine ⟨rfl, ?_⟩
  rw [List.getElem?_eq_getElem (by omega)]
  rfl

theorem round_clamp_bounds (t : ℚ) (m : ℤ) (hm : 0 ≤ m) :
    0 ≤ round (max (min t (m : ℚ)) 0) ∧ round (max (min t (m : ℚ)) 0) ≤ m := by
  constructor
  · rw [round_eq]
    apply Int.floor_nonneg.mpr
    have : (0 : ℚ) ≤ max (min t (m : ℚ)) 0 := le_max_right _ _
    linarith
  · rw [round_eq]
    have h1 : max (min t (m : ℚ)) 0 ≤ (m : ℚ) := by
      apply max_le (min_le_right _ _)
      exact_mod_cast hm
    have : ⌊max (min t (m : ℚ)) 0 + 1 / 2⌋ < m + 1 := by
      rw [Int.floor_lt]
      push_cast
      linarith
    omega

/-! ## The lookups on a non-empty table -/

theorem lookupLinear_1D_eq (t : ℚ) (lut : List ℚ) (hN : 1 ≤ lut.length) :
    ∃ lo hi : ℚ,
      lut[(max (min ⌊t⌋ ((lut.length : ℤ) - 1)) 0).toNat]? = some lo ∧
      lut[(max (min ⌈t⌉ ((lut.length : ℤ) - 1)) 0).toNat]? = some hi ∧
      lookupLinear_1D t (sizeMinusOne lut) lut
        = some (lo + (t - ((max (min ⌊t⌋ ((lut.length : ℤ) - 1)) 0 : ℤ) : ℚ)) * (hi - lo)) := by
  have h1 : (max (min ⌊t⌋ ((lut.length : ℤ) - 1)) 0).toNat < lut.length := by omega
  have h2 : (max (min ⌈t⌉ ((lut.length : ℤ) - 1)) 0).toNat < lut.length := by omega
  refine ⟨lut[(max (min ⌊t⌋ ((lut.length : ℤ) - 1)) 0).toNat],
    lut[(max (min ⌈t⌉ ((lut.length : ℤ) - 1)) 0).toNat],
    List.getElem?_eq_getElem h1, List.getElem?_eq_getElem h2, ?_⟩
  unfold lookupLinear_1D
  simp only [sizeMinusOne_eq_intCast hN, clamp_intCast]
  rw [(readAt_of_lt lut (max (min ⌊t⌋ ((lut.length : ℤ) - 1)) 0)
        (le_max_right _ _) (by omega)).1,
      (readAt_of_lt lut (max (min ⌈t⌉ ((lut.length : ℤ) - 1)) 0)
        (le_max_right _ _) (by omega)).1,
      List.getElem?_eq_getElem h1, List.getElem?_eq_getElem h2]

theorem bracket_bounds (lut : List ℚ) (v : ℚ) (hN : 1 ≤ lut.length) :
    0 ≤ (bracket lut v).1 ∧ (bracket lut v).1 ≤ (bracket lut v).2 ∧
      (bracket lut v).2 < lut.length := by
  have h := lower_bound_le lut v
  simp only [bracket]
  split_ifs <;> omega

theorem kernel_index_eq (lut : Lut1D) (c : Fin 3) (x : ℚ) (hN : 1 ≤ (lut.luts c).length) :
    1 / (lut.from_max c - lut.from_min c) * sizeMinusOne (lut.luts c) * (x - lut.from_min c)
      = normalizedIndex lut c x := by
  rw [sizeMinusOne_eq_intCast hN]
  unfold normalizedIndex
  push_cast
  ring

theorem Lut1D_Nearest_channel_eq (lut : Lut1D) (c : Fin 3) (x : ℚ)
    (hN : 1 ≤ (lut.luts c).length) :
    Lut1D_Nearest_channel lut c x = lookupNearest_1D (normalizedIndex lut c x)
      (sizeMinusOne (lut.luts c)) (lut.luts c) := by
  unfold Lut1D_Nearest_channel
  simp only [kernel_index_eq lut c x hN]

theorem Lut1D_Linear_channel_eq (lut : Lut1D) (c : Fin 3) (x : ℚ)
    (hN : 1 ≤ (lut.luts c).length) :
    Lut1D_Linear_channel lut c x = lookupLinear_1D (normalizedIndex lut c x)
      (sizeMinusOne (lut.luts c)) (lut.luts c) := by
  unfold Lut1D_Linear_channel
  simp only [kernel_index_eq lut c x hN]

theorem normalizedIndex_nonpos (lut : Lut1D) (c : Fin 3) (x : ℚ)
    (hN : 1 ≤ (lut.luts c).length) (hdom : lut.from_min c < lut.from_max c)
    (hx : x ≤ lut.from_min c) : normalizedIndex lut c x ≤ 0 := by
  unfold normalizedIndex
  have h1 : (x - lut.from_min c) / (lut.from_max c - lut.from_min c) ≤ 0 :=
    div_nonpos_of_nonpos_of_nonneg (by linarith) (by linarith)
  have h2 : (0 : ℚ) ≤ ((lut.luts c).length : ℚ) - 1 := by
    have : (1 : ℚ) ≤ ((lut.luts c).length : ℚ) := by exact_mod_cast hN
    linarith
  exact mul_nonpos_of_nonpos_of_nonneg h1 h2

theorem normalizedIndex_ge (lut : Lut1D) (c : Fin 3) (x : ℚ)
    (hN : 1 ≤ (lut.luts c).length) (hdom : lut.from_min c < lut.from_max c)
    (hx : lut.from_max c ≤ x) :
    ((lut.luts c).length : ℚ) - 1 ≤ normalizedIndex lut c x := by
  unfold normalizedIndex
  have h1 : 1 ≤ (x - lut.from_min c) / (lut.from_max c - lut.from_min c) := by
    rw [le_div_iff₀ (by linarith)]
    linarith
  have h2 : (0 : ℚ) ≤ ((lut.luts c).length : ℚ) - 1 := by
    have : (1 : ℚ) ≤ ((lut.luts c).length : ℚ) := by exact_mod_cast hN
    linarith
  nlinarith

theorem clamped_floor_ceil_of_nonpos (t : ℚ) (n : ℤ) (ht : t ≤ 0) :
    max (min ⌊t⌋ n) 0 = 0 ∧ max (min ⌈t⌉ n) 0 = 0 := by
  have h1 : ⌊t⌋ ≤ 0 := by
    have : ⌊t⌋ ≤ ⌊(0 : ℚ)⌋ := Int.floor_mono ht
    simpa using this
  have h2 : ⌈t⌉ ≤ 0 := by
    have : ⌈t⌉ ≤ ⌈(0 : ℚ)⌉ := Int.ceil_mono ht
    simpa using this
  omega

theorem clamped_floor_ceil_of_ge (t : ℚ) (n : ℤ) (hn : 0 ≤ n) (ht : (n : ℚ) ≤ t) :
    max (min ⌊t⌋ n) 0 = n ∧ max (min ⌈t⌉ n) 0 = n := by
  have h1 : n ≤ ⌊t⌋ := Int.le_floor.mpr ht
  have h2 : n ≤ ⌈t⌉ := le_trans h1 (Int.floor_le_ceil t)
  omega

/-! ## The inverse linear lookup on a strictly increasing table -/

theorem bracket_of_lower_bound_pos (lut : List ℚ) (v : ℚ) (j : ℕ)
    (hlb : lower_bound lut v = j) (hj1 : 1 ≤ j) (hjN : j < lut.length) :
    bracket lut v = (((j - 1 : ℕ) : ℤ), (j : ℤ)) := by
  simp only [bracket, hlb]
  have h1 : ((j : ℤ) ≠ 0) := by omega
  rw [if_pos h1]
  have h2 : (j : ℤ) - 1 < (lut.length : ℤ) - 1 := by omega
  rw [if_pos h2]
  refine Prod.ext ?_ ?_ <;> (simp only []; omega)

theorem bracket_of_lower_bound_zero (lut : List ℚ) (v : ℚ)
    (hlb : lower_bound lut v = 0) (hN : 2 ≤ lut.length) :
    bracket lut v = ((0 : ℤ), (1 : ℤ)) := by
  simp only [bracket, hlb]
  have h2 : ((0 : ℕ) : ℤ) < (lut.length : ℤ) - 1 := by omega
  simp only [Nat.cast_zero, ne_eq, not_true_eq_false, if_false] at h2 ⊢
  rw [if_pos h2]
  simp

/-- The channel functions of `Lut1D_Nearest`, `Lut1D_Linear` and `Lut1D_NearestInverse`
read the domain and the samples of their own channel only; the channel function of
`Lut1D_LinearInverse` reads in addition the sample count of channel 0. -/
theorem channel_functions_own_data (a b : Lut1D) (c : Fin 3) (x : ℚ)
    (h1 : a.from_min c = b.from_min c) (h2 : a.from_max c = b.from_max c)
    (h3 : a.luts c = b.luts c) :
    Lut1D_Nearest_channel a c x = Lut1D_Nearest_channel b c x ∧
    Lut1D_Linear_channel a c x = Lut1D_Linear_channel b c x ∧
    Lut1D_NearestInverse_channel a c x = Lut1D_NearestInverse_channel b c x ∧
    ((a.luts 0).length = (b.luts 0).length →
      Lut1D_LinearInverse_channel a c x = Lut1D_LinearInverse_channel b c x) := by
  refine ⟨?_, ?_, ?_, ?_⟩
  · simp only [Lut1D_Nearest_channel, h1, h2, h3]
  · simp only [Lut1D_Linear_channel, h1, h2, h3]
  · simp only [Lut1D_NearestInverse_channel, h1, h2, h3]
  · intro h0
    simp only [Lut1D_LinearInverse_channel, sizeMinusOne, h0, h1, h2, h3]


/-! ## No-op detection -/

theorem identval_eq_identityValue (l : Lut1D) (c : Fin 3) (i : ℕ)
    (hN : 2 ≤ (l.luts c).length) :
    identval (l.luts c).length (l.from_max c - l.from_min c) (l.from_min c) i
      = CFloat.num (l.identityValue c i) := by
  have h : ((l.luts c).length : ℚ) - 1 ≠ 0 := by
    have : (2 : ℚ) ≤ ((l.luts c).length : ℚ) := by exact_mod_cast hN
    linarith
  unfold identval Lut1D.identityValue
  rw [if_neg h]
  show CFloat.num _ = CFloat.num _
  congr 1
  ring

theorem noOpSamples_all (H : Helpers) (l : Lut1D) (c : Fin 3)
    (htype : l.errortype = ErrorType.ERROR_ABSOLUTE ∨ l.errortype = ErrorType.ERROR_RELATIVE) :
    ∀ (samples : List ℚ) (i0 : ℕ),
      (∀ k s, samples[k]? = some s → l.sampleWithinTolerance H c (i0 + k) s = true) →
      noOpSamples H l.maxerror l.errortype (l.luts c).length
        (l.from_max c - l.from_min c) (l.from_min c) i0 samples = Except.ok true
  | [], _, _ => by simp [noOpSamples]
  | s :: rest, i0, h => by
    have h0 := h 0 s (by simp)
    have ih := noOpSamples_all H l c htype rest (i0 + 1) (fun k s' hk => by
      have := h (k + 1) s' (by simpa using hk)
      rwa [show i0 + (k + 1) = i0 + 1 + k by ring] at this)
    rcases htype with ht | ht
    · simp only [Lut1D.sampleWithinTolerance, ht, Nat.add_zero] at h0
      rw [ht] at ih
      simp [noOpSamples, ht, h0, ih]
    · simp only [Lut1D.sampleWithinTolerance, ht, Nat.add_zero] at h0
      rw [ht] at ih
      simp [noOpSamples, ht, h0, ih]

theorem noOpSamples_some (H : Helpers) (l : Lut1D) (c : Fin 3)
    (htype : l.errortype = ErrorType.ERROR_ABSOLUTE ∨ l.errortype = ErrorType.ERROR_RELATIVE) :
    ∀ (samples : List ℚ) (i0 : ℕ),
      (∃ k s, samples[k]? = some s ∧ l.sampleWithinTolerance H c (i0 + k) s = false) →
      noOpSamples H l.maxerror l.errortype (l.luts c).length
        (l.from_max c - l.from_min c) (l.from_min c) i0 samples = Except.ok false
  | [], _, h => by
    obtain ⟨k, s, hk, -⟩ := h
    simp at hk
  | s :: rest, i0, h => by
    obtain ⟨k, s', hk, hbad⟩ := h
    by_cases hfirst : l.sampleWithinTolerance H c i0 s = true
    · have hk0 : k ≠ 0 := by
        rintro rfl
        simp only [List.getElem?_cons_zero, Option.some.injEq] at hk
        subst hk
        rw [Nat.add_zero, hfirst] at hbad
        exact Bool.noConfusion hbad
      obtain ⟨k', rfl⟩ := Nat.exists_eq_succ_of_ne_zero hk0
      have ih := noOpSamples_some H l c htype rest (i0 + 1) ⟨k', s', by simpa using hk, by
        rwa [show i0 + (k' + 1) = i0 + 1 + k' by ring] at hbad⟩
      rcases htype with ht | ht
      · simp only [Lut1D.sampleWithinTolerance, ht] at hfirst
        rw [ht] at ih
        simp [noOpSamples, ht, hfirst, ih]
      · simp only [Lut1D.sampleWithinTolerance, ht] at hfirst
        rw [ht] at ih
        simp [noOpSamples, ht, hfirst, ih]
    · rcases htype with ht | ht
      · simp only [Lut1D.sampleWithinTolerance, ht] at hfirst
        simp [noOpSamples, ht, hfirst]
      · simp only [Lut1D.sampleWithinTolerance, ht] at hfirst
        simp [noOpSamples, ht, hfirst]

theorem noOpSamples_ok (H : Helpers) (maxerror : ℚ) (errortype : ErrorType) (size : ℕ)
    (m b : ℚ)
    (htype : errortype = ErrorType.ERROR_ABSOLUTE ∨ errortype = ErrorType.ERROR_RELATIVE) :
    ∀ (samples : List ℚ) (i0 : ℕ),
      ∃ r, noOpSamples H maxerror errortype size m b i0 samples = Except.ok r
  | [], _ => ⟨true, by simp [noOpSamples]⟩
  | s :: rest, i0 => by
    obtain ⟨r, hr⟩ := noOpSamples_ok H maxerror errortype size m b htype rest (i0 + 1)
    rcases htype with ht | ht
    · subst ht
      by_cases h : H.EqualWithAbsError (identval size m b i0) s maxerror = true
      · exact ⟨r, by simp [noOpSamples, h, hr]⟩
      · exact ⟨false, by simp [noOpSamples, h]⟩
    · subst ht
      by_cases h : H.EqualWithRelError (identval size m b i0) s maxerror = true
      · exact ⟨r, by simp [noOpSamples, h, hr]⟩
      · exact ⟨false, by simp [noOpSamples, h]⟩

theorem noOpChannel_ok (H : Helpers) (l : Lut1D) (maxerror : ℚ) (errortype : ErrorType)
    (c : Fin 3)
    (htype : errortype = ErrorType.ERROR_ABSOLUTE ∨ errortype = ErrorType.ERROR_RELATIVE) :
    ∃ r, noOpChannel H l maxerror errortype c = Except.ok r := by
  unfold noOpChannel
  split
  · exact ⟨true, rfl⟩
  · exact noOpSamples_ok H maxerror errortype _ _ _ htype _ 0

theorem noOpChannel_all (H : Helpers) (l : Lut1D) (c : Fin 3)
    (htype : l.errortype = ErrorType.ERROR_ABSOLUTE ∨ l.errortype = ErrorType.ERROR_RELATIVE)
    (h : ∀ i s, (l.luts c)[i]? = some s → l.sampleWithinTolerance H c i s = true) :
    noOpChannel H l l.maxerror l.errortype c = Except.ok true := by
  unfold noOpChannel
  split
  · rfl
  · exact noOpSamples_all H l c htype (l.luts c) 0 (fun k s hk => by
      rw [Nat.zero_add]; exact h k s hk)

theorem noOpChannel_some (H : Helpers) (l : Lut1D) (c : Fin 3)
    (htype : l.errortype = ErrorType.ERROR_ABSOLUTE ∨ l.errortype = ErrorType.ERROR_RELATIVE)
    (h : ∃ i s, (l.luts c)[i]? = some s ∧ l.sampleWithinTolerance H c i s = false) :
    noOpChannel H l l.maxerror l.errortype c = Except.ok false := by
  obtain ⟨i, s, hi, hbad⟩ := h
  unfold noOpChannel
  split
  · rename_i hlen
    rw [List.length_eq_zero] at hlen
    rw [hlen] at hi
    simp at hi
  · exact noOpSamples_some H l c htype (l.luts c) 0 ⟨i, s, hi, by rw [Nat.zero_add]; exact hbad⟩

/-- With a positive tolerance and a known error type, `IsLut1DNoOp` answers `true` when
every sample passes its test. -/
theorem IsLut1DNoOp_all (H : Helpers) (l : Lut1D) (hpos : 0 < l.maxerror)
    (htype : l.errortype = ErrorType.ERROR_ABSOLUTE ∨ l.errortype = ErrorType.ERROR_RELATIVE)
    (h : ∀ c i s, (l.luts c)[i]? = some s → l.sampleWithinTolerance H c i s = true) :
    IsLut1DNoOp H l l.maxerror l.errortype = Except.ok true := by
  unfold IsLut1DNoOp
  rw [if_neg (by simpa using hpos)]
  simp only [noOpChannel_all H l 0 htype (h 0), noOpChannel_all H l 1 htype (h 1),
    noOpChannel_all H l 2 htype (h 2)]

/-- With a known error type, `IsLut1DNoOp` answers `false` when some sample fails its
test. -/
theorem IsLut1DNoOp_some (H : Helpers) (l : Lut1D)
    (htype : l.errortype = ErrorType.ERROR_ABSOLUTE ∨ l.errortype = ErrorType.ERROR_RELATIVE)
    (h : ∃ c i s, (l.luts c)[i]? = some s ∧ l.sampleWithinTolerance H c i s = false) :
    IsLut1DNoOp H l l.maxerror l.errortype = Except.ok false := by
  obtain ⟨c, i, s, hi, hbad⟩ := h
  unfold IsLut1DNoOp
  split
  · rfl
  · obtain ⟨r0, h0⟩ := noOpChannel_ok H l l.maxerror l.errortype 0 htype
    obtain ⟨r1, h1⟩ := noOpChannel_ok H l l.maxerror l.errortype 1 htype
    obtain ⟨r2, h2⟩ := noOpChannel_ok H l l.maxerror l.errortype 2 htype
    have hc := noOpChannel_some H l c htype ⟨i, s, hi, hbad⟩
    fin_cases c
    · simp only [Fin.zero_eta] at hc
      simp [hc]
    · simp only [Fin.mk_one] at hc
      rw [h0, hc]
      cases r0 <;> simp
    · have hc' : noOpChannel H l l.maxerror l.errortype 2 = Except.ok false := hc
      rw [h0, h1, hc']
      cases r0 <;> cases r1 <;> simp

/-- With a known error type or a tolerance that is not positive, `IsLut1DNoOp` returns. -/
theorem IsLut1DNoOp_ok (H : Helpers) (l : Lut1D)
    (htype : l.errortype = ErrorType.ERROR_ABSOLUTE ∨ l.errortype = ErrorType.ERROR_RELATIVE) :
    ∃ r, IsLut1DNoOp H l l.maxerror l.errortype = Except.ok r := by
  unfold IsLut1DNoOp
  split
  · exact ⟨false, rfl⟩
  · obtain ⟨r0, h0⟩ := noOpChannel_ok H l l.maxerror l.errortype 0 htype
    obtain ⟨r1, h1⟩ := noOpChannel_ok H l l.maxerror l.errortype 1 htype
    obtain ⟨r2, h2⟩ := noOpChannel_ok H l l.maxerror l.errortype 2 htype
    rw [h0, h1, h2]
    cases r0 <;> cases r1 <;> cases r2 <;> simp


/-! ## Finalization and the cache ID -/

/-- The no-op test reads the content of the LUT only, not the cached members. -/
theorem IsLut1DNoOp_congr (H : Helpers) (l₁ l₂ : Lut1D) (maxerror : ℚ) (errortype : ErrorType)
    (h1 : l₁.from_min = l₂.from_min) (h2 : l₁.from_max = l₂.from_max)
    (h3 : l₁.luts = l₂.luts) :
    IsLut1DNoOp H l₁ maxerror errortype = IsLut1DNoOp H l₂ maxerror errortype := by
  simp only [IsLut1DNoOp, noOpChannel, h1, h2, h3]

theorem hashInput_congr (l₁ l₂ : Lut1D)
    (h1 : l₁.from_min = l₂.from_min) (h2 : l₁.from_max = l₂.from_max)
    (h3 : l₁.luts = l₂.luts) : hashInput l₁ = hashInput l₂ := by
  simp only [hashInput, h1, h2, h3]

/-- What `finalize` returns, by the answer of the no-op test. -/
theorem finalize_cases (H : Helpers) (l : Lut1D) :
    (∃ e, IsLut1DNoOp H l l.maxerror l.errortype = Except.error e ∧
      l.finalize H = Except.error e) ∨
    (IsLut1DNoOp H l l.maxerror l.errortype = Except.ok true ∧
      l.finalize H = Except.ok { l with m_isNoOp := true, m_cacheID := "<NULL 1D>" }) ∨
    (IsLut1DNoOp H l l.maxerror l.errortype = Except.ok false ∧
      l.finalize H = Except.ok { l with
        m_isNoOp := false
        m_cacheID := H.GetPrintableHash (H.md5_finish (hashInput l)) }) := by
  unfold Lut1D.finalize
  rcases h : IsLut1DNoOp H l l.maxerror l.errortype with e | b
  · exact Or.inl ⟨e, rfl, rfl⟩
  · cases b
    · exact Or.inr (Or.inr ⟨rfl, rfl⟩)
    · exact Or.inr (Or.inl ⟨rfl, rfl⟩)

/-- Finalizing does not depend on what was cached before. -/
theorem finalize_congr (H : Helpers) (l : Lut1D) (id' : String) (flag : Bool) :
    Lut1D.finalize H { l with m_cacheID := id', m_isNoOp := flag } = l.finalize H := by
  unfold Lut1D.finalize
  have h : IsLut1DNoOp H { l with m_cacheID := id', m_isNoOp := flag } l.maxerror l.errortype
      = IsLut1DNoOp H l l.maxerror l.errortype := IsLut1DNoOp_congr H _ _ _ _ rfl rfl rfl
  show (match IsLut1DNoOp H { l with m_cacheID := id', m_isNoOp := flag } l.maxerror
      l.errortype with
    | Except.error e => Except.error e
    | Except.ok true => Except.ok _
    | Except.ok false => Except.ok _) = _
  rw [h]
  rfl

/-- The result of `finalize` is a fixed point of `finalize`. -/
theorem finalize_idem (H : Helpers) (l l' : Lut1D) (h : l.finalize H = Except.ok l') :
    l'.finalize H = Except.ok l' := by
  rcases finalize_cases H l with ⟨e, -, he⟩ | ⟨-, hf⟩ | ⟨-, hf⟩
  · rw [he] at h; exact Except.noConfusion h
  · rw [hf] at h
    have := Except.ok.inj h
    subst this
    rw [finalize_congr]
    exact hf
  · rw [hf] at h
    have := Except.ok.inj h
    subst this
    rw [finalize_congr]
    exact hf

theorem finalize_unfinalize (H : Helpers) (l : Lut1D) :
    l.unfinalize.finalize H = l.finalize H :=
  finalize_congr H l "" false

theorem CacheCurrent_of_unfinalized (H : Helpers) (l : Lut1D) (h : l.m_cacheID = "") :
    l.CacheCurrent H := fun hne => absurd h hne

theorem CacheCurrent_unfinalize (H : Helpers) (l : Lut1D) : l.unfinalize.CacheCurrent H :=
  CacheCurrent_of_unfinalized H _ rfl

theorem CacheCurrent_of_finalize (H : Helpers) (l l' : Lut1D)
    (h : l.finalize H = Except.ok l') : l'.CacheCurrent H :=
  fun _ => finalize_idem H l l' h

/-- On a valid object whose cache is current, `getCacheID` returns what `finalize`
computes. -/
theorem getCacheID_of_current (H : Helpers) (l : Lut1D) (hvalid : ∀ c, l.luts c ≠ [])
    (hcur : l.CacheCurrent H) :
    l.getCacheID H = match l.finalize H with
      | Except.error e => Except.error e
      | Except.ok l' => Except.ok (l'.m_cacheID, l') := by
  unfold Lut1D.getCacheID
  rw [if_neg (by simp [hvalid 0, hvalid 1, hvalid 2])]
  by_cases h : l.m_cacheID = ""
  · rw [if_neg (by simpa using h)]
  · rw [if_pos h, hcur h]

/-- On a valid object whose cache is current, `isNoOp` returns what `finalize`
computes. -/
theorem isNoOp_of_current (H : Helpers) (l : Lut1D) (hvalid : ∀ c, l.luts c ≠ [])
    (hcur : l.CacheCurrent H) :
    l.isNoOp H = match l.finalize H with
      | Except.error e => Except.error e
      | Except.ok l' => Except.ok (l'.m_isNoOp, l') := by
  unfold Lut1D.isNoOp
  rw [if_neg (by simp [hvalid 0, hvalid 1, hvalid 2])]
  by_cases h : l.m_cacheID = ""
  · rw [if_neg (by simpa using h)]
  · rw [if_pos h, hcur h]


/-- The flag `isNoOp` returns on a valid object whose cache is current. -/
theorem noOpFlag_of_current (H : Helpers) (l : Lut1D) (hvalid : ∀ c, l.luts c ≠ [])
    (hcur : l.CacheCurrent H) :
    l.noOpFlag H = match IsLut1DNoOp H l l.maxerror l.errortype with
      | Except.error _ => none
      | Except.ok b => some b := by
  unfold Lut1D.noOpFlag
  rw [isNoOp_of_current H l hvalid hcur]
  rcases finalize_cases H l with ⟨e, h1, h2⟩ | ⟨h1, h2⟩ | ⟨h1, h2⟩ <;> rw [h1, h2]

/-- The string `getCacheID` returns on a valid object whose cache is current. -/
theorem cacheIDString_of_current (H : Helpers) (l : Lut1D) (hvalid : ∀ c, l.luts c ≠ [])
    (hcur : l.CacheCurrent H) :
    l.cacheIDString H = match IsLut1DNoOp H l l.maxerror l.errortype with
      | Except.error _ => none
      | Except.ok true => some "<NULL 1D>"
      | Except.ok false => some (H.GetPrintableHash (H.md5_finish (hashInput l))) := by
  unfold Lut1D.cacheIDString
  rw [getCacheID_of_current H l hvalid hcur]
  rcases finalize_cases H l with ⟨e, h1, h2⟩ | ⟨h1, h2⟩ | ⟨h1, h2⟩ <;> rw [h1, h2]

/-- Two LUTs with channels of equal lengths that feed the same floats to MD5 have the
same samples. -/
theorem luts_eq_of_hashInput_eq (a b : Lut1D)
    (hlen : ∀ c, (a.luts c).length = (b.luts c).length)
    (h : hashInput a = hashInput b) : ∀ c, a.luts c = b.luts c := by
  unfold hashInput at h
  obtain ⟨h01, h2⟩ := List.append_inj' h (hlen 2)
  obtain ⟨h0, h1⟩ := List.append_inj' h01 (hlen 1)
  obtain ⟨-, h0'⟩ := List.append_inj' h0 (hlen 0)
  intro c
  fin_cases c
  · exact h0'
  · exact h1
  · exact h2


/-- The object `finalize` returns has the content of the object it was given. -/
theorem finalize_content (H : Helpers) (l l' : Lut1D) (h : l.finalize H = Except.ok l') :
    l'.luts = l.luts ∧ l'.from_min = l.from_min ∧ l'.from_max = l.from_max ∧
      l'.maxerror = l.maxerror ∧ l'.errortype = l.errortype := by
  rcases finalize_cases H l with ⟨e, -, he⟩ | ⟨-, hf⟩ | ⟨-, hf⟩
  · rw [he] at h; exact Except.noConfusion h
  · rw [hf] at h
    have := Except.ok.inj h
    subst this
    exact ⟨rfl, rfl, rfl, rfl, rfl⟩
  · rw [hf] at h
    have := Except.ok.inj h
    subst this
    exact ⟨rfl, rfl, rfl, rfl, rfl⟩

/-- After a successful `finalize`, `getCacheID` returns the cached string and leaves the
object as it is. -/
theorem getCacheID_after_finalize (H : Helpers) (l l' : Lut1D) (hvalid : ∀ c, l.luts c ≠ [])
    (h : l.finalize H = Except.ok l') :
    l'.getCacheID H = Except.ok (l'.m_cacheID, l') := by
  have hv : ∀ c, l'.luts c ≠ [] := by
    rw [(finalize_content H l l' h).1]; exact hvalid
  rw [getCacheID_of_current H l' hv (CacheCurrent_of_finalize H l l' h), finalize_idem H l l' h]

/-- After a successful `finalize`, `isNoOp` returns the cached flag and leaves the object
as it is. -/
theorem isNoOp_after_finalize (H : Helpers) (l l' : Lut1D) (hvalid : ∀ c, l.luts c ≠ [])
    (h : l.finalize H = Except.ok l') :
    l'.isNoOp H = Except.ok (l'.m_isNoOp, l') := by
  have hv : ∀ c, l'.luts c ≠ [] := by
    rw [(finalize_content H l l' h).1]; exact hvalid
  rw [isNoOp_of_current H l' hv (CacheCurrent_of_finalize H l l' h), finalize_idem H l l' h]

theorem getCacheID_invalid (H : Helpers) (l : Lut1D) (h : ¬ ∀ c, l.luts c ≠ []) :
    l.getCacheID H = Except.error "Cannot compute cacheID of invalid Lut1D" := by
  unfold Lut1D.getCacheID
  rw [if_pos]
  by_contra hc
  apply h
  intro c
  fin_cases c
  · exact fun h0 => hc (Or.inl h0)
  · exact fun h1 => hc (Or.inr (Or.inl h1))
  · exact fun h2 => hc (Or.inr (Or.inr h2))

theorem isNoOp_invalid (H : Helpers) (l : Lut1D) (h : ¬ ∀ c, l.luts c ≠ []) :
    l.isNoOp H = Except.error "Cannot compute noOp of invalid Lut1D" := by
  unfold Lut1D.isNoOp
  rw [if_pos]
  by_contra hc
  apply h
  intro c
  fin_cases c
  · exact fun h0 => hc (Or.inl h0)
  · exact fun h1 => hc (Or.inr (Or.inl h1))
  · exact fun h2 => hc (Or.inr (Or.inr h2))

/-- Asking for the cache ID twice, or after `unfinalize`, gives the first answer. -/
theorem getCacheID_again (H : Helpers) (l : Lut1D) :
    Except.bind (l.getCacheID H) (fun r => r.2.getCacheID H) = l.getCacheID H ∧
    (l.CacheCurrent H →
      Except.bind (l.getCacheID H) (fun r => r.2.unfinalize.getCacheID H) = l.getCacheID H) := by
  by_cases hvalid : ∀ c, l.luts c ≠ []
  · constructor
    · by_cases hid : l.m_cacheID = ""
      · rw [getCacheID_of_current H l hvalid (CacheCurrent_of_unfinalized H l hid)]
        rcases hf : l.finalize H with e | l'
        · rfl
        · exact getCacheID_after_finalize H l l' hvalid hf
      · have h : l.getCacheID H = Except.ok (l.m_cacheID, l) := by
          unfold Lut1D.getCacheID
          rw [if_neg (by simp [hvalid 0, hvalid 1, hvalid 2]), if_pos hid]
        rw [h]
        exact h
    · intro hcur
      rw [getCacheID_of_current H l hvalid hcur]
      rcases hf : l.finalize H with e | l'
      · rfl
      · have hv : ∀ c, l'.unfinalize.luts c ≠ [] := by
          show ∀ c, l'.luts c ≠ []
          rw [(finalize_content H l l' hf).1]; exact hvalid
        show l'.unfinalize.getCacheID H = _
        rw [getCacheID_of_current H _ hv (CacheCurrent_unfinalize H l'),
          finalize_unfinalize, finalize_idem H l l' hf]
  · rw [getCacheID_invalid H l hvalid]
    exact ⟨rfl, fun _ => rfl⟩

/-- Asking for the no-op flag twice, or after `unfinalize`, gives the first answer. -/
theorem isNoOp_again (H : Helpers) (l : Lut1D) :
    Except.bind (l.isNoOp H) (fun r => r.2.isNoOp H) = l.isNoOp H ∧
    (l.CacheCurrent H →
      Except.bind (l.isNoOp H) (fun r => r.2.unfinalize.isNoOp H) = l.isNoOp H) := by
  by_cases hvalid : ∀ c, l.luts c ≠ []
  · constructor
    · by_cases hid : l.m_cacheID = ""
      · rw [isNoOp_of_current H l hvalid (CacheCurrent_of_unfinalized H l hid)]
        rcases hf : l.finalize H with e | l'
        · rfl
        · exact isNoOp_after_finalize H l l' hvalid hf
      · have h : l.isNoOp H = Except.ok (l.m_isNoOp, l) := by
          unfold Lut1D.isNoOp
          rw [if_neg (by simp [hvalid 0, hvalid 1, hvalid 2]), if_pos hid]
        rw [h]
        exact h
    · intro hcur
      rw [isNoOp_of_current H l hvalid hcur]
      rcases hf : l.finalize H with e | l'
      · rfl
      · have hv : ∀ c, l'.unfinalize.luts c ≠ [] := by
          show ∀ c, l'.luts c ≠ []
          rw [(finalize_content H l l' hf).1]; exact hvalid
        show l'.unfinalize.isNoOp H = _
        rw [isNoOp_of_current H _ hv (CacheCurrent_unfinalize H l'),
          finalize_unfinalize, finalize_idem H l l' hf]
  · rw [isNoOp_invalid H l hvalid]
    exact ⟨rfl, fun _ => rfl⟩


/-! ## The exceptions of `IsLut1DNoOp`, `isNoOp` and `getCacheID` -/

theorem noOpSamples_error (H : Helpers) (maxerror : ℚ) (errortype : ErrorType) (size : ℕ)
    (m b : ℚ) :
    ∀ (samples : List ℚ) (i0 : ℕ) (e : String),
      noOpSamples H maxerror errortype size m b i0 samples = Except.error e →
      e = "Unknown error type."
  | [], _, e, h => by simp [noOpSamples] at h
  | s :: rest, i0, e, h => by
    cases errortype with
    | ERROR_ABSOLUTE =>
      simp only [noOpSamples] at h
      split at h
      · exact Except.noConfusion h
      · exact noOpSamples_error H maxerror _ size m b rest (i0 + 1) e h
    | ERROR_RELATIVE =>
      simp only [noOpSamples] at h
      split at h
      · exact Except.noConfusion h
      · exact noOpSamples_error H maxerror _ size m b rest (i0 + 1) e h
    | other k =>
      simp only [noOpSamples] at h
      exact (Except.error.inj h).symm

theorem noOpChannel_error (H : Helpers) (l : Lut1D) (maxerror : ℚ) (errortype : ErrorType)
    (c : Fin 3) (e : String) (h : noOpChannel H l maxerror errortype c = Except.error e) :
    e = "Unknown error type." := by
  unfold noOpChannel at h
  split at h
  · exact Except.noConfusion h
  · exact noOpSamples_error H maxerror errortype _ _ _ _ 0 e h

theorem IsLut1DNoOp_error (H : Helpers) (l : Lut1D) (maxerror : ℚ) (errortype : ErrorType)
    (e : String) (h : IsLut1DNoOp H l maxerror errortype = Except.error e) :
    e = "Unknown error type." := by
  unfold IsLut1DNoOp at h
  split at h
  · exact Except.noConfusion h
  · rcases h0 : noOpChannel H l maxerror errortype 0 with e0 | r0
    · rw [h0] at h
      rw [← Except.error.inj h]
      exact noOpChannel_error H l maxerror errortype 0 e0 h0
    · rw [h0] at h
      cases r0
      · exact Except.noConfusion h
      · rcases h1 : noOpChannel H l maxerror errortype 1 with e1 | r1
        · rw [h1] at h
          rw [← Except.error.inj h]
          exact noOpChannel_error H l maxerror errortype 1 e1 h1
        · rw [h1] at h
          cases r1
          · exact Except.noConfusion h
          · rcases h2 : noOpChannel H l maxerror errortype 2 with e2 | r2
            · rw [h2] at h
              rw [← Except.error.inj h]
              exact noOpChannel_error H l maxerror errortype 2 e2 h2
            · rw [h2] at h
              cases r2 <;> exact Except.noConfusion h

/-- With a positive tolerance, an unknown error type and a first channel that is not
empty, `IsLut1DNoOp` throws at the first sample. -/
theorem IsLut1DNoOp_unknown_type (H : Helpers) (l : Lut1D) (maxerror : ℚ) (k : ℤ)
    (hpos : 0 < maxerror) (h0 : l.luts 0 ≠ []) :
    IsLut1DNoOp H l maxerror (ErrorType.other k) = Except.error "Unknown error type." := by
  unfold IsLut1DNoOp
  rw [if_neg (by simpa using hpos)]
  have hc : noOpChannel H l maxerror (ErrorType.other k) 0
      = Except.error "Unknown error type." := by
    unfold noOpChannel
    rw [if_neg (by simpa [List.length_eq_zero] using h0)]
    rcases hl : l.luts 0 with _ | ⟨s, rest⟩
    · exact absurd hl h0
    · simp [noOpSamples]
  rw [hc]

theorem finalize_error (H : Helpers) (l : Lut1D) (e : String)
    (h : l.finalize H = Except.error e) : e = "Unknown error type." := by
  rcases finalize_cases H l with ⟨e', he, hf⟩ | ⟨-, hf⟩ | ⟨-, hf⟩
  · rw [hf] at h
    rw [← Except.error.inj h]
    exact IsLut1DNoOp_error H l _ _ e' he
  · rw [hf] at h; exact Except.noConfusion h
  · rw [hf] at h; exact Except.noConfusion h

/-- What `isNoOp` and `getCacheID` do on an object with three non-empty channels. -/
theorem valid_calls (H : Helpers) (l : Lut1D) (hvalid : ∀ c, l.luts c ≠ []) :
    (l.m_cacheID ≠ "" → l.isNoOp H = Except.ok (l.m_isNoOp, l) ∧
      l.getCacheID H = Except.ok (l.m_cacheID, l)) ∧
    (l.m_cacheID = "" →
      l.isNoOp H = (match l.finalize H with
        | Except.error e => Except.error e
        | Except.ok l' => Except.ok (l'.m_isNoOp, l')) ∧
      l.getCacheID H = (match l.finalize H with
        | Except.error e => Except.error e
        | Except.ok l' => Except.ok (l'.m_cacheID, l'))) := by
  have hv : ¬ (l.luts 0 = [] ∨ l.luts 1 = [] ∨ l.luts 2 = []) := by
    simp [hvalid 0, hvalid 1, hvalid 2]
  constructor
  · intro h
    unfold Lut1D.isNoOp Lut1D.getCacheID
    rw [if_neg hv, if_pos h, if_neg hv, if_pos h]
    exact ⟨rfl, rfl⟩
  · intro h
    unfold Lut1D.isNoOp Lut1D.getCacheID
    rw [if_neg hv, if_neg (by simpa using h), if_neg hv, if_neg (by simpa using h)]
    exact ⟨rfl, rfl⟩


/-! ## Claims about the evaluation kernels -/

/-- C6, the code at the failing input: `twoSampleLut` and `threeSampleRedLut` agree on
`from_min[1]`, `from_max[1]` and `luts[1]` and the pixel is the same, yet
`Lut1D_LinearInverse` writes `1/2` to the green channel for the first and `1/4` for the
second, because the lookup of every channel is scaled by the sample count of channel 0. -/
theorem Lut1D_LinearInverse_green_depends_on_red_size :
    twoSampleLut.from_min 1 = threeSampleRedLut.from_min 1 ∧
    twoSampleLut.from_max 1 = threeSampleRedLut.from_max 1 ∧
    twoSampleLut.luts 1 = threeSampleRedLut.luts 1 ∧
    Lut1D_LinearInverse [CFloat.num 0, CFloat.num (1 / 2), CFloat.num 0, CFloat.num 0] 1
        twoSampleLut
      = some [CFloat.num 0, CFloat.num (1 / 2), CFloat.num 0, CFloat.num 0] ∧
    Lut1D_LinearInverse [CFloat.num 0, CFloat.num (1 / 2), CFloat.num 0, CFloat.num 0] 1
        threeSampleRedLut
      = some [CFloat.num 0, CFloat.num (1 / 4), CFloat.num 0, CFloat.num 0] := by
  decide!


/-! ## Claims about no-op detection and the cache ID -/

/-- C8: no-op LUTs share one sentinel identity.  For valid Lut1D objects `a` and `b` whose
cache is current: if `isNoOp()` is true for both, `getCacheID()` returns `"<NULL 1D>"` for
both, whatever their samples, sizes or domains; if `isNoOp()` is false for `a`, its cache
ID is the printable hash of `from_min`, `from_max` and the three sample arrays, and so is
not the sentinel unless that printable hash itself is the text `"<NULL 1D>"`. -/
theorem noOp_luts_share_sentinel_cacheID (H : Helpers) (a b : Lut1D)
    (hva : ∀ c, a.luts c ≠ []) (hvb : ∀ c, b.luts c ≠ [])
    (hca : a.CacheCurrent H) (hcb : b.CacheCurrent H) :
    (a.noOpFlag H = some true → b.noOpFlag H = some true →
      a.cacheIDString H = some "<NULL 1D>" ∧ b.cacheIDString H = some "<NULL 1D>") ∧
    (a.noOpFlag H = some false →
      a.cacheIDString H = some (H.GetPrintableHash (H.md5_finish (hashInput a))) ∧
      (H.GetPrintableHash (H.md5_finish (hashInput a)) ≠ "<NULL 1D>" →
        a.cacheIDString H ≠ some "<NULL 1D>")) := by
  have key : ∀ l : Lut1D, (∀ c, l.luts c ≠ []) → l.CacheCurrent H →
      (l.noOpFlag H = some true → l.cacheIDString H = some "<NULL 1D>") ∧
      (l.noOpFlag H = some false →
        l.cacheIDString H = some (H.GetPrintableHash (H.md5_finish (hashInput l)))) := by
    intro l hv hc
    rw [noOpFlag_of_current H l hv hc, cacheIDString_of_current H l hv hc]
    rcases IsLut1DNoOp H l l.maxerror l.errortype with e | b
    · exact ⟨fun h => Option.noConfusion h, fun h => Option.noConfusion h⟩
    · cases b
      · exact ⟨fun h => Bool.noConfusion (Option.some.inj h), fun _ => rfl⟩
      · exact ⟨fun _ => rfl, fun h => Bool.noConfusion (Option.some.inj h)⟩
  refine ⟨fun ha hb => ⟨(key a hva hca).1 ha, (key b hvb hcb).1 hb⟩, fun ha => ?_⟩
  have h := (key a hva hca).2 ha
  refine ⟨h, fun hne => ?_⟩
  rw [h]
  exact fun heq => hne (Option.some.inj heq)

/-- C8, witness: the exact identity LUT and the LUT with one sample moved inside the
tolerance are both no-ops and both have the cache ID `"<NULL 1D>"`. -/
theorem noOp_luts_share_sentinel_cacheID_witness :
    identityLut.luts 0 ≠ nearIdentityLut.luts 0 ∧
    identityLut.cacheIDString exampleHelpers = some "<NULL 1D>" ∧
    nearIdentityLut.cacheIDString exampleHelpers = some "<NULL 1D>" :=
  ⟨by decide!, (noOp_luts_share_sentinel_cacheID exampleHelpers identityLut nearIdentityLut
    (by decide) (by decide) (CacheCurrent_of_unfinalized _ _ rfl)
    (CacheCurrent_of_unfinalized _ _ rfl)).1 (by decide!) (by decide!)⟩

/-- C9: finalization is idempotent.  For every Lut1D: calling `getCacheID()` twice without
mutation gives the result of the first call (the same string, or the same error), and so
does `isNoOp()`; for an object whose cache is current, calling `unfinalize()` and then
`getCacheID()` (or `isNoOp()`) again, with the content unchanged, gives the result of the
first call as well; and on a valid object with errortype ABSOLUTE or RELATIVE both calls
return a value. -/
theorem finalization_is_idempotent (H : Helpers) (l : Lut1D) :
    Except.bind (l.getCacheID H) (fun r => r.2.getCacheID H) = l.getCacheID H ∧
    Except.bind (l.isNoOp H) (fun r => r.2.isNoOp H) = l.isNoOp H ∧
    (l.CacheCurrent H →
      Except.bind (l.getCacheID H) (fun r => r.2.unfinalize.getCacheID H) = l.getCacheID H ∧
      Except.bind (l.isNoOp H) (fun r => r.2.unfinalize.isNoOp H) = l.isNoOp H) ∧
    ((∀ c, l.luts c ≠ []) → l.CacheCurrent H →
      (l.errortype = ErrorType.ERROR_ABSOLUTE ∨ l.errortype = ErrorType.ERROR_RELATIVE) →
      (∃ s, l.cacheIDString H = some s) ∧ ∃ flag, l.noOpFlag H = some flag) := by
  refine ⟨(getCacheID_again H l).1, (isNoOp_again H l).1,
    fun hcur => ⟨(getCacheID_again H l).2 hcur, (isNoOp_again H l).2 hcur⟩, ?_⟩
  intro hvalid hcur htype
  obtain ⟨r, hr⟩ := IsLut1DNoOp_ok H l htype
  rw [cacheIDString_of_current H l hvalid hcur, noOpFlag_of_current H l hvalid hcur, hr]
  cases r
  · exact ⟨⟨_, rfl⟩, ⟨_, rfl⟩⟩
  · exact ⟨⟨_, rfl⟩, ⟨_, rfl⟩⟩

/-- C10 (as amended): for valid Lut1D objects `a` and `b` whose cache is current: if they
have identical content (`from_min`, `from_max`, the three sample arrays, `maxerror`,
`errortype`) they return identical `getCacheID()` strings; if they have channels of the
same lengths and differ in a sample, they return different `getCacheID()` strings provided
they are not both no-ops, MD5 does not collide on their two contents, and no printable
hash is the text `"<NULL 1D>"`. -/
theorem cacheID_tracks_content (H : Helpers) (a b : Lut1D)
    (hva : ∀ c, a.luts c ≠ []) (hvb : ∀ c, b.luts c ≠ [])
    (hca : a.CacheCurrent H) (hcb : b.CacheCurrent H) :
    (a.from_min = b.from_min → a.from_max = b.from_max → a.luts = b.luts →
      a.maxerror = b.maxerror → a.errortype = b.errortype →
      a.cacheIDString H = b.cacheIDString H) ∧
    (∀ na nb : Bool, a.noOpFlag H = some na → b.noOpFlag H = some nb →
      ¬ (na = true ∧ nb = true) →
      (∀ c, (a.luts c).length = (b.luts c).length) →
      (∃ (c : Fin 3) (i : ℕ), (a.luts c)[i]? ≠ (b.luts c)[i]?) →
      (hashInput a ≠ hashInput b →
        H.GetPrintableHash (H.md5_finish (hashInput a))
          ≠ H.GetPrintableHash (H.md5_finish (hashInput b))) →
      H.GetPrintableHash (H.md5_finish (hashInput a)) ≠ "<NULL 1D>" →
      H.GetPrintableHash (H.md5_finish (hashInput b)) ≠ "<NULL 1D>" →
      a.cacheIDString H ≠ b.cacheIDString H) := by
  constructor
  · intro h1 h2 h3 h4 h5
    rw [cacheIDString_of_current H a hva hca, cacheIDString_of_current H b hvb hcb,
      IsLut1DNoOp_congr H a b a.maxerror a.errortype h1 h2 h3, h4, h5,
      hashInput_congr a b h1 h2 h3]
  · intro na nb hna hnb hnot hlen hdiff hcoll hsa hsb
    have hin : hashInput a ≠ hashInput b := by
      intro heq
      obtain ⟨c, i, hci⟩ := hdiff
      exact hci (by rw [luts_eq_of_hashInput_eq a b hlen heq c])
    rw [noOpFlag_of_current H a hva hca] at hna
    rw [noOpFlag_of_current H b hvb hcb] at hnb
    rw [cacheIDString_of_current H a hva hca, cacheIDString_of_current H b hvb hcb]
    rcases ha : IsLut1DNoOp H a a.maxerror a.errortype with ea | ra
    · rw [ha] at hna; exact Option.noConfusion hna
    · rcases hb : IsLut1DNoOp H b b.maxerror b.errortype with eb | rb
      · rw [hb] at hnb; exact Option.noConfusion hnb
      · rw [ha] at hna
        rw [hb] at hnb
        have e1 : ra = na := Option.some.inj hna
        have e2 : rb = nb := Option.some.inj hnb
        subst e1 e2
        cases ra <;> cases rb
        · exact fun h => hcoll hin (Option.some.inj h)
        · exact fun h => hsa (Option.some.inj h)
        · exact fun h => hsb (Option.some.inj h).symm
        · exact absurd ⟨rfl, rfl⟩ hnot

/-- C10, witness: the identity LUT and the LUT whose first red sample is moved outside
the tolerance differ in one sample and have different cache IDs. -/
theorem cacheID_tracks_content_witness :
    identityLut.cacheIDString exampleHelpers ≠ bentLut.cacheIDString exampleHelpers :=
  (cacheID_tracks_content exampleHelpers identityLut bentLut (by decide) (by decide)
    (CacheCurrent_of_unfinalized _ _ rfl) (CacheCurrent_of_unfinalized _ _ rfl)).2
    true false (by decide!) (by decide!) (by decide) (by decide) ⟨0, 0, by decide!⟩
    (fun _ => by decide!) (by decide!) (by decide!)

/-- C10, counterexample to the claim as stated: `identityLut` and `nearIdentityLut` have
the same domain, tolerance and channel lengths and differ in exactly one sample, the first
red one, yet both return the cache ID `"<NULL 1D>"`. -/
theorem cacheID_same_for_two_noOp_luts :
    identityLut.from_min = nearIdentityLut.from_min ∧
    identityLut.from_max = nearIdentityLut.from_max ∧
    identityLut.luts 1 = nearIdentityLut.luts 1 ∧
    identityLut.luts 2 = nearIdentityLut.luts 2 ∧
    identityLut.luts 0 = [0, 1] ∧ nearIdentityLut.luts 0 = [1 / 100, 1] ∧
    identityLut.cacheIDString exampleHelpers = nearIdentityLut.cacheIDString exampleHelpers ∧
    identityLut.cacheIDString exampleHelpers = some "<NULL 1D>" := by
  decide!


/-! ## The header loop of the `.spi1d` reader -/

/-- The header loop runs the loop body over the header lines. -/
theorem headerLoop_eq_fold (S : Scanf) (fileName : String) (ls : List String) (last : String)
    (h : Spi1D.Header) :
    Spi1D.headerLoop S fileName ls last h
      = match Spi1D.headerFold S fileName (Spi1D.headerLines ls last) h with
        | Except.error e => Except.error e
        | Except.ok h' => Except.ok (h', Spi1D.headerRest ls last) := by
  induction ls generalizing h with
  | nil =>
    simp only [Spi1D.headerLoop, Spi1D.headerLines, Spi1D.headerFold, Spi1D.headerRest]
    cases Spi1D.headerLine S fileName h last <;> rfl
  | cons l ls ih =>
    simp only [Spi1D.headerLoop, Spi1D.headerLines, Spi1D.headerRest]
    by_cases hb : startswith l "\x7b" = true
    · simp only [hb, if_true, Spi1D.headerFold]
      cases Spi1D.headerLine S fileName h l <;> rfl
    · simp only [hb, if_false, Spi1D.headerFold]
      cases hl : Spi1D.headerLine S fileName h l with
      | error e => rfl
      | ok h' => exact ih h'

/-- The header part of `read` runs the loop body over the header of the text. -/
theorem parseHeader_eq_fold (S : Scanf) (fileName : String) (istream : IStream) :
    Spi1D.parseHeader S fileName istream
      = match Spi1D.headerFold S fileName (Spi1D.header istream) Spi1D.Header.init with
        | Except.error e => Except.error e
        | Except.ok h' => Except.ok (h', Spi1D.bodyStream istream) := by
  unfold Spi1D.parseHeader Spi1D.header Spi1D.bodyStream
  by_cases hg : istream.good = true
  · simp only [hg, if_true]
    exact headerLoop_eq_fold S fileName _ _ _
  · simp only [hg, if_false, Spi1D.headerFold]
    cases Spi1D.headerLine S fileName Spi1D.Header.init "" <;> rfl

/-- The loop body over a list of lines that all pass, followed by further lines. -/
theorem headerFold_append (S : Scanf) (fileName : String) (pre post : List String)
    (h : Spi1D.Header) :
    Spi1D.headerFold S fileName (pre ++ post) h
      = match Spi1D.headerFold S fileName pre h with
        | Except.error e => Except.error e
        | Except.ok h' => Spi1D.headerFold S fileName post h' := by
  induction pre generalizing h with
  | nil => rfl
  | cons l ls ih =>
    simp only [List.cons_append, Spi1D.headerFold]
    cases Spi1D.headerLine S fileName h l with
    | error e => rfl
    | ok h' => exact ih h'

/-- The results of the loop body on one line. -/
theorem headerLine_cases (S : Scanf) (fileName : String) (h : Spi1D.Header) (l : String) :
    (∃ reason, Spi1D.headerLine S fileName h l
        = Except.error (Spi1D.ThrowErrorMessage reason fileName (h.currentLine + 1) l)) ∨
    (∃ h', Spi1D.headerLine S fileName h l = Except.ok h' ∧
      h'.currentLine = h.currentLine + 1 ∧
      h'.version = (if startswith l "Version" = true then 1 else h.version) ∧
      (startswith l "Length" = false → h'.lut_size = h.lut_size) ∧
      (startswith l "Components" = false → h'.components = h.components)) := by
  unfold Spi1D.headerLine
  by_cases hv : startswith l "Version" = true
  · simp only [hv, if_true]
    cases S.sscanf_d "Version %d" l with
    | none => exact Or.inl ⟨_, rfl⟩
    | some version =>
      by_cases h1 : version = 1
      · subst h1
        refine Or.inr ⟨{ h with currentLine := h.currentLine + 1, version := 1 }, ?_, rfl, rfl,
          fun _ => rfl, fun _ => rfl⟩
        simp
      · simp only [ne_eq, h1, not_false_eq_true, if_true]
        exact Or.inl ⟨_, rfl⟩
  · simp only [hv, if_false]
    by_cases hf : startswith l "From" = true
    · simp only [hf, if_true]
      cases S.sscanf_ff "From %f %f" l with
      | none => exact Or.inl ⟨_, rfl⟩
      | some v => exact Or.inr ⟨_, rfl, rfl, rfl, fun _ => rfl, fun _ => rfl⟩
    · simp only [hf, if_false]
      by_cases hc : startswith l "Components" = true
      · simp only [hc, if_true]
        cases S.sscanf_d "Components %d" l with
        | none => exact Or.inl ⟨_, rfl⟩
        | some v =>
          refine Or.inr ⟨_, rfl, rfl, rfl, fun _ => rfl, fun hn => ?_⟩
          exact absurd hn (by decide)
      · simp only [hc, if_false]
        by_cases hl : startswith l "Length" = true
        · simp only [hl, if_true]
          cases S.sscanf_d "Length %d" l with
          | none => exact Or.inl ⟨_, rfl⟩
          | some v =>
            refine Or.inr ⟨_, rfl, rfl, rfl, fun hn => ?_, fun _ => rfl⟩
            exact absurd hn (by decide)
        · simp only [hl, if_false]
          exact Or.inr ⟨_, rfl, rfl, rfl, fun _ => rfl, fun _ => rfl⟩

/-- Whether the loop body passes a line does not depend on the header variables. -/
theorem headerLine_ok_indep (S : Scanf) (fileName : String) (h h2 : Spi1D.Header) (l : String)
    (hok : ∃ h', Spi1D.headerLine S fileName h l = Except.ok h') :
    ∃ h', Spi1D.headerLine S fileName h2 l = Except.ok h' := by
  obtain ⟨h', hh⟩ := hok
  revert hh
  unfold Spi1D.headerLine
  by_cases hv : startswith l "Version" = true
  · simp only [hv, if_true]
    cases S.sscanf_d "Version %d" l with
    | none => intro hh; cases hh
    | some version =>
      by_cases h1 : version = 1
      · subst h1
        intro _
        refine ⟨{ h2 with currentLine := h2.currentLine + 1, version := 1 }, ?_⟩
        simp
      · simp only [ne_eq, h1, not_false_eq_true, if_true]
        intro hh; cases hh
  · simp only [hv, if_false]
    by_cases hf : startswith l "From" = true
    · simp only [hf, if_true]
      cases S.sscanf_ff "From %f %f" l with
      | none => intro hh; cases hh
      | some v => intro _; exact ⟨_, rfl⟩
    · simp only [hf, if_false]
      by_cases hc : startswith l "Components" = true
      · simp only [hc, if_true]
        cases S.sscanf_d "Components %d" l with
        | none => intro hh; cases hh
        | some v => intro _; exact ⟨_, rfl⟩
      · simp only [hc, if_false]
        by_cases hl : startswith l "Length" = true
        · simp only [hl, if_true]
          cases S.sscanf_d "Length %d" l with
          | none => intro hh; cases hh
          | some v => intro _; exact ⟨_, rfl⟩
        · simp only [hl, if_false]
          intro _; exact ⟨_, rfl⟩

/-- What the header variables hold behind lines that all pass. -/
theorem headerFold_ok (S : Scanf) (fileName : String) (ls : List String)
    (h h' : Spi1D.Header) (hok : Spi1D.headerFold S fileName ls h = Except.ok h') :
    h'.currentLine = h.currentLine + ls.length ∧
    h'.version = (if ∃ l ∈ ls, startswith l "Version" = true then 1 else h.version) ∧
    ((∀ l ∈ ls, startswith l "Length" = false) → h'.lut_size = h.lut_size) ∧
    ((∀ l ∈ ls, startswith l "Components" = false) → h'.components = h.components) := by
  induction ls generalizing h with
  | nil =>
    simp only [Spi1D.headerFold, Except.ok.injEq] at hok
    subst hok
    simp
  | cons l ls ih =>
    simp only [Spi1D.headerFold] at hok
    rcases headerLine_cases S fileName h l with ⟨reason, hl⟩ | ⟨h1, hl, hcur, hver, hlen, hcomp⟩
    · rw [hl] at hok
      cases hok
    · rw [hl] at hok
      obtain ⟨icur, iver, ilen, icomp⟩ := ih h1 hok
      refine ⟨?_, ?_, ?_, ?_⟩
      · rw [icur, hcur, List.length_cons]
        push_cast
        ring
      · rw [iver, hver]
        by_cases hv : startswith l "Version" = true
        · simp [hv]
        · by_cases hex : ∃ l ∈ ls, startswith l "Version" = true
          · obtain ⟨x, hx, hxv⟩ := hex
            have h2 : ∃ y ∈ l :: ls, startswith y "Version" = true :=
              ⟨x, List.mem_cons_of_mem _ hx, hxv⟩
            rw [if_pos ⟨x, hx, hxv⟩, if_pos h2]
          · have h2 : ¬ ∃ y ∈ l :: ls, startswith y "Version" = true := by
              rintro ⟨y, hy, hyv⟩
              rcases List.mem_cons.mp hy with rfl | hy
              · exact hv hyv
              · exact hex ⟨y, hy, hyv⟩
            rw [if_neg hex, if_neg h2, if_neg hv]
      · intro hall
        rw [ilen (fun x hx => hall x (List.mem_cons_of_mem _ hx)),
          hlen (hall l (List.mem_cons_self _ _))]
      · intro hall
        rw [icomp (fun x hx => hall x (List.mem_cons_of_mem _ hx)),
          hcomp (hall l (List.mem_cons_self _ _))]

/-- Lines that all pass leave the header loop running. -/
theorem headerFold_of_pass (S : Scanf) (fileName : String) (pre : List String)
    (h : Spi1D.Header)
    (hpre : ∀ p ∈ pre, ∀ h0, ∃ h', Spi1D.headerLine S fileName h0 p = Except.ok h') :
    ∃ h', Spi1D.headerFold S fileName pre h = Except.ok h' ∧
      h'.currentLine = h.currentLine + pre.length := by
  induction pre generalizing h with
  | nil => exact ⟨h, rfl, by simp⟩
  | cons l ls ih =>
    obtain ⟨h1, hl⟩ := hpre l (List.mem_cons_self _ _) h
    obtain ⟨h2, hfold, hcur⟩ := ih h1 (fun p hp => hpre p (List.mem_cons_of_mem _ hp))
    refine ⟨h2, ?_, ?_⟩
    · simp only [Spi1D.headerFold, hl]
      exact hfold
    · rcases headerLine_cases S fileName h l with ⟨reason, hl2⟩ | ⟨h1', hl2, hc, -, -, -⟩
      · rw [hl] at hl2
        cases hl2
      · rw [hl] at hl2
        cases hl2
        rw [hcur, hc, List.length_cons]
        push_cast
        ring

/-- An error of the header loop names the line it stopped at and its 1-based number. -/
theorem headerFold_error (S : Scanf) (fileName : String) (ls : List String)
    (h : Spi1D.Header) (e : String) (herr : Spi1D.headerFold S fileName ls h = Except.error e) :
    ∃ pre l post reason, ls = pre ++ l :: post ∧
      e = Spi1D.ThrowErrorMessage reason fileName (h.currentLine + pre.length + 1) l := by
  induction ls generalizing h with
  | nil => cases herr
  | cons l ls ih =>
    simp only [Spi1D.headerFold] at herr
    rcases headerLine_cases S fileName h l with ⟨reason, hl⟩ | ⟨h1, hl, hcur, -, -, -⟩
    · rw [hl] at herr
      cases herr
      exact ⟨[], l, ls, reason, rfl, by simp⟩
    · rw [hl] at herr
      obtain ⟨pre, x, post, reason, hls, he⟩ := ih h1 herr
      refine ⟨l :: pre, x, post, reason, by rw [hls]; rfl, ?_⟩
      rw [he, hcur, List.length_cons]
      push_cast
      congr 1
      ring

/-! ## Messages -/

/-- The reason is what a message of `ThrowErrorMessage` ends with. -/
theorem containsText_ThrowErrorMessage (error fileName : String) (line : ℤ)
    (lineContent : String) :
    containsText (Spi1D.ThrowErrorMessage error fileName line lineContent) error := by
  unfold containsText Spi1D.ThrowErrorMessage
  simp only [String.data_append]
  exact (List.suffix_append _ _).isInfix

/-- Messages of `ThrowErrorMessage` for the same place differ when the reasons differ. -/
theorem ThrowErrorMessage_inj (e1 e2 fileName : String) (line : ℤ) (lineContent : String)
    (heq : Spi1D.ThrowErrorMessage e1 fileName line lineContent
      = Spi1D.ThrowErrorMessage e2 fileName line lineContent) : e1 = e2 := by
  unfold Spi1D.ThrowErrorMessage at heq
  have hd := congrArg String.data heq
  simp only [String.data_append] at hd
  exact String.ext (List.append_cancel_left hd)

/-- The message of `reserve` is no message of `ThrowErrorMessage`. -/
theorem reserve_ne_ThrowErrorMessage (error fileName : String) (line : ℤ)
    (lineContent : String) :
    "vector::reserve" ≠ Spi1D.ThrowErrorMessage error fileName line lineContent := by
  intro heq
  unfold Spi1D.ThrowErrorMessage at heq
  have hd := congrArg String.data heq
  simp only [String.data_append, List.append_assoc] at hd
  have h0 := congrArg List.head? hd
  simp at h0


/-! ## The values the header declares -/

/-- A line that starts with a text starts with its first character. -/
theorem startswith_head (l pre : String) (c : Char) (cs : List Char) (hpre : pre.data = c :: cs)
    (hs : startswith l pre = true) : l.data.head? = some c := by
  unfold startswith at hs
  rw [hpre] at hs
  cases hl : l.data with
  | nil => rw [hl] at hs; simp [List.isPrefixOf] at hs
  | cons x xs =>
    rw [hl] at hs
    simp [List.isPrefixOf] at hs
    simp [hs.1]

/-- A line starts with at most one of the four tags. -/
theorem startswith_excl (l : String) :
    (startswith l "From" = true → startswith l "Version" = false) ∧
    (startswith l "Components" = true →
      startswith l "Version" = false ∧ startswith l "From" = false) ∧
    (startswith l "Length" = true →
      startswith l "Version" = false ∧ startswith l "From" = false ∧
      startswith l "Components" = false) := by
  have key : ∀ (p q : String) (c d : Char) (cs ds : List Char), p.data = c :: cs →
      q.data = d :: ds → c ≠ d → startswith l p = true → startswith l q = false := by
    intro p q c d cs ds hp hq hcd hs
    by_contra hne
    have hq2 : startswith l q = true := by
      cases hx : startswith l q
      · exact absurd hx hne
      · rfl
    have h1 := startswith_head l p c cs hp hs
    have h2 := startswith_head l q d ds hq hq2
    rw [h1] at h2
    exact hcd (Option.some.inj h2)
  refine ⟨key "From" "Version" 'F' 'V' _ _ rfl rfl (by decide), fun hc => ⟨?_, ?_⟩,
    fun hl => ⟨?_, ?_, ?_⟩⟩
  · exact key "Components" "Version" 'C' 'V' _ _ rfl rfl (by decide) hc
  · exact key "Components" "From" 'C' 'F' _ _ rfl rfl (by decide) hc
  · exact key "Length" "Version" 'L' 'V' _ _ rfl rfl (by decide) hl
  · exact key "Length" "From" 'L' 'F' _ _ rfl rfl (by decide) hl
  · exact key "Length" "Components" 'L' 'C' _ _ rfl rfl (by decide) hl

/-- The values the loop body takes from a line that passes. -/
theorem headerLine_declares (S : Scanf) (fileName : String) (h h' : Spi1D.Header) (l : String)
    (hok : Spi1D.headerLine S fileName h l = Except.ok h') :
    (startswith l "From" = true →
      S.sscanf_ff "From %f %f" l = some (h'.from_min, h'.from_max)) ∧
    (startswith l "From" = false → h'.from_min = h.from_min ∧ h'.from_max = h.from_max) ∧
    (startswith l "Components" = true → S.sscanf_d "Components %d" l = some h'.components) ∧
    (startswith l "Length" = true → S.sscanf_d "Length %d" l = some h'.lut_size) := by
  obtain ⟨eF, eC, eL⟩ := startswith_excl l
  revert hok
  unfold Spi1D.headerLine
  by_cases hv : startswith l "Version" = true
  · have hF : startswith l "From" = false := by
      cases hx : startswith l "From"
      · rfl
      · rw [eF hx] at hv; cases hv
    have hC : startswith l "Components" = false := by
      cases hx : startswith l "Components"
      · rfl
      · rw [(eC hx).1] at hv; cases hv
    have hL : startswith l "Length" = false := by
      cases hx : startswith l "Length"
      · rfl
      · rw [(eL hx).1] at hv; cases hv
    simp only [hv, hF, hC, hL, if_true, Bool.false_eq_true, if_false]
    cases S.sscanf_d "Version %d" l with
    | none => intro hh; cases hh
    | some version =>
      by_cases h1 : version = 1
      · subst h1
        intro hh
        simp only [ne_eq, not_true_eq_false, if_false, Except.ok.injEq] at hh
        subst hh
        simp
      · simp only [ne_eq, h1, not_false_eq_true, if_true]
        intro hh; cases hh
  · simp only [hv, if_false, Bool.false_eq_true]
    by_cases hf : startswith l "From" = true
    · have hC : startswith l "Components" = false := by
        cases hx : startswith l "Components"
        · rfl
        · rw [(eC hx).2] at hf; cases hf
      have hL : startswith l "Length" = false := by
        cases hx : startswith l "Length"
        · rfl
        · rw [(eL hx).2.1] at hf; cases hf
      simp only [hf, hC, hL, if_true, Bool.false_eq_true, if_false]
      cases hs : S.sscanf_ff "From %f %f" l with
      | none => intro hh; cases hh
      | some v =>
        intro hh
        simp only [Except.ok.injEq] at hh
        subst hh
        simp
    · simp only [hf, if_false, Bool.false_eq_true]
      by_cases hc : startswith l "Components" = true
      · have hL : startswith l "Length" = false := by
          cases hx : startswith l "Length"
          · rfl
          · rw [(eL hx).2.2] at hc; cases hc
        simp only [hc, hL, if_true, Bool.false_eq_true, if_false]
        cases hs : S.sscanf_d "Components %d" l with
        | none => intro hh; cases hh
        | some v =>
          intro hh
          simp only [Except.ok.injEq] at hh
          subst hh
          simp
      · simp only [hc, if_false, Bool.false_eq_true]
        by_cases hl : startswith l "Length" = true
        · simp only [hl, if_true]
          cases hs : S.sscanf_d "Length %d" l with
          | none => intro hh; cases hh
          | some v =>
            intro hh
            simp only [Except.ok.injEq] at hh
            subst hh
            simp
        · simp only [hl, if_false, Bool.false_eq_true]
          intro hh
          simp only [Except.ok.injEq] at hh
          subst hh
          simp

/-- Lines without a `From` tag leave the domain as it is. -/
theorem headerFold_keeps_from (S : Scanf) (fileName : String) (ls : List String)
    (h h' : Spi1D.Header) (hok : Spi1D.headerFold S fileName ls h = Except.ok h')
    (hno : ∀ l ∈ ls, startswith l "From" = false) :
    h'.from_min = h.from_min ∧ h'.from_max = h.from_max := by
  induction ls generalizing h with
  | nil =>
    simp only [Spi1D.headerFold, Except.ok.injEq] at hok
    subst hok
    exact ⟨rfl, rfl⟩
  | cons l ls ih =>
    simp only [Spi1D.headerFold] at hok
    cases hl : Spi1D.headerLine S fileName h l with
    | error e => rw [hl] at hok; cases hok
    | ok h1 =>
      rw [hl] at hok
      obtain ⟨i1, i2⟩ := ih h1 hok (fun x hx => hno x (List.mem_cons_of_mem _ hx))
      obtain ⟨k1, k2⟩ := (headerLine_declares S fileName h h1 l hl).2.1
        (hno l (List.mem_cons_self _ _))
      exact ⟨i1.trans k1, i2.trans k2⟩

/-- The header variables hold the values of the last line of each tag. -/
theorem headerFold_declares (S : Scanf) (fileName : String) (pre : List String) (l : String)
    (post : List String) (h h' : Spi1D.Header)
    (hok : Spi1D.headerFold S fileName (pre ++ l :: post) h = Except.ok h') :
    (startswith l "From" = true → (∀ p ∈ post, startswith p "From" = false) →
      S.sscanf_ff "From %f %f" l = some (h'.from_min, h'.from_max)) ∧
    (startswith l "Components" = true → (∀ p ∈ post, startswith p "Components" = false) →
      S.sscanf_d "Components %d" l = some h'.components) ∧
    (startswith l "Length" = true → (∀ p ∈ post, startswith p "Length" = false) →
      S.sscanf_d "Length %d" l = some h'.lut_size) := by
  rw [headerFold_append] at hok
  cases hpre : Spi1D.headerFold S fileName pre h with
  | error e => rw [hpre] at hok; cases hok
  | ok h1 =>
    rw [hpre] at hok
    simp only [Spi1D.headerFold] at hok
    cases hl : Spi1D.headerLine S fileName h1 l with
    | error e => rw [hl] at hok; cases hok
    | ok h2 =>
      rw [hl] at hok
      obtain ⟨dF, -, dC, dL⟩ := headerLine_declares S fileName h1 h2 l hl
      obtain ⟨-, -, kL, kC⟩ := headerFold_ok S fileName post h2 h' hok
      refine ⟨fun hF hno => ?_, fun hC hno => ?_, fun hL hno => ?_⟩
      · obtain ⟨k1, k2⟩ := headerFold_keeps_from S fileName post h2 h' hok hno
        rw [k1, k2]
        exact dF hF
      · rw [kC hno]
        exact dC hC
      · rw [kL hno]
        exact dL hL

/-! ## The data loop of the `.spi1d` reader -/

/-- The loop body on a line that holds a row. -/
theorem dataLine_row (S : Scanf) (components : ℤ) (d : Spi1D.Data) (l : String)
    (v : ℚ × ℚ × ℚ) (hrow : Spi1D.row S components l = some v) :
    Spi1D.dataLine S components d l
      = { luts := fun c => d.luts c ++ [channelValue v c], lineCount := d.lineCount + 1 } := by
  obtain ⟨v0, v1, v2⟩ := v
  unfold Spi1D.dataLine
  rw [hrow]
  rfl

/-- The loop body on a line that holds no row. -/
theorem dataLine_skip (S : Scanf) (components : ℤ) (d : Spi1D.Data) (l : String)
    (hrow : Spi1D.row S components l = none) :
    Spi1D.dataLine S components d l = d := by
  unfold Spi1D.dataLine
  rw [hrow]

/-- The three channels hold as many values as rows were counted. -/
theorem dataLoop_lengths (S : Scanf) (components lut_size : ℤ) (ls : List String)
    (d : Spi1D.Data) (hd : ∀ c, ((d.luts c).length : ℤ) = d.lineCount) :
    ∀ c, (((Spi1D.dataLoop S components lut_size ls d).luts c).length : ℤ)
      = (Spi1D.dataLoop S components lut_size ls d).lineCount := by
  induction ls generalizing d with
  | nil => exact hd
  | cons l ls ih =>
    have hd1 : ∀ c, (((Spi1D.dataLine S components d l).luts c).length : ℤ)
        = (Spi1D.dataLine S components d l).lineCount := by
      cases hrow : Spi1D.row S components l with
      | none => rw [dataLine_skip S components d l hrow]; exact hd
      | some v =>
        rw [dataLine_row S components d l v hrow]
        intro c
        simp only [List.length_append, List.length_singleton]
        push_cast
        rw [hd c]
    simp only [Spi1D.dataLoop]
    split
    · exact hd1
    · exact ih _ hd1

/-- The loop counts no more rows than the lines hold. -/
theorem dataLoop_lineCount_le (S : Scanf) (components lut_size : ℤ) (ls : List String)
    (d : Spi1D.Data) :
    (Spi1D.dataLoop S components lut_size ls d).lineCount
      ≤ d.lineCount + ((ls.filterMap (Spi1D.row S components)).length : ℤ) := by
  induction ls generalizing d with
  | nil => simp [Spi1D.dataLoop]
  | cons l ls ih =>
    have h1 : (Spi1D.dataLine S components d l).lineCount
          + ((ls.filterMap (Spi1D.row S components)).length : ℤ)
        = d.lineCount + (((l :: ls).filterMap (Spi1D.row S components)).length : ℤ) := by
      cases hrow : Spi1D.row S components l with
      | none =>
        rw [dataLine_skip S components d l hrow, List.filterMap_cons_none hrow]
      | some v =>
        rw [dataLine_row S components d l v hrow, List.filterMap_cons_some hrow,
          List.length_cons]
        push_cast
        ring
    simp only [Spi1D.dataLoop]
    split
    · rw [← h1]
      have := Int.natCast_nonneg (ls.filterMap (Spi1D.row S components)).length
      omega
    · rw [← h1]
      exact ih _

/-- The loop over lines that each hold a row, as many as are still needed: the rows are
appended to the channels and what follows is not looked at. -/
theorem dataLoop_rows (S : Scanf) (components lut_size : ℤ) (body tail : List String)
    (vs : List (ℚ × ℚ × ℚ)) (d : Spi1D.Data)
    (hrows : body.map (Spi1D.row S components) = vs.map some) (hne : vs ≠ [])
    (hn : d.lineCount + (vs.length : ℤ) = lut_size) :
    Spi1D.dataLoop S components lut_size (body ++ tail) d
      = { luts := fun c => d.luts c ++ vs.map (fun v => channelValue v c)
          lineCount := lut_size } := by
  induction body generalizing vs d with
  | nil =>
    cases vs with
    | nil => exact absurd rfl hne
    | cons v vs => simp at hrows
  | cons l ls ih =>
    cases vs with
    | nil => exact absurd rfl hne
    | cons v vs =>
      simp only [List.map_cons, List.cons.injEq] at hrows
      obtain ⟨hrow, hrest⟩ := hrows
      simp only [List.cons_append, Spi1D.dataLoop, dataLine_row S components d l v hrow]
      by_cases hvs : vs = []
      · subst hvs
        have hls : ls = [] := by
          cases ls with
          | nil => rfl
          | cons x xs => simp at hrest
        subst hls
        simp only [List.length_singleton, Nat.cast_one] at hn
        rw [if_pos hn]
        simp [hn]
      · have hcount : ¬ d.lineCount + 1 = lut_size := by
          have : 0 < vs.length := List.length_pos.mpr hvs
          simp only [List.length_cons] at hn
          push_cast at hn
          omega
        rw [if_neg hcount]
        have hn2 : d.lineCount + 1 + (vs.length : ℤ) = lut_size := by
          simp only [List.length_cons] at hn
          push_cast at hn
          omega
        have hstep := ih vs
          { luts := fun c => d.luts c ++ [channelValue v c], lineCount := d.lineCount + 1 }
          hrest hvs hn2
        rw [show ls.append tail = ls ++ tail from rfl, hstep]
        simp

/-! ## The `.spi1d` reader behind its header -/

/-- The outcomes of `read` behind a header that is read without error, in the order of
its checks. -/
theorem read_cases (S : Scanf) (fileName : String) (istream : IStream) (h : Spi1D.Header)
    (rest : IStream) (hparse : Spi1D.parseHeader S fileName istream = Except.ok (h, rest)) :
    (h.version = -1 ∧ Spi1D.read S istream fileName = Except.error
      (Spi1D.ThrowErrorMessage "Could not find 'Version' Tag." fileName (-1) "")) ∨
    (h.version ≠ -1 ∧ h.lut_size = -1 ∧ Spi1D.read S istream fileName = Except.error
      (Spi1D.ThrowErrorMessage "Could not find 'Length' Tag." fileName (-1) "")) ∨
    (h.version ≠ -1 ∧ h.lut_size ≠ -1 ∧ h.components = -1 ∧
      Spi1D.read S istream fileName = Except.error
        (Spi1D.ThrowErrorMessage "Could not find 'Components' Tag." fileName (-1) "")) ∨
    (h.version ≠ -1 ∧ h.lut_size ≠ -1 ∧ h.components ≠ -1 ∧
      (h.components < 0 ∨ h.components > 3) ∧
      Spi1D.read S istream fileName = Except.error
        (Spi1D.ThrowErrorMessage "Components must be [1,2,3]." fileName (-1) "")) ∨
    (h.version ≠ -1 ∧ 0 ≤ h.components ∧ h.components ≤ 3 ∧ h.lut_size < -1 ∧
      Spi1D.read S istream fileName = Except.error "vector::reserve") ∨
    (h.version ≠ -1 ∧ 0 ≤ h.components ∧ h.components ≤ 3 ∧ 0 ≤ h.lut_size ∧
      (Spi1D.dataOf S h rest).lineCount ≠ h.lut_size ∧
      Spi1D.read S istream fileName = Except.error
        (Spi1D.ThrowErrorMessage "Not enough entries found." fileName (-1) "")) ∨
    (h.version ≠ -1 ∧ 0 ≤ h.components ∧ h.components ≤ 3 ∧ 0 ≤ h.lut_size ∧
      (Spi1D.dataOf S h rest).lineCount = h.lut_size ∧
      Spi1D.read S istream fileName = Except.ok { Lut1D.Create with
        from_min := fun _ => h.from_min
        from_max := fun _ => h.from_max
        luts := (Spi1D.dataOf S h rest).luts
        maxerror := 1 / 100000
        errortype := ErrorType.ERROR_RELATIVE }) := by
  unfold Spi1D.read
  rw [hparse]
  simp only [Spi1D.checkHeader]
  by_cases hv : h.version = -1
  · left
    simp [hv]
  right
  by_cases hl : h.lut_size = -1
  · left
    simp [hv, hl]
  right
  by_cases hc : h.components = -1
  · left
    simp [hv, hl, hc]
  right
  by_cases hm : h.components < 0 ∨ h.components > 3
  · left
    simp [hv, hl, hc, hm]
  right
  have hm1 : 0 ≤ h.components := by
    by_contra hx
    exact hm (Or.inl (not_le.mp hx))
  have hm2 : h.components ≤ 3 := by
    by_contra hx
    exact hm (Or.inr (not_le.mp hx))
  by_cases hs : h.lut_size < 0
  · left
    refine ⟨hv, hm1, hm2, by omega, ?_⟩
    simp [hv, hl, hc, hm, hs]
  right
  have hs0 : 0 ≤ h.lut_size := not_lt.mp hs
  by_cases hn : (Spi1D.dataOf S h rest).lineCount = h.lut_size
  · right
    refine ⟨hv, hm1, hm2, hs0, hn, ?_⟩
    unfold Spi1D.dataOf at hn
    simp [hv, hl, hc, hm, hs, hn, Spi1D.dataOf]
  · left
    refine ⟨hv, hm1, hm2, hs0, hn, ?_⟩
    unfold Spi1D.dataOf at hn
    simp [hv, hl, hc, hm, hs, hn]

/-- The row of a line for one component. -/
theorem row_one (S : Scanf) (l : String) :
    Spi1D.row S 1 l = (S.sscanf_f "%f" l).map (fun v => (v, v, v)) := by
  unfold Spi1D.row
  cases S.sscanf_f "%f" l <;> simp

/-- The row of a line for two components. -/
theorem row_two (S : Scanf) (l : String) :
    Spi1D.row S 2 l = (S.sscanf_ff "%f %f" l).map (fun v => (v.1, v.2, 0)) := by
  unfold Spi1D.row
  cases S.sscanf_ff "%f %f" l <;> simp

/-- The row of a line for three components. -/
theorem row_three (S : Scanf) (l : String) :
    Spi1D.row S 3 l = S.sscanf_fff "%f %f %f" l := by
  unfold Spi1D.row
  cases hs : S.sscanf_fff "%f %f %f" l with
  | none => simp
  | some v =>
    obtain ⟨v0, v1, v2⟩ := v
    simp

/-- A text whose header is read without error and declares as many rows as the lines
behind the header hold one after the other is read into the three channels. -/
theorem read_rows (S : Scanf) (fileName : String) (istream : IStream)
    (h : Spi1D.Header) (rest : IStream) (body tail : List String) (vs : List (ℚ × ℚ × ℚ))
    (hparse : Spi1D.parseHeader S fileName istream = Except.ok (h, rest))
    (hversion : h.version = 1) (hc1 : 1 ≤ h.components) (hc3 : h.components ≤ 3)
    (hlen : h.lut_size = (vs.length : ℤ)) (hne : vs ≠ [])
    (hgood : rest.good = true) (hlines : rest.lines = body ++ tail)
    (hrows : body.map (Spi1D.row S h.components) = vs.map some) :
    ∃ l, Spi1D.read S istream fileName = Except.ok l ∧
      (∀ c, l.luts c = vs.map (fun v => channelValue v c)) ∧
      (∀ c, l.from_min c = h.from_min ∧ l.from_max c = h.from_max) := by
  have hdata : Spi1D.dataOf S h rest
      = { luts := fun c => vs.map (fun v => channelValue v c), lineCount := h.lut_size } := by
    unfold Spi1D.dataOf
    rw [if_pos hgood, hlines,
      dataLoop_rows S h.components h.lut_size body tail vs _ hrows hne (by simp [hlen])]
    simp
  have hpos : 0 < vs.length := List.length_pos.mpr hne
  rcases read_cases S fileName istream h rest hparse with
    ⟨hv, -⟩ | ⟨-, hl, -⟩ | ⟨-, -, hc, -⟩ | ⟨-, -, -, hm, -⟩ | ⟨-, -, -, hs, -⟩ |
    ⟨-, -, -, -, hn, -⟩ | ⟨-, -, -, -, -, hread⟩
  · rw [hversion] at hv; exact absurd hv (by decide)
  · omega
  · omega
  · omega
  · omega
  · rw [hdata] at hn
    exact absurd rfl hn
  · refine ⟨_, hread, fun c => ?_, fun c => ⟨rfl, rfl⟩⟩
    simp only [hdata]

/-- The results of `read` for two different reasons differ. -/
theorem read_error_ne {α : Type} (e1 e2 fileName : String) (hne : e1 ≠ e2) :
    (Except.error (Spi1D.ThrowErrorMessage e1 fileName (-1) "") : Except String α)
      ≠ Except.error (Spi1D.ThrowErrorMessage e2 fileName (-1) "") := by
  intro heq
  exact hne (ThrowErrorMessage_inj e1 e2 fileName (-1) "" (Except.error.inj heq))

/-- Which of the checks behind the header raises its message. -/
theorem read_error_iff (S : Scanf) (fileName : String) (istream : IStream) (h : Spi1D.Header)
    (rest : IStream) (hparse : Spi1D.parseHeader S fileName istream = Except.ok (h, rest)) :
    (Spi1D.read S istream fileName = Except.error
        (Spi1D.ThrowErrorMessage "Could not find 'Version' Tag." fileName (-1) "")
      ↔ h.version = -1) ∧
    (Spi1D.read S istream fileName = Except.error
        (Spi1D.ThrowErrorMessage "Could not find 'Length' Tag." fileName (-1) "")
      ↔ h.version ≠ -1 ∧ h.lut_size = -1) ∧
    (Spi1D.read S istream fileName = Except.error
        (Spi1D.ThrowErrorMessage "Could not find 'Components' Tag." fileName (-1) "")
      ↔ h.version ≠ -1 ∧ h.lut_size ≠ -1 ∧ h.components = -1) ∧
    (Spi1D.read S istream fileName = Except.error
        (Spi1D.ThrowErrorMessage "Components must be [1,2,3]." fileName (-1) "")
      ↔ h.version ≠ -1 ∧ h.lut_size ≠ -1 ∧ h.components ≠ -1 ∧
        (h.components < 0 ∨ h.components > 3)) := by
  have hres : ∀ e : String, e ≠ "Not enough entries found." →
      Spi1D.read S istream fileName
        = Except.error (Spi1D.ThrowErrorMessage e fileName (-1) "") →
      (e = "Could not find 'Version' Tag." ∧ h.version = -1) ∨
      (e = "Could not find 'Length' Tag." ∧ h.version ≠ -1 ∧ h.lut_size = -1) ∨
      (e = "Could not find 'Components' Tag." ∧ h.version ≠ -1 ∧ h.lut_size ≠ -1 ∧
        h.components = -1) ∨
      (e = "Components must be [1,2,3]." ∧ h.version ≠ -1 ∧ h.lut_size ≠ -1
        ∧ h.components ≠ -1 ∧ (h.components < 0 ∨ h.components > 3)) := by
    intro e hne hr
    rcases read_cases S fileName istream h rest hparse with
      ⟨hv, hread⟩ | ⟨hv, hl, hread⟩ | ⟨hv, hl, hc, hread⟩ | ⟨hv, hl, hc, hm, hread⟩ |
      ⟨-, -, -, -, hread⟩ | ⟨-, -, -, -, -, hread⟩ | ⟨-, -, -, -, -, hread⟩
    · rw [hread] at hr
      exact Or.inl ⟨(ThrowErrorMessage_inj _ _ _ _ _ (Except.error.inj hr)).symm, hv⟩
    · rw [hread] at hr
      exact Or.inr (Or.inl
        ⟨(ThrowErrorMessage_inj _ _ _ _ _ (Except.error.inj hr)).symm, hv, hl⟩)
    · rw [hread] at hr
      exact Or.inr (Or.inr (Or.inl
        ⟨(ThrowErrorMessage_inj _ _ _ _ _ (Except.error.inj hr)).symm, hv, hl, hc⟩))
    · rw [hread] at hr
      exact Or.inr (Or.inr (Or.inr
        ⟨(ThrowErrorMessage_inj _ _ _ _ _ (Except.error.inj hr)).symm, hv, hl, hc, hm⟩))
    · rw [hread] at hr
      exact absurd (Except.error.inj hr) (reserve_ne_ThrowErrorMessage _ _ _ _)
    · rw [hread] at hr
      exact absurd (ThrowErrorMessage_inj _ _ _ _ _ (Except.error.inj hr)).symm hne
    · rw [hread] at hr
      cases hr
  refine ⟨⟨fun hr => ?_, fun hv => ?_⟩, ⟨fun hr => ?_, fun hv => ?_⟩,
    ⟨fun hr => ?_, fun hv => ?_⟩, ⟨fun hr => ?_, fun hv => ?_⟩⟩
  · rcases hres _ (by decide) hr with ⟨-, hx⟩ | ⟨he, -⟩ | ⟨he, -⟩ | ⟨he, -⟩
    · exact hx
    · exact absurd he (by decide)
    · exact absurd he (by decide)
    · exact absurd he (by decide)
  · rcases read_cases S fileName istream h rest hparse with
      ⟨-, hread⟩ | ⟨hx, -⟩ | ⟨hx, -⟩ | ⟨hx, -⟩ | ⟨hx, -⟩ | ⟨hx, -⟩ | ⟨hx, -⟩
    · exact hread
    all_goals exact absurd hv hx
  · rcases hres _ (by decide) hr with ⟨he, -⟩ | ⟨-, hx⟩ | ⟨he, -⟩ | ⟨he, -⟩
    · exact absurd he (by decide)
    · exact hx
    · exact absurd he (by decide)
    · exact absurd he (by decide)
  · rcases read_cases S fileName istream h rest hparse with
      ⟨hx, -⟩ | ⟨-, -, hread⟩ | ⟨-, hx, -⟩ | ⟨-, hx, -⟩ | ⟨-, -, -, hx, -⟩ |
      ⟨-, -, -, hx, -⟩ | ⟨-, -, -, hx, -⟩
    · exact absurd hx hv.1
    · exact hread
    · exact absurd hv.2 hx
    · exact absurd hv.2 hx
    · have := hv.2; omega
    · have := hv.2; omega
    · have := hv.2; omega
  · rcases hres _ (by decide) hr with ⟨he, -⟩ | ⟨he, -⟩ | ⟨-, hx⟩ | ⟨he, -⟩
    · exact absurd he (by decide)
    · exact absurd he (by decide)
    · exact hx
    · exact absurd he (by decide)
  · rcases read_cases S fileName istream h rest hparse with
      ⟨hx, -⟩ | ⟨-, hx, -⟩ | ⟨-, -, -, hread⟩ | ⟨-, -, hx, -⟩ | ⟨-, hx, -, -, -⟩ |
      ⟨-, hx, -, -, -⟩ | ⟨-, hx, -, -, -⟩
    · exact absurd hx hv.1
    · exact absurd hx hv.2.1
    · exact hread
    · exact absurd hv.2.2 hx
    · have := hv.2.2; omega
    · have := hv.2.2; omega
    · have := hv.2.2; omega
  · rcases hres _ (by decide) hr with ⟨he, -⟩ | ⟨he, -⟩ | ⟨he, -⟩ | ⟨-, hx⟩
    · exact absurd he (by decide)
    · exact absurd he (by decide)
    · exact absurd he (by decide)
    · exact hx
  · rcases read_cases S fileName istream h rest hparse with
      ⟨hx, -⟩ | ⟨-, hx, -⟩ | ⟨-, -, hx, -⟩ | ⟨-, -, -, -, hread⟩ | ⟨-, h0, h3, -, -⟩ |
      ⟨-, h0, h3, -, -⟩ | ⟨-, h0, h3, -, -⟩
    · exact absurd hx hv.1
    · exact absurd hx hv.2.1
    · exact absurd hx hv.2.2.1
    · exact hread
    · have := hv.2.2.2; omega
    · have := hv.2.2.2; omega
    · have := hv.2.2.2; omega


/-! ## The table loop of the `.spi3d` reader -/

/-- The table loop runs its test and body over the lines and the unterminated rest. -/
theorem tableLoop_eq_fold (S : Scanf) (fileName : String) (rSize gSize bSize : ℤ)
    (ls : List String) (last : String) (t : Spi3D.Table) :
    Spi3D.tableLoop S fileName rSize gSize bSize ls last t
      = Spi3D.tableFold S fileName rSize gSize bSize (ls ++ [last]) t := by
  induction ls generalizing t with
  | nil =>
    simp only [Spi3D.tableLoop, List.nil_append, Spi3D.tableFold]
    split
    · cases hl : Spi3D.tableLine S fileName rSize gSize bSize t last with
      | none => rfl
      | some r => cases r <;> rfl
    · rfl
  | cons l ls ih =>
    simp only [Spi3D.tableLoop, List.cons_append, Spi3D.tableFold]
    split
    · cases hl : Spi3D.tableLine S fileName rSize gSize bSize t l with
      | none => rfl
      | some r =>
        cases r with
        | error e => rfl
        | ok t' => exact ih t'
    · rfl

/-- The loop does nothing more when no entry remains. -/
theorem tableFold_done (S : Scanf) (fileName : String) (rSize gSize bSize : ℤ)
    (ls : List String) (t : Spi3D.Table) (hdone : ¬ t.entriesRemaining > 0) :
    Spi3D.tableFold S fileName rSize gSize bSize ls t = some (Except.ok t) := by
  cases ls with
  | nil => rfl
  | cons l ls => simp only [Spi3D.tableFold, if_neg hdone]

/-- The cell of an index triple in the cube lies in the table. -/
theorem cell_lt (rSize gSize bSize : ℤ) (idx : ℤ × ℤ × ℤ)
    (hin : Spi3D.inCube rSize gSize bSize idx) :
    0 ≤ idx.1 + rSize * (idx.2.1 + gSize * idx.2.2) ∧
    idx.1 + rSize * (idx.2.1 + gSize * idx.2.2) < rSize * gSize * bSize := by
  obtain ⟨r0, r1, g0, g1, b0, b1⟩ := hin
  have hr : 0 < rSize := lt_of_le_of_lt r0 r1
  have hg : 0 < gSize := lt_of_le_of_lt g0 g1
  have h1 : 0 ≤ gSize * idx.2.2 := mul_nonneg hg.le b0
  have h2 : gSize * idx.2.2 ≤ gSize * (bSize - 1) :=
    mul_le_mul_of_nonneg_left (by omega) hg.le
  have h3 : 0 ≤ rSize * (idx.2.1 + gSize * idx.2.2) := mul_nonneg hr.le (by omega)
  have h4 : rSize * (idx.2.1 + gSize * idx.2.2) ≤ rSize * (gSize * bSize - 1) :=
    mul_le_mul_of_nonneg_left (by
      have : gSize * (bSize - 1) = gSize * bSize - gSize := by ring
      omega) hr.le
  have h5 : rSize * (gSize * bSize - 1) = rSize * gSize * bSize - rSize := by ring
  constructor
  · omega
  · omega

/-- Index triples in the cube with the same cell are the same. -/
theorem cell_inj (rSize gSize bSize : ℤ) (i j : ℤ × ℤ × ℤ)
    (hi : Spi3D.inCube rSize gSize bSize i) (hj : Spi3D.inCube rSize gSize bSize j)
    (hc : Spi3D.cell rSize gSize i = Spi3D.cell rSize gSize j) : i = j := by
  have hi0 := (cell_lt rSize gSize bSize i hi).1
  have hj0 := (cell_lt rSize gSize bSize j hj).1
  obtain ⟨i1, i2, i3⟩ := i
  obtain ⟨j1, j2, j3⟩ := j
  obtain ⟨ri0, ri1, gi0, gi1, bi0, bi1⟩ := hi
  obtain ⟨rj0, rj1, gj0, gj1, bj0, bj1⟩ := hj
  simp only at ri0 ri1 gi0 gi1 bi0 bi1 rj0 rj1 gj0 gj1 bj0 bj1 hi0 hj0
  unfold Spi3D.cell at hc
  simp only at hc
  have heq : i1 + rSize * (i2 + gSize * i3) = j1 + rSize * (j2 + gSize * j3) := by
    have := congrArg (fun n : ℕ => (n : ℤ)) hc
    simp only [Int.toNat_of_nonneg hi0, Int.toNat_of_nonneg hj0] at this
    exact this
  have h1 : i1 = j1 := by
    have hm := congrArg (fun x => x % rSize) heq
    simp only [Int.add_mul_emod_self_left] at hm
    rwa [Int.emod_eq_of_lt ri0 ri1, Int.emod_eq_of_lt rj0 rj1] at hm
  subst h1
  have hr : 0 < rSize := lt_of_le_of_lt ri0 ri1
  have heq2 : i2 + gSize * i3 = j2 + gSize * j3 := by
    have : rSize * (i2 + gSize * i3) = rSize * (j2 + gSize * j3) := by omega
    exact mul_left_cancel₀ hr.ne' this
  have h2 : i2 = j2 := by
    have hm := congrArg (fun x => x % gSize) heq2
    simp only [Int.add_mul_emod_self_left] at hm
    rwa [Int.emod_eq_of_lt gi0 gi1, Int.emod_eq_of_lt gj0 gj1] at hm
  subst h2
  have hg : 0 < gSize := lt_of_le_of_lt gi0 gi1
  have h3 : i3 = j3 := by
    have : gSize * i3 = gSize * j3 := by omega
    exact mul_left_cancel₀ hg.ne' this
  subst h3
  rfl

/-- The three assignments of a row keep the length of the table. -/
theorem place_length (rSize gSize : ℤ) (lut : List ℚ) (row : (ℤ × ℤ × ℤ) × (ℚ × ℚ × ℚ)) :
    (Spi3D.place rSize gSize lut row).length = lut.length := by
  simp [Spi3D.place]

/-- The loop body on a line that holds no row. -/
theorem tableLine_skip (S : Scanf) (fileName : String) (rSize gSize bSize : ℤ)
    (t : Spi3D.Table) (l : String)
    (hrow : S.sscanf_dddfff "%d %d %d %f %f %f" l = none) :
    Spi3D.tableLine S fileName rSize gSize bSize t l = some (Except.ok t) := by
  unfold Spi3D.tableLine
  rw [hrow]

/-- The loop body on a row whose index triple lies outside of the cube. -/
theorem tableLine_outside (S : Scanf) (fileName : String) (rSize gSize bSize : ℤ)
    (t : Spi3D.Table) (l : String) (row : (ℤ × ℤ × ℤ) × (ℚ × ℚ × ℚ))
    (hrow : S.sscanf_dddfff "%d %d %d %f %f %f" l = some row)
    (hout : ¬ Spi3D.inCube rSize gSize bSize row.1) :
    Spi3D.tableLine S fileName rSize gSize bSize t l
      = some (Except.error (Spi3D.outsideMessage fileName row.1.1 row.1.2.1 row.1.2.2)) := by
  obtain ⟨⟨r, g, b⟩, ⟨x, y, z⟩⟩ := row
  unfold Spi3D.tableLine
  rw [hrow]
  have hcond : r < 0 ∨ r ≥ rSize ∨ g < 0 ∨ g ≥ gSize ∨ b < 0 ∨ b ≥ bSize := by
    unfold Spi3D.inCube at hout
    simp only at hout
    by_contra hc
    apply hout
    omega
  simp only [if_pos hcond]

/-- The loop body on a row whose index triple lies in the cube. -/
theorem tableLine_inside (S : Scanf) (fileName : String) (rSize gSize bSize : ℤ)
    (t : Spi3D.Table) (l : String) (row : (ℤ × ℤ × ℤ) × (ℚ × ℚ × ℚ))
    (hlen : (t.lut.length : ℤ) = rSize * gSize * bSize * 3)
    (hrow : S.sscanf_dddfff "%d %d %d %f %f %f" l = some row)
    (hin : Spi3D.inCube rSize gSize bSize row.1) :
    Spi3D.tableLine S fileName rSize gSize bSize t l
      = some (Except.ok { lut := Spi3D.place rSize gSize t.lut row
                          entriesRemaining := t.entriesRemaining - 1 }) := by
  obtain ⟨c0, c1⟩ := cell_lt rSize gSize bSize row.1 hin
  obtain ⟨⟨r, g, b⟩, ⟨x, y, z⟩⟩ := row
  simp only at c0 c1
  unfold Spi3D.tableLine
  rw [hrow]
  have hcond : ¬ (r < 0 ∨ r ≥ rSize ∨ g < 0 ∨ g ≥ gSize ∨ b < 0 ∨ b ≥ bSize) := by
    unfold Spi3D.inCube at hin
    simp only at hin
    omega
  have hidx : ¬ (GetLut3DIndex_RedFast r g b rSize gSize bSize < 0 ∨
      GetLut3DIndex_RedFast r g b rSize gSize bSize ≥ (t.lut.length : ℤ)) := by
    unfold GetLut3DIndex_RedFast
    omega
  simp only [if_neg hcond, if_neg hidx]
  have hcell : GetLut3DIndex_RedFast r g b rSize gSize bSize
      = ((3 * Spi3D.cell rSize gSize (r, g, b) : ℕ) : ℤ) := by
    unfold GetLut3DIndex_RedFast Spi3D.cell
    push_cast
    rw [Int.toNat_of_nonneg c0]
  have hclt : (3 * Spi3D.cell rSize gSize (r, g, b) : ℤ) + 2 < (t.lut.length : ℤ) := by
    have : ((Spi3D.cell rSize gSize (r, g, b) : ℕ) : ℤ) = r + rSize * (g + gSize * b) := by
      unfold Spi3D.cell
      exact Int.toNat_of_nonneg c0
    omega
  rw [hcell]
  unfold writeAt
  have e0 : ((((3 * Spi3D.cell rSize gSize (r, g, b) : ℕ) : ℤ) + 0).toNat)
      = 3 * Spi3D.cell rSize gSize (r, g, b) := by omega
  have e1 : ((((3 * Spi3D.cell rSize gSize (r, g, b) : ℕ) : ℤ) + 1).toNat)
      = 3 * Spi3D.cell rSize gSize (r, g, b) + 1 := by omega
  have e2 : ((((3 * Spi3D.cell rSize gSize (r, g, b) : ℕ) : ℤ) + 2).toNat)
      = 3 * Spi3D.cell rSize gSize (r, g, b) + 2 := by omega
  have k0 : 0 ≤ (((3 * Spi3D.cell rSize gSize (r, g, b) : ℕ) : ℤ) + 0) ∧
      (((3 * Spi3D.cell rSize gSize (r, g, b) : ℕ) : ℤ) + 0) < (t.lut.length : ℤ) := by
    push_cast
    omega
  rw [if_pos k0]
  simp only [List.length_set]
  have k1 : 0 ≤ (((3 * Spi3D.cell rSize gSize (r, g, b) : ℕ) : ℤ) + 1) ∧
      (((3 * Spi3D.cell rSize gSize (r, g, b) : ℕ) : ℤ) + 1) < (t.lut.length : ℤ) := by
    push_cast
    omega
  rw [if_pos k1]
  simp only [List.length_set]
  have k2 : 0 ≤ (((3 * Spi3D.cell rSize gSize (r, g, b) : ℕ) : ℤ) + 2) ∧
      (((3 * Spi3D.cell rSize gSize (r, g, b) : ℕ) : ℤ) + 2) < (t.lut.length : ℤ) := by
    push_cast
    omega
  rw [if_pos k2, e0, e1, e2]
  rfl

/-- The loop body never assigns outside a table whose length is a multiple of three, and
it keeps the length of the table. -/
theorem tableLine_defined (S : Scanf) (fileName : String) (rSize gSize bSize : ℤ)
    (t : Spi3D.Table) (l : String) (P : ℕ) (hlen : t.lut.length = 3 * P) :
    (∃ e, Spi3D.tableLine S fileName rSize gSize bSize t l = some (Except.error e)) ∨
    (∃ t', Spi3D.tableLine S fileName rSize gSize bSize t l = some (Except.ok t') ∧
      t'.lut.length = 3 * P) := by
  unfold Spi3D.tableLine
  cases hrow : S.sscanf_dddfff "%d %d %d %f %f %f" l with
  | none => exact Or.inr ⟨t, rfl, hlen⟩
  | some row =>
    obtain ⟨⟨r, g, b⟩, ⟨x, y, z⟩⟩ := row
    simp only
    split
    · exact Or.inl ⟨_, rfl⟩
    · split
      · exact Or.inl ⟨_, rfl⟩
      · rename_i hidx
        right
        unfold GetLut3DIndex_RedFast at hidx ⊢
        have h0 : 0 ≤ 3 * (r + rSize * (g + gSize * b)) := by omega
        have h1 : 3 * (r + rSize * (g + gSize * b)) < (t.lut.length : ℤ) := by omega
        have h2 : 3 * (r + rSize * (g + gSize * b)) + 2 < (t.lut.length : ℤ) := by
          rw [hlen] at h1 ⊢
          push_cast at h1 ⊢
          omega
        unfold writeAt
        rw [if_pos ⟨by omega, by omega⟩]
        simp only [List.length_set]
        rw [if_pos ⟨by omega, by omega⟩]
        simp only [List.length_set]
        rw [if_pos ⟨by omega, by omega⟩]
        exact ⟨_, rfl, by simp [hlen]⟩

/-- The table loop never assigns outside a table whose length is a multiple of three. -/
theorem tableFold_defined (S : Scanf) (fileName : String) (rSize gSize bSize : ℤ)
    (ls : List String) (t : Spi3D.Table) (P : ℕ) (hlen : t.lut.length = 3 * P) :
    Spi3D.tableFold S fileName rSize gSize bSize ls t ≠ none := by
  induction ls generalizing t with
  | nil => simp [Spi3D.tableFold]
  | cons l ls ih =>
    simp only [Spi3D.tableFold]
    split
    · rcases tableLine_defined S fileName rSize gSize bSize t l P hlen with
        ⟨e, he⟩ | ⟨t', ht, hl'⟩
      · rw [he]; simp
      · rw [ht]; exact ih t' hl'
    · simp

/-- The length of a resized vector. -/
theorem resizeVector_length (v : List ℚ) (n : ℤ) : (resizeVector v n).length = n.toNat := by
  unfold resizeVector
  simp only [List.length_append, List.length_take, List.length_replicate]
  omega

/-- The text of a stream behind its first three lines. -/
theorem getline_three (istream : IStream) (l1 l2 l3 : String) (body : List String)
    (hgood : istream.good = true) (hlines : istream.lines = l1 :: l2 :: l3 :: body) :
    istream.getline = (l1, { istream with lines := l2 :: l3 :: body }) ∧
    IStream.getline { istream with lines := l2 :: l3 :: body }
      = (l2, { istream with lines := l3 :: body }) ∧
    IStream.getline { istream with lines := l3 :: body }
      = (l3, { istream with lines := body }) := by
  refine ⟨?_, ?_, ?_⟩
  · unfold IStream.getline
    rw [if_pos hgood, hlines]
  · unfold IStream.getline
    simp only [hgood, if_true]
  · unfold IStream.getline
    simp only [hgood, if_true]

/-- The reader behind a header of three lines that declares sizes whose product is not
negative. -/
theorem read_of_sizes (S : Scanf) (create : Lut3D) (istream : IStream) (fileName : String)
    (l1 l2 l3 : String) (body : List String) (rSize gSize bSize : ℤ)
    (hgood : istream.good = true) (hlines : istream.lines = l1 :: l2 :: l3 :: body)
    (hmagic : startswith (lower l1) "spilut" = true)
    (hsize : S.sscanf_ddd "%d %d %d" l3 = some (rSize, gSize, bSize))
    (hprod : 0 ≤ rSize * gSize * bSize) :
    Spi3D.read S create istream fileName
      = match Spi3D.tableFold S fileName rSize gSize bSize (body ++ [istream.last])
          { lut := resizeVector create.lut (rSize * gSize * bSize * 3)
            entriesRemaining := rSize * gSize * bSize } with
        | none => none
        | some (Except.error e) => some (Except.error e)
        | some (Except.ok t) =>
          if t.entriesRemaining > 0 then
            some (Except.error ("Error parsing .spi3d file (" ++ fileName ++ "). "
              ++ "Not enough entries found."))
          else
            some (Except.ok { create with
              size := fun i => if i = 0 then rSize else if i = 1 then gSize else bSize
              lut := t.lut }) := by
  obtain ⟨g1, g2, g3⟩ := getline_three istream l1 l2 l3 body hgood hlines
  unfold Spi3D.read
  rw [g1]
  simp only [hmagic, Bool.not_true, Bool.false_eq_true, if_false]
  rw [g2]
  simp only
  rw [g3]
  simp only [hsize]
  have hneg : ¬ rSize * gSize * bSize * 3 < 0 := by omega
  rw [if_neg hneg]
  simp only [hgood, if_true, tableLoop_eq_fold]

/-- The reader never assigns outside the table. -/
theorem read_defined (S : Scanf) (create : Lut3D) (istream : IStream) (fileName : String) :
    Spi3D.read S create istream fileName ≠ none := by
  unfold Spi3D.read
  generalize istream.getline = p1
  obtain ⟨line1, s1⟩ := p1
  simp only
  split
  · simp
  · generalize s1.getline = p2
    obtain ⟨line2, s2⟩ := p2
    simp only
    generalize s2.getline = p3
    obtain ⟨line3, s3⟩ := p3
    simp only
    cases hsize : S.sscanf_ddd "%d %d %d" line3 with
    | none => simp
    | some sizes =>
      obtain ⟨rSize, gSize, bSize⟩ := sizes
      simp only
      split
      · simp
      · rename_i hneg
        have hlen : (resizeVector create.lut (rSize * gSize * bSize * 3)).length
            = 3 * (rSize * gSize * bSize).toNat := by
          rw [resizeVector_length]
          omega
        by_cases hg : s3.good = true
        · simp only [hg, if_true, tableLoop_eq_fold]
          have hd := tableFold_defined S fileName rSize gSize bSize (s3.lines ++ [s3.last])
            { lut := resizeVector create.lut (rSize * gSize * bSize * 3)
              entriesRemaining := rSize * gSize * bSize } _ hlen
          revert hd
          cases Spi3D.tableFold S fileName rSize gSize bSize (s3.lines ++ [s3.last])
            { lut := resizeVector create.lut (rSize * gSize * bSize * 3)
              entriesRemaining := rSize * gSize * bSize } with
          | none => intro hd; exact absurd rfl hd
          | some r =>
            intro _
            cases r with
            | error e => simp
            | ok t =>
              simp only
              split <;> simp
        · simp only [hg, Bool.false_eq_true, if_false]
          split <;> simp

/-- The table loop over lines whose rows, as far as entries remain, lie in the cube: the
rows are placed one after the other, and what follows the last needed row is not looked
at. -/
theorem tableFold_rows (S : Scanf) (fileName : String) (rSize gSize bSize : ℤ)
    (ls : List String) (t : Spi3D.Table)
    (hlen : (t.lut.length : ℤ) = rSize * gSize * bSize * 3)
    (hin : ∀ row ∈ (Spi3D.rows S ls).take t.entriesRemaining.toNat,
      Spi3D.inCube rSize gSize bSize row.1) :
    Spi3D.tableFold S fileName rSize gSize bSize ls t
      = some (Except.ok
          { lut := ((Spi3D.rows S ls).take t.entriesRemaining.toNat).foldl
              (Spi3D.place rSize gSize) t.lut
            entriesRemaining := t.entriesRemaining
              - (((Spi3D.rows S ls).take t.entriesRemaining.toNat).length : ℤ) }) := by
  induction ls generalizing t with
  | nil => simp [Spi3D.tableFold, Spi3D.rows]
  | cons l ls ih =>
    simp only [Spi3D.tableFold]
    by_cases hrem : t.entriesRemaining > 0
    · rw [if_pos hrem]
      cases hrow : S.sscanf_dddfff "%d %d %d %f %f %f" l with
      | none =>
        have hrows : Spi3D.rows S (l :: ls) = Spi3D.rows S ls := by
          unfold Spi3D.rows
          exact List.filterMap_cons_none hrow
        rw [tableLine_skip S fileName rSize gSize bSize t l hrow]
        simp only
        rw [hrows] at hin ⊢
        exact ih t hlen hin
      | some row =>
        have hrows : Spi3D.rows S (l :: ls) = row :: Spi3D.rows S ls := by
          unfold Spi3D.rows
          exact List.filterMap_cons_some hrow
        obtain ⟨n, hn⟩ : ∃ n, t.entriesRemaining.toNat = n + 1 :=
          ⟨t.entriesRemaining.toNat - 1, by omega⟩
        rw [hrows, hn, List.take_succ_cons] at hin ⊢
        have hrin := hin row (List.mem_cons_self _ _)
        rw [tableLine_inside S fileName rSize gSize bSize t l row hlen hrow hrin]
        simp only
        have hn' : (t.entriesRemaining - 1).toNat = n := by omega
        have hstep := ih
          { lut := Spi3D.place rSize gSize t.lut row
            entriesRemaining := t.entriesRemaining - 1 }
          (by simp only [place_length]; exact hlen)
          (by
            simp only [hn']
            intro r hr
            exact hin r (List.mem_cons_of_mem _ hr))
        rw [hstep]
        simp only [hn', List.foldl_cons, List.length_cons]
        have hcount : t.entriesRemaining - 1
              - (((Spi3D.rows S ls).take n).length : ℤ)
            = t.entriesRemaining - ((((Spi3D.rows S ls).take n).length + 1 : ℕ) : ℤ) := by
          push_cast
          omega
        rw [hcount]
    · rw [if_neg hrem]
      have h0 : t.entriesRemaining.toNat = 0 := by omega
      simp [h0]

/-- The table loop over lines that hold a row outside of the cube before the declared
number of entries has been read: the loop throws for the first row outside of the cube. -/
theorem tableFold_outside (S : Scanf) (fileName : String) (rSize gSize bSize : ℤ)
    (pre : List String) (l : String) (post : List String) (t : Spi3D.Table)
    (row : (ℤ × ℤ × ℤ) × (ℚ × ℚ × ℚ))
    (hlen : (t.lut.length : ℤ) = rSize * gSize * bSize * 3)
    (hbefore : ((Spi3D.rows S pre).length : ℤ) < t.entriesRemaining)
    (hrow : S.sscanf_dddfff "%d %d %d %f %f %f" l = some row)
    (hout : ¬ Spi3D.inCube rSize gSize bSize row.1) :
    ∃ idx : ℤ × ℤ × ℤ,
      Spi3D.tableFold S fileName rSize gSize bSize (pre ++ l :: post) t
        = some (Except.error (Spi3D.outsideMessage fileName idx.1 idx.2.1 idx.2.2)) ∧
      ((∀ r ∈ Spi3D.rows S pre, Spi3D.inCube rSize gSize bSize r.1) → idx = row.1) := by
  induction pre generalizing t with
  | nil =>
    have hrem : t.entriesRemaining > 0 := by
      simp only [Spi3D.rows, List.filterMap_nil, List.length_nil] at hbefore
      exact_mod_cast hbefore
    refine ⟨row.1, ?_, fun _ => rfl⟩
    simp only [List.nil_append, Spi3D.tableFold, if_pos hrem,
      tableLine_outside S fileName rSize gSize bSize t l row hrow hout]
  | cons p ps ih =>
    have hnn := Int.natCast_nonneg (Spi3D.rows S (p :: ps)).length
    have hrem : t.entriesRemaining > 0 := by omega
    simp only [List.cons_append, Spi3D.tableFold, if_pos hrem]
    cases hp : S.sscanf_dddfff "%d %d %d %f %f %f" p with
    | none =>
      have hrows : Spi3D.rows S (p :: ps) = Spi3D.rows S ps := by
        unfold Spi3D.rows
        exact List.filterMap_cons_none hp
      rw [tableLine_skip S fileName rSize gSize bSize t p hp]
      simp only
      rw [hrows] at hbefore ⊢
      exact ih t hlen hbefore
    | some prow =>
      have hrows : Spi3D.rows S (p :: ps) = prow :: Spi3D.rows S ps := by
        unfold Spi3D.rows
        exact List.filterMap_cons_some hp
      rw [hrows] at hbefore ⊢
      by_cases hpin : Spi3D.inCube rSize gSize bSize prow.1
      · rw [tableLine_inside S fileName rSize gSize bSize t p prow hlen hp hpin]
        simp only
        obtain ⟨idx, hfold, hfirst⟩ := ih
          { lut := Spi3D.place rSize gSize t.lut prow
            entriesRemaining := t.entriesRemaining - 1 }
          (by simp only [place_length]; exact hlen)
          (by
            simp only [List.length_cons] at hbefore
            push_cast at hbefore
            simp only
            omega)
        exact ⟨idx, hfold, fun hall => hfirst (fun r hr => hall r (List.mem_cons_of_mem _ hr))⟩
      · rw [tableLine_outside S fileName rSize gSize bSize t p prow hp hpin]
        exact ⟨prow.1, rfl, fun hall => absurd (hall prow (List.mem_cons_self _ _)) hpin⟩

/-! ## Where the rows are placed -/

/-- The three assignments of a row store its values at the three positions of its cell. -/
theorem place_getElem_block (rSize gSize : ℤ) (lut : List ℚ)
    (row : (ℤ × ℤ × ℤ) × (ℚ × ℚ × ℚ)) (k : Fin 3)
    (hlt : 3 * Spi3D.cell rSize gSize row.1 + 2 < lut.length) :
    (Spi3D.place rSize gSize lut row)[3 * Spi3D.cell rSize gSize row.1 + k.val]?
      = some (channelValue row.2 k) := by
  unfold Spi3D.place channelValue
  simp only [List.getElem?_set, List.length_set]
  have hk := k.isLt
  by_cases h0 : k = 0
  · subst h0
    simp
    omega
  · by_cases h1 : k = 1
    · subst h1
      simp
      omega
    · have h2 : k = 2 := by
        apply Fin.ext
        have : k.val ≠ 0 := fun h => h0 (Fin.ext h)
        have : k.val ≠ 1 := fun h => h1 (Fin.ext h)
        simp only [Fin.val_two]
        omega
      subst h2
      simp
      omega

/-- The three assignments of a row leave the positions of the other cells as they are. -/
theorem place_getElem_other (rSize gSize : ℤ) (lut : List ℚ)
    (row : (ℤ × ℤ × ℤ) × (ℚ × ℚ × ℚ)) (j : ℕ) (hj : j / 3 ≠ Spi3D.cell rSize gSize row.1) :
    (Spi3D.place rSize gSize lut row)[j]? = lut[j]? := by
  unfold Spi3D.place
  rw [List.getElem?_set_ne (by omega), List.getElem?_set_ne (by omega),
    List.getElem?_set_ne (by omega)]

/-- Placing rows keeps the length of the table. -/
theorem foldl_place_length (rSize gSize : ℤ) (rows : List ((ℤ × ℤ × ℤ) × (ℚ × ℚ × ℚ)))
    (lut : List ℚ) : (rows.foldl (Spi3D.place rSize gSize) lut).length = lut.length := by
  induction rows generalizing lut with
  | nil => rfl
  | cons row rows ih => rw [List.foldl_cons, ih, place_length]

/-- Placing rows leaves the positions of the cells without a row as they are. -/
theorem foldl_place_other (rSize gSize : ℤ) (rows : List ((ℤ × ℤ × ℤ) × (ℚ × ℚ × ℚ)))
    (lut : List ℚ) (j : ℕ) (hj : ∀ row ∈ rows, j / 3 ≠ Spi3D.cell rSize gSize row.1) :
    (rows.foldl (Spi3D.place rSize gSize) lut)[j]? = lut[j]? := by
  induction rows generalizing lut with
  | nil => rfl
  | cons row rows ih =>
    rw [List.foldl_cons, ih _ (fun r hr => hj r (List.mem_cons_of_mem _ hr)),
      place_getElem_other rSize gSize lut row j (hj row (List.mem_cons_self _ _))]

/-- Placing rows of pairwise different cells stores the values of each row at the three
positions of its cell. -/
theorem foldl_place_block (rSize gSize : ℤ) (rows : List ((ℤ × ℤ × ℤ) × (ℚ × ℚ × ℚ)))
    (lut : List ℚ)
    (hpair : rows.Pairwise (fun a b => Spi3D.cell rSize gSize a.1 ≠ Spi3D.cell rSize gSize b.1))
    (hlt : ∀ row ∈ rows, 3 * Spi3D.cell rSize gSize row.1 + 2 < lut.length)
    (row : (ℤ × ℤ × ℤ) × (ℚ × ℚ × ℚ)) (hrow : row ∈ rows) (k : Fin 3) :
    (rows.foldl (Spi3D.place rSize gSize) lut)[3 * Spi3D.cell rSize gSize row.1 + k.val]?
      = some (channelValue row.2 k) := by
  induction rows generalizing lut with
  | nil => cases hrow
  | cons r rs ih =>
    rw [List.foldl_cons]
    obtain ⟨hhead, htail⟩ := List.pairwise_cons.mp hpair
    rcases List.mem_cons.mp hrow with heq | hmem
    · subst heq
      have hk := k.isLt
      rw [foldl_place_other rSize gSize rs _ _ (fun r' hr' => by
        have := hhead r' hr'
        omega)]
      exact place_getElem_block rSize gSize lut row k (hlt row (List.mem_cons_self _ _))
    · exact ih _ htail (fun r' hr' => by
        rw [place_length]
        exact hlt r' (List.mem_cons_of_mem _ hr')) hmem

/-- Placing rows of pairwise different cells gives the same table in every order of the
rows. -/
theorem foldl_place_perm (rSize gSize : ℤ) (rows1 rows2 : List ((ℤ × ℤ × ℤ) × (ℚ × ℚ × ℚ)))
    (lut : List ℚ) (hperm : rows1.Perm rows2)
    (hpair : rows1.Pairwise
      (fun a b => Spi3D.cell rSize gSize a.1 ≠ Spi3D.cell rSize gSize b.1))
    (hlt : ∀ row ∈ rows1, 3 * Spi3D.cell rSize gSize row.1 + 2 < lut.length) :
    rows1.foldl (Spi3D.place rSize gSize) lut = rows2.foldl (Spi3D.place rSize gSize) lut := by
  have hpair2 : rows2.Pairwise
      (fun a b => Spi3D.cell rSize gSize a.1 ≠ Spi3D.cell rSize gSize b.1) :=
    (List.Perm.pairwise_iff (fun h => Ne.symm h) hperm).mp hpair
  have hlt2 : ∀ row ∈ rows2, 3 * Spi3D.cell rSize gSize row.1 + 2 < lut.length :=
    fun row hr => hlt row (hperm.mem_iff.mpr hr)
  apply List.ext_getElem?
  intro j
  by_cases hex : ∃ row ∈ rows1, j / 3 = Spi3D.cell rSize gSize row.1
  · obtain ⟨row, hr, hc⟩ := hex
    have hj : j = 3 * Spi3D.cell rSize gSize row.1
        + (⟨j % 3, Nat.mod_lt _ (by decide)⟩ : Fin 3).val := by
      simp only
      omega
    rw [hj, foldl_place_block rSize gSize rows1 lut hpair hlt row hr,
      foldl_place_block rSize gSize rows2 lut hpair2 hlt2 row (hperm.mem_iff.mp hr)]
  · have h1 : ∀ row ∈ rows1, j / 3 ≠ Spi3D.cell rSize gSize row.1 :=
      fun row hr hc => hex ⟨row, hr, hc⟩
    have h2 : ∀ row ∈ rows2, j / 3 ≠ Spi3D.cell rSize gSize row.1 :=
      fun row hr => h1 row (hperm.mem_iff.mpr hr)
    rw [foldl_place_other rSize gSize rows1 lut j h1,
      foldl_place_other rSize gSize rows2 lut j h2]

/-- Rows with pairwise distinct index triples in the cube have pairwise different cells. -/
theorem cells_pairwise (rSize gSize bSize : ℤ) (rows : List ((ℤ × ℤ × ℤ) × (ℚ × ℚ × ℚ)))
    (hin : ∀ row ∈ rows, Spi3D.inCube rSize gSize bSize row.1)
    (hnodup : (rows.map (fun row => row.1)).Nodup) :
    rows.Pairwise (fun a b => Spi3D.cell rSize gSize a.1 ≠ Spi3D.cell rSize gSize b.1) := by
  have hp : rows.Pairwise (fun a b => a.1 ≠ b.1) := List.pairwise_map.mp hnodup
  refine List.Pairwise.imp_of_mem ?_ hp
  intro a b ha hb hne hc
  exact hne (cell_inj rSize gSize bSize a.1 b.1 (hin a ha) (hin b hb) hc)

/-- The reader on a text whose first `Nr*Ng*Nb` rows have pairwise distinct index triples
in the cube: the rows are placed into the resized table. -/
theorem read_complete (S : Scanf) (create : Lut3D) (istream : IStream) (fileName : String)
    (l1 l2 l3 : String) (body : List String) (Nr Ng Nb : ℤ)
    (rows : List ((ℤ × ℤ × ℤ) × (ℚ × ℚ × ℚ)))
    (hgood : istream.good = true) (hlines : istream.lines = l1 :: l2 :: l3 :: body)
    (hmagic : startswith (lower l1) "spilut" = true)
    (hsize : S.sscanf_ddd "%d %d %d" l3 = some (Nr, Ng, Nb))
    (hrows : (Spi3D.rows S (body ++ [istream.last])).take (Nr * Ng * Nb).toNat = rows)
    (hcount : (rows.length : ℤ) = Nr * Ng * Nb)
    (hin : ∀ row ∈ rows, Spi3D.inCube Nr Ng Nb row.1) :
    Spi3D.read S create istream fileName
      = some (Except.ok { create with
          size := fun i => if i = 0 then Nr else if i = 1 then Ng else Nb
          lut := rows.foldl (Spi3D.place Nr Ng)
            (resizeVector create.lut (Nr * Ng * Nb * 3)) }) := by
  have hnn := Int.natCast_nonneg rows.length
  have hprod : 0 ≤ Nr * Ng * Nb := by omega
  rw [read_of_sizes S create istream fileName l1 l2 l3 body Nr Ng Nb hgood hlines hmagic
    hsize hprod]
  rw [tableFold_rows S fileName Nr Ng Nb (body ++ [istream.last])
    { lut := resizeVector create.lut (Nr * Ng * Nb * 3), entriesRemaining := Nr * Ng * Nb }
    (by
      simp only [resizeVector_length]
      omega)
    (by
      simp only [hrows]
      exact hin)]
  simp only [hrows, hcount, sub_self, gt_iff_lt, lt_self_iff_false, if_false]


/-! ## Products of `int` values -/

/-- A result inside the range of `int` is the value the variable holds. -/
theorem wrapInt32_of_fits (z : ℤ) (h1 : -2 ^ 31 ≤ z) (h2 : z < 2 ^ 31) : wrapInt32 z = z := by
  unfold wrapInt32
  omega

/-- The product `3 * n * n * n` of the argument of `reserve`, when it fits into an `int`. -/
theorem mulInt32_reserve (n : ℤ) (h0 : 0 ≤ n) (hfit : 3 * n * n * n < 2 ^ 31) :
    mulInt32 (mulInt32 (mulInt32 3 n) n) n = 3 * n * n * n := by
  have h1 : 3 * n ≤ 3 * n * n * n := by
    rcases eq_or_lt_of_le h0 with h | h
    · rw [← h]
      norm_num
    · have hn : 1 ≤ n := h
      nlinarith [mul_nonneg h0 h0, mul_nonneg (mul_nonneg h0 h0) h0]
  have h2 : 3 * n * n ≤ 3 * n * n * n := by
    rcases eq_or_lt_of_le h0 with h | h
    · rw [← h]
      norm_num
    · have hn : 1 ≤ n := h
      nlinarith [mul_nonneg h0 h0, mul_nonneg (mul_nonneg h0 h0) h0]
  have h3 : 0 ≤ 3 * n * n := by positivity
  unfold mulInt32
  rw [wrapInt32_of_fits (3 * n) (by linarith) (by linarith),
    wrapInt32_of_fits (3 * n * n) (by linarith) (by linarith),
    wrapInt32_of_fits (3 * n * n * n) (by linarith) hfit]

/-- The product `n * n * n` of the count test, when three times it fits into an `int`. -/
theorem mulInt32_cube (n : ℤ) (h0 : 0 ≤ n) (hfit : 3 * n * n * n < 2 ^ 31) :
    mulInt32 (mulInt32 n n) n = n * n * n := by
  have h1 : 0 ≤ n * n := by positivity
  have h2 : 0 ≤ n * n * n := by positivity
  have h3 : n * n ≤ n * n * n := by
    rcases eq_or_lt_of_le h0 with h | h
    · rw [← h]
      norm_num
    · have hn : 1 ≤ n := h
      nlinarith
  have h4 : 3 * n * n * n = 3 * (n * n * n) := by ring
  unfold mulInt32
  rw [wrapInt32_of_fits (n * n) (by linarith) (by linarith),
    wrapInt32_of_fits (n * n * n) (by linarith) (by linarith)]

/-! ## The line loop of the Iridas `.cube` reader -/

/-- The loop body on a well-formed line of a 3D text. -/
theorem parseLine_of_classify (P : ParseUtils) (fileName : String) (st : IridasCube.Parsed)
    (line : String) (item : IridasCube.Item)
    (hitem : IridasCube.classify P line = some item)
    (hsize : ∀ n, item = IridasCube.Item.size3d n → 0 ≤ n ∧ 3 * n * n * n < 2 ^ 31) :
    IridasCube.parseLine P fileName st line = Except.ok (IridasCube.applyItem st item) := by
  unfold IridasCube.classify at hitem
  unfold IridasCube.parseLine
  simp only
  by_cases hc : startswith line "#" = true
  · simp only [hc, if_true, Option.some.injEq] at hitem ⊢
    subst hitem
    rfl
  · simp only [hc, Bool.false_eq_true, if_false] at hitem ⊢
    cases hsplit : P.split (lower (P.strip line)) with
    | nil =>
      rw [hsplit] at hitem
      simp only [Option.some.injEq] at hitem
      subst hitem
      rfl
    | cons tag args =>
      rw [hsplit] at hitem
      simp only at hitem ⊢
      by_cases h1 : lower tag = "title"
      · simp only [h1, if_true, Option.some.injEq] at hitem ⊢
        subst hitem
        rfl
      · simp only [h1, if_false] at hitem ⊢
        by_cases h2 : lower tag = "lut_1d_size"
        · simp only [h2, if_true] at hitem
          cases hitem
        · simp only [h2, if_false] at hitem ⊢
          by_cases h3 : lower tag = "lut_2d_size"
          · simp only [h3, if_true] at hitem
            cases hitem
          · simp only [h3, if_false] at hitem ⊢
            by_cases h4 : lower tag = "lut_3d_size"
            · simp only [h4, if_true] at hitem ⊢
              match args, hitem with
              | [arg], hitem =>
                simp only at hitem ⊢
                cases hn : P.StringToInt arg with
                | none => rw [hn] at hitem; cases hitem
                | some n =>
                  rw [hn] at hitem
                  simp only [Option.some.injEq] at hitem
                  subst hitem
                  obtain ⟨h0, hfit⟩ := hsize n rfl
                  have hneg : ¬ mulInt32 (mulInt32 (mulInt32 3 n) n) n < 0 := by
                    rw [mulInt32_reserve n h0 hfit]
                    have : 0 ≤ 3 * n * n * n := by positivity
                    omega
                  simp only [if_neg hneg]
                  rfl
            · simp only [h4, if_false] at hitem ⊢
              by_cases h5 : lower tag = "domain_min"
              · simp only [h5, if_true] at hitem ⊢
                match args, hitem with
                | [a0, a1, a2], hitem =>
                  simp only at hitem ⊢
                  cases hv0 : P.StringToFloat a0 with
                  | none => rw [hv0] at hitem; cases hitem
                  | some v0 =>
                    cases hv1 : P.StringToFloat a1 with
                    | none => rw [hv0, hv1] at hitem; cases hitem
                    | some v1 =>
                      cases hv2 : P.StringToFloat a2 with
                      | none => rw [hv0, hv1, hv2] at hitem; cases hitem
                      | some v2 =>
                        rw [hv0, hv1, hv2] at hitem
                        simp only [Option.some.injEq] at hitem
                        subst hitem
                        rfl
              · simp only [h5, if_false] at hitem ⊢
                by_cases h6 : lower tag = "domain_max"
                · simp only [h6, if_true] at hitem ⊢
                  match args, hitem with
                  | [a0, a1, a2], hitem =>
                    simp only at hitem ⊢
                    cases hv0 : P.StringToFloat a0 with
                    | none => rw [hv0] at hitem; cases hitem
                    | some v0 =>
                      cases hv1 : P.StringToFloat a1 with
                      | none => rw [hv0, hv1] at hitem; cases hitem
                      | some v1 =>
                        cases hv2 : P.StringToFloat a2 with
                        | none => rw [hv0, hv1, hv2] at hitem; cases hitem
                        | some v2 =>
                          rw [hv0, hv1, hv2] at hitem
                          simp only [Option.some.injEq] at hitem
                          subst hitem
                          rfl
                · simp only [h6, if_false] at hitem ⊢
                  match hv : P.StringVecToFloatVec (tag :: args), hitem with
                  | some [v0, v1, v2], hitem =>
                    simp only [Option.some.injEq] at hitem
                    subst hitem
                    rfl

/-- The line loop over well-formed lines of a 3D text. -/
theorem parseLines_of_classify (P : ParseUtils) (fileName : String) (lines : List String)
    (items : List IridasCube.Item) (st : IridasCube.Parsed)
    (hitems : lines.map (IridasCube.classify P) = items.map some)
    (hsize : ∀ n ∈ IridasCube.sizes items, 0 ≤ n ∧ 3 * n * n * n < 2 ^ 31) :
    IridasCube.parseLines P fileName lines st
      = Except.ok (items.foldl IridasCube.applyItem st) := by
  induction lines generalizing items st with
  | nil =>
    cases items with
    | nil => rfl
    | cons it its => simp at hitems
  | cons l ls ih =>
    cases items with
    | nil => simp at hitems
    | cons it its =>
      simp only [List.map_cons, List.cons.injEq] at hitems
      obtain ⟨hl, hrest⟩ := hitems
      have hhead : ∀ n, it = IridasCube.Item.size3d n → 0 ≤ n ∧ 3 * n * n * n < 2 ^ 31 := by
        intro n hn
        subst hn
        exact hsize n (by simp [IridasCube.sizes])
      have htail : ∀ n ∈ IridasCube.sizes its, 0 ≤ n ∧ 3 * n * n * n < 2 ^ 31 := by
        intro n hn
        apply hsize n
        cases it <;> simp [IridasCube.sizes, hn]
      simp only [IridasCube.parseLines, parseLine_of_classify P fileName st l it hl hhead,
        List.foldl_cons]
      exact ih its _ hrest htail

/-- The variables of `read` behind well-formed lines of a 3D text. -/
theorem foldl_applyItem (items : List IridasCube.Item) (st : IridasCube.Parsed) :
    (items.foldl IridasCube.applyItem st).raw = st.raw ++ IridasCube.triples items ∧
    (items.foldl IridasCube.applyItem st).in1d = st.in1d ∧
    (items.foldl IridasCube.applyItem st).domain_min
      = IridasCube.declaredMin items st.domain_min ∧
    (items.foldl IridasCube.applyItem st).domain_max
      = IridasCube.declaredMax items st.domain_max ∧
    (IridasCube.sizes items = [] →
      (items.foldl IridasCube.applyItem st).size3d = st.size3d ∧
      (items.foldl IridasCube.applyItem st).in3d = st.in3d) ∧
    (∀ N, IridasCube.sizes items = [N] →
      (items.foldl IridasCube.applyItem st).size3d = (fun _ => N) ∧
      (items.foldl IridasCube.applyItem st).in3d = true) := by
  induction items generalizing st with
  | nil =>
    refine ⟨by simp [IridasCube.triples], rfl, rfl, rfl, fun _ => ⟨rfl, rfl⟩, fun N hN => ?_⟩
    simp [IridasCube.sizes] at hN
  | cons it its ih =>
    obtain ⟨h1, h2, h3, h4, h5, h6⟩ := ih (IridasCube.applyItem st it)
    simp only [List.foldl_cons]
    cases it with
    | ignored =>
      exact ⟨h1, h2, h3, h4, h5, h6⟩
    | size3d n =>
      refine ⟨h1, h2, h3, h4, fun hs => ?_, fun N hN => ?_⟩
      · simp [IridasCube.sizes] at hs
      · simp only [IridasCube.sizes, List.cons.injEq] at hN
        obtain ⟨hn, hrest⟩ := hN
        subst hn
        exact h5 hrest
    | domainMin v0 v1 v2 =>
      exact ⟨h1, h2, h3, h4, h5, h6⟩
    | domainMax v0 v1 v2 =>
      exact ⟨h1, h2, h3, h4, h5, h6⟩
    | triple v0 v1 v2 =>
      refine ⟨?_, h2, h3, h4, h5, h6⟩
      rw [h1]
      simp [IridasCube.applyItem, IridasCube.triples]

/-- Each triple line holds three floats. -/
theorem triples_length (items : List IridasCube.Item) :
    (IridasCube.triples items).length = 3 * IridasCube.tripleCount items := by
  induction items with
  | nil => rfl
  | cons it its ih =>
    cases it <;> simp [IridasCube.triples, IridasCube.tripleCount, ih]
    omega

/-- The reason is what a message of the `.cube` reader ends with. -/
theorem containsText_IridasMessage (error fileName : String) (line : ℤ)
    (lineContent : String) :
    containsText (IridasCube.ThrowErrorMessage error fileName line lineContent) error := by
  unfold containsText IridasCube.ThrowErrorMessage
  simp only [String.data_append]
  exact (List.suffix_append _ _).isInfix


/-! ## The reordering of the `.vf` reader -/

/-- The digits of a number below `n1*n2*n3` in the mixed radix `n1`, `n2`, `n3`. -/
theorem radix_digits (n1 n2 n3 r g b : ℕ) (hr : r < n1) (hg : g < n2) (hb : b < n3) :
    (r + n1 * (g + n2 * b)) % n1 = r ∧ ((r + n1 * (g + n2 * b)) / n1) % n2 = g ∧
    (r + n1 * (g + n2 * b)) / n1 / n2 = b ∧ r + n1 * (g + n2 * b) < n1 * n2 * n3 := by
  have h1 : 0 < n1 := Nat.lt_of_le_of_lt (Nat.zero_le _) hr
  have h2 : 0 < n2 := Nat.lt_of_le_of_lt (Nat.zero_le _) hg
  have d1 : (r + n1 * (g + n2 * b)) / n1 = g + n2 * b := by
    rw [Nat.add_mul_div_left _ _ h1, Nat.div_eq_of_lt hr, Nat.zero_add]
  have d2 : (g + n2 * b) / n2 = b := by
    rw [Nat.add_mul_div_left _ _ h2, Nat.div_eq_of_lt hg, Nat.zero_add]
  refine ⟨?_, ?_, ?_, ?_⟩
  · rw [Nat.add_mul_mod_self_left, Nat.mod_eq_of_lt hr]
  · rw [d1, Nat.add_mul_mod_self_left, Nat.mod_eq_of_lt hg]
  · rw [d1, d2]
  · have e1 : g + n2 * b + 1 ≤ n2 * n3 := by
      have : n2 * (b + 1) ≤ n2 * n3 := Nat.mul_le_mul_left _ hb
      have : n2 * (b + 1) = n2 * b + n2 := by ring
      omega
    have e2 : n1 * (g + n2 * b + 1) ≤ n1 * (n2 * n3) := Nat.mul_le_mul_left _ e1
    have e3 : n1 * (g + n2 * b + 1) = n1 * (g + n2 * b) + n1 := by ring
    have e4 : n1 * n2 * n3 = n1 * (n2 * n3) := by ring
    omega

/-- A number below `n1*n2*n3` is made of its digits. -/
theorem radix_compose (n1 n2 n3 j : ℕ) (hj : j < n1 * n2 * n3) :
    j % n1 < n1 ∧ (j / n1) % n2 < n2 ∧ j / n1 / n2 < n3 ∧
    j % n1 + n1 * ((j / n1) % n2 + n2 * (j / n1 / n2)) = j := by
  have h1 : 0 < n1 := by
    rcases Nat.eq_zero_or_pos n1 with h | h
    · subst h; simp at hj
    · exact h
  have h2 : 0 < n2 := by
    rcases Nat.eq_zero_or_pos n2 with h | h
    · subst h; simp at hj
    · exact h
  refine ⟨Nat.mod_lt _ h1, Nat.mod_lt _ h2, ?_, ?_⟩
  · rw [Nat.div_div_eq_div_mul]
    exact Nat.div_lt_of_lt_mul hj
  · rw [Nat.mod_add_div, Nat.mod_add_div]

/-- Consecutive chunks of equal length: the chunks of `f` over `range n` laid one after
the other hold the element `j` of chunk `i` at position `m*i + j`. -/
theorem flatMap_range_getElem? {α : Type} (n m : ℕ) (f : ℕ → List α)
    (hlen : ∀ i, i < n → (f i).length = m) :
    ((List.range n).flatMap f).length = m * n ∧
    ∀ i j, i < n → j < m → ((List.range n).flatMap f)[m * i + j]? = (f i)[j]? := by
  induction n with
  | zero => simp
  | succ n ih =>
    obtain ⟨ilen, iget⟩ := ih (fun i hi => hlen i (Nat.lt_succ_of_lt hi))
    have happ : (List.range (n + 1)).flatMap f = (List.range n).flatMap f ++ f n := by
      rw [List.range_succ, List.flatMap_append]
      simp
    rw [happ]
    refine ⟨?_, fun i j hi hj => ?_⟩
    · rw [List.length_append, ilen, hlen n (Nat.lt_succ_self n)]
      ring
    · rcases Nat.lt_succ_iff_lt_or_eq.mp hi with hlt | heq
      · have hpos : m * i + j < ((List.range n).flatMap f).length := by
          rw [ilen]
          have : m * (i + 1) ≤ m * n := Nat.mul_le_mul_left _ hlt
          have : m * (i + 1) = m * i + m := by ring
          omega
        rw [List.getElem?_append_left hpos]
        exact iget i j hlt hj
      · subst heq
        rw [List.getElem?_append_right (by rw [ilen]; omega), ilen]
        congr 1
        omega

/-- Changing the fastest axis twice gives the number of the cell back. -/
theorem swapIndex_inv (n1 n2 n3 j : ℕ) (hj : j < n1 * n2 * n3) :
    swapIndex n1 n2 n3 j < n3 * n2 * n1 ∧ swapIndex n3 n2 n1 (swapIndex n1 n2 n3 j) = j := by
  obtain ⟨hr, hg, hb, hcomp⟩ := radix_compose n1 n2 n3 j hj
  obtain ⟨d1, d2, d3, dlt⟩ := radix_digits n3 n2 n1 (j / n1 / n2) (j / n1 % n2) (j % n1) hb hg hr
  refine ⟨dlt, ?_⟩
  unfold swapIndex
  rw [d1, d2, d3]
  exact hcomp

/-- The numbers of the cells in the other order are the numbers below `n1*n2*n3` in
another order. -/
theorem swapIndex_perm (n1 n2 n3 : ℕ) :
    ((List.range (n1 * n2 * n3)).map (swapIndex n1 n2 n3)).Perm
      (List.range (n1 * n2 * n3)) := by
  have hcomm : n3 * n2 * n1 = n1 * n2 * n3 := by ring
  rw [List.perm_ext_iff_of_nodup]
  · intro a
    simp only [List.mem_map, List.mem_range]
    constructor
    · rintro ⟨j, hj, rfl⟩
      rw [← hcomm]
      exact (swapIndex_inv n1 n2 n3 j hj).1
    · intro ha
      have ha' : a < n3 * n2 * n1 := by rw [hcomm]; exact ha
      obtain ⟨hlt, hinv⟩ := swapIndex_inv n3 n2 n1 a ha'
      exact ⟨swapIndex n3 n2 n1 a, hlt, hinv⟩
  · apply List.Nodup.map_on _ (List.nodup_range _)
    intro x hx y hy hxy
    rw [List.mem_range] at hx hy
    rw [← (swapIndex_inv n1 n2 n3 x hx).2, ← (swapIndex_inv n1 n2 n3 y hy).2, hxy]
  · exact List.nodup_range _

/-- The values of a list of reads are the reads. -/
theorem allSome_eq_some (reads : List (Option ℚ)) (values : List ℚ)
    (h : allSome reads = some values) : reads = values.map some := by
  induction reads generalizing values with
  | nil =>
    simp only [allSome, Option.some.injEq] at h
    subst h
    rfl
  | cons x xs ih =>
    cases x with
    | none => simp [allSome] at h
    | some v =>
      simp only [allSome] at h
      cases hxs : allSome xs with
      | none => rw [hxs] at h; cases h
      | some ys =>
        rw [hxs] at h
        simp only [Option.some.injEq] at h
        subst h
        rw [ih ys hxs]
        rfl

/-- The line loop of the `.vf` reader collects whole triples. -/
theorem vf_parseLines_triples (P : ParseUtils) (fileName : String) (lines : List String)
    (st st' : VF.Parsed) (hok : VF.parseLines P fileName lines st = Except.ok st')
    (h3 : st.raw3d.length % 3 = 0) : st'.raw3d.length % 3 = 0 := by
  induction lines generalizing st with
  | nil =>
    simp only [VF.parseLines, Except.ok.injEq] at hok
    subst hok
    exact h3
  | cons l ls ih =>
    simp only [VF.parseLines] at hok
    cases hl : VF.parseLine P fileName st l with
    | error e => rw [hl] at hok; cases hok
    | ok st1 =>
      rw [hl] at hok
      refine ih st1 hok ?_
      revert hl
      unfold VF.parseLine
      simp only
      split
      · intro hl; cases hl; exact h3
      · split
        · intro hl; cases hl; exact h3
        · split
          · split
            · split
              · split
                · split
                  · intro hl; cases hl
                  · intro hl; cases hl; exact h3
                · intro hl; cases hl
              · intro hl; cases hl
            · split
              · split
                · intro hl; cases hl
                · split
                  · split
                    · intro hl; cases hl
                    · intro hl; cases hl; exact h3
                  · intro hl; cases hl
              · split
                · intro hl; cases hl; exact h3
                · intro hl; cases hl; exact h3
          · split
            · intro hl
              cases hl
              simp only [List.length_append, List.length_cons, List.length_nil]
              omega
            · intro hl; cases hl; exact h3

/-- The three loops of `read` for grid sizes `nr`, `ng` and `nb`: the reads for cell
`(r, g, b)` stand at the positions `3*(r + nr*(g + ng*b)) + c` and are the reads of
`raw3d` at the positions `3*(b + nb*(g + ng*r)) + c`. -/
theorem lookups_spec (raw3d : List ℚ) (size3d : Fin 3 → ℤ) (nr ng nb : ℕ)
    (h0 : size3d 0 = nr) (h1 : size3d 1 = ng) (h2 : size3d 2 = nb) :
    (VF.lookups raw3d size3d).length = 3 * (nr * ng * nb) ∧
    ∀ r g b c, r < nr → g < ng → b < nb → c < 3 →
      (VF.lookups raw3d size3d)[3 * (r + nr * (g + ng * b)) + c]?
        = some (raw3d[3 * (b + nb * (g + ng * r)) + c]?) := by
  have hread : ∀ (r g b c : ℕ),
      readAt raw3d (GetLut3DIndex_BlueFast r g b nr ng nb + (c : ℤ))
        = raw3d[3 * (b + nb * (g + ng * r)) + c]? := by
    intro r g b c
    have hcast : GetLut3DIndex_BlueFast r g b nr ng nb + (c : ℤ)
        = ((3 * (b + nb * (g + ng * r)) + c : ℕ) : ℤ) := by
      unfold GetLut3DIndex_BlueFast
      push_cast
      ring
    rw [hcast]
    unfold readAt
    rw [if_pos (Int.natCast_nonneg _), Int.toNat_natCast]
  have hinner : ∀ g b : ℕ,
      ((List.range nr).flatMap (fun rIndex : ℕ =>
        [readAt raw3d (GetLut3DIndex_BlueFast rIndex g b nr ng nb + 0),
          readAt raw3d (GetLut3DIndex_BlueFast rIndex g b nr ng nb + 1),
          readAt raw3d (GetLut3DIndex_BlueFast rIndex g b nr ng nb + 2)])).length = 3 * nr ∧
      ∀ r c, r < nr → c < 3 →
        ((List.range nr).flatMap (fun rIndex : ℕ =>
          [readAt raw3d (GetLut3DIndex_BlueFast rIndex g b nr ng nb + 0),
            readAt raw3d (GetLut3DIndex_BlueFast rIndex g b nr ng nb + 1),
            readAt raw3d (GetLut3DIndex_BlueFast rIndex g b nr ng nb + 2)]))[3 * r + c]?
          = some (raw3d[3 * (b + nb * (g + ng * r)) + c]?) := by
    intro g b
    obtain ⟨hl, hget⟩ := flatMap_range_getElem? nr 3 (fun rIndex : ℕ =>
        [readAt raw3d (GetLut3DIndex_BlueFast rIndex g b nr ng nb + 0),
          readAt raw3d (GetLut3DIndex_BlueFast rIndex g b nr ng nb + 1),
          readAt raw3d (GetLut3DIndex_BlueFast rIndex g b nr ng nb + 2)]) (fun _ _ => rfl)
    refine ⟨hl, fun r c hr hc => ?_⟩
    rw [hget r c hr hc]
    have e0 := hread r g b 0
    have e1 := hread r g b 1
    have e2 := hread r g b 2
    simp only [Nat.cast_zero, Nat.cast_one, Nat.cast_ofNat] at e0 e1 e2
    rcases (by omega : c = 0 ∨ c = 1 ∨ c = 2) with rfl | rfl | rfl
    · simp only [List.getElem?_cons_zero, e0]
    · simp only [List.getElem?_cons_succ, List.getElem?_cons_zero, e1]
    · simp only [List.getElem?_cons_succ, List.getElem?_cons_zero, e2]
  have hmiddle : ∀ b : ℕ,
      ((List.range ng).flatMap (fun gIndex : ℕ =>
        (List.range nr).flatMap (fun rIndex : ℕ =>
          [readAt raw3d (GetLut3DIndex_BlueFast rIndex gIndex b nr ng nb + 0),
            readAt raw3d (GetLut3DIndex_BlueFast rIndex gIndex b nr ng nb + 1),
            readAt raw3d (GetLut3DIndex_BlueFast rIndex gIndex b nr ng nb + 2)]))).length
        = 3 * nr * ng ∧
      ∀ r g c, r < nr → g < ng → c < 3 →
        ((List.range ng).flatMap (fun gIndex : ℕ =>
          (List.range nr).flatMap (fun rIndex : ℕ =>
            [readAt raw3d (GetLut3DIndex_BlueFast rIndex gIndex b nr ng nb + 0),
              readAt raw3d (GetLut3DIndex_BlueFast rIndex gIndex b nr ng nb + 1),
              readAt raw3d (GetLut3DIndex_BlueFast rIndex gIndex b nr ng nb + 2)])))[
            3 * nr * g + (3 * r + c)]?
          = some (raw3d[3 * (b + nb * (g + ng * r)) + c]?) := by
    intro b
    obtain ⟨hl, hget⟩ := flatMap_range_getElem? ng (3 * nr) (fun gIndex : ℕ =>
        (List.range nr).flatMap (fun rIndex : ℕ =>
          [readAt raw3d (GetLut3DIndex_BlueFast rIndex gIndex b nr ng nb + 0),
            readAt raw3d (GetLut3DIndex_BlueFast rIndex gIndex b nr ng nb + 1),
            readAt raw3d (GetLut3DIndex_BlueFast rIndex gIndex b nr ng nb + 2)]))
        (fun g _ => (hinner g b).1)
    refine ⟨hl, fun r g c hr hg hc => ?_⟩
    rw [hget g (3 * r + c) hg (by omega)]
    exact (hinner g b).2 r c hr hc
  unfold VF.lookups
  rw [h0, h1, h2]
  simp only [Int.toNat_natCast]
  obtain ⟨hl, hget⟩ := flatMap_range_getElem? nb (3 * nr * ng) (fun bIndex : ℕ =>
      (List.range ng).flatMap (fun gIndex : ℕ =>
        (List.range nr).flatMap (fun rIndex : ℕ =>
          [readAt raw3d (GetLut3DIndex_BlueFast rIndex gIndex bIndex nr ng nb + 0),
            readAt raw3d (GetLut3DIndex_BlueFast rIndex gIndex bIndex nr ng nb + 1),
            readAt raw3d (GetLut3DIndex_BlueFast rIndex gIndex bIndex nr ng nb + 2)])))
      (fun b _ => (hmiddle b).1)
  refine ⟨?_, fun r g b c hr hg hb hc => ?_⟩
  · rw [hl]
    ring
  · have hposn : 3 * (r + nr * (g + ng * b)) + c
        = 3 * nr * ng * b + (3 * nr * g + (3 * r + c)) := by ring
    have hbound : 3 * nr * g + (3 * r + c) < 3 * nr * ng := by
      have e1 : 3 * nr * (g + 1) ≤ 3 * nr * ng := Nat.mul_le_mul_left _ hg
      have e2 : 3 * nr * (g + 1) = 3 * nr * g + 3 * nr := by ring
      omega
    rw [hposn, hget b _ hb hbound]
    exact (hmiddle b).2 r g c hr hg hc

/-- What a successful `read` of a `.vf` text went through. -/
theorem vf_read_ok (P : ParseUtils) (create3D : Lut3D) (istream : IStream)
    (fileName : String) (cachedFile : VF.LocalCachedFile)
    (hread : VF.read P create3D istream fileName = some (Except.ok cachedFile)) :
    let raw3d := VF.fileTriples P fileName istream
    let size3d := cachedFile.lut3D.size
    raw3d.length % 3 = 0 ∧
    size3d 0 * size3d 1 * size3d 2 = ((raw3d.length / 3 : ℕ) : ℤ) ∧
    allSome (VF.lookups raw3d size3d) = some cachedFile.lut3D.lut := by
  unfold VF.read at hread
  by_cases hg : istream.good = true
  · simp only [hg, Bool.not_true, Bool.false_eq_true, if_false] at hread
    cases hlines : P.nextlines istream with
    | nil => rw [hlines] at hread; simp at hread
    | cons line rest =>
      rw [hlines] at hread
      simp only at hread
      by_cases hs : startswith (lower line) "#inventor" = true
      · simp only [hs, Bool.not_true, Bool.false_eq_true, if_false] at hread
        cases hparse : VF.parseLines P fileName rest VF.Parsed.init with
        | error e => rw [hparse] at hread; simp at hread
        | ok st =>
          rw [hparse] at hread
          simp only at hread
          have hft : VF.fileTriples P fileName istream = st.raw3d := by
            unfold VF.fileTriples
            rw [hlines, List.tail_cons, hparse]
          have h3 := vf_parseLines_triples P fileName rest VF.Parsed.init st hparse rfl
          unfold VF.interpret at hread
          simp only at hread
          by_cases hc : st.size3d 0 * st.size3d 1 * st.size3d 2
              ≠ ((st.raw3d.length / 3 : ℕ) : ℤ)
          · rw [if_pos hc] at hread
            simp at hread
          · rw [if_neg hc] at hread
            by_cases hz : st.size3d 0 * st.size3d 1 * st.size3d 2 = 0
            · rw [if_pos hz] at hread
              simp at hread
            · rw [if_neg hz] at hread
              cases hall : allSome (VF.lookups st.raw3d st.size3d) with
              | none => rw [hall] at hread; simp at hread
              | some lut =>
                rw [hall] at hread
                simp only [Option.some.injEq, Except.ok.injEq] at hread
                subst hread
                simp only [hft]
                exact ⟨h3, not_not.mp hc, hall⟩
      · simp only [hs, Bool.not_false, if_true] at hread
        simp at hread
  · simp only [hg, Bool.not_false, if_true] at hread
    simp at hread

/-! ## The format registry -/

theorem addInfo_rawFormats (reg : FormatRegistry) (format : FileFormat) (info : FormatInfo) :
    (reg.addInfo format info).m_rawFormats = reg.m_rawFormats := rfl

theorem addInfo_byName (reg : FormatRegistry) (format : FileFormat) (info : FormatInfo)
    (name : String) :
    (reg.addInfo format info).getFileFormatByName name
      = if lower name = lower info.name then some format else reg.getFileFormatByName name :=
  rfl

/-- The format infos the loop of `registerFileFormat` adds to the registry: those before
the first one that it rejects. -/
theorem registerInfos_rawFormats (format : FileFormat) (infos : List FormatInfo) :
    ∀ reg : FormatRegistry, (reg.registerInfos format infos).1.m_rawFormats = reg.m_rawFormats := by
  induction infos with
  | nil => intro reg; rfl
  | cons info rest ih =>
    intro reg
    unfold FormatRegistry.registerInfos
    split_ifs
    · rfl
    · rfl
    · rw [ih, addInfo_rawFormats]

theorem registerInfos_fails_iff (format : FileFormat) (infos : List FormatInfo) :
    ∀ reg : FormatRegistry, (reg.registerInfos format infos).2 ≠ none ↔
      ((∃ info ∈ infos, info.capabilities = FORMAT_CAPABILITY_NONE)
        ∨ (∃ info ∈ infos, (reg.getFileFormatByName info.name).isSome)
        ∨ ¬ (infos.map (fun info => lower info.name)).Nodup) := by
  induction infos with
  | nil => intro reg; simp [FormatRegistry.registerInfos]
  | cons info rest ih =>
    intro reg
    unfold FormatRegistry.registerInfos
    by_cases hcap : info.capabilities = FORMAT_CAPABILITY_NONE
    · rw [if_pos hcap]
      simp only [ne_eq, reduceCtorEq, not_false_eq_true, true_iff]
      exact Or.inl ⟨info, List.mem_cons_self _ _, hcap⟩
    · rw [if_neg hcap]
      by_cases hname : (reg.getFileFormatByName info.name).isSome
      · rw [if_pos hname]
        simp only [ne_eq, reduceCtorEq, not_false_eq_true, true_iff]
        exact Or.inr (Or.inl ⟨info, List.mem_cons_self _ _, hname⟩)
      · rw [if_neg hname, ih]
        constructor
        · rintro (⟨i, hi, h⟩ | ⟨i, hi, h⟩ | h)
          · exact Or.inl ⟨i, List.mem_cons_of_mem _ hi, h⟩
          · rw [addInfo_byName] at h
            by_cases he : lower i.name = lower info.name
            · right
              right
              rw [List.map_cons, List.nodup_cons]
              intro hn
              exact hn.1 (List.mem_map.mpr ⟨i, hi, he⟩)
            · rw [if_neg he] at h
              exact Or.inr (Or.inl ⟨i, List.mem_cons_of_mem _ hi, h⟩)
          · right
            right
            rw [List.map_cons, List.nodup_cons]
            intro hn
            exact h hn.2
        · rintro (⟨i, hi, h⟩ | ⟨i, hi, h⟩ | h)
          · rcases List.mem_cons.mp hi with rfl | hi
            · exact absurd h hcap
            · exact Or.inl ⟨i, hi, h⟩
          · rcases List.mem_cons.mp hi with rfl | hi
            · exact absurd h hname
            · refine Or.inr (Or.inl ⟨i, hi, ?_⟩)
              rw [addInfo_byName]
              split_ifs
              · rfl
              · exact h
          · rw [List.map_cons, List.nodup_cons, not_and_or, not_not] at h
            rcases h with h | h
            · obtain ⟨i, hi, he⟩ := List.mem_map.mp h
              have he2 : lower i.name = lower info.name := he
              refine Or.inr (Or.inl ⟨i, hi, ?_⟩)
              rw [addInfo_byName, if_pos he2]
              rfl
            · exact Or.inr (Or.inr h)

theorem registerInfos_names (format : FileFormat) (infos : List FormatInfo) :
    ∀ reg reg2 : FormatRegistry, reg.registerInfos format infos = (reg2, none) →
      (∀ name : String, reg.getFileFormatByName name = some format →
        reg2.getFileFormatByName name = some format) ∧
      ∀ info ∈ infos, ∀ name : String, lower name = lower info.name →
        reg2.getFileFormatByName name = some format := by
  induction infos with
  | nil =>
    intro reg reg2 h
    simp only [FormatRegistry.registerInfos, Prod.mk.injEq, and_true] at h
    subst h
    exact ⟨fun _ h => h, fun _ hmem => absurd hmem (List.not_mem_nil _)⟩
  | cons info rest ih =>
    intro reg reg2 h
    unfold FormatRegistry.registerInfos at h
    split_ifs at h with hcap hname
    · cases h
    · cases h
    · obtain ⟨hkeep, hall⟩ := ih _ _ h
      refine ⟨fun name hn => hkeep name ?_, ?_⟩
      · rw [addInfo_byName]
        split_ifs
        · rfl
        · exact hn
      · intro i hi name hname2
        rcases List.mem_cons.mp hi with rfl | hi
        · apply hkeep
          rw [addInfo_byName, if_pos hname2]
        · exact hall i hi name hname2

theorem registerInfos_eq_foldl (format : FileFormat) (infos : List FormatInfo) :
    ∀ reg : FormatRegistry, (reg.registerInfos format infos).1
      = (reg.acceptedInfos format infos).foldl (fun r info => r.addInfo format info) reg := by
  induction infos with
  | nil => intro reg; rfl
  | cons info rest ih =>
    intro reg
    unfold FormatRegistry.registerInfos FormatRegistry.acceptedInfos
    split_ifs
    · rfl
    · rfl
    · rw [ih, List.foldl_cons]

theorem acceptedInfos_of_ok (format : FileFormat) (infos : List FormatInfo) :
    ∀ reg : FormatRegistry, (reg.registerInfos format infos).2 = none →
      reg.acceptedInfos format infos = infos := by
  induction infos with
  | nil => intro reg _; rfl
  | cons info rest ih =>
    intro reg h
    unfold FormatRegistry.registerInfos at h
    unfold FormatRegistry.acceptedInfos
    by_cases hcap : info.capabilities = FORMAT_CAPABILITY_NONE
    · rw [if_pos hcap] at h
      cases h
    · rw [if_neg hcap] at h ⊢
      by_cases hname : (reg.getFileFormatByName info.name).isSome
      · rw [if_pos hname] at h
        cases h
      · rw [if_neg hname] at h ⊢
        rw [ih _ h]

theorem registerFileFormat_eq_foldl (getFormatInfo : FileFormat → List FormatInfo)
    (reg : FormatRegistry) (format : FileFormat)
    (h : (reg.registerFileFormat getFormatInfo format).2 ≠ none) :
    (reg.registerFileFormat getFormatInfo format).1
      = (reg.acceptedInfos format (getFormatInfo format)).foldl
          (fun r info => r.addInfo format info) reg := by
  have hfold := registerInfos_eq_foldl format (getFormatInfo format) reg
  unfold FormatRegistry.registerFileFormat at h ⊢
  by_cases hempty : getFormatInfo format = []
  · rw [if_pos hempty]
    rw [hempty]
    rfl
  · rw [if_neg hempty] at h ⊢
    cases hr : reg.registerInfos format (getFormatInfo format) with
    | mk reg2 e =>
      rw [hr] at h hfold
      cases e with
      | none => exact absurd rfl h
      | some e => exact hfold

theorem namesWith_snoc (bit : ℕ) (infos : List FormatInfo) (info : FormatInfo) :
    namesWith bit (infos ++ [info])
      = if info.hasCapability bit then namesWith bit infos ++ [info.name]
        else namesWith bit infos := by
  unfold namesWith
  rw [List.filter_append, List.map_append]
  by_cases h : info.hasCapability bit = true
  · simp [h]
  · simp [h]

theorem extensionsWith_snoc (bit : ℕ) (infos : List FormatInfo) (info : FormatInfo) :
    extensionsWith bit (infos ++ [info])
      = if info.hasCapability bit then extensionsWith bit infos ++ [info.extension]
        else extensionsWith bit infos := by
  unfold extensionsWith
  rw [List.filter_append, List.map_append]
  by_cases h : info.hasCapability bit = true
  · simp [h]
  · simp [h]

theorem addInfo_enumerates (reg : FormatRegistry) (format : FileFormat) (info : FormatInfo)
    (infos : List FormatInfo) (h : reg.Enumerates infos) :
    (reg.addInfo format info).Enumerates (infos ++ [info]) := by
  obtain ⟨h1, h2, h3, h4, h5, h6⟩ := h
  unfold FormatRegistry.Enumerates FormatRegistry.addInfo
  simp only [namesWith_snoc, extensionsWith_snoc, h1, h2, h3, h4, h5, h6, and_self]

theorem foldl_addInfo_enumerates (format : FileFormat) (added : List FormatInfo) :
    ∀ (reg : FormatRegistry) (infos : List FormatInfo), reg.Enumerates infos →
      (added.foldl (fun r info => r.addInfo format info) reg).Enumerates (infos ++ added) := by
  induction added with
  | nil => intro reg infos h; simpa using h
  | cons info rest ih =>
    intro reg infos h
    rw [List.foldl_cons]
    have := ih _ _ (addInfo_enumerates reg format info infos h)
    simpa using this

theorem registerFileFormat_enumerates (getFormatInfo : FileFormat → List FormatInfo)
    (reg : FormatRegistry) (format : FileFormat) (infos : List FormatInfo)
    (h : reg.Enumerates infos) :
    (reg.registerFileFormat getFormatInfo format).1.Enumerates
      (infos ++ reg.acceptedInfos format (getFormatInfo format)) := by
  by_cases hfail : (reg.registerFileFormat getFormatInfo format).2 ≠ none
  · rw [registerFileFormat_eq_foldl getFormatInfo reg format hfail]
    exact foldl_addInfo_enumerates format _ reg infos h
  · have hfold := registerInfos_eq_foldl format (getFormatInfo format) reg
    have hen := foldl_addInfo_enumerates format
      (reg.acceptedInfos format (getFormatInfo format)) reg infos h
    rw [← hfold] at hen
    unfold FormatRegistry.registerFileFormat at hfail ⊢
    by_cases hempty : getFormatInfo format = []
    · rw [if_pos hempty] at hfail
      exact absurd (by simp) hfail
    · rw [if_neg hempty]
      cases hr : reg.registerInfos format (getFormatInfo format) with
      | mk reg2 e =>
        rw [hr] at hen
        cases e with
        | none => exact hen
        | some e => exact hen

theorem registerAll_enumerates (getFormatInfo : FileFormat → List FormatInfo)
    (formats : List FileFormat) :
    ∀ (reg : FormatRegistry) (infos : List FormatInfo), reg.Enumerates infos →
      (registerAll getFormatInfo reg formats).Enumerates
        (infos ++ registeredInfos getFormatInfo reg formats) := by
  induction formats with
  | nil => intro reg infos h; simpa [registerAll, registeredInfos] using h
  | cons format rest ih =>
    intro reg infos h
    have := ih _ _ (registerFileFormat_enumerates getFormatInfo reg format infos h)
    unfold registerAll at this ⊢
    rw [List.foldl_cons]
    unfold registeredInfos
    rw [← List.append_assoc]
    exact this

theorem registerFileFormat_accepts_all (getFormatInfo : FileFormat → List FormatInfo)
    (reg : FormatRegistry) (format : FileFormat)
    (h : (reg.registerFileFormat getFormatInfo format).2 = none) :
    reg.acceptedInfos format (getFormatInfo format) = getFormatInfo format := by
  apply acceptedInfos_of_ok
  unfold FormatRegistry.registerFileFormat at h
  by_cases hempty : getFormatInfo format = []
  · rw [if_pos hempty] at h
    cases h
  · rw [if_neg hempty] at h
    cases hr : reg.registerInfos format (getFormatInfo format) with
    | mk reg2 e =>
      rw [hr] at h
      cases e with
      | none => rfl
      | some e => cases h

theorem registeredInfos_of_all (getFormatInfo : FileFormat → List FormatInfo)
    (formats : List FileFormat) :
    ∀ reg : FormatRegistry, allRegister getFormatInfo reg formats →
      registeredInfos getFormatInfo reg formats = formats.flatMap getFormatInfo := by
  induction formats with
  | nil => intro reg _; rfl
  | cons format rest ih =>
    intro reg h
    unfold registeredInfos
    rw [registerFileFormat_accepts_all getFormatInfo reg format h.1, ih _ h.2]
    rfl

theorem stringByIndex_outside (strings : List String) (index : ℤ)
    (h : index < 0 ∨ index ≥ (strings.length : ℤ)) : stringByIndex strings index = "" := by
  unfold stringByIndex
  rw [if_pos h]

theorem stringByIndex_inside (strings : List String) (i : ℕ) (s : String)
    (h : strings[i]? = some s) : stringByIndex strings (i : ℤ) = s := by
  unfold stringByIndex
  have hlt : i < strings.length := by
    rcases Nat.lt_or_ge i strings.length with hl | hl
    · exact hl
    · rw [List.getElem?_eq_none hl] at h
      cases h
  rw [if_neg (by omega), Int.toNat_natCast, List.getD_eq_getElem?_getD, h]
  rfl

theorem foldl_addInfo_rawFormats (format : FileFormat) (added : List FormatInfo) :
    ∀ reg : FormatRegistry,
      (added.foldl (fun r info => r.addInfo format info) reg).m_rawFormats
        = reg.m_rawFormats := by
  induction added with
  | nil => intro reg; rfl
  | cons info rest ih =>
    intro reg
    rw [List.foldl_cons, ih, addInfo_rawFormats]

theorem primaryLoop_eq_tryInOrder (E : FileFormats) (filepath : String)
    (formats : List FileFormat) :
    ∀ s : LoadState, ∃ text : String,
      primaryLoop E filepath formats s
        = ({ invoked := s.invoked ++ (tryInOrder E filepath formats).1,
             primaryErrorText := text }, (tryInOrder E filepath formats).2) := by
  induction formats with
  | nil =>
    intro s
    exact ⟨s.primaryErrorText, by simp [primaryLoop, tryInOrder]⟩
  | cons format rest ih =>
    intro s
    unfold primaryLoop tryInOrder
    cases hr : openAndRead E filepath format with
    | mk called r =>
      cases r with
      | ok cachedFile =>
        refine ⟨s.primaryErrorText, ?_⟩
        cases called <;> simp [LoadState.record]
      | error what =>
        obtain ⟨text, ht⟩ := ih
          { (s.record format called) with
            primaryErrorText := assignText ((s.primaryErrorText
              ++ FileFormat.getName (E.getFormatInfo format)) ++ " failed with: '") what
              ++ "'.  " }
        refine ⟨text, ?_⟩
        simp only at ht ⊢
        rw [ht]
        cases called <;> simp [LoadState.record]

theorem altLoop_eq_tryInOrder (E : FileFormats) (filepath : String)
    (possibleFormats rawFormats : List FileFormat) :
    ∀ s : LoadState,
      altLoop E filepath possibleFormats rawFormats s
        = ({ invoked := s.invoked ++ (tryInOrder E filepath
              (rawFormats.filter (fun format => decide (format ∉ possibleFormats)))).1,
             primaryErrorText := s.primaryErrorText },
           (tryInOrder E filepath
              (rawFormats.filter (fun format => decide (format ∉ possibleFormats)))).2) := by
  induction rawFormats with
  | nil =>
    intro s
    simp [altLoop, tryInOrder]
  | cons format rest ih =>
    intro s
    unfold altLoop
    by_cases hmem : format ∈ possibleFormats
    · rw [if_pos hmem, ih, List.filter_cons_of_neg (by simpa using hmem)]
    · rw [if_neg hmem, List.filter_cons_of_pos (by simpa using hmem)]
      unfold tryInOrder
      cases hr : openAndRead E filepath format with
      | mk called r =>
        cases r with
        | ok cachedFile => cases called <;> simp [LoadState.record]
        | error what =>
          simp only
          rw [ih]
          cases called <;> simp [LoadState.record]

theorem tryInOrder_append (E : FileFormats) (filepath : String)
    (first second : List FileFormat) :
    tryInOrder E filepath (first ++ second)
      = match (tryInOrder E filepath first).2 with
        | some found => ((tryInOrder E filepath first).1, some found)
        | none => ((tryInOrder E filepath first).1 ++ (tryInOrder E filepath second).1,
            (tryInOrder E filepath second).2) := by
  induction first with
  | nil =>
    simp [tryInOrder]
  | cons format rest ih =>
    rw [List.cons_append]
    simp only [tryInOrder]
    cases hr : openAndRead E filepath format with
    | mk called r =>
      cases r with
      | ok cachedFile => rfl
      | error what =>
        simp only
        rw [ih]
        cases hrest : (tryInOrder E filepath rest).2 with
        | some found => rfl
        | none => simp

theorem LoadFileUncached_eq_tryInOrder (E : FileFormats) (formatRegistry : FormatRegistry)
    (filepath : String) :
    (LoadFileUncached E formatRegistry filepath).invoked
      = (tryInOrder E filepath (candidateFormats E formatRegistry filepath)).1 ∧
    (∀ found : FileFormat × CachedFileRcPtr,
      (tryInOrder E filepath (candidateFormats E formatRegistry filepath)).2 = some found →
      (LoadFileUncached E formatRegistry filepath).result = Except.ok found) ∧
    ((tryInOrder E filepath (candidateFormats E formatRegistry filepath)).2 = none →
      ∃ what : String,
        (LoadFileUncached E formatRegistry filepath).result = Except.error what) := by
  unfold LoadFileUncached candidateFormats
  simp only
  generalize formatRegistry.getFileFormatForExtension
    (removeFirstDot (E.splitext filepath).2) [] = possibleFormats
  obtain ⟨text, hp⟩ := primaryLoop_eq_tryInOrder E filepath possibleFormats
    { invoked := [], primaryErrorText := "" }
  rw [hp, tryInOrder_append]
  cases h1 : (tryInOrder E filepath possibleFormats).2 with
  | some found =>
    simp
  | none =>
    simp only [List.nil_append]
    rw [altLoop_eq_tryInOrder]
    cases h2 : (tryInOrder E filepath
        (formatRegistry.m_rawFormats.filter (fun format =>
          decide (format ∉ possibleFormats)))).2 with
    | some found => simp
    | none => simp

theorem tryInOrder_failing (E : FileFormats) (filepath : String) (before : List FileFormat)
    (hbefore : ∀ format ∈ before, cannotRead E filepath format) :
    tryInOrder E filepath before
      = (before.filter (fun format => E.good filepath (E.isBinary format)), none) := by
  induction before with
  | nil => rfl
  | cons format rest ih =>
    have hrest := ih (fun f hf => hbefore f (List.mem_cons_of_mem _ hf))
    simp only [tryInOrder, openAndRead]
    rcases hbefore format (List.mem_cons_self _ _) with hgood | ⟨what, hread⟩
    · simp [hgood, hrest, List.filter_cons]
    · by_cases hgood : E.good filepath (E.isBinary format) = true
      · simp [hgood, hread, hrest, List.filter_cons]
      · simp [hgood, hrest, List.filter_cons]

theorem tryInOrder_first_success (E : FileFormats) (filepath : String)
    (before after : List FileFormat) (format : FileFormat) (cachedFile : CachedFileRcPtr)
    (hbefore : ∀ f ∈ before, cannotRead E filepath f)
    (hgood : E.good filepath (E.isBinary format) = true)
    (hread : E.read format filepath = Except.ok cachedFile) :
    tryInOrder E filepath (before ++ format :: after)
      = (before.filter (fun f => E.good filepath (E.isBinary f)) ++ [format],
          some (format, cachedFile)) := by
  rw [tryInOrder_append, tryInOrder_failing E filepath before hbefore]
  simp [tryInOrder, openAndRead, hgood, hread]

theorem registerFileFormat_ok_rawFormats (getFormatInfo : FileFormat → List FormatInfo)
    (reg : FormatRegistry) (format : FileFormat)
    (h : (reg.registerFileFormat getFormatInfo format).2 = none) :
    (reg.registerFileFormat getFormatInfo format).1.m_rawFormats
      = reg.m_rawFormats ++ [format] := by
  have hraw := registerInfos_rawFormats format (getFormatInfo format) reg
  unfold FormatRegistry.registerFileFormat at h ⊢
  by_cases hempty : getFormatInfo format = []
  · rw [if_pos hempty] at h
    cases h
  · rw [if_neg hempty] at h ⊢
    cases hr : reg.registerInfos format (getFormatInfo format) with
    | mk reg2 e =>
      rw [hr] at h hraw
      cases e with
      | none =>
        show reg2.m_rawFormats ++ [format] = reg.m_rawFormats ++ [format]
        rw [show reg2.m_rawFormats = reg.m_rawFormats from hraw]
      | some e => cases h

theorem registerAll_rawFormats (getFormatInfo : FileFormat → List FormatInfo)
    (formats : List FileFormat) :
    ∀ reg : FormatRegistry, allRegister getFormatInfo reg formats →
      (registerAll getFormatInfo reg formats).m_rawFormats = reg.m_rawFormats ++ formats := by
  induction formats with
  | nil => intro reg _; simp [registerAll]
  | cons format rest ih =>
    intro reg h
    have := ih _ h.2
    unfold registerAll at this ⊢
    rw [List.foldl_cons, this, registerFileFormat_ok_rawFormats getFormatInfo reg format h.1,
      List.append_assoc]
    rfl

/-! ## The file cache -/

theorem load_ready (result : FileCacheResult) (filepath : String) (load : LoadOutcome) :
    (result.load filepath load).ready = true := by
  cases load <;> rfl

theorem get_entry (load : LoadOutcome) (g_fileCache : FileCacheMap) (filepath : String) :
    ∃ result : FileCacheResult,
      (GetCachedFileAndFormat load g_fileCache filepath).cache filepath = some result
        ∧ result.ready = true
        ∧ (GetCachedFileAndFormat load g_fileCache filepath).outcome
          = result.outcome filepath := by
  unfold GetCachedFileAndFormat
  by_cases hready : ((g_fileCache filepath).getD FileCacheResult.new).ready = false
  · rw [if_pos hready]
    exact ⟨_, if_pos rfl, load_ready _ _ _, rfl⟩
  · rw [if_neg hready]
    refine ⟨_, if_pos rfl, ?_, rfl⟩
    simpa using hready

theorem get_ready (load : LoadOutcome) (g_fileCache : FileCacheMap) (filepath : String)
    (result : FileCacheResult) (hentry : g_fileCache filepath = some result)
    (hready : result.ready = true) :
    (GetCachedFileAndFormat load g_fileCache filepath).invoked = false
      ∧ (GetCachedFileAndFormat load g_fileCache filepath).outcome = result.outcome filepath
      ∧ (GetCachedFileAndFormat load g_fileCache filepath).cache filepath = some result := by
  unfold GetCachedFileAndFormat
  simp [hentry, hready]

theorem get_other (load : LoadOutcome) (g_fileCache : FileCacheMap) (filepath other : String)
    (h : other ≠ filepath) :
    (GetCachedFileAndFormat load g_fileCache other).cache filepath = g_fileCache filepath := by
  unfold GetCachedFileAndFormat
  have h2 : ¬ filepath = other := fun e => h e.symm
  by_cases hready : ((g_fileCache other).getD FileCacheResult.new).ready = false
  · simp [hready, h2]
  · simp [hready, h2]

theorem run_keeps_ready (g_fileCache : FileCacheMap) (filepath : String)
    (result : FileCacheResult) (call : CacheCall) (hcall : call ≠ CacheCall.clear)
    (hentry : g_fileCache filepath = some result) (hready : result.ready = true) :
    call.run g_fileCache filepath = some result := by
  cases call with
  | clear => exact absurd rfl hcall
  | get other load =>
    show (GetCachedFileAndFormat load g_fileCache other).cache filepath = some result
    by_cases h : other = filepath
    · subst h
      exact (get_ready load g_fileCache other result hentry hready).2.2
    · rw [get_other load g_fileCache filepath other h, hentry]

theorem runCalls_keeps_ready (filepath : String) (result : FileCacheResult)
    (hready : result.ready = true) (calls : List CacheCall) :
    ∀ g_fileCache : FileCacheMap, CacheCall.clear ∉ calls →
      g_fileCache filepath = some result →
      runCalls g_fileCache calls filepath = some result := by
  induction calls with
  | nil => intro g _ h; exact h
  | cons call rest ih =>
    intro g hclear hentry
    unfold runCalls
    rw [List.foldl_cons]
    apply ih
    · exact fun h => hclear (List.mem_cons_of_mem _ h)
    · exact run_keeps_ready g filepath result call
        (fun h => hclear (h ▸ List.mem_cons_self _ _)) hentry hready

/-! ## `BuildFileTransformOps` -/

theorem createsRecursion_iff (filepath : String) (ops : List PipelineOp) :
    createsRecursion filepath ops = true ↔
      ∃ path : String, PipelineOp.FileNoOp path false ∈ ops ∧ lower path = lower filepath := by
  induction ops with
  | nil => simp [createsRecursion]
  | cons op rest ih =>
    cases op with
    | FileNoOp path complete =>
      unfold createsRecursion
      by_cases hc : (!complete) = true ∧ Strcasecmp path filepath = 0
      · rw [if_pos hc]
        obtain ⟨hcomplete, hcmp⟩ := hc
        have hlow : lower path = lower filepath := by
          unfold Strcasecmp at hcmp
          by_contra hne
          rw [if_neg hne] at hcmp
          exact absurd hcmp (by decide)
        have hfalse : complete = false := by simpa using hcomplete
        subst hfalse
        simp only [true_iff]
        exact ⟨path, List.mem_cons_self _ _, hlow⟩
      · rw [if_neg hc, ih]
        constructor
        · rintro ⟨p, hp, hl⟩
          exact ⟨p, List.mem_cons_of_mem _ hp, hl⟩
        · rintro ⟨p, hp, hl⟩
          rcases List.mem_cons.mp hp with heq | hp
          · exfalso
            apply hc
            injection heq with h1 h2
            subst h1
            subst h2
            refine ⟨rfl, ?_⟩
            unfold Strcasecmp
            rw [if_pos hl]
          · exact ⟨p, hp, hl⟩
    | cdl transform direction =>
      unfold createsRecursion
      rw [ih]
      constructor
      · rintro ⟨p, hp, hl⟩
        exact ⟨p, List.mem_cons_of_mem _ hp, hl⟩
      · rintro ⟨p, hp, hl⟩
        rcases List.mem_cons.mp hp with heq | hp
        · cases heq
        · exact ⟨p, hp, hl⟩
    | other op =>
      unfold createsRecursion
      rw [ih]
      constructor
      · rintro ⟨p, hp, hl⟩
        exact ⟨p, List.mem_cons_of_mem _ hp, hl⟩
      · rintro ⟨p, hp, hl⟩
        rcases List.mem_cons.mp hp with heq | hp
        · cases heq
        · exact ⟨p, hp, hl⟩

theorem containsText_recursionMessage (filepath : String) :
    containsText (recursionMessage filepath) "is creating a recursion" := by
  unfold containsText recursionMessage
  refine ⟨("Reference to: " ++ filepath ++ " ").data, ".".data, ?_⟩
  simp only [String.data_append, List.append_assoc]
  rfl


/-! ## Claims about assignment and the errors of `isNoOp` and `getCacheID` -/

/-- Objects with the same content whose caches are current return the same cache ID and
the same no-op flag, or both throw. -/
theorem cache_results_congr (H : Helpers) (a b : Lut1D)
    (hca : a.CacheCurrent H) (hcb : b.CacheCurrent H)
    (h1 : a.from_min = b.from_min) (h2 : a.from_max = b.from_max) (h3 : a.luts = b.luts)
    (h4 : a.maxerror = b.maxerror) (h5 : a.errortype = b.errortype) :
    a.cacheIDString H = b.cacheIDString H ∧ a.noOpFlag H = b.noOpFlag H := by
  by_cases hva : ∀ c, a.luts c ≠ []
  · have hvb : ∀ c, b.luts c ≠ [] := by rw [← h3]; exact hva
    rw [cacheIDString_of_current H a hva hca, cacheIDString_of_current H b hvb hcb,
      noOpFlag_of_current H a hva hca, noOpFlag_of_current H b hvb hcb,
      IsLut1DNoOp_congr H a b a.maxerror a.errortype h1 h2 h3, h4, h5,
      hashInput_congr a b h1 h2 h3]
    exact ⟨rfl, rfl⟩
  · have hvb : ¬ ∀ c, b.luts c ≠ [] := by rw [← h3]; exact hva
    unfold Lut1D.cacheIDString Lut1D.noOpFlag
    rw [getCacheID_invalid H a hva, getCacheID_invalid H b hvb, isNoOp_invalid H a hva,
      isNoOp_invalid H b hvb]
    exact ⟨rfl, rfl⟩

/-- C11 (as amended): the assignment `a = b` overwrites the samples, the domain, the
tolerance and the bit depths of `a` and leaves its cached ID and flag as they are, so a
finalized Lut1D stays finalized until `unfinalize()` is called.  For `b` with a current
cache: after `a = b` followed by `a.unfinalize()`, and also after `a = b` when `a` held
no cached ID, `a.getCacheID() == b.getCacheID()` and `a.isNoOp() == b.isNoOp()`. -/
theorem assign_keeps_cache_until_unfinalize (H : Helpers) (a b : Lut1D)
    (hb : b.CacheCurrent H) :
    (a.assign b).m_cacheID = a.m_cacheID ∧ (a.assign b).m_isNoOp = a.m_isNoOp ∧
    (a.assign b).luts = b.luts ∧ (a.assign b).from_min = b.from_min ∧
    (a.assign b).from_max = b.from_max ∧ (a.assign b).maxerror = b.maxerror ∧
    (a.assign b).errortype = b.errortype ∧
    (a.assign b).unfinalize.cacheIDString H = b.cacheIDString H ∧
    (a.assign b).unfinalize.noOpFlag H = b.noOpFlag H ∧
    (a.m_cacheID = "" →
      (a.assign b).cacheIDString H = b.cacheIDString H ∧
      (a.assign b).noOpFlag H = b.noOpFlag H) := by
  refine ⟨rfl, rfl, rfl, rfl, rfl, rfl, rfl, ?_, ?_, ?_⟩
  · exact (cache_results_congr H _ b (CacheCurrent_unfinalize H _) hb rfl rfl rfl rfl rfl).1
  · exact (cache_results_congr H _ b (CacheCurrent_unfinalize H _) hb rfl rfl rfl rfl rfl).2
  · intro ha
    exact cache_results_congr H _ b (CacheCurrent_of_unfinalized H _ ha) hb rfl rfl rfl rfl rfl

/-- C11, witness: the finalized `bentLut` is assigned the identity LUT and unfinalized;
it then has the cache ID of the identity LUT. -/
theorem assign_keeps_cache_until_unfinalize_witness :
    (finalizedBentLut.assign identityLut).unfinalize.cacheIDString exampleHelpers
      = identityLut.cacheIDString exampleHelpers :=
  (assign_keeps_cache_until_unfinalize exampleHelpers finalizedBentLut identityLut
    (CacheCurrent_of_unfinalized _ _ rfl)).2.2.2.2.2.2.2.1

/-- C11, counterexample to the claim as stated: `bentLut` is finalized and then assigned
the identity LUT; its content is that of the identity LUT, but `getCacheID()` and
`isNoOp()` still return what was cached for `bentLut`. -/
theorem assign_leaves_stale_cache :
    (finalizedBentLut.assign identityLut).luts = identityLut.luts ∧
    (finalizedBentLut.assign identityLut).m_cacheID ≠ "" ∧
    (finalizedBentLut.assign identityLut).cacheIDString exampleHelpers
      = bentLut.cacheIDString exampleHelpers ∧
    (finalizedBentLut.assign identityLut).cacheIDString exampleHelpers
      ≠ identityLut.cacheIDString exampleHelpers ∧
    (finalizedBentLut.assign identityLut).noOpFlag exampleHelpers = some false ∧
    identityLut.noOpFlag exampleHelpers = some true := by
  decide!

/-- C12 (as amended): `isNoOp()` and `getCacheID()` throw exactly the messages
"Cannot compute noOp of invalid Lut1D" and "Cannot compute cacheID of invalid Lut1D",
which contain "invalid Lut1D", when one of the three channels is empty, whatever is
cached; with three non-empty channels no message they throw contains "invalid Lut1D";
with three non-empty channels, positive `maxerror`, an errortype other than
ABSOLUTE/RELATIVE and no cached ID, both throw "Unknown error type."; with three
non-empty channels and a known errortype neither throws. -/
theorem isNoOp_getCacheID_errors (H : Helpers) (l : Lut1D) :
    ((∃ c, l.luts c = []) →
      l.isNoOpError H = some "Cannot compute noOp of invalid Lut1D" ∧
      l.getCacheIDError H = some "Cannot compute cacheID of invalid Lut1D" ∧
      containsText "Cannot compute noOp of invalid Lut1D" "invalid Lut1D" ∧
      containsText "Cannot compute cacheID of invalid Lut1D" "invalid Lut1D") ∧
    ((∀ c, l.luts c ≠ []) →
      (∀ e, l.isNoOpError H = some e → e = "Unknown error type.") ∧
      (∀ e, l.getCacheIDError H = some e → e = "Unknown error type.") ∧
      ¬ containsText "Unknown error type." "invalid Lut1D") ∧
    ((∀ c, l.luts c ≠ []) → 0 < l.maxerror → (∃ k, l.errortype = ErrorType.other k) →
      l.m_cacheID = "" →
      l.isNoOpError H = some "Unknown error type." ∧
      l.getCacheIDError H = some "Unknown error type." ∧
      containsText "Unknown error type." "Unknown error type") ∧
    ((∀ c, l.luts c ≠ []) →
      (l.errortype = ErrorType.ERROR_ABSOLUTE ∨ l.errortype = ErrorType.ERROR_RELATIVE) →
      l.isNoOpError H = none ∧ l.getCacheIDError H = none) := by
  refine ⟨?_, ?_, ?_, ?_⟩
  · rintro ⟨c, hc⟩
    have hinv : ¬ ∀ c, l.luts c ≠ [] := fun h => h c hc
    unfold Lut1D.isNoOpError Lut1D.getCacheIDError
    rw [isNoOp_invalid H l hinv, getCacheID_invalid H l hinv]
    exact ⟨rfl, rfl, by decide, by decide⟩
  · intro hvalid
    obtain ⟨hcached, hfresh⟩ := valid_calls H l hvalid
    refine ⟨?_, ?_, by decide⟩
    · intro e he
      unfold Lut1D.isNoOpError at he
      by_cases hid : l.m_cacheID = ""
      · rw [(hfresh hid).1] at he
        rcases hf : l.finalize H with e' | l'
        · rw [hf] at he
          rw [← Option.some.inj he]
          exact finalize_error H l e' hf
        · rw [hf] at he
          exact Option.noConfusion he
      · rw [(hcached hid).1] at he
        exact Option.noConfusion he
    · intro e he
      unfold Lut1D.getCacheIDError at he
      by_cases hid : l.m_cacheID = ""
      · rw [(hfresh hid).2] at he
        rcases hf : l.finalize H with e' | l'
        · rw [hf] at he
          rw [← Option.some.inj he]
          exact finalize_error H l e' hf
        · rw [hf] at he
          exact Option.noConfusion he
      · rw [(hcached hid).2] at he
        exact Option.noConfusion he
  · rintro hvalid hpos ⟨k, hk⟩ hid
    obtain ⟨-, hfresh⟩ := valid_calls H l hvalid
    have hno := IsLut1DNoOp_unknown_type H l l.maxerror k hpos (hvalid 0)
    have hf : l.finalize H = Except.error "Unknown error type." := by
      unfold Lut1D.finalize
      rw [hk, hno]
    unfold Lut1D.isNoOpError Lut1D.getCacheIDError
    rw [(hfresh hid).1, (hfresh hid).2, hf]
    exact ⟨rfl, rfl, by decide⟩
  · intro hvalid htype
    obtain ⟨hcached, hfresh⟩ := valid_calls H l hvalid
    obtain ⟨r, hr⟩ := IsLut1DNoOp_ok H l htype
    unfold Lut1D.isNoOpError Lut1D.getCacheIDError
    by_cases hid : l.m_cacheID = ""
    · rw [(hfresh hid).1, (hfresh hid).2]
      rcases finalize_cases H l with ⟨e, he, -⟩ | ⟨-, hf⟩ | ⟨-, hf⟩
      · rw [hr] at he; exact Except.noConfusion he
      · rw [hf]; exact ⟨rfl, rfl⟩
      · rw [hf]; exact ⟨rfl, rfl⟩
    · rw [(hcached hid).1, (hcached hid).2]
      exact ⟨rfl, rfl⟩

/-- C12, counterexample to the claim as stated: the identity LUT is finalized and its
`errortype` is then set to 0; it has three non-empty channels, a positive `maxerror`
and an unknown errortype, yet `isNoOp()` returns the cached flag and does not throw. -/
theorem isNoOp_returns_cached_flag_for_unknown_type :
    (∀ c, staleUnknownTypeLut.luts c ≠ []) ∧ 0 < staleUnknownTypeLut.maxerror ∧
    staleUnknownTypeLut.errortype = ErrorType.other 0 ∧
    staleUnknownTypeLut.noOpFlag exampleHelpers = some true ∧
    staleUnknownTypeLut.isNoOpError exampleHelpers = none := by
  decide!


/-! ## Claims about the `.spi1d` reader -/

/-- C14: a `.spi1d` text whose header is read without error into `h`, with a `Version`
line, declaring `Length L` with `L` the number of the lines `body` that follow the header
one per row: with `Components 1` and the values `vs` in `body`, `read` returns a Lut1D
with `luts[0] == luts[1] == luts[2] == vs`, and with `from_min[c]`, `from_max[c]` the
values of `From` for all three channels; `Components 2` fills the third channel with 0,
`Components 3` takes the three columns.  The values in `h` are those of the last `From`,
`Components` and `Length` line of the header. -/
theorem spi1d_components_broadcast (S : Scanf) (fileName : String) (istream : IStream)
    (h : Spi1D.Header) (rest : IStream) (body tail : List String)
    (hparse : Spi1D.parseHeader S fileName istream = Except.ok (h, rest))
    (hversion : h.version = 1) (hlen : h.lut_size = (body.length : ℤ)) (hne : body ≠ [])
    (hgood : rest.good = true) (hlines : rest.lines = body ++ tail) :
    (h.components = 1 → ∀ vs : List ℚ, body.map (S.sscanf_f "%f") = vs.map some →
      ∃ l, Spi1D.read S istream fileName = Except.ok l ∧
        (∀ c, l.luts c = vs) ∧
        (∀ c, l.from_min c = h.from_min ∧ l.from_max c = h.from_max)) ∧
    (h.components = 2 → ∀ vs : List (ℚ × ℚ), body.map (S.sscanf_ff "%f %f") = vs.map some →
      ∃ l, Spi1D.read S istream fileName = Except.ok l ∧
        l.luts 0 = vs.map (fun v => v.1) ∧ l.luts 1 = vs.map (fun v => v.2) ∧
        l.luts 2 = vs.map (fun _ => 0) ∧
        (∀ c, l.from_min c = h.from_min ∧ l.from_max c = h.from_max)) ∧
    (h.components = 3 →
      ∀ vs : List (ℚ × ℚ × ℚ), body.map (S.sscanf_fff "%f %f %f") = vs.map some →
      ∃ l, Spi1D.read S istream fileName = Except.ok l ∧
        l.luts 0 = vs.map (fun v => v.1) ∧ l.luts 1 = vs.map (fun v => v.2.1) ∧
        l.luts 2 = vs.map (fun v => v.2.2) ∧
        (∀ c, l.from_min c = h.from_min ∧ l.from_max c = h.from_max)) ∧
    (∀ pre l post, Spi1D.header istream = pre ++ l :: post →
      (startswith l "From" = true → (∀ p ∈ post, startswith p "From" = false) →
        S.sscanf_ff "From %f %f" l = some (h.from_min, h.from_max)) ∧
      (startswith l "Components" = true → (∀ p ∈ post, startswith p "Components" = false) →
        S.sscanf_d "Components %d" l = some h.components) ∧
      (startswith l "Length" = true → (∀ p ∈ post, startswith p "Length" = false) →
        S.sscanf_d "Length %d" l = some h.lut_size)) := by
  have hlen0 : ∀ {α : Type} (vs : List α) (f : String → Option α),
      body.map f = vs.map some → vs.length = body.length ∧ vs ≠ [] := by
    intro α vs f hmap
    have hl := congrArg List.length hmap
    simp only [List.length_map] at hl
    refine ⟨hl.symm, ?_⟩
    intro hvs
    rw [hvs] at hl
    exact hne (List.length_eq_zero.mp hl)
  refine ⟨fun hc vs hmap => ?_, fun hc vs hmap => ?_, fun hc vs hmap => ?_,
    fun pre l post hhdr => ?_⟩
  · obtain ⟨hl, hvs⟩ := hlen0 vs _ hmap
    have hrows : body.map (Spi1D.row S h.components) = (vs.map (fun v => (v, v, v))).map some := by
      rw [hc, List.map_map]
      have : (Spi1D.row S 1) = (Option.map (fun v => (v, v, v))) ∘ (S.sscanf_f "%f") := by
        funext x; exact row_one S x
      rw [this, ← List.map_map, hmap, List.map_map]
      rfl
    obtain ⟨l, hread, hluts, hfrom⟩ := read_rows S fileName istream h rest body tail _ hparse
      hversion (by omega) (by omega) (by simp [hlen, hl]) (by simpa using hvs) hgood hlines hrows
    refine ⟨l, hread, fun c => ?_, hfrom⟩
    rw [hluts c, List.map_map]
    have : ((fun v : ℚ × ℚ × ℚ => channelValue v c) ∘ fun v : ℚ => (v, v, v)) = id := by
      funext v
      simp only [Function.comp, channelValue, id]
      split
      · rfl
      · split <;> rfl
    rw [this, List.map_id]
  · obtain ⟨hl, hvs⟩ := hlen0 vs _ hmap
    have hrows : body.map (Spi1D.row S h.components)
        = (vs.map (fun v => (v.1, v.2, (0 : ℚ)))).map some := by
      rw [hc, List.map_map]
      have : (Spi1D.row S 2)
          = (Option.map (fun v : ℚ × ℚ => (v.1, v.2, (0 : ℚ)))) ∘ (S.sscanf_ff "%f %f") := by
        funext x; exact row_two S x
      rw [this, ← List.map_map, hmap, List.map_map]
      rfl
    obtain ⟨l, hread, hluts, hfrom⟩ := read_rows S fileName istream h rest body tail _ hparse
      hversion (by omega) (by omega) (by simp [hlen, hl]) (by simpa using hvs) hgood hlines hrows
    refine ⟨l, hread, ?_, ?_, ?_, hfrom⟩
    · rw [hluts 0, List.map_map]; rfl
    · rw [hluts 1, List.map_map]; rfl
    · rw [hluts 2, List.map_map]; rfl
  · obtain ⟨hl, hvs⟩ := hlen0 vs _ hmap
    have hrows : body.map (Spi1D.row S h.components) = vs.map some := by
      rw [hc]
      have : (Spi1D.row S 3) = (S.sscanf_fff "%f %f %f") := by
        funext x; exact row_three S x
      rw [this, hmap]
    obtain ⟨l, hread, hluts, hfrom⟩ := read_rows S fileName istream h rest body tail _ hparse
      hversion (by omega) (by omega) (by simp [hlen, hl]) hvs hgood hlines hrows
    exact ⟨l, hread, hluts 0, hluts 1, hluts 2, hfrom⟩
  · have hfold : Spi1D.headerFold S fileName (pre ++ l :: post) Spi1D.Header.init
        = Except.ok h := by
      have hp := parseHeader_eq_fold S fileName istream
      rw [hparse, hhdr] at hp
      cases hf : Spi1D.headerFold S fileName (pre ++ l :: post) Spi1D.Header.init with
      | error e => rw [hf] at hp; cases hp
      | ok h2 =>
        rw [hf] at hp
        simp only [Except.ok.injEq, Prod.mk.injEq] at hp
        rw [hp.1]
    exact headerFold_declares S fileName pre l post _ h hfold

/-- C14, witness: the text `Version 1`, `From -0.5 2.0`, `Length 2`, `Components 1` with
the rows `0.0` and `1.0` is read into three channels `[0, 1]` over the domain
`[-0.5, 2]`. -/
theorem spi1d_components_broadcast_witness :
    ∃ l, Spi1D.read exampleScanf spi1dBroadcastText "Memory File" = Except.ok l ∧
      (∀ c, l.luts c = [0, 1]) ∧ (∀ c, l.from_min c = -1 / 2 ∧ l.from_max c = 2) :=
  (spi1d_components_broadcast exampleScanf "Memory File" spi1dBroadcastText
    { lut_size := 2, from_min := -1 / 2, from_max := 2, version := 1, components := 1,
      currentLine := 5 }
    { lines := ["0.0", "1.0", "\x7d"], last := "", good := true } ["0.0", "1.0"] ["\x7d"]
    (by decide!) rfl rfl (by decide) rfl rfl).1 rfl [0, 1] (by decide!)

/-- C15 (as amended): behind a header read without error into `h`, every Lut1D a
successful `read` returns has three channel sequences of the same length, the declared
`Length` (the value of the last `Length` line of the header), which is not negative, so
the length is non-zero whenever the declared `Length` is; and when the lines behind the
header hold fewer than `Length` parseable rows `read` fails with the message ending in
"Not enough entries found.". -/
theorem spi1d_read_channel_lengths (S : Scanf) (fileName : String) (istream : IStream)
    (h : Spi1D.Header) (rest : IStream)
    (hparse : Spi1D.parseHeader S fileName istream = Except.ok (h, rest)) :
    (∀ l, Spi1D.read S istream fileName = Except.ok l →
      0 ≤ h.lut_size ∧ (∀ c, ((l.luts c).length : ℤ) = h.lut_size) ∧
      (h.lut_size ≠ 0 → ∀ c, l.luts c ≠ [])) ∧
    (Spi1D.checkHeader fileName h = Except.ok () →
      ((rest.lines.filterMap (Spi1D.row S h.components)).length : ℤ) < h.lut_size →
      Spi1D.read S istream fileName = Except.error
        (Spi1D.ThrowErrorMessage "Not enough entries found." fileName (-1) "") ∧
      containsText (Spi1D.ThrowErrorMessage "Not enough entries found." fileName (-1) "")
        "Not enough entries found") ∧
    (∀ pre l post, Spi1D.header istream = pre ++ l :: post →
      startswith l "Length" = true → (∀ p ∈ post, startswith p "Length" = false) →
      S.sscanf_d "Length %d" l = some h.lut_size) := by
  have hlengths : ∀ c, (((Spi1D.dataOf S h rest).luts c).length : ℤ)
      = (Spi1D.dataOf S h rest).lineCount := by
    unfold Spi1D.dataOf
    split
    · exact dataLoop_lengths S _ _ _ _ (fun _ => rfl)
    · intro c; rfl
  have hcount : (Spi1D.dataOf S h rest).lineCount
      ≤ ((rest.lines.filterMap (Spi1D.row S h.components)).length : ℤ) := by
    unfold Spi1D.dataOf
    split
    · have := dataLoop_lineCount_le S h.components h.lut_size rest.lines
        { luts := fun _ => [], lineCount := 0 }
      simpa using this
    · exact Int.natCast_nonneg _
  refine ⟨fun l hl => ?_, fun hcheck hfew => ⟨?_, ?_⟩, fun pre l post hhdr hL hno => ?_⟩
  · rcases read_cases S fileName istream h rest hparse with
      ⟨-, hread⟩ | ⟨-, -, hread⟩ | ⟨-, -, -, hread⟩ | ⟨-, -, -, -, hread⟩ |
      ⟨-, -, -, -, hread⟩ | ⟨-, -, -, -, -, hread⟩ | ⟨-, -, -, hs, hn, hread⟩
    · rw [hread] at hl; cases hl
    · rw [hread] at hl; cases hl
    · rw [hread] at hl; cases hl
    · rw [hread] at hl; cases hl
    · rw [hread] at hl; cases hl
    · rw [hread] at hl; cases hl
    · rw [hread] at hl
      have hl2 := Except.ok.inj hl
      subst hl2
      have hlen : ∀ c, (((Spi1D.dataOf S h rest).luts c).length : ℤ) = h.lut_size :=
        fun c => (hlengths c).trans hn
      refine ⟨hs, hlen, fun hnz c hempty => ?_⟩
      have hc := hlen c
      have he : (Spi1D.dataOf S h rest).luts c = [] := hempty
      rw [he] at hc
      exact hnz hc.symm
  · have hnn := Int.natCast_nonneg (rest.lines.filterMap (Spi1D.row S h.components)).length
    rcases read_cases S fileName istream h rest hparse with
      ⟨hv, -⟩ | ⟨hv, hl, -⟩ | ⟨hv, hl, hc, -⟩ | ⟨hv, hl, hc, hm, -⟩ |
      ⟨-, -, -, hs, -⟩ | ⟨-, -, -, -, -, hread⟩ | ⟨-, -, -, -, hn, -⟩
    · simp [Spi1D.checkHeader, hv] at hcheck
    · simp [Spi1D.checkHeader, hv, hl] at hcheck
    · simp [Spi1D.checkHeader, hv, hl, hc] at hcheck
    · simp [Spi1D.checkHeader, hv, hl, hc, hm] at hcheck
    · omega
    · exact hread
    · omega
  · exact containsText_ThrowErrorMessage _ _ _ _ |> fun hc => by
      unfold containsText at hc ⊢
      exact List.IsInfix.trans (by decide) hc
  · have hfold : Spi1D.headerFold S fileName (pre ++ l :: post) Spi1D.Header.init
        = Except.ok h := by
      have hp := parseHeader_eq_fold S fileName istream
      rw [hparse, hhdr] at hp
      cases hf : Spi1D.headerFold S fileName (pre ++ l :: post) Spi1D.Header.init with
      | error e => rw [hf] at hp; cases hp
      | ok h2 =>
        rw [hf] at hp
        simp only [Except.ok.injEq, Prod.mk.injEq] at hp
        rw [hp.1]
    exact (headerFold_declares S fileName pre l post _ h hfold).2.2 hL hno

/-- C15, witness: the text that declares `Length 2` and holds the one row `0.0` is
rejected with "Not enough entries found.". -/
theorem spi1d_read_channel_lengths_witness :
    Spi1D.read exampleScanf spi1dShortText "Memory File" = Except.error
      "Error parsing .spi1d file (Memory File).  Not enough entries found." :=
  ((spi1d_read_channel_lengths exampleScanf "Memory File" spi1dShortText
    { lut_size := 2, from_min := 0, from_max := 1, version := 1, components := 1,
      currentLine := 5 }
    { lines := ["0.0", "\x7d"], last := "", good := true } (by decide!)).2.1
      (by decide!) (by decide!)).1

/-- C15, counterexample to the claim as stated: the text `Version 1`, `From 0.0 1.0`,
`Length 0`, `Components 1`, `{`, `}` is read without error, and the three channels of the
Lut1D returned are empty. -/
theorem spi1d_length_zero_is_read :
    (Spi1D.read exampleScanf spi1dLengthZeroText "Memory File").map
        (fun l => (l.luts 0, l.luts 1, l.luts 2))
      = Except.ok ([], [], []) := by
  decide!

/-- C16 (as amended): the header being the lines up to the first line starting with a
brace.  (1) When a header line fails its check, `read` fails with the message of that
line, which carries the 1-based number of the line and its text.  (2) A `Version` line
that all earlier lines lead up to without error raises "Invalid 'Version' Tag." when its
value is not an integer and "Only format version 1 supported." when it is an integer
other than 1.  (3) When every header line passes: `read` raises "Could not find 'Version'
Tag." exactly when no header line begins with `Version`; it raises "Could not find
'Length' Tag." exactly when a `Version` line is present and the value held for `Length`
is -1, which is so when no header line begins with `Length`; it raises "Could not find
'Components' Tag." exactly when a `Version` line is present, the value held for `Length`
is not -1 and the value held for `Components` is -1, which is so when no header line
begins with `Components`. -/
theorem spi1d_required_header_tags (S : Scanf) (fileName : String) (istream : IStream) :
    (∀ e, Spi1D.parseHeader S fileName istream = Except.error e →
      Spi1D.read S istream fileName = Except.error e ∧
      ∃ pre l post reason, Spi1D.header istream = pre ++ l :: post ∧
        e = Spi1D.ThrowErrorMessage reason fileName (pre.length + 1) l) ∧
    (∀ pre l post, Spi1D.header istream = pre ++ l :: post →
      (∀ p ∈ pre, ∀ h0, ∃ h', Spi1D.headerLine S fileName h0 p = Except.ok h') →
      startswith l "Version" = true →
      (S.sscanf_d "Version %d" l = none →
        Spi1D.read S istream fileName = Except.error
          (Spi1D.ThrowErrorMessage "Invalid 'Version' Tag." fileName (pre.length + 1) l)) ∧
      (∀ v, S.sscanf_d "Version %d" l = some v → v ≠ 1 →
        Spi1D.read S istream fileName = Except.error
          (Spi1D.ThrowErrorMessage "Only format version 1 supported." fileName
            (pre.length + 1) l))) ∧
    (∀ h rest, Spi1D.parseHeader S fileName istream = Except.ok (h, rest) →
      (Spi1D.read S istream fileName = Except.error
          (Spi1D.ThrowErrorMessage "Could not find 'Version' Tag." fileName (-1) "")
        ↔ ∀ l ∈ Spi1D.header istream, startswith l "Version" = false) ∧
      (Spi1D.read S istream fileName = Except.error
          (Spi1D.ThrowErrorMessage "Could not find 'Length' Tag." fileName (-1) "")
        ↔ (∃ l ∈ Spi1D.header istream, startswith l "Version" = true) ∧ h.lut_size = -1) ∧
      (Spi1D.read S istream fileName = Except.error
          (Spi1D.ThrowErrorMessage "Could not find 'Components' Tag." fileName (-1) "")
        ↔ (∃ l ∈ Spi1D.header istream, startswith l "Version" = true) ∧ h.lut_size ≠ -1 ∧
          h.components = -1) ∧
      ((∀ l ∈ Spi1D.header istream, startswith l "Length" = false) → h.lut_size = -1) ∧
      ((∀ l ∈ Spi1D.header istream, startswith l "Components" = false) →
        h.components = -1)) := by
  have hread_err : ∀ e, Spi1D.parseHeader S fileName istream = Except.error e →
      Spi1D.read S istream fileName = Except.error e := by
    intro e he
    unfold Spi1D.read
    rw [he]
  refine ⟨fun e he => ⟨hread_err e he, ?_⟩, fun pre l post hhdr hpre hV => ?_,
    fun h rest hparse => ?_⟩
  · have hp := parseHeader_eq_fold S fileName istream
    rw [he] at hp
    cases hf : Spi1D.headerFold S fileName (Spi1D.header istream) Spi1D.Header.init with
    | ok h2 => rw [hf] at hp; cases hp
    | error e2 =>
      rw [hf] at hp
      have hee : e = e2 := Except.error.inj hp
      obtain ⟨pre, l, post, reason, hls, hmsg⟩ := headerFold_error S fileName _ _ _ hf
      refine ⟨pre, l, post, reason, hls, ?_⟩
      rw [hee, hmsg]
      simp [Spi1D.Header.init]
  · obtain ⟨h1, hfold1, hcur⟩ := headerFold_of_pass S fileName pre Spi1D.Header.init hpre
    have hcur1 : h1.currentLine + 1 = (pre.length : ℤ) + 1 := by
      rw [hcur]
      simp [Spi1D.Header.init]
    have hstep : ∀ e, Spi1D.headerLine S fileName h1 l = Except.error e →
        Spi1D.read S istream fileName = Except.error e := by
      intro e hl
      apply hread_err
      rw [parseHeader_eq_fold, hhdr, headerFold_append, hfold1]
      simp only [Spi1D.headerFold, hl]
    refine ⟨fun hnone => ?_, fun v hsome hv1 => ?_⟩
    · apply hstep
      unfold Spi1D.headerLine
      simp only [hV, if_true, hnone, hcur1]
    · apply hstep
      unfold Spi1D.headerLine
      simp only [hV, if_true, hsome, ne_eq, hv1, not_false_eq_true, hcur1]
  · have hfold : Spi1D.headerFold S fileName (Spi1D.header istream) Spi1D.Header.init
        = Except.ok h := by
      have hp := parseHeader_eq_fold S fileName istream
      rw [hparse] at hp
      cases hf : Spi1D.headerFold S fileName (Spi1D.header istream) Spi1D.Header.init with
      | error e => rw [hf] at hp; cases hp
      | ok h2 =>
        rw [hf] at hp
        simp only [Except.ok.injEq, Prod.mk.injEq] at hp
        rw [hp.1]
    obtain ⟨-, hver, hlen, hcomp⟩ := headerFold_ok S fileName _ _ _ hfold
    obtain ⟨iV, iL, iC, -⟩ := read_error_iff S fileName istream h rest hparse
    have hversion : h.version = -1
        ↔ ∀ l ∈ Spi1D.header istream, startswith l "Version" = false := by
      constructor
      · intro hv l hl
        by_contra hne
        have hex : ∃ l ∈ Spi1D.header istream, startswith l "Version" = true :=
          ⟨l, hl, by simpa using hne⟩
        rw [if_pos hex] at hver
        rw [hver] at hv
        exact absurd hv (by decide)
      · intro hall
        have hex : ¬ ∃ l ∈ Spi1D.header istream, startswith l "Version" = true := by
          rintro ⟨l, hl, hlv⟩
          rw [hall l hl] at hlv
          cases hlv
        rw [if_neg hex] at hver
        exact hver
    have hpresent : h.version ≠ -1
        ↔ ∃ l ∈ Spi1D.header istream, startswith l "Version" = true := by
      rw [Ne, hversion]
      constructor
      · intro hn
        by_contra hex
        apply hn
        intro l hl
        by_contra hne
        exact hex ⟨l, hl, by simpa using hne⟩
      · rintro ⟨l, hl, hlv⟩ hall
        rw [hall l hl] at hlv
        cases hlv
    refine ⟨iV.trans hversion, ?_, ?_, hlen, hcomp⟩
    · rw [iL, hpresent]
    · rw [iC, hpresent]

/-- C16, counterexample to the claim as stated: the header `From 0.0 1.0`, `Components 1`
has no line beginning with `Length`, and the error raised is the one for `Version`, which
does not contain "Could not find 'Length' Tag"; the header `Version 1`, `From 0.0 1.0`,
`Length -1`, `Components 1` has a line beginning with `Length`, and the error raised is
"Could not find 'Length' Tag.". -/
theorem spi1d_length_tag_error_not_exact :
    (∀ l ∈ Spi1D.header spi1dNoVersionNoLengthText, startswith l "Length" = false) ∧
    Spi1D.read exampleScanf spi1dNoVersionNoLengthText "Memory File" = Except.error
      "Error parsing .spi1d file (Memory File).  Could not find 'Version' Tag." ∧
    ¬ containsText "Error parsing .spi1d file (Memory File).  Could not find 'Version' Tag."
      "Could not find 'Length' Tag" ∧
    (∃ l ∈ Spi1D.header spi1dLengthMinusOneText, startswith l "Length" = true) ∧
    Spi1D.read exampleScanf spi1dLengthMinusOneText "Memory File" = Except.error
      "Error parsing .spi1d file (Memory File).  Could not find 'Length' Tag." ∧
    containsText "Error parsing .spi1d file (Memory File).  Could not find 'Length' Tag."
      "Could not find 'Length' Tag" := by
  decide!

/-- C17, the failing input: the text `Version 1`, `From 0.0 1.0`, `Length 2`,
`Components 0`, `{`, `0.0`, `1.0`, `}` passes the check of the component count; `read`
fails with "Not enough entries found.", a message that does not contain "Components must
be [1,2,3]". -/
theorem spi1d_components_zero_passes_check :
    Spi1D.read exampleScanf spi1dComponentsZeroText "Memory File" = Except.error
      "Error parsing .spi1d file (Memory File).  Not enough entries found." ∧
    ¬ containsText "Error parsing .spi1d file (Memory File).  Not enough entries found."
      "Components must be [1,2,3]" := by
  decide!


/-! ## Claims about the `.spi3d` reader -/

/-- C18, the failing input: the text of the unit test for the cube of 2 x 2 x 2 cells
with the row of cell `1 0 0` replaced by a second row for cell `0 0 1` is read without
error, although no row of the text carries the index triple `1 0 0`; the three positions
of that cell hold the zeros the table was filled with. -/
theorem spi3d_duplicate_row_hides_missing_cell :
    (∀ row ∈ Spi3D.rows exampleScanf (Spi3D.tableLines spi3dDuplicateRowText),
      row.1 ≠ (1, 0, 0)) ∧
    (Spi3D.read exampleScanf exampleLut3D spi3dDuplicateRowText "Memory File").map
        (Except.map (fun lut3d => (readAt lut3d.lut (GetLut3DIndex_RedFast 1 0 0 2 2 2),
          readAt lut3d.lut (GetLut3DIndex_RedFast 1 0 0 2 2 2 + 1),
          readAt lut3d.lut (GetLut3DIndex_RedFast 1 0 0 2 2 2 + 2))))
      = some (Except.ok (some 0, some 0, some 0)) := by
  decide!

/-- C20: a text with a header of three lines that declares the sizes `Nr Ng Nb`, whose
first `Nr*Ng*Nb` rows carry pairwise distinct index triples in the cube (so that they
cover the cube): `read` returns a cube of the declared sizes with
`lut.size == 3*Nr*Ng*Nb`, in which the values of the row tagged `(r, g, b)` are stored at
the positions `3*(r + Nr*(g + Ng*b)) + {0, 1, 2}`; every text with the same sizes whose
first `Nr*Ng*Nb` rows are a permutation of these rows gives the same result, whatever
follows the last needed row. -/
theorem spi3d_placement_order_independent (S : Scanf) (create : Lut3D) (istream : IStream)
    (fileName : String) (l1 l2 l3 : String) (body : List String) (Nr Ng Nb : ℤ)
    (rows : List ((ℤ × ℤ × ℤ) × (ℚ × ℚ × ℚ)))
    (hgood : istream.good = true) (hlines : istream.lines = l1 :: l2 :: l3 :: body)
    (hmagic : startswith (lower l1) "spilut" = true)
    (hsize : S.sscanf_ddd "%d %d %d" l3 = some (Nr, Ng, Nb))
    (hrows : (Spi3D.rows S (body ++ [istream.last])).take (Nr * Ng * Nb).toNat = rows)
    (hcount : (rows.length : ℤ) = Nr * Ng * Nb)
    (hin : ∀ row ∈ rows, Spi3D.inCube Nr Ng Nb row.1)
    (hnodup : (rows.map (fun row => row.1)).Nodup) :
    ∃ lut3d, Spi3D.read S create istream fileName = some (Except.ok lut3d) ∧
      lut3d.size 0 = Nr ∧ lut3d.size 1 = Ng ∧ lut3d.size 2 = Nb ∧
      (lut3d.lut.length : ℤ) = 3 * Nr * Ng * Nb ∧
      (∀ row ∈ rows, ∀ c : Fin 3,
        readAt lut3d.lut
            (3 * (row.1.1 + Nr * (row.1.2.1 + Ng * row.1.2.2)) + (c.val : ℤ))
          = some (channelValue row.2 c)) ∧
      (∀ (istream2 : IStream) (fileName2 : String) (k1 k2 k3 : String)
          (body2 : List String),
        istream2.good = true → istream2.lines = k1 :: k2 :: k3 :: body2 →
        startswith (lower k1) "spilut" = true →
        S.sscanf_ddd "%d %d %d" k3 = some (Nr, Ng, Nb) →
        ((Spi3D.rows S (body2 ++ [istream2.last])).take (Nr * Ng * Nb).toNat).Perm rows →
        Spi3D.read S create istream2 fileName2 = some (Except.ok lut3d)) := by
  have hnn := Int.natCast_nonneg rows.length
  have hprod : 0 ≤ Nr * Ng * Nb := by omega
  have hlen0 : ((resizeVector create.lut (Nr * Ng * Nb * 3)).length : ℤ)
      = 3 * Nr * Ng * Nb := by
    rw [resizeVector_length, Int.toNat_of_nonneg (by omega)]
    ring
  have hpair := cells_pairwise Nr Ng Nb rows hin hnodup
  have hcellZ : ∀ row ∈ rows,
      ((Spi3D.cell Nr Ng row.1 : ℕ) : ℤ) = row.1.1 + Nr * (row.1.2.1 + Ng * row.1.2.2) :=
    fun row hr => Int.toNat_of_nonneg (cell_lt Nr Ng Nb row.1 (hin row hr)).1
  have hlt : ∀ row ∈ rows, 3 * Spi3D.cell Nr Ng row.1 + 2
      < (resizeVector create.lut (Nr * Ng * Nb * 3)).length := by
    intro row hr
    have h1 := (cell_lt Nr Ng Nb row.1 (hin row hr)).2
    have h2 := hcellZ row hr
    have h3 : 3 * Nr * Ng * Nb = 3 * (Nr * Ng * Nb) := by ring
    omega
  refine ⟨_, read_complete S create istream fileName l1 l2 l3 body Nr Ng Nb rows hgood hlines
    hmagic hsize hrows hcount hin, rfl, rfl, rfl, ?_, ?_, ?_⟩
  · simp only [foldl_place_length]
    exact hlen0
  · intro row hr c
    have h2 := hcellZ row hr
    have hposn : 3 * (row.1.1 + Nr * (row.1.2.1 + Ng * row.1.2.2)) + (c.val : ℤ)
        = ((3 * Spi3D.cell Nr Ng row.1 + c.val : ℕ) : ℤ) := by
      push_cast
      rw [h2]
    rw [hposn]
    unfold readAt
    rw [if_pos (Int.natCast_nonneg _), Int.toNat_natCast]
    exact foldl_place_block Nr Ng rows _ hpair hlt row hr c
  · intro istream2 fileName2 k1 k2 k3 body2 hgood2 hlines2 hmagic2 hsize2 hperm
    have hcount2 : ((((Spi3D.rows S (body2 ++ [istream2.last])).take
        (Nr * Ng * Nb).toNat).length : ℕ) : ℤ) = Nr * Ng * Nb := by
      rw [hperm.length_eq]
      exact hcount
    rw [read_complete S create istream2 fileName2 k1 k2 k3 body2 Nr Ng Nb _ hgood2 hlines2
      hmagic2 hsize2 rfl hcount2 (fun row hr => hin row (hperm.mem_iff.mp hr))]
    rw [foldl_place_perm Nr Ng _ rows _ hperm
      ((List.Perm.pairwise_iff (fun h => Ne.symm h) hperm).mpr hpair)
      (fun row hr => hlt row (hperm.mem_iff.mp hr))]

/-- C20, witness: the text of the unit test for the cube of 2 x 2 x 2 cells is read into
24 floats with each row at the positions of its cell, and the text with the same rows in
another order, followed by further lines, gives the same result; row `10 2 12` of a cube
of 32 x 32 x 32 cells has the position 37086. -/
theorem spi3d_placement_order_independent_witness :
    GetLut3DIndex_RedFast 10 2 12 32 32 32 = 37086 ∧
    ∃ lut3d, Spi3D.read exampleScanf exampleLut3D spi3dSampleText "Memory File"
        = some (Except.ok lut3d) ∧
      lut3d.lut = [0, 0, 0, 7 / 10, 0, 1 / 10, 0, 7 / 10, 0, 6 / 10, 7 / 10, 1 / 10,
        0, 0, 9 / 10, 7 / 10, 6 / 10, 1 / 10, 0, 8 / 10, 8 / 10, 6 / 10, 7 / 10, 7 / 10] ∧
      Spi3D.read exampleScanf exampleLut3D spi3dShuffledText "Another File"
        = some (Except.ok lut3d) := by
  refine ⟨by decide, ?_⟩
  obtain ⟨lut3d, hread, -, -, -, -, -, hperm⟩ :=
    spi3d_placement_order_independent exampleScanf exampleLut3D spi3dSampleText "Memory File"
      "SPILUT 1.0" "3 3" "2 2 2"
      ["0 0 0 0.0 0.0 0.0", "0 0 1 0.0 0.0 0.9", "0 1 0 0.0 0.7 0.0", "0 1 1 0.0 0.8 0.8",
        "1 0 0 0.7 0.0 0.1", "1 0 1 0.7 0.6 0.1", "1 1 0 0.6 0.7 0.1", "1 1 1 0.6 0.7 0.7"]
      2 2 2
      [((0, 0, 0), (0, 0, 0)), ((0, 0, 1), (0, 0, 9 / 10)), ((0, 1, 0), (0, 7 / 10, 0)),
        ((0, 1, 1), (0, 8 / 10, 8 / 10)), ((1, 0, 0), (7 / 10, 0, 1 / 10)),
        ((1, 0, 1), (7 / 10, 6 / 10, 1 / 10)), ((1, 1, 0), (6 / 10, 7 / 10, 1 / 10)),
        ((1, 1, 1), (6 / 10, 7 / 10, 7 / 10))]
      rfl rfl (by decide!) (by decide!) (by decide!) (by decide!) (by decide!) (by decide!)
  refine ⟨lut3d, hread, ?_, ?_⟩
  · have hval : (Spi3D.read exampleScanf exampleLut3D spi3dSampleText "Memory File").map
          (Except.map (fun l => l.lut))
        = some (Except.ok [0, 0, 0, 7 / 10, 0, 1 / 10, 0, 7 / 10, 0, 6 / 10, 7 / 10, 1 / 10,
            0, 0, 9 / 10, 7 / 10, 6 / 10, 1 / 10, 0, 8 / 10, 8 / 10, 6 / 10, 7 / 10,
            7 / 10]) := by
      decide!
    rw [hread] at hval
    exact Except.ok.inj (Option.some.inj hval)
  · exact hperm spi3dShuffledText "Another File" "SPILUT 1.0" "3 3" "2 2 2"
      ["1 1 1 0.6 0.7 0.7", "0 0 1 0.0 0.0 0.9", "1 0 0 0.7 0.0 0.1", "0 1 1 0.0 0.8 0.8",
        "0 1 0 0.0 0.7 0.0", "1 0 1 0.7 0.6 0.1", "1 1 0 0.6 0.7 0.1", "0 0 0 0.0 0.0 0.0",
        "5 5 5 1.0 1.0 1.0", "anything"]
      rfl rfl (by decide!) (by decide!) (by decide!)


/-! ## Claims about the Iridas `.cube` reader -/

/-- C13, counterexample to the claim as stated: the text of the one line
`LUT_3D_SIZE 2048` holds no triple, and `0 != 2048*2048*2048`; but the product of the
three `int` sizes wraps to 0, so the count test passes and `read` returns a cube of the
sizes `[2048, 2048, 2048]` with an empty `lut`, without the error "Incorrect number of 3D
LUT entries". -/
theorem iridas_cube_size_product_wraps :
    (exampleParse.nextlines iridasSize2048Text).map (IridasCube.classify exampleParse)
      = [some (IridasCube.Item.size3d 2048)] ∧
    IridasCube.tripleCount [IridasCube.Item.size3d 2048] = 0 ∧
    (0 : ℤ) ≠ 2048 * 2048 * 2048 ∧
    mulInt32 (mulInt32 2048 2048) 2048 = 0 ∧
    (IridasCube.read exampleParse exampleLut3D iridasSize2048Text "Memory File").map
        (fun cachedFile => (cachedFile.has3D, cachedFile.lut3D.size 0,
          cachedFile.lut3D.size 1, cachedFile.lut3D.size 2, cachedFile.lut3D.lut))
      = Except.ok (true, 2048, 2048, 2048, []) := by
  decide!

/-- C13 (as amended): a `.cube` text made of one line `LUT_3D_SIZE N` with
`3*N*N*N < 2^31`, well-formed `DOMAIN_MIN` and `DOMAIN_MAX` lines and `k < 2^31`
well-formed triple lines (and lines the reader passes over): when `k == N*N*N`, `read`
returns a 3D LUT with size `[N, N, N]`, the declared domain and `lut` equal to the `3k`
floats in file order, so `lut.size == 3*N*N*N`; when `k != N*N*N`, it raises "Incorrect
number of 3D LUT entries. Found k, expected N*N*N.".  So `read` succeeds if and only if
`k == N*N*N`. -/
theorem iridas_cube_3d_entry_count (P : ParseUtils) (create3D : Lut3D) (istream : IStream)
    (fileName : String) (items : List IridasCube.Item) (N : ℕ)
    (hgood : istream.good = true)
    (hitems : (P.nextlines istream).map (IridasCube.classify P) = items.map some)
    (hsize : IridasCube.sizes items = [(N : ℤ)])
    (hfit : 3 * N * N * N < 2 ^ 31) (hcount : IridasCube.tripleCount items < 2 ^ 31) :
    (IridasCube.tripleCount items = N * N * N →
      ∃ cachedFile, IridasCube.read P create3D istream fileName = Except.ok cachedFile ∧
        cachedFile.has3D = true ∧ cachedFile.has1D = false ∧
        cachedFile.lut3D.size = (fun _ => (N : ℤ)) ∧
        cachedFile.lut3D.from_min = IridasCube.declaredMin items (fun _ => 0) ∧
        cachedFile.lut3D.from_max = IridasCube.declaredMax items (fun _ => 1) ∧
        cachedFile.lut3D.lut = IridasCube.triples items ∧
        cachedFile.lut3D.lut.length = 3 * N * N * N) ∧
    (IridasCube.tripleCount items ≠ N * N * N →
      IridasCube.read P create3D istream fileName = Except.error
        (IridasCube.ThrowErrorMessage
          ("Incorrect number of 3D LUT entries. " ++ "Found "
            ++ toString (IridasCube.tripleCount items) ++ ", expected "
            ++ toString ((N : ℤ) * N * N) ++ ".") fileName (-1) "") ∧
      ∃ msg, IridasCube.read P create3D istream fileName = Except.error msg ∧
        containsText msg "Incorrect number of 3D LUT entries") := by
  have hfitZ : 3 * (N : ℤ) * N * N < 2 ^ 31 := by exact_mod_cast hfit
  have hnonneg : ∀ n ∈ IridasCube.sizes items, 0 ≤ n ∧ 3 * n * n * n < 2 ^ 31 := by
    intro n hn
    rw [hsize] at hn
    simp only [List.mem_singleton] at hn
    subst hn
    exact ⟨Int.natCast_nonneg N, hfitZ⟩
  have hfound : wrapInt32 ((IridasCube.tripleCount items : ℕ) : ℤ)
      = ((IridasCube.tripleCount items : ℕ) : ℤ) :=
    wrapInt32_of_fits _ (by have := Int.natCast_nonneg (IridasCube.tripleCount items); omega)
      (by exact_mod_cast hcount)
  have hparse := parseLines_of_classify P fileName (P.nextlines istream) items
    IridasCube.Parsed.init hitems hnonneg
  obtain ⟨hraw, hin1d, hmin, hmax, -, hsz⟩ := foldl_applyItem items IridasCube.Parsed.init
  obtain ⟨hsize3d, hin3d⟩ := hsz (N : ℤ) hsize
  have hread : IridasCube.read P create3D istream fileName
      = IridasCube.interpret create3D fileName
          (items.foldl IridasCube.applyItem IridasCube.Parsed.init) := by
    unfold IridasCube.read
    simp only [hgood, Bool.not_true, Bool.false_eq_true, if_false, hparse]
  have hrawlen : (items.foldl IridasCube.applyItem IridasCube.Parsed.init).raw.length / 3
      = IridasCube.tripleCount items := by
    rw [hraw]
    simp only [IridasCube.Parsed.init, List.nil_append, triples_length]
    omega
  have hfalse : (items.foldl IridasCube.applyItem IridasCube.Parsed.init).in1d = false := hin1d
  have hcmp : mulInt32 (mulInt32
        ((items.foldl IridasCube.applyItem IridasCube.Parsed.init).size3d 0)
        ((items.foldl IridasCube.applyItem IridasCube.Parsed.init).size3d 1))
        ((items.foldl IridasCube.applyItem IridasCube.Parsed.init).size3d 2)
      = (N : ℤ) * N * N := by
    rw [hsize3d]
    exact mulInt32_cube (N : ℤ) (Int.natCast_nonneg N) hfitZ
  have hinterp : IridasCube.read P create3D istream fileName
      = if (N : ℤ) * N * N ≠ ((IridasCube.tripleCount items : ℕ) : ℤ) then
          Except.error (IridasCube.ThrowErrorMessage
            ("Incorrect number of 3D LUT entries. " ++ "Found "
              ++ toString (IridasCube.tripleCount items) ++ ", expected "
              ++ toString ((N : ℤ) * N * N) ++ ".") fileName (-1) "")
        else
          Except.ok
            { has1D := false
              has3D := true
              lut1D := Lut1D.Create
              lut3D := { create3D with
                from_min := (items.foldl IridasCube.applyItem IridasCube.Parsed.init).domain_min
                from_max := (items.foldl IridasCube.applyItem IridasCube.Parsed.init).domain_max
                size := (items.foldl IridasCube.applyItem IridasCube.Parsed.init).size3d
                lut := (items.foldl IridasCube.applyItem IridasCube.Parsed.init).raw } } := by
    rw [hread]
    unfold IridasCube.interpret
    simp only [hfalse, Bool.false_eq_true, if_false, hin3d, if_true, hrawlen, hcmp, hfound]
  refine ⟨fun hk => ?_, fun hk => ?_⟩
  · have hcond : ¬ ((N : ℤ) * N * N ≠ ((IridasCube.tripleCount items : ℕ) : ℤ)) := by
      rw [hk]
      push_cast
      simp
    rw [if_neg hcond] at hinterp
    refine ⟨_, hinterp, rfl, rfl, hsize3d, ?_, ?_, ?_, ?_⟩
    · exact hmin
    · exact hmax
    · exact hraw
    · have hlen := congrArg List.length hraw
      have hinit : (IridasCube.Parsed.init.raw ++ IridasCube.triples items).length
          = 3 * (N * N * N) := by
        rw [← hk, ← triples_length]
        rfl
      rw [hinit] at hlen
      rw [show 3 * N * N * N = 3 * (N * N * N) by ring]
      exact hlen
  · have hcond : (N : ℤ) * N * N ≠ ((IridasCube.tripleCount items : ℕ) : ℤ) := by
      intro heq
      apply hk
      have : ((N * N * N : ℕ) : ℤ) = ((IridasCube.tripleCount items : ℕ) : ℤ) := by
        push_cast
        exact heq
      exact (Int.ofNat_inj.mp this).symm
    rw [if_pos hcond] at hinterp
    refine ⟨hinterp, _, hinterp, ?_⟩
    unfold containsText IridasCube.ThrowErrorMessage
    simp only [String.data_append]
    refine List.IsInfix.trans ?_ (List.suffix_append _ _).isInfix
    refine List.IsInfix.trans ?_ (List.prefix_append _ _).isInfix
    refine List.IsInfix.trans ?_ (List.prefix_append _ _).isInfix
    refine List.IsInfix.trans ?_ (List.prefix_append _ _).isInfix
    refine List.IsInfix.trans ?_ (List.prefix_append _ _).isInfix
    refine List.IsInfix.trans ?_ (List.prefix_append _ _).isInfix
    decide

/-- C13, witness: the text of the unit test, `LUT_3D_SIZE 2` with eight triples, is read
into a cube with the 24 floats in file order; with its last triple removed the error is
"Incorrect number of 3D LUT entries. Found 7, expected 8.". -/
theorem iridas_cube_3d_entry_count_witness :
    (∃ cachedFile,
      IridasCube.read exampleParse exampleLut3D iridasSampleText "Memory File"
        = Except.ok cachedFile ∧
      cachedFile.has3D = true ∧ cachedFile.lut3D.size = (fun _ => 2) ∧
      cachedFile.lut3D.lut = [0, 0, 0, 1, 0, 0, 0, 1, 0, 1, 1, 0, 0, 0, 1, 1, 0, 1, 0, 1, 1,
        1, 1, 1]) ∧
    IridasCube.read exampleParse exampleLut3D iridasShortText "Memory File" = Except.error
      "Error parsing Iridas .cube file (Memory File).  Incorrect number of 3D LUT entries. Found 7, expected 8." := by
  constructor
  · obtain ⟨cachedFile, hread, h3, -, hs, -, -, hlut, -⟩ :=
      (iridas_cube_3d_entry_count exampleParse exampleLut3D iridasSampleText "Memory File"
        [IridasCube.Item.size3d 2, IridasCube.Item.domainMin 0 0 0,
          IridasCube.Item.domainMax 1 1 1, IridasCube.Item.triple 0 0 0,
          IridasCube.Item.triple 1 0 0, IridasCube.Item.triple 0 1 0,
          IridasCube.Item.triple 1 1 0, IridasCube.Item.triple 0 0 1,
          IridasCube.Item.triple 1 0 1, IridasCube.Item.triple 0 1 1,
          IridasCube.Item.triple 1 1 1] 2 rfl (by decide!) (by decide!) (by decide)
        (by decide!)).1 (by decide!)
    exact ⟨cachedFile, hread, h3, hs, hlut⟩
  · have herr := ((iridas_cube_3d_entry_count exampleParse exampleLut3D iridasShortText
        "Memory File"
        [IridasCube.Item.size3d 2, IridasCube.Item.domainMin 0 0 0,
          IridasCube.Item.domainMax 1 1 1, IridasCube.Item.triple 0 0 0,
          IridasCube.Item.triple 1 0 0, IridasCube.Item.triple 0 1 0,
          IridasCube.Item.triple 1 1 0, IridasCube.Item.triple 0 0 1,
          IridasCube.Item.triple 1 0 1, IridasCube.Item.triple 0 1 1]
        2 rfl (by decide!) (by decide!) (by decide) (by decide!)).2 (by decide!)).1
    rw [herr]
    exact congrArg Except.error (by decide!)


/-! ## Claims about the Truelight `.cub` reader -/

/-- The loop body leaves the loop at an end line. -/
theorem parseLine_end (P : ParseUtils) (st : Truelight.Parsed) (line : String)
    (hend : Truelight.isEndLine P line = true) :
    Truelight.parseLine P st line
      = Except.ok ({ st with in3d := false, in1d := false }, true) := by
  unfold Truelight.isEndLine at hend
  unfold Truelight.parseLine
  match hsplit : P.split (lower (P.strip line)), hend with
  | p0 :: p1 :: args, hend =>
    simp only [Bool.and_eq_true, decide_eq_true_eq] at hend
    obtain ⟨h0, h1⟩ := hend
    subst h1
    have n1 : ¬ ("end" : String) = "width" := by decide
    have n2 : ¬ ("end" : String) = "lutlength" := by decide
    have n3 : ¬ ("end" : String) = "inputlut" := by decide
    have n4 : ¬ ("end" : String) = "cube" := by decide
    simp only [h0, if_true, n1, n2, n3, n4, if_false]

/-- The line loop does not look at what follows an end line. -/
theorem parseLines_end (P : ParseUtils) (pre : List String) (e : String)
    (post post2 : List String) (st : Truelight.Parsed)
    (hend : Truelight.isEndLine P e = true) :
    Truelight.parseLines P (pre ++ e :: post) st
      = Truelight.parseLines P (pre ++ e :: post2) st := by
  induction pre generalizing st with
  | nil =>
    simp only [List.nil_append, Truelight.parseLines, parseLine_end P st e hend]
  | cons l ls ih =>
    simp only [List.cons_append, Truelight.parseLines]
    cases hl : Truelight.parseLine P st l with
    | error err => rfl
    | ok r =>
      obtain ⟨st', stop⟩ := r
      cases stop with
      | true => rfl
      | false => exact ih st'

/-- C21: two Truelight `.cub` texts whose lines agree up to and including a line `# end`
(a line whose first word starts with `#` and whose second word is `end`), behind the
first line of the text, give the same result of `read`, success with the same flags,
sizes and samples or the same error, whatever lines follow the marker in either text. -/
theorem truelight_read_stops_at_end (P : ParseUtils) (create3D : Lut3D)
    (istream istream2 : IStream) (first : String) (pre : List String) (e : String)
    (post post2 : List String)
    (hgood : istream.good = true) (hgood2 : istream2.good = true)
    (hlines : P.nextlines istream = first :: (pre ++ e :: post))
    (hlines2 : P.nextlines istream2 = first :: (pre ++ e :: post2))
    (hend : Truelight.isEndLine P e = true) :
    Truelight.read P create3D istream = Truelight.read P create3D istream2 := by
  unfold Truelight.read
  simp only [hgood, hgood2, hlines, hlines2, parseLines_end P pre e post post2 _ hend]

/-- C21, witness: the shaper text of two entries is read into a 1D LUT of two entries,
with the line of three floats behind `# end` and with a malformed tag and another line of
floats behind it. -/
theorem truelight_read_stops_at_end_witness :
    Truelight.read exampleParse exampleLut3D truelightShaperText
      = Truelight.read exampleParse exampleLut3D truelightShaperOtherTailText ∧
    (Truelight.read exampleParse exampleLut3D truelightShaperText).map
        (Except.map (fun c => (c.has1D, c.has3D, c.lut1D.luts 0, c.lut3D.lut)))
      = some (Except.ok (true, false, [0, 1], [])) :=
  ⟨truelight_read_stops_at_end exampleParse exampleLut3D truelightShaperText
      truelightShaperOtherTailText "# Truelight Cube v2.0"
      ["# lutLength 2", "# InputLUT", " 0.000000 0.000000 0.000000",
        " 1.000000 1.000000 1.000000"]
      "# end" [" # This last line confirms 'end' tag is obeyed", " 1.23456 1.23456 1.23456"]
      ["# width 2 2", " 0.5 0.5 0.5", "# lutLength x"]
      rfl rfl (by decide!) (by decide!) (by decide!),
    by decide!⟩


/-! ## Claims about the Nuke `.vf` reader -/

/-- C22 (as amended): for every successfully read `.vf` file whose grid sizes `Nr`, `Ng`
and `Nb` are positive: the returned `lut` and the floats of the data triples of the file
both have `3*Nr*Ng*Nb` entries; for every `(r, g, b)` in the grid, the floats at the
positions `3*(r + Nr*(g + Ng*b)) + {0, 1, 2}` of `lut` are the floats of the data triple
number `b + Nb*(g + Ng*r)` of the file; and the triples of `lut` are a permutation of the
triples of the file. -/
theorem vf_read_blue_fast_to_red_fast (P : ParseUtils) (create3D : Lut3D)
    (istream : IStream) (fileName : String) (cachedFile : VF.LocalCachedFile)
    (hread : VF.read P create3D istream fileName = some (Except.ok cachedFile))
    (hpos : 0 < cachedFile.lut3D.size 0 ∧ 0 < cachedFile.lut3D.size 1 ∧
      0 < cachedFile.lut3D.size 2) :
    (cachedFile.lut3D.lut.length : ℤ)
      = 3 * cachedFile.lut3D.size 0 * cachedFile.lut3D.size 1 * cachedFile.lut3D.size 2 ∧
    ((VF.fileTriples P fileName istream).length : ℤ)
      = 3 * cachedFile.lut3D.size 0 * cachedFile.lut3D.size 1 * cachedFile.lut3D.size 2 ∧
    (∀ r g b : ℤ, 0 ≤ r → r < cachedFile.lut3D.size 0 → 0 ≤ g → g < cachedFile.lut3D.size 1 →
      0 ≤ b → b < cachedFile.lut3D.size 2 → ∀ c : Fin 3, ∃ v,
        readAt cachedFile.lut3D.lut
            (3 * (r + cachedFile.lut3D.size 0 * (g + cachedFile.lut3D.size 1 * b))
              + (c.val : ℤ)) = some v ∧
        readAt (VF.fileTriples P fileName istream)
            (3 * (b + cachedFile.lut3D.size 2 * (g + cachedFile.lut3D.size 1 * r))
              + (c.val : ℤ)) = some v) ∧
    (triplesOf cachedFile.lut3D.lut).Perm (triplesOf (VF.fileTriples P fileName istream)) := by
  obtain ⟨h3, hprod, hall⟩ := vf_read_ok P create3D istream fileName cachedFile hread
  obtain ⟨p0, p1, p2⟩ := hpos
  generalize hraw : VF.fileTriples P fileName istream = raw at h3 hprod hall ⊢
  generalize hlut : cachedFile.lut3D.lut = lut at hall ⊢
  obtain ⟨nr, hnr⟩ : ∃ n : ℕ, cachedFile.lut3D.size 0 = n :=
    ⟨(cachedFile.lut3D.size 0).toNat, (Int.toNat_of_nonneg p0.le).symm⟩
  obtain ⟨ng, hng⟩ : ∃ n : ℕ, cachedFile.lut3D.size 1 = n :=
    ⟨(cachedFile.lut3D.size 1).toNat, (Int.toNat_of_nonneg p1.le).symm⟩
  obtain ⟨nb, hnb⟩ : ∃ n : ℕ, cachedFile.lut3D.size 2 = n :=
    ⟨(cachedFile.lut3D.size 2).toNat, (Int.toNat_of_nonneg p2.le).symm⟩
  obtain ⟨hlen, hget⟩ := lookups_spec raw cachedFile.lut3D.size nr ng nb hnr hng hnb
  have hmap := allSome_eq_some _ _ hall
  rw [hnr, hng, hnb] at hprod ⊢
  have hN : raw.length / 3 = nr * ng * nb := by
    have : ((nr * ng * nb : ℕ) : ℤ) = ((raw.length / 3 : ℕ) : ℤ) := by
      push_cast
      exact hprod
    exact (Int.ofNat_inj.mp this).symm
  have hrawlen : raw.length = 3 * (nr * ng * nb) := by omega
  have hlutlen : lut.length = 3 * (nr * ng * nb) := by
    have := congrArg List.length hmap
    rw [List.length_map, hlen] at this
    exact this.symm
  have hpoint : ∀ r g b c, r < nr → g < ng → b < nb → c < 3 → ∃ v,
      lut[3 * (r + nr * (g + ng * b)) + c]? = some v ∧
      raw[3 * (b + nb * (g + ng * r)) + c]? = some v := by
    intro r g b c hr hg hb hc
    have h1 := hget r g b c hr hg hb hc
    rw [hmap, List.getElem?_map] at h1
    cases hv : lut[3 * (r + nr * (g + ng * b)) + c]? with
    | none => rw [hv] at h1; simp at h1
    | some v =>
      rw [hv] at h1
      simp only [Option.map_some', Option.some.injEq] at h1
      exact ⟨v, rfl, h1.symm⟩
  refine ⟨?_, ?_, ?_, ?_⟩
  · rw [hlutlen]
    push_cast
    ring
  · rw [hrawlen]
    push_cast
    ring
  · intro r g b r0 r1 g0 g1 b0 b1 c
    obtain ⟨r', hr'⟩ : ∃ n : ℕ, r = n := ⟨r.toNat, (Int.toNat_of_nonneg r0).symm⟩
    obtain ⟨g', hg'⟩ : ∃ n : ℕ, g = n := ⟨g.toNat, (Int.toNat_of_nonneg g0).symm⟩
    obtain ⟨b', hb'⟩ : ∃ n : ℕ, b = n := ⟨b.toNat, (Int.toNat_of_nonneg b0).symm⟩
    subst hr' hg' hb'
    obtain ⟨v, hv1, hv2⟩ := hpoint r' g' b' c.val (by exact_mod_cast r1) (by exact_mod_cast g1)
      (by exact_mod_cast b1) c.isLt
    refine ⟨v, ?_, ?_⟩
    · have hcast : (3 * ((r' : ℤ) + nr * (g' + ng * b')) + (c.val : ℤ))
          = ((3 * (r' + nr * (g' + ng * b')) + c.val : ℕ) : ℤ) := by
        push_cast
        ring
      rw [hcast]
      unfold readAt
      rw [if_pos (Int.natCast_nonneg _), Int.toNat_natCast]
      exact hv1
    · have hcast : (3 * ((b' : ℤ) + nb * (g' + ng * r')) + (c.val : ℤ))
          = ((3 * (b' + nb * (g' + ng * r')) + c.val : ℕ) : ℤ) := by
        push_cast
        ring
      rw [hcast]
      unfold readAt
      rw [if_pos (Int.natCast_nonneg _), Int.toNat_natCast]
      exact hv2
  · have hgetD : ∀ j c, j < nr * ng * nb → c < 3 →
        lut.getD (3 * j + c) 0 = raw.getD (3 * swapIndex nr ng nb j + c) 0 := by
      intro j c hj hc
      obtain ⟨hr, hg, hb, hcomp⟩ := radix_compose nr ng nb j hj
      obtain ⟨v, hv1, hv2⟩ := hpoint (j % nr) (j / nr % ng) (j / nr / ng) c hr hg hb hc
      rw [hcomp] at hv1
      rw [List.getD_eq_getElem?_getD, List.getD_eq_getElem?_getD, hv1]
      unfold swapIndex
      rw [hv2]
    unfold triplesOf
    rw [hlutlen, hrawlen, Nat.mul_div_cancel_left _ (by decide : 0 < 3)]
    have hleft : (List.range (nr * ng * nb)).map (fun j =>
          (lut.getD (3 * j) 0, lut.getD (3 * j + 1) 0, lut.getD (3 * j + 2) 0))
        = ((List.range (nr * ng * nb)).map (swapIndex nr ng nb)).map (fun j =>
          (raw.getD (3 * j) 0, raw.getD (3 * j + 1) 0, raw.getD (3 * j + 2) 0)) := by
      rw [List.map_map]
      apply List.map_congr_left
      intro j hj
      rw [List.mem_range] at hj
      have e0 := hgetD j 0 hj (by decide)
      have e1 := hgetD j 1 hj (by decide)
      have e2 := hgetD j 2 hj (by decide)
      simp only [Nat.add_zero] at e0
      simp only [Function.comp, e0, e1, e2]
    rw [hleft]
    exact (swapIndex_perm nr ng nb).map _

/-- C22, witness: the text of the unit test, whose eight triples list their own grid
indices in the order in which blue varies fastest, is read into the cube in which red
varies fastest. -/
theorem vf_read_blue_fast_to_red_fast_witness :
    ∃ cachedFile,
      VF.read exampleParse exampleLut3D vfSampleText "Memory File"
        = some (Except.ok cachedFile) ∧
      cachedFile.lut3D.lut = [0, 0, 0, 1, 0, 0, 0, 1, 0, 1, 1, 0, 0, 0, 1, 1, 0, 1, 0, 1, 1,
        1, 1, 1] ∧
      (triplesOf cachedFile.lut3D.lut).Perm
        (triplesOf (VF.fileTriples exampleParse "Memory File" vfSampleText)) := by
  have hval : (VF.read exampleParse exampleLut3D vfSampleText "Memory File").map
      (Except.map (fun c => (c.lut3D.lut, c.lut3D.size 0, c.lut3D.size 1, c.lut3D.size 2)))
      = some (Except.ok ([0, 0, 0, 1, 0, 0, 0, 1, 0, 1, 1, 0, 0, 0, 1, 1, 0, 1, 0, 1, 1,
        1, 1, 1], 2, 2, 2)) := by
    decide!
  cases hread : VF.read exampleParse exampleLut3D vfSampleText "Memory File" with
  | none =>
    rw [hread] at hval
    cases hval
  | some res =>
    cases res with
    | error e =>
      rw [hread] at hval
      cases hval
    | ok cachedFile =>
      rw [hread] at hval
      have hfields := Except.ok.inj (Option.some.inj hval)
      simp only [Prod.mk.injEq] at hfields
      obtain ⟨hlut, h0, h1, h2⟩ := hfields
      exact ⟨cachedFile, rfl, hlut,
        (vf_read_blue_fast_to_red_fast exampleParse exampleLut3D vfSampleText "Memory File"
          cachedFile hread
          ⟨by rw [h0]; decide, by rw [h1]; decide, by rw [h2]; decide⟩).2.2.2⟩

/-- C22, counterexample to the claim as stated: the text `#Inventor V2.1 ascii`,
`grid_size -1 -1 1`, `data`, `0.5 0.25 0.75` is read without error; the returned `lut` is
empty, while `3*Nr*Ng*Nb` is 3 and the file holds one triple. -/
theorem vf_negative_grid_size_gives_empty_lut :
    (VF.read exampleParse exampleLut3D vfNegativeSizeText "Memory File").map
        (Except.map (fun c => (c.lut3D.lut, c.lut3D.size 0, c.lut3D.size 1, c.lut3D.size 2)))
      = some (Except.ok ([], -1, -1, 1)) ∧
    VF.fileTriples exampleParse "Memory File" vfNegativeSizeText = [1 / 2, 1 / 4, 3 / 4] ∧
    ¬ (triplesOf ([] : List ℚ)).Perm
      (triplesOf (VF.fileTriples exampleParse "Memory File" vfNegativeSizeText)) := by
  refine ⟨by decide!, by decide!, ?_⟩
  have h : VF.fileTriples exampleParse "Memory File" vfNegativeSizeText = [1 / 2, 1 / 4, 3 / 4] := by
    decide!
  rw [h]
  intro hperm
  have := hperm.length_eq
  simp [triplesOf] at this


/-! ## Claims about the operators the readers append -/

/-- The legacy `CreateLut1DOp` on a LUT it accepts, with an interpolation it accepts. -/
theorem CreateLut1DOp_accepts (ops : List Op) (lut : Lut1D) (interpolation : Interpolation)
    (hlut : lut.sameDimensions)
    (hinterp : interpolation = Interpolation.INTERP_BEST
      ∨ interpolation = Interpolation.INTERP_NEAREST
      ∨ interpolation = Interpolation.INTERP_LINEAR) :
    CreateLut1DOp ops lut interpolation TransformDirection.TRANSFORM_DIR_FORWARD
      = (ops ++ [minMaxOf lut TransformDirection.TRANSFORM_DIR_FORWARD,
          Op.lut1D (lut1DOpDataOf lut interpolation)], none) ∧
    CreateLut1DOp ops lut interpolation TransformDirection.TRANSFORM_DIR_INVERSE
      = (ops ++ [Op.lut1D (lut1DOpDataOf lut interpolation).inverse,
          minMaxOf lut TransformDirection.TRANSFORM_DIR_INVERSE], none) := by
  obtain ⟨h0, h1, h2⟩ := hlut
  have e1 : lut.luts 1 ≠ [] := by
    intro h
    rw [h] at h1
    exact h0 (List.length_eq_zero.mp h1)
  have e2 : lut.luts 2 ≠ [] := by
    intro h
    rw [h] at h2
    exact h0 (List.length_eq_zero.mp h2)
  have hempty : ¬ (lut.luts 0 = [] ∨ lut.luts 1 = [] ∨ lut.luts 2 = []) := by
    rintro (h | h | h)
    · exact h0 h
    · exact e1 h
    · exact e2 h
  have hsame : ¬ ((lut.luts 0).length ≠ (lut.luts 1).length
      ∨ (lut.luts 0).length ≠ (lut.luts 2).length) := by
    rintro (h | h)
    · exact h h1
    · exact h h2
  constructor
  · unfold CreateLut1DOp
    rw [if_neg (by decide), if_neg hempty, if_neg hsame]
    rcases hinterp with h | h | h <;> subst h <;>
      simp [andThen, CreateMinMaxOp, CreateLut1DOpData, minMaxOf, lut1DOpDataOf]
  · unfold CreateLut1DOp
    rw [if_neg (by decide), if_neg hempty, if_neg hsame]
    rcases hinterp with h | h | h <;> subst h <;>
      simp [andThen, CreateMinMaxOp, CreateLut1DOpData, minMaxOf, lut1DOpDataOf]

/-- The 1D LUT of a cached file that the Truelight reader returns with `has1D` set has
three channels of the same length, none of them empty. -/
theorem truelight_read_lut1D (P : ParseUtils) (create3D : Lut3D) (istream : IStream)
    (cachedFile : Truelight.LocalCachedFile)
    (hread : Truelight.read P create3D istream = some (Except.ok cachedFile))
    (h1D : cachedFile.has1D = true) : cachedFile.lut1D.sameDimensions := by
  unfold Truelight.read at hread
  split at hread
  · simp at hread
  · split at hread
    · simp at hread
    · split at hread
      · simp at hread
      · split at hread
        · simp at hread
        · rename_i st _
          unfold Truelight.interpret at hread
          simp only at hread
          split at hread
          · simp at hread
          · split at hread
            · simp at hread
            · split at hread
              · simp at hread
              · simp only [Option.some.injEq, Except.ok.injEq] at hread
                subst hread
                simp only [decide_eq_true_eq] at h1D
                simp only [h1D, decide_True, if_true]
                unfold Lut1D.sameDimensions
                simp only [List.length_map, List.length_range, ne_eq, List.map_eq_nil_iff,
                  List.range_eq_nil, and_self, and_true]
                omega

/-- C23: with the two directions combined to forward in one call and to inverse in the
other, the operators appended for the inverse direction are those appended for the forward
direction in reverse order, each with its direction flipped: the Truelight reader appends
the 1D shaper stage (range, 1D LUT) and then the 3D cube forward, the cube and then the
shaper stage (inverse 1D LUT, inverse range) inverse; the `.vf` reader appends matrix and
cube forward, cube and matrix inverse; the legacy `CreateLut1DOp` appends range and 1D LUT
forward, inverse 1D LUT and inverse range inverse.  The cached files are those with a 1D
LUT that `CreateLut1DOp` accepts, as the Truelight reader returns them. -/
theorem inverse_ops_reverse_forward_ops
    (combine : TransformDirection → TransformDirection → TransformDirection)
    (ops : List Op) (fileDirection dirF dirI : TransformDirection)
    (fileInterpolation : Interpolation)
    (hF : combine dirF fileDirection = TransformDirection.TRANSFORM_DIR_FORWARD)
    (hI : combine dirI fileDirection = TransformDirection.TRANSFORM_DIR_INVERSE) :
    (∀ cachedFile : Truelight.LocalCachedFile,
      (cachedFile.has1D = true → cachedFile.lut1D.sameDimensions) →
      ∃ forward : List Op,
        forward = (if cachedFile.has1D then
            [minMaxOf cachedFile.lut1D TransformDirection.TRANSFORM_DIR_FORWARD,
              Op.lut1D (lut1DOpDataOf cachedFile.lut1D Interpolation.INTERP_LINEAR)]
          else [])
          ++ [Op.lut3D cachedFile.lut3D fileInterpolation
            TransformDirection.TRANSFORM_DIR_FORWARD] ∧
        Truelight.buildFileOps combine ops (some cachedFile) fileDirection fileInterpolation
            dirF = (ops ++ forward, none) ∧
        Truelight.buildFileOps combine ops (some cachedFile) fileDirection fileInterpolation
            dirI = (ops ++ forward.reverse.map Op.flip, none)) ∧
    (∀ cachedFile : VF.LocalCachedFile,
      ∃ forward : List Op,
        forward = (if cachedFile.useMatrix then
            [Op.matrix cachedFile.m44 TransformDirection.TRANSFORM_DIR_FORWARD] else [])
          ++ [Op.lut3D cachedFile.lut3D fileInterpolation
            TransformDirection.TRANSFORM_DIR_FORWARD] ∧
        VF.buildFileOps combine ops (some cachedFile) fileDirection fileInterpolation dirF
          = (ops ++ forward, none) ∧
        VF.buildFileOps combine ops (some cachedFile) fileDirection fileInterpolation dirI
          = (ops ++ forward.reverse.map Op.flip, none)) ∧
    (∀ (lut : Lut1D) (interpolation : Interpolation), lut.sameDimensions →
      (interpolation = Interpolation.INTERP_BEST ∨ interpolation = Interpolation.INTERP_NEAREST
        ∨ interpolation = Interpolation.INTERP_LINEAR) →
      ∃ forward : List Op,
        forward = [minMaxOf lut TransformDirection.TRANSFORM_DIR_FORWARD,
          Op.lut1D (lut1DOpDataOf lut interpolation)] ∧
        CreateLut1DOp ops lut interpolation TransformDirection.TRANSFORM_DIR_FORWARD
          = (ops ++ forward, none) ∧
        CreateLut1DOp ops lut interpolation TransformDirection.TRANSFORM_DIR_INVERSE
          = (ops ++ forward.reverse.map Op.flip, none)) ∧
    (∀ (P : ParseUtils) (create3D : Lut3D) (istream : IStream)
        (cachedFile : Truelight.LocalCachedFile),
      Truelight.read P create3D istream = some (Except.ok cachedFile) →
      cachedFile.has1D = true → cachedFile.lut1D.sameDimensions) := by
  refine ⟨fun cachedFile hvalid => ⟨_, rfl, ?_, ?_⟩, fun cachedFile => ⟨_, rfl, ?_, ?_⟩,
    fun lut interpolation hl hi => ⟨_, rfl, ?_, ?_⟩,
    fun P create3D istream cachedFile hread h1 =>
      truelight_read_lut1D P create3D istream cachedFile hread h1⟩
  · unfold Truelight.buildFileOps
    simp only [hF]
    simp only [if_neg (show ¬ TransformDirection.TRANSFORM_DIR_FORWARD
      = TransformDirection.TRANSFORM_DIR_UNKNOWN by decide), if_true]
    by_cases h1 : cachedFile.has1D = true
    · simp only [h1, if_true,
        (CreateLut1DOp_accepts ops cachedFile.lut1D Interpolation.INTERP_LINEAR (hvalid h1)
          (Or.inr (Or.inr rfl))).1]
      simp [andThen, CreateLut3DOp]
    · simp only [h1, Bool.false_eq_true, if_false]
      simp [andThen, CreateLut3DOp]
  · unfold Truelight.buildFileOps
    simp only [hI]
    simp only [if_neg (show ¬ TransformDirection.TRANSFORM_DIR_INVERSE
      = TransformDirection.TRANSFORM_DIR_UNKNOWN by decide),
      if_neg (show ¬ TransformDirection.TRANSFORM_DIR_INVERSE
      = TransformDirection.TRANSFORM_DIR_FORWARD by decide), if_true]
    by_cases h1 : cachedFile.has1D = true
    · simp only [h1, if_true, andThen, CreateLut3DOp,
        (CreateLut1DOp_accepts _ cachedFile.lut1D Interpolation.INTERP_LINEAR (hvalid h1)
          (Or.inr (Or.inr rfl))).2]
      simp [Op.flip, minMaxOf, TransformDirection.flip]
    · simp only [h1, Bool.false_eq_true, if_false, andThen, CreateLut3DOp]
      simp [Op.flip, TransformDirection.flip]
  · unfold VF.buildFileOps
    simp only [hF]
    simp only [if_neg (show ¬ TransformDirection.TRANSFORM_DIR_FORWARD
      = TransformDirection.TRANSFORM_DIR_UNKNOWN by decide), if_true]
    by_cases h1 : cachedFile.useMatrix = true
    · simp [h1, andThen, CreateLut3DOp, CreateMatrixOp]
    · simp [h1, andThen, CreateLut3DOp, CreateMatrixOp]
  · unfold VF.buildFileOps
    simp only [hI]
    simp only [if_neg (show ¬ TransformDirection.TRANSFORM_DIR_INVERSE
      = TransformDirection.TRANSFORM_DIR_UNKNOWN by decide),
      if_neg (show ¬ TransformDirection.TRANSFORM_DIR_INVERSE
      = TransformDirection.TRANSFORM_DIR_FORWARD by decide), if_true]
    by_cases h1 : cachedFile.useMatrix = true
    · simp [h1, andThen, CreateLut3DOp, CreateMatrixOp, Op.flip, TransformDirection.flip]
    · simp [h1, andThen, CreateLut3DOp, CreateMatrixOp, Op.flip, TransformDirection.flip]
  · exact (CreateLut1DOp_accepts ops lut interpolation hl hi).1
  · rw [(CreateLut1DOp_accepts ops lut interpolation hl hi).2]
    simp [Op.flip, minMaxOf, TransformDirection.flip]

/-- C23, witness: for the LUT of the unit test `throw_op`, with the direction of the call
taken as the combined direction, the legacy `CreateLut1DOp` appends the range and the 1D
LUT forward, and the inverse 1D LUT and the inverse range inverse. -/
theorem inverse_ops_reverse_forward_ops_witness :
    ∃ forward : List Op,
      forward = [minMaxOf throwOpLut TransformDirection.TRANSFORM_DIR_FORWARD,
        Op.lut1D (lut1DOpDataOf throwOpLut Interpolation.INTERP_NEAREST)] ∧
      CreateLut1DOp [] throwOpLut Interpolation.INTERP_NEAREST
          TransformDirection.TRANSFORM_DIR_FORWARD = ([] ++ forward, none) ∧
      CreateLut1DOp [] throwOpLut Interpolation.INTERP_NEAREST
          TransformDirection.TRANSFORM_DIR_INVERSE
        = ([] ++ forward.reverse.map Op.flip, none) :=
  (inverse_ops_reverse_forward_ops (fun d _ => d) [] TransformDirection.TRANSFORM_DIR_FORWARD
    TransformDirection.TRANSFORM_DIR_FORWARD TransformDirection.TRANSFORM_DIR_INVERSE
    Interpolation.INTERP_LINEAR rfl rfl).2.2.1 throwOpLut Interpolation.INTERP_NEAREST
    (show throwOpLut.luts 0 ≠ [] ∧ (throwOpLut.luts 0).length = (throwOpLut.luts 1).length
      ∧ (throwOpLut.luts 0).length = (throwOpLut.luts 2).length from by decide!)
    (Or.inr (Or.inl rfl))

/-- C24: `CreateLut1DOp(ops, lut, interpolation, direction)` throws and leaves `ops` as
it is in these cases, checked in this order: the direction is unknown ("unspecified
transform direction"); one of the three channels is empty ("no LUT data provided"); the
channels have different lengths ("must have the same dimensions"); the interpolation is
unknown ("unspecified interpolation"); the interpolation is none of BEST, NEAREST and
LINEAR, as TETRAHEDRAL ("interpolation is not allowed"). -/
theorem CreateLut1DOp_rejects_bad_input (ops : List Op) (lut : Lut1D)
    (interpolation : Interpolation) (direction : TransformDirection) :
    (direction = TransformDirection.TRANSFORM_DIR_UNKNOWN →
      CreateLut1DOp ops lut interpolation direction
        = (ops, some "Cannot apply Lut1DOp op, unspecified transform direction.")) ∧
    (direction ≠ TransformDirection.TRANSFORM_DIR_UNKNOWN →
      (lut.luts 0 = [] ∨ lut.luts 1 = [] ∨ lut.luts 2 = []) →
      CreateLut1DOp ops lut interpolation direction
        = (ops, some "Cannot apply lut1d op, no LUT data provided.")) ∧
    (direction ≠ TransformDirection.TRANSFORM_DIR_UNKNOWN →
      ¬ (lut.luts 0 = [] ∨ lut.luts 1 = [] ∨ lut.luts 2 = []) →
      ((lut.luts 0).length ≠ (lut.luts 1).length
        ∨ (lut.luts 0).length ≠ (lut.luts 2).length) →
      CreateLut1DOp ops lut interpolation direction
        = (ops, some
          "Cannot apply lut1d op, the LUT for each channel must have the same dimensions.")) ∧
    (direction ≠ TransformDirection.TRANSFORM_DIR_UNKNOWN → lut.sameDimensions →
      interpolation = Interpolation.INTERP_UNKNOWN →
      CreateLut1DOp ops lut interpolation direction
        = (ops, some "Cannot apply Lut1DOp, unspecified interpolation.")) ∧
    (direction ≠ TransformDirection.TRANSFORM_DIR_UNKNOWN → lut.sameDimensions →
      interpolation ≠ Interpolation.INTERP_UNKNOWN →
      interpolation ≠ Interpolation.INTERP_BEST →
      interpolation ≠ Interpolation.INTERP_NEAREST →
      interpolation ≠ Interpolation.INTERP_LINEAR →
      CreateLut1DOp ops lut interpolation direction
        = (ops, some
          "Cannot apply Lut1DOp op, the specified interpolation is not allowed for 1D LUTs.")) ∧
    containsText "Cannot apply Lut1DOp op, unspecified transform direction."
      "unspecified transform direction" ∧
    containsText "Cannot apply lut1d op, no LUT data provided." "no LUT data provided" ∧
    containsText
      "Cannot apply lut1d op, the LUT for each channel must have the same dimensions."
      "must have the same dimensions" ∧
    containsText "Cannot apply Lut1DOp, unspecified interpolation."
      "unspecified interpolation" ∧
    containsText
      "Cannot apply Lut1DOp op, the specified interpolation is not allowed for 1D LUTs."
      "interpolation is not allowed" := by
  have hdims : lut.sameDimensions →
      ¬ (lut.luts 0 = [] ∨ lut.luts 1 = [] ∨ lut.luts 2 = []) ∧
      ¬ ((lut.luts 0).length ≠ (lut.luts 1).length
        ∨ (lut.luts 0).length ≠ (lut.luts 2).length) := by
    rintro ⟨h0, h1, h2⟩
    constructor
    · rintro (h | h | h)
      · exact h0 h
      · rw [h] at h1
        exact h0 (List.length_eq_zero.mp h1)
      · rw [h] at h2
        exact h0 (List.length_eq_zero.mp h2)
    · rintro (h | h)
      · exact h h1
      · exact h h2
  refine ⟨fun hd => ?_, fun hd he => ?_, fun hd he hs => ?_, fun hd hl hi => ?_,
    fun hd hl h1 h2 h3 h4 => ?_, by decide, by decide, by decide, by decide, by decide⟩
  · unfold CreateLut1DOp
    rw [if_pos hd]
    rfl
  · unfold CreateLut1DOp
    rw [if_neg hd, if_pos he]
  · unfold CreateLut1DOp
    rw [if_neg hd, if_neg he, if_pos hs]
    rfl
  · unfold CreateLut1DOp
    rw [if_neg hd, if_neg (hdims hl).1, if_neg (hdims hl).2, hi]
  · unfold CreateLut1DOp
    rw [if_neg hd, if_neg (hdims hl).1, if_neg (hdims hl).2]
    cases interpolation with
    | INTERP_UNKNOWN => exact absurd rfl h1
    | INTERP_NEAREST => exact absurd rfl h3
    | INTERP_LINEAR => exact absurd rfl h4
    | INTERP_BEST => exact absurd rfl h2
    | INTERP_TETRAHEDRAL => rfl
    | other code => rfl

/-- C24, witness: the calls of the unit test `throw_op` that throw: an unknown direction,
an unknown interpolation, and the tetrahedral interpolation, each leaving `ops` empty. -/
theorem CreateLut1DOp_rejects_bad_input_witness :
    CreateLut1DOp [] throwOpLut Interpolation.INTERP_NEAREST
        TransformDirection.TRANSFORM_DIR_UNKNOWN
      = ([], some "Cannot apply Lut1DOp op, unspecified transform direction.") ∧
    CreateLut1DOp [] throwOpLut Interpolation.INTERP_UNKNOWN
        TransformDirection.TRANSFORM_DIR_FORWARD
      = ([], some "Cannot apply Lut1DOp, unspecified interpolation.") ∧
    CreateLut1DOp [] throwOpLut Interpolation.INTERP_TETRAHEDRAL
        TransformDirection.TRANSFORM_DIR_FORWARD
      = ([], some
        "Cannot apply Lut1DOp op, the specified interpolation is not allowed for 1D LUTs.") :=
  ⟨(CreateLut1DOp_rejects_bad_input [] throwOpLut Interpolation.INTERP_NEAREST
      TransformDirection.TRANSFORM_DIR_UNKNOWN).1 rfl,
    (CreateLut1DOp_rejects_bad_input [] throwOpLut Interpolation.INTERP_UNKNOWN
      TransformDirection.TRANSFORM_DIR_FORWARD).2.2.2.1 (by decide)
      (show throwOpLut.luts 0 ≠ [] ∧ (throwOpLut.luts 0).length = (throwOpLut.luts 1).length
        ∧ (throwOpLut.luts 0).length = (throwOpLut.luts 2).length from by decide!) rfl,
    (CreateLut1DOp_rejects_bad_input [] throwOpLut Interpolation.INTERP_TETRAHEDRAL
      TransformDirection.TRANSFORM_DIR_FORWARD).2.2.2.2.1 (by decide)
      (show throwOpLut.luts 0 ≠ [] ∧ (throwOpLut.luts 0).length = (throwOpLut.luts 1).length
        ∧ (throwOpLut.luts 0).length = (throwOpLut.luts 2).length from by decide!)
      (by decide) (by decide) (by decide) (by decide)⟩

/-! ## Claims on the format registry -/

/-- C25: `FormatRegistry::registerFileFormat` throws exactly when the format gives no
format info, or one of its format infos has no capability, or the name of one of its
format infos is, in lower case, a key of the name map already: from a call before, or
from a format info of the same format in front of it.  When it does not throw, the raw
format list grows by the format, the raw format count by one, and
`getFileFormatByName` returns the format for every name that is, in lower case, one of
its declared names in lower case. -/
theorem registerFileFormat_rejects_or_registers
    (getFormatInfo : FileFormat → List FormatInfo) (reg : FormatRegistry)
    (format : FileFormat) :
    ((reg.registerFileFormat getFormatInfo format).2 ≠ none ↔
      (getFormatInfo format = []
        ∨ (∃ info ∈ getFormatInfo format, info.capabilities = FORMAT_CAPABILITY_NONE)
        ∨ (∃ info ∈ getFormatInfo format, (reg.getFileFormatByName info.name).isSome)
        ∨ ¬ ((getFormatInfo format).map (fun info => lower info.name)).Nodup)) ∧
    (getFormatInfo format = [] →
      (reg.registerFileFormat getFormatInfo format).2 = some noFormatInfoMessage) ∧
    ((reg.registerFileFormat getFormatInfo format).2 = none →
      (reg.registerFileFormat getFormatInfo format).1.m_rawFormats
          = reg.m_rawFormats ++ [format] ∧
      (reg.registerFileFormat getFormatInfo format).1.getNumRawFormats
          = reg.getNumRawFormats + 1 ∧
      ∀ info ∈ getFormatInfo format, ∀ name : String, lower name = lower info.name →
        (reg.registerFileFormat getFormatInfo format).1.getFileFormatByName name
          = some format) := by
  have hfail := registerInfos_fails_iff format (getFormatInfo format) reg
  have hraw := registerInfos_rawFormats format (getFormatInfo format) reg
  have hnames := registerInfos_names format (getFormatInfo format) reg
  unfold FormatRegistry.registerFileFormat
  by_cases hempty : getFormatInfo format = []
  · rw [if_pos hempty]
    refine ⟨?_, fun _ => rfl, fun h => by cases h⟩
    simp [hempty]
  · rw [if_neg hempty]
    simp only [hempty, false_or, false_implies, true_and]
    cases hr : reg.registerInfos format (getFormatInfo format) with
    | mk reg2 e =>
      rw [hr] at hfail hraw
      cases e with
      | some e =>
        refine ⟨?_, fun h => by cases h⟩
        rw [← hfail]
      | none =>
        refine ⟨?_, fun _ => ⟨?_, ?_, ?_⟩⟩
        · rw [← hfail]
        · show reg2.m_rawFormats ++ [format] = reg.m_rawFormats ++ [format]
          rw [show reg2.m_rawFormats = reg.m_rawFormats from hraw]
        · show ((reg2.m_rawFormats ++ [format]).length : ℤ) = (reg.m_rawFormats.length : ℤ) + 1
          rw [show reg2.m_rawFormats = reg.m_rawFormats from hraw]
          simp
        · exact (hnames reg2 hr).2

/-- C25, witness: the Truelight format is registered in the empty registry and is then
found under its name in any letter case; the format named `TrueLight` is rejected
behind it. -/
theorem registerFileFormat_rejects_or_registers_witness :
    (FormatRegistry.empty.registerFileFormat exampleFormatInfo 4).1.getFileFormatByName
        "TRUELIGHT" = some 4 ∧
    ((FormatRegistry.empty.registerFileFormat exampleFormatInfo 4).1.registerFileFormat
        exampleFormatInfo 8).2 ≠ none :=
  ⟨(registerFileFormat_rejects_or_registers exampleFormatInfo FormatRegistry.empty 4).2.2
      (by decide!) |>.2.2 _ (List.mem_singleton.mpr rfl) "TRUELIGHT" (by decide!),
    (registerFileFormat_rejects_or_registers exampleFormatInfo
      (FormatRegistry.empty.registerFileFormat exampleFormatInfo 4).1 8).1.mpr
      (Or.inr (Or.inr (Or.inl ⟨_, List.mem_singleton.mpr rfl, by decide!⟩)))⟩

/-- C35: for the registry behind any calls of `registerFileFormat` on the empty registry
and each capability READ, BAKE or WRITE, `getNumFormats` is the number of the format
infos with that capability bit among those the calls added (all the infos of the
formats, when no call throws); `getFormatNameByIndex` and `getFormatExtensionByIndex`
return the name and the extension of the i-th such info, and the empty string for an
index below 0 or not below `getNumFormats`; the vector of names and the vector of
extensions of a capability have the same length. -/
theorem registry_enumeration_by_index (getFormatInfo : FileFormat → List FormatInfo)
    (formats : List FileFormat) (capability : ℕ)
    (hcap : capability = FORMAT_CAPABILITY_READ ∨ capability = FORMAT_CAPABILITY_BAKE
      ∨ capability = FORMAT_CAPABILITY_WRITE) :
    (allRegister getFormatInfo FormatRegistry.empty formats →
      registeredInfos getFormatInfo FormatRegistry.empty formats
        = formats.flatMap getFormatInfo) ∧
    (registerAll getFormatInfo FormatRegistry.empty formats).getNumFormats capability
      = ((((registeredInfos getFormatInfo FormatRegistry.empty formats).filter
          (fun info => info.hasCapability capability)).length : ℕ) : ℤ) ∧
    (∀ (i : ℕ) (info : FormatInfo),
      ((registeredInfos getFormatInfo FormatRegistry.empty formats).filter
          (fun info => info.hasCapability capability))[i]? = some info →
      (registerAll getFormatInfo FormatRegistry.empty formats).getFormatNameByIndex
          capability (i : ℤ) = info.name ∧
      (registerAll getFormatInfo FormatRegistry.empty formats).getFormatExtensionByIndex
          capability (i : ℤ) = info.extension) ∧
    (∀ index : ℤ,
      (index < 0 ∨ index ≥
        (registerAll getFormatInfo FormatRegistry.empty formats).getNumFormats capability) →
      (registerAll getFormatInfo FormatRegistry.empty formats).getFormatNameByIndex
          capability index = "" ∧
      (registerAll getFormatInfo FormatRegistry.empty formats).getFormatExtensionByIndex
          capability index = "") ∧
    (registerAll getFormatInfo FormatRegistry.empty formats).m_readFormatNames.length
      = (registerAll getFormatInfo FormatRegistry.empty formats).m_readFormatExtensions.length ∧
    (registerAll getFormatInfo FormatRegistry.empty formats).m_bakeFormatNames.length
      = (registerAll getFormatInfo FormatRegistry.empty formats).m_bakeFormatExtensions.length ∧
    (registerAll getFormatInfo FormatRegistry.empty formats).m_writeFormatNames.length
      = (registerAll getFormatInfo FormatRegistry.empty formats).m_writeFormatExtensions.length := by
  have hempty : FormatRegistry.empty.Enumerates [] := ⟨rfl, rfl, rfl, rfl, rfl, rfl⟩
  have hen := registerAll_enumerates getFormatInfo formats FormatRegistry.empty [] hempty
  rw [List.nil_append] at hen
  obtain ⟨h1, h2, h3, h4, h5, h6⟩ := hen
  generalize registerAll getFormatInfo FormatRegistry.empty formats = reg at *
  generalize hinfos : registeredInfos getFormatInfo FormatRegistry.empty formats = infos at *
  have hlen : ∀ bit : ℕ, (namesWith bit infos).length = (extensionsWith bit infos).length := by
    intro bit
    simp [namesWith, extensionsWith]
  have hname : ∀ (bit i : ℕ) (info : FormatInfo),
      (infos.filter (fun info => info.hasCapability bit))[i]? = some info →
      (namesWith bit infos)[i]? = some info.name
        ∧ (extensionsWith bit infos)[i]? = some info.extension := by
    intro bit i info h
    simp [namesWith, extensionsWith, List.getElem?_map, h]
  refine ⟨fun hall => ?_, ?_, ?_, ?_, ?_, ?_, ?_⟩
  · rw [← hinfos]
    exact registeredInfos_of_all getFormatInfo formats _ hall
  · rcases hcap with rfl | rfl | rfl
    · simp [FormatRegistry.getNumFormats, h1, namesWith]
    · simp [FormatRegistry.getNumFormats, h3, namesWith, FORMAT_CAPABILITY_BAKE,
        FORMAT_CAPABILITY_READ]
    · simp [FormatRegistry.getNumFormats, h5, namesWith, FORMAT_CAPABILITY_BAKE,
        FORMAT_CAPABILITY_READ, FORMAT_CAPABILITY_WRITE]
  · intro i info h
    obtain ⟨hn, he⟩ := hname capability i info h
    rcases hcap with rfl | rfl | rfl
    · unfold FormatRegistry.getFormatNameByIndex FormatRegistry.getFormatExtensionByIndex
      rw [if_pos rfl, if_pos rfl, h1, h2]
      exact ⟨stringByIndex_inside _ _ _ hn, stringByIndex_inside _ _ _ he⟩
    · unfold FormatRegistry.getFormatNameByIndex FormatRegistry.getFormatExtensionByIndex
      rw [if_neg (by decide), if_pos rfl, if_neg (by decide), if_pos rfl, h3, h4]
      exact ⟨stringByIndex_inside _ _ _ hn, stringByIndex_inside _ _ _ he⟩
    · unfold FormatRegistry.getFormatNameByIndex FormatRegistry.getFormatExtensionByIndex
      rw [if_neg (by decide), if_neg (by decide), if_pos rfl, if_neg (by decide),
        if_neg (by decide), if_pos rfl, h5, h6]
      exact ⟨stringByIndex_inside _ _ _ hn, stringByIndex_inside _ _ _ he⟩
  · intro index h
    rcases hcap with rfl | rfl | rfl
    · unfold FormatRegistry.getNumFormats at h
      rw [if_pos rfl] at h
      unfold FormatRegistry.getFormatNameByIndex FormatRegistry.getFormatExtensionByIndex
      rw [if_pos rfl, if_pos rfl]
      refine ⟨stringByIndex_outside _ _ h, stringByIndex_outside _ _ ?_⟩
      rw [h2, ← hlen, ← h1]
      exact h
    · unfold FormatRegistry.getNumFormats at h
      rw [if_neg (by decide), if_pos rfl] at h
      unfold FormatRegistry.getFormatNameByIndex FormatRegistry.getFormatExtensionByIndex
      rw [if_neg (by decide), if_pos rfl, if_neg (by decide), if_pos rfl]
      refine ⟨stringByIndex_outside _ _ h, stringByIndex_outside _ _ ?_⟩
      rw [h4, ← hlen, ← h3]
      exact h
    · unfold FormatRegistry.getNumFormats at h
      rw [if_neg (by decide), if_neg (by decide), if_pos rfl] at h
      unfold FormatRegistry.getFormatNameByIndex FormatRegistry.getFormatExtensionByIndex
      rw [if_neg (by decide), if_neg (by decide), if_pos rfl, if_neg (by decide),
        if_neg (by decide), if_pos rfl]
      refine ⟨stringByIndex_outside _ _ h, stringByIndex_outside _ _ ?_⟩
      rw [h6, ← hlen, ← h5]
      exact h
  · rw [h1, h2, hlen]
  · rw [h3, h4, hlen]
  · rw [h5, h6, hlen]

/-- C35, witness: in the registry of the formats under `src/` six format infos can be
read and two can be baked, the second readable one is `iridas_cube` with the extension
`cube`, and the index 6 gives the empty string. -/
theorem registry_enumeration_by_index_witness :
    exampleRegistry.getNumFormats FORMAT_CAPABILITY_READ = 6 ∧
    exampleRegistry.getNumFormats FORMAT_CAPABILITY_BAKE = 2 ∧
    exampleRegistry.getFormatNameByIndex FORMAT_CAPABILITY_READ 1 = "iridas_cube" ∧
    exampleRegistry.getFormatExtensionByIndex FORMAT_CAPABILITY_READ 1 = "cube" ∧
    exampleRegistry.getFormatNameByIndex FORMAT_CAPABILITY_READ 6 = "" :=
  ⟨(registry_enumeration_by_index exampleFormatInfo [0, 1, 2, 3, 4, 5]
      FORMAT_CAPABILITY_READ (Or.inl rfl)).2.1.trans (by decide!),
    (registry_enumeration_by_index exampleFormatInfo [0, 1, 2, 3, 4, 5]
      FORMAT_CAPABILITY_BAKE (Or.inr (Or.inl rfl))).2.1.trans (by decide!),
    ((registry_enumeration_by_index exampleFormatInfo [0, 1, 2, 3, 4, 5]
      FORMAT_CAPABILITY_READ (Or.inl rfl)).2.2.1 1
      { name := "iridas_cube", extension := "cube", capabilities := 3 } (by decide!)).1,
    ((registry_enumeration_by_index exampleFormatInfo [0, 1, 2, 3, 4, 5]
      FORMAT_CAPABILITY_READ (Or.inl rfl)).2.2.1 1
      { name := "iridas_cube", extension := "cube", capabilities := 3 } (by decide!)).2,
    ((registry_enumeration_by_index exampleFormatInfo [0, 1, 2, 3, 4, 5]
      FORMAT_CAPABILITY_READ (Or.inl rfl)).2.2.2.1 6 (Or.inr (by decide!))).1⟩

/-- C38, counterexample: the second info of format 9 has no capability, so
`registerFileFormat` throws for it; behind the call the name and the extension of its
first info are in the registry, which was empty before. -/
theorem registerFileFormat_failure_keeps_first_info :
    (FormatRegistry.empty.registerFileFormat exampleFormatInfo 9).2
      = some noCapabilityMessage ∧
    FormatRegistry.empty.getFileFormatByName "first" = none ∧
    (FormatRegistry.empty.registerFileFormat exampleFormatInfo 9).1.getFileFormatByName
      "first" = some 9 ∧
    (FormatRegistry.empty.registerFileFormat exampleFormatInfo 9).1.getFileFormatForExtension
      "one" [] = [9] ∧
    (FormatRegistry.empty.registerFileFormat exampleFormatInfo 9).1.m_readFormatNames
      = ["first"] ∧
    (FormatRegistry.empty.registerFileFormat exampleFormatInfo 9).1.m_rawFormats = [] := by
  decide!

/-- C38, amended: whenever `registerFileFormat` throws, the raw format list is as before
the call and the registry is the one before the call with the entries of the format
infos in front of the first rejected one added; the registry is exactly as before the
call when the format gives no format info or its first format info is the rejected
one. -/
theorem registerFileFormat_failure_keeps_accepted
    (getFormatInfo : FileFormat → List FormatInfo) (reg : FormatRegistry)
    (format : FileFormat)
    (h : (reg.registerFileFormat getFormatInfo format).2 ≠ none) :
    (reg.registerFileFormat getFormatInfo format).1
      = (reg.acceptedInfos format (getFormatInfo format)).foldl
          (fun r info => r.addInfo format info) reg ∧
    (reg.registerFileFormat getFormatInfo format).1.m_rawFormats = reg.m_rawFormats ∧
    (getFormatInfo format = [] → (reg.registerFileFormat getFormatInfo format).1 = reg) ∧
    (∀ (info : FormatInfo) (rest : List FormatInfo), getFormatInfo format = info :: rest →
      (info.capabilities = FORMAT_CAPABILITY_NONE
        ∨ (reg.getFileFormatByName info.name).isSome) →
      (reg.registerFileFormat getFormatInfo format).1 = reg) := by
  have hfold := registerFileFormat_eq_foldl getFormatInfo reg format h
  refine ⟨hfold, ?_, ?_, ?_⟩
  · rw [hfold]
    exact foldl_addInfo_rawFormats format _ reg
  · intro hempty
    rw [hfold, hempty]
    rfl
  · intro info rest hinfos hbad
    rw [hfold, hinfos]
    unfold FormatRegistry.acceptedInfos
    rcases hbad with hcap | hname
    · rw [if_pos hcap]
      rfl
    · by_cases hcap : info.capabilities = FORMAT_CAPABILITY_NONE
      · rw [if_pos hcap]
        rfl
      · rw [if_neg hcap, if_pos hname]
        rfl

/-- C38, witness: format 9 is rejected by the empty registry for its second info; the
raw format list stays empty. -/
theorem registerFileFormat_failure_keeps_accepted_witness :
    (FormatRegistry.empty.registerFileFormat exampleFormatInfo 9).1.m_rawFormats
      = FormatRegistry.empty.m_rawFormats :=
  (registerFileFormat_failure_keeps_accepted exampleFormatInfo FormatRegistry.empty 9
    (by decide!)).2.1

/-! ## Claims on the file load -/

/-- C27: `LoadFileUncached` tries the formats the registry gives for the extension of
the file (behind `splitext`, without the first dot), in the order of that list, and then
the raw formats that are not in that list, in the order of the raw formats, which is the
order of the registrations.  When a format of this sequence reads the file and the
formats in front of it cannot (the stream is not good, or `read` throws), the function
returns that format and the cached file of its `read`, and the calls of `read` are
those for the formats in front of it whose stream is good, and the one for it: `read`
is not invoked for a format behind it. -/
theorem LoadFileUncached_first_success_wins (E : FileFormats)
    (formatRegistry : FormatRegistry) (filepath : String)
    (before after : List FileFormat) (format : FileFormat) (cachedFile : CachedFileRcPtr)
    (horder : candidateFormats E formatRegistry filepath = before ++ format :: after)
    (hbefore : ∀ f ∈ before, cannotRead E filepath f)
    (hgood : E.good filepath (E.isBinary format) = true)
    (hread : E.read format filepath = Except.ok cachedFile) :
    (LoadFileUncached E formatRegistry filepath).result = Except.ok (format, cachedFile) ∧
    (LoadFileUncached E formatRegistry filepath).invoked
      = before.filter (fun f => E.good filepath (E.isBinary f)) ++ [format] ∧
    candidateFormats E formatRegistry filepath
      = formatRegistry.getFileFormatForExtension (removeFirstDot (E.splitext filepath).2) []
        ++ formatRegistry.m_rawFormats.filter (fun f =>
          decide (f ∉ formatRegistry.getFileFormatForExtension
            (removeFirstDot (E.splitext filepath).2) [])) ∧
    (∀ formats : List FileFormat,
      allRegister E.getFormatInfo FormatRegistry.empty formats →
      (registerAll E.getFormatInfo FormatRegistry.empty formats).m_rawFormats = formats) := by
  obtain ⟨hinv, hok, _⟩ := LoadFileUncached_eq_tryInOrder E formatRegistry filepath
  have htry := tryInOrder_first_success E filepath before after format cachedFile
    hbefore hgood hread
  rw [horder] at hinv hok
  rw [htry] at hinv hok
  refine ⟨hok _ rfl, hinv, rfl, fun formats hall => ?_⟩
  have := registerAll_rawFormats E.getFormatInfo formats FormatRegistry.empty hall
  simpa [FormatRegistry.empty] using this

/-- C27, witness: in the registry of the formats under `src/` the file `lut.spi1d` is
tried with the spi1d format, then with the CCC and the Iridas formats, which all throw,
and is read by the spi3d format; the Truelight and vf formats are not invoked. -/
theorem LoadFileUncached_first_success_wins_witness :
    (LoadFileUncached exampleFormats exampleRegistry "lut.spi1d").result
      = Except.ok (3, some 7) ∧
    (LoadFileUncached exampleFormats exampleRegistry "lut.spi1d").invoked = [2, 0, 1, 3] :=
  ⟨(LoadFileUncached_first_success_wins exampleFormats exampleRegistry "lut.spi1d"
      [2, 0, 1] [4, 5] 3 (some 7) (by decide!)
      (fun f hf => Or.inr ⟨exampleReadError f, by
        simp only [List.mem_cons, List.mem_singleton, List.not_mem_nil, or_false] at hf
        rcases hf with rfl | rfl | rfl <;> rfl⟩)
      rfl rfl).1,
    (LoadFileUncached_first_success_wins exampleFormats exampleRegistry "lut.spi1d"
      [2, 0, 1] [4, 5] 3 (some 7) (by decide!)
      (fun f hf => Or.inr ⟨exampleReadError f, by
        simp only [List.mem_cons, List.mem_singleton, List.not_mem_nil, or_false] at hf
        rcases hf with rfl | rfl | rfl <;> rfl⟩)
      rfl rfl).2.1⟩

/-- C28: a format that declares two names with one extension (format 6: `flame` and
`lustre` with `3dl`) is registered without an exception and is then listed twice for
that extension; for a file `x.3dl` that it cannot read, the first loop of
`LoadFileUncached` invokes its `read` twice. -/
theorem LoadFileUncached_reads_twice_with_one_format :
    (FormatRegistry.empty.registerFileFormat exampleFormatInfo 6).2 = none ∧
    (registerAll exampleFormatInfo FormatRegistry.empty [6]).m_rawFormats = [6] ∧
    (registerAll exampleFormatInfo FormatRegistry.empty [6]).getFileFormatForExtension
      "3dl" [] = [6, 6] ∧
    (LoadFileUncached exampleFormats (registerAll exampleFormatInfo FormatRegistry.empty [6])
      "x.3dl").invoked = [6, 6] := by
  decide!

/-- C29: with the formats `iridas_cube` and `resolve_cube` registered for the extension
`cube`, and a file `x.cube` for which the `read` of both throws, the message of
`LoadFileUncached` ends with the text of the last exception only: it holds neither the
name of a format nor the text of the exception of the first format. -/
theorem LoadFileUncached_message_keeps_last_error_only :
    (LoadFileUncached exampleFormats (registerAll exampleFormatInfo FormatRegistry.empty
      [1, 10]) "x.cube").invoked = [1, 10] ∧
    (LoadFileUncached exampleFormats (registerAll exampleFormatInfo FormatRegistry.empty
      [1, 10]) "x.cube").result
      = Except.error ("The specified transform file 'x.cube' could not be loaded.  "
        ++ "(Enable debug log for errors from all formats). "
        ++ "All formats have been tried including formats registered for the given "
        ++ "extension. These formats gave the following errors: not a Resolve cube'.  ") ∧
    exampleFormats.read 1 "x.cube" = Except.error "not an Iridas cube" ∧
    FileFormat.getName (exampleFormats.getFormatInfo 1) = "iridas_cube" ∧
    FileFormat.getName (exampleFormats.getFormatInfo 10) = "resolve_cube" ∧
    ¬ containsText ("The specified transform file 'x.cube' could not be loaded.  "
        ++ "(Enable debug log for errors from all formats). "
        ++ "All formats have been tried including formats registered for the given "
        ++ "extension. These formats gave the following errors: not a Resolve cube'.  ")
      "not an Iridas cube" ∧
    ¬ containsText ("The specified transform file 'x.cube' could not be loaded.  "
        ++ "(Enable debug log for errors from all formats). "
        ++ "All formats have been tried including formats registered for the given "
        ++ "extension. These formats gave the following errors: not a Resolve cube'.  ")
      "_cube" := by
  decide!

/-! ## Claims on the file cache -/

/-- C30: run by one thread, for every path, every file cache and every sequence of calls
of `GetCachedFileAndFormat` without a `ClearFileTransformCaches` among them that
follows a call for the path, the next call for the path does not invoke
`LoadFileUncached` and ends as the first one: with the same format and cached file, or
with an exception of the same text.  A call for a path with a ready entry does not
invoke `LoadFileUncached` either; a call for a path without entry invokes it and ends
with what it returns or with the text of its exception; behind
`ClearFileTransformCaches` no path has an entry, so the next call for a path invokes
`LoadFileUncached` again. -/
theorem file_cache_replays_completed_entry (filepath : String) (g_fileCache : FileCacheMap)
    (load1 load2 : LoadOutcome) (calls : List CacheCall)
    (hcalls : CacheCall.clear ∉ calls) :
    (GetCachedFileAndFormat load2
        (runCalls (GetCachedFileAndFormat load1 g_fileCache filepath).cache calls)
        filepath).invoked = false ∧
    (GetCachedFileAndFormat load2
        (runCalls (GetCachedFileAndFormat load1 g_fileCache filepath).cache calls)
        filepath).outcome
      = (GetCachedFileAndFormat load1 g_fileCache filepath).outcome ∧
    (∀ result : FileCacheResult, g_fileCache filepath = some result → result.ready = true →
      (GetCachedFileAndFormat load1 g_fileCache filepath).invoked = false) ∧
    (g_fileCache filepath = none →
      (GetCachedFileAndFormat load1 g_fileCache filepath).invoked = true ∧
      (∀ (format : FileFormat) (cachedFile : ℕ),
        load1 = LoadOutcome.returns (some format) (some cachedFile) →
        (GetCachedFileAndFormat load1 g_fileCache filepath).outcome
          = Except.ok (format, cachedFile)) ∧
      (∀ what : String, load1 = LoadOutcome.throws what →
        (GetCachedFileAndFormat load1 g_fileCache filepath).outcome = Except.error what)) ∧
    (∀ path : String, ClearFileTransformCaches
      (runCalls (GetCachedFileAndFormat load1 g_fileCache filepath).cache calls) path = none) ∧
    (GetCachedFileAndFormat load2 (ClearFileTransformCaches
      (runCalls (GetCachedFileAndFormat load1 g_fileCache filepath).cache calls))
      filepath).invoked = true := by
  obtain ⟨result, hentry, hready, hout⟩ := get_entry load1 g_fileCache filepath
  have hkept := runCalls_keeps_ready filepath result hready calls _ hcalls hentry
  obtain ⟨hinv, hout2, _⟩ := get_ready load2 _ filepath result hkept hready
  refine ⟨hinv, hout2.trans hout.symm, ?_, ?_, fun _ => rfl, ?_⟩
  · intro r hr hrr
    exact (get_ready load1 g_fileCache filepath r hr hrr).1
  · intro hnone
    unfold GetCachedFileAndFormat
    simp only [hnone, Option.getD_none]
    refine ⟨rfl, ?_, ?_⟩
    · intro format cachedFile hl
      subst hl
      rfl
    · intro what hl
      subst hl
      rfl
  · rfl

/-- C30, witness: the file `a.spi1d` is loaded with success, then `b.cube` with an
exception, and then `a.spi1d` again: the third call does not invoke `LoadFileUncached`,
which would throw now, and returns the format and the cached file of the first call. -/
theorem file_cache_replays_completed_entry_witness :
    (GetCachedFileAndFormat (LoadOutcome.throws "changed")
        (runCalls (GetCachedFileAndFormat (LoadOutcome.returns (some 2) (some 7))
          (fun _ => none) "a.spi1d").cache
          [CacheCall.get "b.cube" (LoadOutcome.throws "unreadable")])
        "a.spi1d").invoked = false ∧
    (GetCachedFileAndFormat (LoadOutcome.throws "changed")
        (runCalls (GetCachedFileAndFormat (LoadOutcome.returns (some 2) (some 7))
          (fun _ => none) "a.spi1d").cache
          [CacheCall.get "b.cube" (LoadOutcome.throws "unreadable")])
        "a.spi1d").outcome = Except.ok (2, 7) :=
  ⟨(file_cache_replays_completed_entry "a.spi1d" (fun _ => none)
      (LoadOutcome.returns (some 2) (some 7)) (LoadOutcome.throws "changed")
      [CacheCall.get "b.cube" (LoadOutcome.throws "unreadable")] (by decide)).1,
    (file_cache_replays_completed_entry "a.spi1d" (fun _ => none)
      (LoadOutcome.returns (some 2) (some 7)) (LoadOutcome.throws "changed")
      [CacheCall.get "b.cube" (LoadOutcome.throws "unreadable")] (by decide)).2.1.trans
      (by decide!)⟩

/-! ## Claims on the operators of the Truelight reader -/

/-- The Truelight `buildFileOps` for a cached file with a 1D LUT that `CreateLut1DOp`
accepts: behind the 1D stage the 3D LUT operator is appended, whatever `has3D` is. -/
theorem truelight_buildFileOps_with_shaper (ops : List Op)
    (cachedFile : Truelight.LocalCachedFile) (fileInterpolation : Interpolation)
    (h1 : cachedFile.has1D = true) (hlut : cachedFile.lut1D.sameDimensions) :
    Truelight.buildFileOps (fun d _ => d) ops (some cachedFile)
        TransformDirection.TRANSFORM_DIR_FORWARD fileInterpolation
        TransformDirection.TRANSFORM_DIR_FORWARD
      = (ops ++ [minMaxOf cachedFile.lut1D TransformDirection.TRANSFORM_DIR_FORWARD,
          Op.lut1D (lut1DOpDataOf cachedFile.lut1D Interpolation.INTERP_LINEAR),
          Op.lut3D cachedFile.lut3D fileInterpolation
            TransformDirection.TRANSFORM_DIR_FORWARD], none) ∧
    Truelight.buildFileOps (fun d _ => d) ops (some cachedFile)
        TransformDirection.TRANSFORM_DIR_FORWARD fileInterpolation
        TransformDirection.TRANSFORM_DIR_INVERSE
      = (ops ++ [Op.lut3D cachedFile.lut3D fileInterpolation
            TransformDirection.TRANSFORM_DIR_INVERSE,
          Op.lut1D (lut1DOpDataOf cachedFile.lut1D Interpolation.INTERP_LINEAR).inverse,
          minMaxOf cachedFile.lut1D TransformDirection.TRANSFORM_DIR_INVERSE], none) := by
  constructor
  · unfold Truelight.buildFileOps
    simp only [if_neg (show ¬ TransformDirection.TRANSFORM_DIR_FORWARD
      = TransformDirection.TRANSFORM_DIR_UNKNOWN by decide), if_true, h1,
      (CreateLut1DOp_accepts ops cachedFile.lut1D Interpolation.INTERP_LINEAR hlut
        (Or.inr (Or.inr rfl))).1]
    simp [andThen, CreateLut3DOp]
  · unfold Truelight.buildFileOps
    simp only [if_neg (show ¬ TransformDirection.TRANSFORM_DIR_INVERSE
      = TransformDirection.TRANSFORM_DIR_UNKNOWN by decide),
      if_neg (show ¬ TransformDirection.TRANSFORM_DIR_INVERSE
      = TransformDirection.TRANSFORM_DIR_FORWARD by decide), if_true, h1, andThen,
      CreateLut3DOp,
      (CreateLut1DOp_accepts _ cachedFile.lut1D Interpolation.INTERP_LINEAR hlut
        (Or.inr (Or.inr rfl))).2]
    simp

/-- C37: the shaper-only `.cub` text is read into a cached file with `has1D` set,
`has3D` not set and an empty 3D LUT; for this cached file the Truelight `buildFileOps`
appends, behind the 1D stage in the forward direction and in front of it in the inverse
direction, the operator of `CreateLut3DOp` for the empty 3D LUT. -/
theorem truelight_buildFileOps_ignores_has3D :
    ∃ cachedFile : Truelight.LocalCachedFile,
      Truelight.read exampleParse exampleLut3D truelightShaperText
        = some (Except.ok cachedFile) ∧
      cachedFile.has1D = true ∧ cachedFile.has3D = false ∧ cachedFile.lut3D.lut = [] ∧
      Truelight.buildFileOps (fun d _ => d) [] (some cachedFile)
          TransformDirection.TRANSFORM_DIR_FORWARD Interpolation.INTERP_LINEAR
          TransformDirection.TRANSFORM_DIR_FORWARD
        = ([minMaxOf cachedFile.lut1D TransformDirection.TRANSFORM_DIR_FORWARD,
            Op.lut1D (lut1DOpDataOf cachedFile.lut1D Interpolation.INTERP_LINEAR),
            Op.lut3D cachedFile.lut3D Interpolation.INTERP_LINEAR
              TransformDirection.TRANSFORM_DIR_FORWARD], none) ∧
      Truelight.buildFileOps (fun d _ => d) [] (some cachedFile)
          TransformDirection.TRANSFORM_DIR_FORWARD Interpolation.INTERP_LINEAR
          TransformDirection.TRANSFORM_DIR_INVERSE
        = ([Op.lut3D cachedFile.lut3D Interpolation.INTERP_LINEAR
              TransformDirection.TRANSFORM_DIR_INVERSE,
            Op.lut1D (lut1DOpDataOf cachedFile.lut1D Interpolation.INTERP_LINEAR).inverse,
            minMaxOf cachedFile.lut1D TransformDirection.TRANSFORM_DIR_INVERSE], none) := by
  have hval : (Truelight.read exampleParse exampleLut3D truelightShaperText).map
      (Except.map (fun c => (c.has1D, c.has3D, c.lut3D.lut)))
      = some (Except.ok (true, false, [])) := by
    decide!
  cases hread : Truelight.read exampleParse exampleLut3D truelightShaperText with
  | none =>
    rw [hread] at hval
    cases hval
  | some res =>
    cases res with
    | error e =>
      rw [hread] at hval
      cases hval
    | ok cachedFile =>
      rw [hread] at hval
      have hfields := Except.ok.inj (Option.some.inj hval)
      simp only [Prod.mk.injEq] at hfields
      obtain ⟨h1, h3, hlut⟩ := hfields
      have hdims := truelight_read_lut1D exampleParse exampleLut3D truelightShaperText
        cachedFile hread h1
      have hops := truelight_buildFileOps_with_shaper [] cachedFile
        Interpolation.INTERP_LINEAR h1 hdims
      exact ⟨cachedFile, rfl, h1, h3, hlut, by simpa using hops.1, by simpa using hops.2⟩

/-! ## Claims on `BuildFileTransformOps` -/

/-- C31: for a source that is not empty and resolves to a path: if `ops` holds a file
marker that is not complete and whose path agrees with the resolved path in lower case,
`BuildFileTransformOps` throws "Reference to: ... is creating a recursion." and leaves
`ops` as it is, whatever the load and the format would do; if every marker of `ops` is
complete or has another path, and the load and the `buildFileOps` of the format do not
throw, the call does not throw and `ops` is, behind it, the old `ops`, the marker of the
path, complete, and the operators the format appended. -/
theorem BuildFileTransformOps_recursion_guard (ops : List PipelineOp) (src filepath : String)
    (resolveFileLocation : String → Except Thrown String)
    (getCachedFileAndFormat : String → Except String (FileFormat × ℕ))
    (buildFileOps : FileFormat → List PipelineOp → ℕ → List PipelineOp × Option Thrown)
    (hsrc : src ≠ "") (hresolve : resolveFileLocation src = Except.ok filepath) :
    ((∃ path : String, PipelineOp.FileNoOp path false ∈ ops ∧ lower path = lower filepath) →
      BuildFileTransformOps ops src resolveFileLocation getCachedFileAndFormat buildFileOps
        = (ops, some { kind := ExceptionKind.Exception
                       what := recursionMessage filepath }) ∧
      containsText (recursionMessage filepath) "is creating a recursion") ∧
    ((∀ path : String, PipelineOp.FileNoOp path false ∈ ops →
        lower path ≠ lower filepath) →
      ∀ (format : FileFormat) (cachedFile : ℕ) (appended : List PipelineOp),
        getCachedFileAndFormat filepath = Except.ok (format, cachedFile) →
        buildFileOps format (ops ++ [PipelineOp.FileNoOp filepath false]) cachedFile
          = (appended, none) →
        BuildFileTransformOps ops src resolveFileLocation getCachedFileAndFormat
            buildFileOps
          = (ops ++ [PipelineOp.FileNoOp filepath true] ++ appended, none)) := by
  constructor
  · intro hmarker
    refine ⟨?_, containsText_recursionMessage filepath⟩
    unfold BuildFileTransformOps
    rw [if_neg hsrc, hresolve]
    simp only
    rw [if_pos ((createsRecursion_iff filepath ops).mpr hmarker)]
  · intro hnone format cachedFile appended hload hbuild
    have hno : ¬ createsRecursion filepath ops = true := by
      rw [createsRecursion_iff]
      rintro ⟨p, hp, hl⟩
      exact hnone p hp hl
    unfold BuildFileTransformOps
    rw [if_neg hsrc, hresolve]
    simp only
    rw [if_neg hno, hload]
    simp only
    rw [hbuild]

/-- C31, witness: a pipeline with an incomplete marker for `A.CCC` and a build for the
source that resolves to `a.ccc`: the call throws the recursion error and `ops` is as
before; with the marker complete, the call appends its own marker, complete, and the
operator of the CCC reader. -/
theorem BuildFileTransformOps_recursion_guard_witness :
    BuildFileTransformOps [PipelineOp.FileNoOp "A.CCC" false] "a.ccc"
        (fun src => Except.ok src) (fun _ => Except.ok (0, 1))
        (exampleCCCBuild "cc0002" TransformDirection.TRANSFORM_DIR_FORWARD)
      = ([PipelineOp.FileNoOp "A.CCC" false],
          some { kind := ExceptionKind.Exception, what := recursionMessage "a.ccc" }) ∧
    BuildFileTransformOps [PipelineOp.FileNoOp "A.CCC" true] "a.ccc"
        (fun src => Except.ok src) (fun _ => Except.ok (0, 1))
        (exampleCCCBuild "cc0002" TransformDirection.TRANSFORM_DIR_FORWARD)
      = ([PipelineOp.FileNoOp "A.CCC" true] ++ [PipelineOp.FileNoOp "a.ccc" true]
          ++ [PipelineOp.cdl 200 TransformDirection.TRANSFORM_DIR_FORWARD], none) :=
  ⟨((BuildFileTransformOps_recursion_guard [PipelineOp.FileNoOp "A.CCC" false] "a.ccc"
      "a.ccc" (fun src => Except.ok src) (fun _ => Except.ok (0, 1))
      (exampleCCCBuild "cc0002" TransformDirection.TRANSFORM_DIR_FORWARD)
      (by decide) rfl).1 ⟨"A.CCC", List.mem_singleton.mpr rfl, by decide!⟩).1,
    (BuildFileTransformOps_recursion_guard [PipelineOp.FileNoOp "A.CCC" true] "a.ccc"
      "a.ccc" (fun src => Except.ok src) (fun _ => Except.ok (0, 1))
      (exampleCCCBuild "cc0002" TransformDirection.TRANSFORM_DIR_FORWARD)
      (by decide) rfl).2
      (fun path hp => by
        have := List.mem_singleton.mp hp
        cases this)
      0 1 [PipelineOp.cdl 200 TransformDirection.TRANSFORM_DIR_FORWARD] rfl (by decide!)⟩

/-- C32: for a valid `.ccc` file with the ids `cc0001` and `cc0002`, and a `cccid` that
is empty, or is no id of the file and no index (`grade`), or is an index outside of the
file (`7`), the `buildFileOps` of the CCC reader throws an `ExceptionMissingFile`; the
exception that leaves `BuildFileTransformOps` for the same file and `cccid` is an
`Exception` with the text wrapped, not an `ExceptionMissingFile`.  An unknown direction
makes the reader throw an `Exception`. -/
theorem BuildFileTransformOps_hides_missing_file_kind :
    (exampleCCCBuild "" TransformDirection.TRANSFORM_DIR_FORWARD 0 [] 1).2
      = some { kind := ExceptionKind.ExceptionMissingFile
               what := "You must specify which cccid to load from the ccc file"
                 ++ " (either by name or index)." } ∧
    ((exampleCCCBuild "grade" TransformDirection.TRANSFORM_DIR_FORWARD 0 [] 1).2.map
      (fun thrown => thrown.kind)) = some ExceptionKind.ExceptionMissingFile ∧
    ((exampleCCCBuild "7" TransformDirection.TRANSFORM_DIR_FORWARD 0 [] 1).2.map
      (fun thrown => thrown.kind)) = some ExceptionKind.ExceptionMissingFile ∧
    ((exampleCCCBuild "cc0001" TransformDirection.TRANSFORM_DIR_UNKNOWN 0 [] 1).2.map
      (fun thrown => thrown.kind)) = some ExceptionKind.Exception ∧
    BuildFileTransformOps [] "a.ccc" (fun src => Except.ok src) (fun _ => Except.ok (0, 1))
        (exampleCCCBuild "" TransformDirection.TRANSFORM_DIR_FORWARD)
      = ([PipelineOp.FileNoOp "a.ccc" false],
          some { kind := ExceptionKind.Exception
                 what := "The transform file: a.ccc failed while loading ops with this "
                   ++ "error: You must specify which cccid to load from the ccc file"
                   ++ " (either by name or index)." }) ∧
    ((BuildFileTransformOps [] "a.ccc" (fun src => Except.ok src)
        (fun _ => Except.ok (0, 1))
        (exampleCCCBuild "grade" TransformDirection.TRANSFORM_DIR_FORWARD)).2.map
      (fun thrown => thrown.kind)) = some ExceptionKind.Exception ∧
    ((BuildFileTransformOps [] "a.ccc" (fun src => Except.ok src)
        (fun _ => Except.ok (0, 1))
        (exampleCCCBuild "7" TransformDirection.TRANSFORM_DIR_FORWARD)).2.map
      (fun thrown => thrown.kind)) = some ExceptionKind.Exception := by
  decide!

/-! ## The kernels outside of the domain -/

theorem clamp_bounds (k : ℚ) (lut : List ℚ) (hN : 1 ≤ lut.length) :
    0 ≤ clamp k 0 (sizeMinusOne lut) ∧ clamp k 0 (sizeMinusOne lut) < lut.length := by
  rw [sizeMinusOne_eq_intCast hN, clamp_eq_round]
  have h := round_clamp_bounds k ((lut.length : ℤ) - 1) (by omega)
  exact ⟨h.1, by omega⟩

theorem lookupLinear_1D_of_nonpos (t : ℚ) (lut : List ℚ) (hN : 1 ≤ lut.length)
    (ht : t ≤ 0) : lookupLinear_1D t (sizeMinusOne lut) lut = lut[0]? := by
  obtain ⟨lo, hi, hlo, hhi, hres⟩ := lookupLinear_1D_eq t lut hN
  obtain ⟨a, b⟩ := clamped_floor_ceil_of_nonpos t ((lut.length : ℤ) - 1) ht
  rw [a] at hlo hres
  rw [b] at hhi
  have hEq : hi = lo := by
    rw [hlo] at hhi
    exact (Option.some.inj hhi).symm
  rw [hres, hEq]
  simp only [Int.toNat_zero] at hlo
  rw [hlo]
  simp

theorem lookupLinear_1D_of_ge (t : ℚ) (lut : List ℚ) (hN : 1 ≤ lut.length)
    (ht : (lut.length : ℚ) - 1 ≤ t) :
    lookupLinear_1D t (sizeMinusOne lut) lut = lut[lut.length - 1]? := by
  obtain ⟨lo, hi, hlo, hhi, hres⟩ := lookupLinear_1D_eq t lut hN
  obtain ⟨a, b⟩ := clamped_floor_ceil_of_ge t ((lut.length : ℤ) - 1) (by omega)
    (by push_cast; exact ht)
  rw [a] at hlo hres
  rw [b] at hhi
  have hEq : hi = lo := by
    rw [hlo] at hhi
    exact (Option.some.inj hhi).symm
  have hcast : (((lut.length : ℤ) - 1 : ℤ)).toNat = lut.length - 1 := by omega
  rw [hres, hEq]
  rw [hcast] at hlo
  rw [hlo]
  simp

theorem Lut1D_Linear_channel_below (lut : Lut1D) (c : Fin 3) (x : ℚ)
    (hN : 1 ≤ (lut.luts c).length) (hdom : lut.from_min c < lut.from_max c)
    (hx : x ≤ lut.from_min c) :
    Lut1D_Linear_channel lut c x = Lut1D_Linear_channel lut c (lut.from_min c) := by
  rw [Lut1D_Linear_channel_eq lut c x hN, Lut1D_Linear_channel_eq lut c _ hN,
    lookupLinear_1D_of_nonpos _ _ hN (normalizedIndex_nonpos lut c x hN hdom hx),
    lookupLinear_1D_of_nonpos _ _ hN (normalizedIndex_nonpos lut c _ hN hdom le_rfl)]

theorem Lut1D_Linear_channel_above (lut : Lut1D) (c : Fin 3) (x : ℚ)
    (hN : 1 ≤ (lut.luts c).length) (hdom : lut.from_min c < lut.from_max c)
    (hx : lut.from_max c ≤ x) :
    Lut1D_Linear_channel lut c x = Lut1D_Linear_channel lut c (lut.from_max c) := by
  rw [Lut1D_Linear_channel_eq lut c x hN, Lut1D_Linear_channel_eq lut c _ hN,
    lookupLinear_1D_of_ge _ _ hN (normalizedIndex_ge lut c x hN hdom hx),
    lookupLinear_1D_of_ge _ _ hN (normalizedIndex_ge lut c _ hN hdom le_rfl)]

/-! ## The inverse lookups on a non-decreasing table -/

theorem sorted_split (v : ℚ) (lut : List ℚ) (hs : lut.Pairwise (· ≤ ·)) :
    ∃ k : ℕ, k ≤ lut.length ∧
      (∀ i (hi : i < lut.length), i < k → lut[i] < v) ∧
      (∀ i (hi : i < lut.length), k ≤ i → ¬ lut[i] < v) := by
  induction lut with
  | nil => exact ⟨0, le_rfl, fun i hi => absurd hi (by simp), fun i hi => absurd hi (by simp)⟩
  | cons a l ih =>
    rw [List.pairwise_cons] at hs
    obtain ⟨ha, hl⟩ := hs
    by_cases hav : a < v
    · obtain ⟨k, hk, hlow, hhigh⟩ := ih hl
      refine ⟨k + 1, by simp; omega, ?_, ?_⟩
      · intro i hi hik
        cases i with
        | zero => simpa using hav
        | succ j =>
          simp only [List.getElem_cons_succ]
          exact hlow j (by simpa using hi) (by omega)
      · intro i hi hik
        cases i with
        | zero => omega
        | succ j =>
          simp only [List.getElem_cons_succ]
          exact hhigh j (by simpa using hi) (by omega)
    · refine ⟨0, by omega, fun i hi hik => absurd hik (by omega), ?_⟩
      intro i hi _
      cases i with
      | zero => simpa using hav
      | succ j =>
        simp only [List.getElem_cons_succ]
        have hj : j < l.length := by simpa using hi
        have := ha l[j] (List.getElem_mem hj)
        intro hlt
        exact hav (lt_of_le_of_lt this hlt)

theorem reverseLookupNearest_1D_bounds (v : ℚ) (lut : List ℚ) (hN : 1 ≤ lut.length) :
    ∃ r : ℚ, reverseLookupNearest_1D v lut = some r ∧ 0 ≤ r ∧ r ≤ (lut.length : ℚ) - 1 := by
  obtain ⟨h0, h1, h2⟩ := bracket_bounds lut v hN
  obtain ⟨lo, hlo⟩ := Option.isSome_iff_exists.mp
    (readAt_of_lt lut _ h0 (by omega)).2
  obtain ⟨hi, hhi⟩ := Option.isSome_iff_exists.mp
    (readAt_of_lt lut ((bracket lut v).2) (by omega) h2).2
  have c1 : (0 : ℚ) ≤ (((bracket lut v).1 : ℤ) : ℚ) := by exact_mod_cast h0
  have c2 : (((bracket lut v).1 : ℤ) : ℚ) ≤ (lut.length : ℚ) - 1 := by
    have : (bracket lut v).1 ≤ (lut.length : ℤ) - 1 := by omega
    have := (Int.cast_le (R := ℚ)).mpr this
    push_cast at this
    exact this
  have c3 : (0 : ℚ) ≤ (((bracket lut v).2 : ℤ) : ℚ) := by
    have : 0 ≤ (bracket lut v).2 := by omega
    exact_mod_cast this
  have c4 : (((bracket lut v).2 : ℤ) : ℚ) ≤ (lut.length : ℚ) - 1 := by
    have : (bracket lut v).2 ≤ (lut.length : ℤ) - 1 := by omega
    have := (Int.cast_le (R := ℚ)).mpr this
    push_cast at this
    exact this
  unfold reverseLookupNearest_1D
  simp only [hlo, hhi]
  split_ifs
  · exact ⟨_, rfl, c1, c2⟩
  · exact ⟨_, rfl, c3, c4⟩

theorem reverseLookupLinear_1D_bounds (v : ℚ) (lut : List ℚ) (hN : 2 ≤ lut.length)
    (hs : lut.Pairwise (· ≤ ·)) :
    ∃ r : ℚ, reverseLookupLinear_1D v lut (1 / ((lut.length : ℚ) - 1)) = some r
      ∧ 0 ≤ r ∧ r ≤ 1 := by
  obtain ⟨k, hk, hlow, hhigh⟩ := sorted_split v lut hs
  have hlb := lower_bound_eq lut v k hk hlow hhigh
  have hNq : (0 : ℚ) < (lut.length : ℚ) - 1 := by
    have : (2 : ℚ) ≤ (lut.length : ℚ) := by exact_mod_cast hN
    linarith
  have hinv : (0 : ℚ) < 1 / ((lut.length : ℚ) - 1) := by positivity
  rcases Nat.eq_zero_or_pos k with hk0 | hkpos
  · -- the value is not above the first sample
    subst hk0
    have hb := bracket_of_lower_bound_zero lut v hlb hN
    have h0 : lut[0]? = some lut[0] := List.getElem?_eq_getElem (by omega)
    have h1 : lut[1]? = some lut[1] := List.getElem?_eq_getElem (by omega)
    have hv : v ≤ lut[0] := not_lt.mp (hhigh 0 (by omega) le_rfl)
    unfold reverseLookupLinear_1D
    simp only [hb]
    rw [(readAt_of_lt lut 0 le_rfl (by omega)).1, (readAt_of_lt lut 1 (by omega) (by omega)).1]
    simp only [Int.toNat_zero, Int.toNat_one, h0, h1]
    refine ⟨_, rfl, le_max_right _ _, ?_⟩
    apply max_le _ (by norm_num)
    have hdelta : (if lut[1] > lut[0] then (v - lut[0]) / (lut[1] - lut[0]) else 0) ≤ 0 := by
      split_ifs with hgt
      · exact div_nonpos_of_nonpos_of_nonneg (by linarith) (by linarith)
      · exact le_rfl
    have : (((0 : ℤ) : ℚ) + (if lut[1] > lut[0] then (v - lut[0]) / (lut[1] - lut[0]) else 0))
        * (1 / ((lut.length : ℚ) - 1)) ≤ 0 := by
      apply mul_nonpos_of_nonpos_of_nonneg _ (le_of_lt hinv)
      simpa using hdelta
    linarith
  · rcases Nat.lt_or_ge k lut.length with hkN | hkN
    · -- the value lies between two neighbouring samples
      have hb := bracket_of_lower_bound_pos lut v k hlb hkpos hkN
      have h0 : lut[k - 1]? = some lut[k - 1] := List.getElem?_eq_getElem (by omega)
      have h1 : lut[k]? = some lut[k] := List.getElem?_eq_getElem hkN
      have hlo : lut[k - 1] < v := hlow (k - 1) (by omega) (by omega)
      have hhi : v ≤ lut[k] := not_lt.mp (hhigh k hkN le_rfl)
      unfold reverseLookupLinear_1D
      simp only [hb]
      rw [(readAt_of_lt lut ((k - 1 : ℕ) : ℤ) (by omega) (by omega)).1,
        (readAt_of_lt lut (k : ℤ) (by omega) (by omega)).1]
      simp only [Int.toNat_natCast, h0, h1]
      have hgt : lut[k] > lut[k - 1] := lt_of_lt_of_le hlo hhi
      rw [if_pos hgt]
      refine ⟨_, rfl, le_max_right _ _, ?_⟩
      apply max_le _ (by norm_num)
      have hd1 : (v - lut[k - 1]) / (lut[k] - lut[k - 1]) ≤ 1 := by
        rw [div_le_iff₀ (by linarith)]
        linarith
      have hkq : (((k - 1 : ℕ) : ℤ) : ℚ) + 1 ≤ (lut.length : ℚ) - 1 := by
        have : ((k - 1 : ℕ) : ℤ) + 1 ≤ (lut.length : ℤ) - 1 := by omega
        have := (Int.cast_le (R := ℚ)).mpr this
        push_cast at this ⊢
        exact this
      rw [mul_one_div, div_le_iff₀ hNq]
      linarith
    · -- the value is above the last sample
      have hkeq : k = lut.length := by omega
      have hb : bracket lut v = ((lut.length : ℤ) - 1, (lut.length : ℤ) - 1) := by
        simp only [bracket, hlb, hkeq]
        have h1 : ((lut.length : ℤ) ≠ 0) := by omega
        rw [if_pos h1]
        rw [if_neg (by omega)]
      have h0 : lut[lut.length - 1]? = some lut[lut.length - 1] :=
        List.getElem?_eq_getElem (by omega)
      have hcast : ((lut.length : ℤ) - 1).toNat = lut.length - 1 := by omega
      unfold reverseLookupLinear_1D
      simp only [hb]
      rw [(readAt_of_lt lut ((lut.length : ℤ) - 1) (by omega) (by omega)).1]
      simp only [hcast, h0, gt_iff_lt, lt_self_iff_false, if_false, add_zero]
      refine ⟨_, rfl, le_max_right _ _, ?_⟩
      apply max_le _ (by norm_num)
      rw [mul_one_div, div_le_iff₀ hNq]
      push_cast
      linarith

/-! ## The tags of the Iridas `.cube` reader -/

theorem iridasMessage_inj (e1 e2 fileName : String) (line : ℤ) (lineContent : String)
    (heq : IridasCube.ThrowErrorMessage e1 fileName line lineContent
      = IridasCube.ThrowErrorMessage e2 fileName line lineContent) : e1 = e2 := by
  unfold IridasCube.ThrowErrorMessage at heq
  have hd := congrArg String.data heq
  simp only [String.data_append] at hd
  exact String.ext (List.append_cancel_left hd)

theorem lengthError_ne_iridasMessage (error fileName : String) (line : ℤ)
    (lineContent : String) :
    lengthError ≠ IridasCube.ThrowErrorMessage error fileName line lineContent := by
  intro heq
  unfold IridasCube.ThrowErrorMessage lengthError at heq
  have hd := congrArg String.data heq
  simp only [String.data_append, List.append_assoc] at hd
  have h0 := congrArg List.head? hd
  simp at h0

/-- The line loop of `read` at a `LUT_3D_SIZE` line. -/
theorem parseLine_size3d (P : ParseUtils) (fileName : String) (st : IridasCube.Parsed)
    (line tag : String) (args : List String)
    (hcomment : startswith line "#" = false)
    (hparts : P.split (lower (P.strip line)) = tag :: args)
    (htag : lower tag = "lut_3d_size") :
    IridasCube.parseLine P fileName st line
        = Except.error (IridasCube.ThrowErrorMessage "Malformed LUT_3D_SIZE tag." fileName
            (st.lineNumber + 1) line)
      ↔ ¬ ∃ (arg : String) (size : ℤ), args = [arg] ∧ P.StringToInt arg = some size := by
  have n1 : ¬ ("lut_3d_size" : String) = "title" := by decide
  have n2 : ¬ ("lut_3d_size" : String) = "lut_1d_size" := by decide
  have n3 : ¬ ("lut_3d_size" : String) = "lut_2d_size" := by decide
  unfold IridasCube.parseLine
  simp only [hcomment, hparts, htag, n1, n2, n3, Bool.false_eq_true, if_false, if_true]
  constructor
  · rintro h ⟨arg, size, rfl, hsize⟩
    simp only [hsize] at h
    split_ifs at h
    · exact lengthError_ne_iridasMessage _ _ _ _ (Except.error.inj h)
  · intro h
    match args, h with
    | [], _ => rfl
    | [arg], h =>
      dsimp only
      cases hs : P.StringToInt arg with
      | none => rfl
      | some size => exact absurd ⟨arg, size, rfl, hs⟩ h
    | _ :: _ :: _, _ => rfl

/-- The line loop of `read` at a `LUT_1D_SIZE` line. -/
theorem parseLine_size1d (P : ParseUtils) (fileName : String) (st : IridasCube.Parsed)
    (line tag : String) (args : List String)
    (hcomment : startswith line "#" = false)
    (hparts : P.split (lower (P.strip line)) = tag :: args)
    (htag : lower tag = "lut_1d_size") :
    IridasCube.parseLine P fileName st line
        = Except.error (IridasCube.ThrowErrorMessage "Malformed LUT_1D_SIZE tag." fileName
            (st.lineNumber + 1) line)
      ↔ ¬ ∃ (arg : String) (size : ℤ), args = [arg] ∧ P.StringToInt arg = some size := by
  have n1 : ¬ ("lut_1d_size" : String) = "title" := by decide
  unfold IridasCube.parseLine
  simp only [hcomment, hparts, htag, n1, Bool.false_eq_true, if_false, if_true]
  constructor
  · rintro h ⟨arg, size, rfl, hsize⟩
    simp only [hsize] at h
    split_ifs at h
    · exact lengthError_ne_iridasMessage _ _ _ _ (Except.error.inj h)
  · intro h
    match args, h with
    | [], _ => rfl
    | [arg], h =>
      dsimp only
      cases hs : P.StringToInt arg with
      | none => rfl
      | some size => exact absurd ⟨arg, size, rfl, hs⟩ h
    | _ :: _ :: _, _ => rfl

/-- The line loop of `read` at a `DOMAIN_MIN` line. -/
theorem parseLine_domainMin (P : ParseUtils) (fileName : String) (st : IridasCube.Parsed)
    (line tag : String) (args : List String)
    (hcomment : startswith line "#" = false)
    (hparts : P.split (lower (P.strip line)) = tag :: args)
    (htag : lower tag = "domain_min") :
    IridasCube.parseLine P fileName st line
        = Except.error (IridasCube.ThrowErrorMessage "Malformed DOMAIN_MIN tag." fileName
            (st.lineNumber + 1) line)
      ↔ ¬ ∃ (a0 a1 a2 : String) (v0 v1 v2 : ℚ), args = [a0, a1, a2]
          ∧ P.StringToFloat a0 = some v0 ∧ P.StringToFloat a1 = some v1
          ∧ P.StringToFloat a2 = some v2 := by
  have n1 : ¬ ("domain_min" : String) = "title" := by decide
  have n2 : ¬ ("domain_min" : String) = "lut_1d_size" := by decide
  have n3 : ¬ ("domain_min" : String) = "lut_2d_size" := by decide
  have n4 : ¬ ("domain_min" : String) = "lut_3d_size" := by decide
  unfold IridasCube.parseLine
  simp only [hcomment, hparts, htag, n1, n2, n3, n4, Bool.false_eq_true, if_false, if_true]
  constructor
  · rintro h ⟨a0, a1, a2, v0, v1, v2, rfl, h0, h1, h2⟩
    simp only [h0, h1, h2] at h
    cases h
  · intro h
    match args, h with
    | [], _ => rfl
    | [_], _ => rfl
    | [_, _], _ => rfl
    | [a0, a1, a2], h =>
      dsimp only
      cases h0 : P.StringToFloat a0 with
      | none => rfl
      | some v0 =>
        cases h1 : P.StringToFloat a1 with
        | none => rfl
        | some v1 =>
          cases h2 : P.StringToFloat a2 with
          | none => rfl
          | some v2 => exact absurd ⟨a0, a1, a2, v0, v1, v2, rfl, h0, h1, h2⟩ h
    | _ :: _ :: _ :: _ :: _, _ => rfl

/-- The line loop of `read` at a `DOMAIN_MAX` line. -/
theorem parseLine_domainMax (P : ParseUtils) (fileName : String) (st : IridasCube.Parsed)
    (line tag : String) (args : List String)
    (hcomment : startswith line "#" = false)
    (hparts : P.split (lower (P.strip line)) = tag :: args)
    (htag : lower tag = "domain_max") :
    IridasCube.parseLine P fileName st line
        = Except.error (IridasCube.ThrowErrorMessage "Malformed DOMAIN_MAX tag." fileName
            (st.lineNumber + 1) line)
      ↔ ¬ ∃ (a0 a1 a2 : String) (v0 v1 v2 : ℚ), args = [a0, a1, a2]
          ∧ P.StringToFloat a0 = some v0 ∧ P.StringToFloat a1 = some v1
          ∧ P.StringToFloat a2 = some v2 := by
  have n1 : ¬ ("domain_max" : String) = "title" := by decide
  have n2 : ¬ ("domain_max" : String) = "lut_1d_size" := by decide
  have n3 : ¬ ("domain_max" : String) = "lut_2d_size" := by decide
  have n4 : ¬ ("domain_max" : String) = "lut_3d_size" := by decide
  have n5 : ¬ ("domain_max" : String) = "domain_min" := by decide
  unfold IridasCube.parseLine
  simp only [hcomment, hparts, htag, n1, n2, n3, n4, n5, Bool.false_eq_true, if_false, if_true]
  constructor
  · rintro h ⟨a0, a1, a2, v0, v1, v2, rfl, h0, h1, h2⟩
    simp only [h0, h1, h2] at h
    cases h
  · intro h
    match args, h with
    | [], _ => rfl
    | [_], _ => rfl
    | [_, _], _ => rfl
    | [a0, a1, a2], h =>
      dsimp only
      cases h0 : P.StringToFloat a0 with
      | none => rfl
      | some v0 =>
        cases h1 : P.StringToFloat a1 with
        | none => rfl
        | some v1 =>
          cases h2 : P.StringToFloat a2 with
          | none => rfl
          | some v2 => exact absurd ⟨a0, a1, a2, v0, v1, v2, rfl, h0, h1, h2⟩ h
    | _ :: _ :: _ :: _ :: _, _ => rfl

/-- The line loop of `read` at a line with none of the tags it tests for. -/
theorem parseLine_triple (P : ParseUtils) (fileName : String) (st : IridasCube.Parsed)
    (line tag : String) (args : List String)
    (hcomment : startswith line "#" = false)
    (hparts : P.split (lower (P.strip line)) = tag :: args)
    (h1 : lower tag ≠ "title") (h2 : lower tag ≠ "lut_1d_size")
    (h3 : lower tag ≠ "lut_2d_size") (h4 : lower tag ≠ "lut_3d_size")
    (h5 : lower tag ≠ "domain_min") (h6 : lower tag ≠ "domain_max") :
    IridasCube.parseLine P fileName st line
        = Except.error (IridasCube.ThrowErrorMessage "Malformed color triples specified."
            fileName (st.lineNumber + 1) line)
      ↔ ¬ ∃ v0 v1 v2 : ℚ, P.StringVecToFloatVec (tag :: args) = some [v0, v1, v2] := by
  unfold IridasCube.parseLine
  simp only [hcomment, hparts, h1, h2, h3, h4, h5, h6, Bool.false_eq_true, if_false]
  constructor
  · rintro h ⟨v0, v1, v2, hv⟩
    simp only [hv] at h
    cases h
  · intro h
    cases hv : P.StringVecToFloatVec (tag :: args) with
    | none => rfl
    | some vs =>
      match vs, hv with
      | [], _ => rfl
      | [_], _ => rfl
      | [_, _], _ => rfl
      | [v0, v1, v2], hv => exact absurd ⟨v0, v1, v2, hv⟩ h
      | _ :: _ :: _ :: _ :: _, _ => rfl

/-- The line loop of `read` at a `LUT_2D_SIZE` line. -/
theorem parseLine_size2d (P : ParseUtils) (fileName : String) (st : IridasCube.Parsed)
    (line tag : String) (args : List String)
    (hcomment : startswith line "#" = false)
    (hparts : P.split (lower (P.strip line)) = tag :: args)
    (htag : lower tag = "lut_2d_size") :
    IridasCube.parseLine P fileName st line
        = Except.error (IridasCube.ThrowErrorMessage "Unsupported tag: 'LUT_2D_SIZE'." fileName
            (st.lineNumber + 1) line) := by
  have n1 : ¬ ("lut_2d_size" : String) = "title" := by decide
  have n2 : ¬ ("lut_2d_size" : String) = "lut_1d_size" := by decide
  unfold IridasCube.parseLine
  simp only [hcomment, hparts, htag, n1, n2, Bool.false_eq_true, if_false, if_true]

/-- The first line at which the line loop throws decides what `read` throws. -/
theorem parseLines_first_error (P : ParseUtils) (fileName : String)
    (before : List String) :
    ∀ (st st2 : IridasCube.Parsed) (line : String) (after : List String) (e : String),
      IridasCube.parseLines P fileName before st = Except.ok st2 →
      IridasCube.parseLine P fileName st2 line = Except.error e →
      IridasCube.parseLines P fileName (before ++ line :: after) st = Except.error e := by
  induction before with
  | nil =>
    intro st st2 line after e h1 h2
    simp only [IridasCube.parseLines, Except.ok.injEq] at h1
    subst h1
    simp only [List.nil_append, IridasCube.parseLines, h2]
  | cons l ls ih =>
    intro st st2 line after e h1 h2
    simp only [IridasCube.parseLines, List.cons_append] at h1 ⊢
    cases hl : IridasCube.parseLine P fileName st l with
    | error e0 =>
      rw [hl] at h1
      cases h1
    | ok st1 =>
      rw [hl] at h1
      simp only at h1 ⊢
      exact ih st1 st2 line after e h1 h2

/-- A line without size tag leaves the flags of the size tags as they are. -/
theorem parseLine_keeps_flags (P : ParseUtils) (fileName : String)
    (st st2 : IridasCube.Parsed) (line : String)
    (h1d : ¬ IridasCube.hasTag P line "lut_1d_size")
    (h3d : ¬ IridasCube.hasTag P line "lut_3d_size")
    (h : IridasCube.parseLine P fileName st line = Except.ok st2) :
    st2.in1d = st.in1d ∧ st2.in3d = st.in3d := by
  unfold IridasCube.hasTag at h1d h3d
  unfold IridasCube.parseLine at h
  simp only at h
  by_cases hc : startswith line "#" = true
  · simp only [hc, if_true, Except.ok.injEq] at h
    subst h
    exact ⟨rfl, rfl⟩
  · have hcf : startswith line "#" = false := by simpa using hc
    simp only [hcf, Bool.false_eq_true, if_false] at h
    cases hp : P.split (lower (P.strip line)) with
    | nil =>
      simp only [hp, Except.ok.injEq] at h
      subst h
      exact ⟨rfl, rfl⟩
    | cons tag args =>
      have t1 : lower tag ≠ "lut_1d_size" := fun ht => h1d ⟨hcf, tag, args, hp, ht⟩
      have t3 : lower tag ≠ "lut_3d_size" := fun ht => h3d ⟨hcf, tag, args, hp, ht⟩
      simp only [hp, t1, t3, if_false] at h
      split_ifs at h
      · simp only [Except.ok.injEq] at h
        subst h
        exact ⟨rfl, rfl⟩
      · split at h
        · split at h
          · simp only [Except.ok.injEq] at h
            subst h
            exact ⟨rfl, rfl⟩
          · cases h
        · cases h
      · split at h
        · split at h
          · simp only [Except.ok.injEq] at h
            subst h
            exact ⟨rfl, rfl⟩
          · cases h
        · cases h
      · split at h
        · simp only [Except.ok.injEq] at h
          subst h
          exact ⟨rfl, rfl⟩
        · cases h

theorem parseLines_keeps_flags (P : ParseUtils) (fileName : String) (lines : List String) :
    ∀ st st2 : IridasCube.Parsed,
      (∀ line ∈ lines, ¬ IridasCube.hasTag P line "lut_1d_size"
        ∧ ¬ IridasCube.hasTag P line "lut_3d_size") →
      IridasCube.parseLines P fileName lines st = Except.ok st2 →
      st2.in1d = st.in1d ∧ st2.in3d = st.in3d := by
  induction lines with
  | nil =>
    intro st st2 _ h
    simp only [IridasCube.parseLines, Except.ok.injEq] at h
    subst h
    exact ⟨rfl, rfl⟩
  | cons l ls ih =>
    intro st st2 hno h
    simp only [IridasCube.parseLines] at h
    cases hl : IridasCube.parseLine P fileName st l with
    | error e0 =>
      rw [hl] at h
      cases h
    | ok st1 =>
      rw [hl] at h
      simp only at h
      have h1 := parseLine_keeps_flags P fileName st st1 l
        (hno l (List.mem_cons_self _ _)).1 (hno l (List.mem_cons_self _ _)).2 hl
      have h2 := ih st1 st2 (fun line hm => hno line (List.mem_cons_of_mem _ hm)) h
      exact ⟨h2.1.trans h1.1, h2.2.trans h1.2⟩

/-! ## Claims on the tags of the Iridas `.cube` reader -/

/-- C34, counterexample to the claim as stated: the fourth line `LUT_2D_SIZE 2` of the
text is no comment, holds words, is no title, size or domain line, and is not three
floats; `read` throws "Unsupported tag: 'LUT_2D_SIZE'." for it, not "Malformed color
triples specified". -/
theorem iridas_cube_2d_size_tag_is_unsupported :
    (IridasCube.read exampleParse exampleLut3D iridas2DTagText "Memory File").map
        (fun _ => ())
      = Except.error ("Error parsing Iridas .cube file (Memory File).  "
        ++ "At line (4): 'LUT_2D_SIZE 2'.  Unsupported tag: 'LUT_2D_SIZE'.") ∧
    ¬ containsText ("Error parsing Iridas .cube file (Memory File).  "
        ++ "At line (4): 'LUT_2D_SIZE 2'.  Unsupported tag: 'LUT_2D_SIZE'.")
      "Malformed color triples specified" ∧
    startswith "LUT_2D_SIZE 2" "#" = false ∧
    exampleParse.split (lower (exampleParse.strip "LUT_2D_SIZE 2")) = ["lut_2d_size", "2"] ∧
    exampleParse.StringVecToFloatVec ["lut_2d_size", "2"] = none := by
  decide!

/-- C34, amended: in the line loop of `read`, a line that is no comment and whose first
word is, in lower case, `lut_3d_size` (`lut_1d_size`) throws "Malformed LUT_3D_SIZE tag."
("Malformed LUT_1D_SIZE tag.") exactly when it is not the tag and one integer; a
`domain_min` (`domain_max`) line throws "Malformed DOMAIN_MIN tag." ("Malformed DOMAIN_MAX
tag.") exactly when it is not the tag and three floats; a `lut_2d_size` line throws
"Unsupported tag: 'LUT_2D_SIZE'."; a line with another first word that is no title
throws "Malformed color triples specified." exactly when it is not three floats.  `read`
throws what the first line at which the loop throws gives, and throws "LUT type (1D/3D)
unspecified." when the loop does not throw and no line has a size tag. -/
theorem iridas_cube_tag_validation (P : ParseUtils) (create3D : Lut3D) (fileName : String) :
    (∀ (st : IridasCube.Parsed) (line tag : String) (args : List String),
      startswith line "#" = false → P.split (lower (P.strip line)) = tag :: args →
      (lower tag = "lut_3d_size" →
        (IridasCube.parseLine P fileName st line
            = Except.error (IridasCube.ThrowErrorMessage "Malformed LUT_3D_SIZE tag." fileName
                (st.lineNumber + 1) line)
          ↔ ¬ ∃ (arg : String) (size : ℤ), args = [arg] ∧ P.StringToInt arg = some size)) ∧
      (lower tag = "lut_1d_size" →
        (IridasCube.parseLine P fileName st line
            = Except.error (IridasCube.ThrowErrorMessage "Malformed LUT_1D_SIZE tag." fileName
                (st.lineNumber + 1) line)
          ↔ ¬ ∃ (arg : String) (size : ℤ), args = [arg] ∧ P.StringToInt arg = some size)) ∧
      (lower tag = "domain_min" →
        (IridasCube.parseLine P fileName st line
            = Except.error (IridasCube.ThrowErrorMessage "Malformed DOMAIN_MIN tag." fileName
                (st.lineNumber + 1) line)
          ↔ ¬ ∃ (a0 a1 a2 : String) (v0 v1 v2 : ℚ), args = [a0, a1, a2]
              ∧ P.StringToFloat a0 = some v0 ∧ P.StringToFloat a1 = some v1
              ∧ P.StringToFloat a2 = some v2)) ∧
      (lower tag = "domain_max" →
        (IridasCube.parseLine P fileName st line
            = Except.error (IridasCube.ThrowErrorMessage "Malformed DOMAIN_MAX tag." fileName
                (st.lineNumber + 1) line)
          ↔ ¬ ∃ (a0 a1 a2 : String) (v0 v1 v2 : ℚ), args = [a0, a1, a2]
              ∧ P.StringToFloat a0 = some v0 ∧ P.StringToFloat a1 = some v1
              ∧ P.StringToFloat a2 = some v2)) ∧
      (lower tag = "lut_2d_size" →
        IridasCube.parseLine P fileName st line
          = Except.error (IridasCube.ThrowErrorMessage "Unsupported tag: 'LUT_2D_SIZE'."
              fileName (st.lineNumber + 1) line)) ∧
      (lower tag ≠ "title" → lower tag ≠ "lut_1d_size" → lower tag ≠ "lut_2d_size" →
        lower tag ≠ "lut_3d_size" → lower tag ≠ "domain_min" → lower tag ≠ "domain_max" →
        (IridasCube.parseLine P fileName st line
            = Except.error (IridasCube.ThrowErrorMessage "Malformed color triples specified."
                fileName (st.lineNumber + 1) line)
          ↔ ¬ ∃ v0 v1 v2 : ℚ, P.StringVecToFloatVec (tag :: args) = some [v0, v1, v2]))) ∧
    (∀ (istream : IStream) (before after : List String) (line : String)
        (st : IridasCube.Parsed) (e : String),
      istream.good = true → P.nextlines istream = before ++ line :: after →
      IridasCube.parseLines P fileName before IridasCube.Parsed.init = Except.ok st →
      IridasCube.parseLine P fileName st line = Except.error e →
      IridasCube.read P create3D istream fileName = Except.error e) ∧
    (∀ (istream : IStream) (st : IridasCube.Parsed),
      istream.good = true →
      IridasCube.parseLines P fileName (P.nextlines istream) IridasCube.Parsed.init
        = Except.ok st →
      (∀ line ∈ P.nextlines istream, ¬ IridasCube.hasTag P line "lut_1d_size"
        ∧ ¬ IridasCube.hasTag P line "lut_3d_size") →
      IridasCube.read P create3D istream fileName
        = Except.error (IridasCube.ThrowErrorMessage "LUT type (1D/3D) unspecified." fileName
            (-1) "")) := by
  refine ⟨fun st line tag args hc hp =>
    ⟨parseLine_size3d P fileName st line tag args hc hp,
      parseLine_size1d P fileName st line tag args hc hp,
      parseLine_domainMin P fileName st line tag args hc hp,
      parseLine_domainMax P fileName st line tag args hc hp,
      parseLine_size2d P fileName st line tag args hc hp,
      parseLine_triple P fileName st line tag args hc hp⟩, ?_, ?_⟩
  · intro istream before after line st e hgood hlines hbefore hline
    unfold IridasCube.read
    rw [hgood, hlines,
      parseLines_first_error P fileName before _ st line after e hbefore hline]
    rfl
  · intro istream st hgood hparse hno
    obtain ⟨h1, h3⟩ := parseLines_keeps_flags P fileName _ _ st hno hparse
    unfold IridasCube.read
    rw [hgood, hparse]
    unfold IridasCube.interpret
    have e1 : st.in1d = false := h1
    have e3 : st.in3d = false := h3
    simp [e1, e3]

/-- C34, witness: the text of the unit test with the line `LUT_3D_SIZE 2 2`: `read` throws
"Malformed LUT_3D_SIZE tag." for its first line. -/
theorem iridas_cube_tag_validation_witness :
    IridasCube.read exampleParse exampleLut3D iridasWrongSizeText "Memory File"
      = Except.error (IridasCube.ThrowErrorMessage "Malformed LUT_3D_SIZE tag." "Memory File"
          (IridasCube.Parsed.init.lineNumber + 1) "LUT_3D_SIZE 2 2") :=
  (iridas_cube_tag_validation exampleParse exampleLut3D "Memory File").2.1
    iridasWrongSizeText [] ["DOMAIN_MIN 0.0 0.0 0.0", "DOMAIN_MAX 1.0 1.0 1.0",
      "0.0 0.0 0.0", "1.0 0.0 0.0", "0.0 1.0 0.0", "1.0 1.0 0.0", "0.0 0.0 1.0", "1.0 0.0 1.0",
      "0.0 1.0 1.0", "1.0 1.0 1.0"] "LUT_3D_SIZE 2 2" IridasCube.Parsed.init _ rfl
    (by decide!) rfl
    ((((iridas_cube_tag_validation exampleParse exampleLut3D "Memory File").1
      IridasCube.Parsed.init "LUT_3D_SIZE 2 2" "lut_3d_size" ["2", "2"] (by decide!)
      (by decide!)).1 (by decide!)).mpr
      (by
        rintro ⟨arg, size, h, -⟩
        cases h))

/-! ## The messages of the exceptions of the readers -/

theorem iridas_parseLine_error (P : ParseUtils) (fileName : String) (st : IridasCube.Parsed)
    (line e : String) (h : IridasCube.parseLine P fileName st line = Except.error e) :
    e = lengthError
      ∨ ∃ reason : String,
        e = IridasCube.ThrowErrorMessage reason fileName (st.lineNumber + 1) line := by
  unfold IridasCube.parseLine at h
  simp only at h
  repeat' split at h
  all_goals (cases h <;> first | exact Or.inl rfl | exact Or.inr ⟨_, rfl⟩)

theorem iridas_parseLine_lineNumber (P : ParseUtils) (fileName : String)
    (st st2 : IridasCube.Parsed) (line : String)
    (h : IridasCube.parseLine P fileName st line = Except.ok st2) :
    st2.lineNumber = st.lineNumber + 1 := by
  unfold IridasCube.parseLine at h
  simp only at h
  repeat' split at h
  all_goals (cases h <;> rfl)

theorem iridas_parseLines_error (P : ParseUtils) (fileName : String) (lines : List String) :
    ∀ (st : IridasCube.Parsed) (e : String),
      IridasCube.parseLines P fileName lines st = Except.error e →
      e = lengthError
        ∨ ∃ (reason : String) (before after : List String) (line : String),
          lines = before ++ line :: after
            ∧ e = IridasCube.ThrowErrorMessage reason fileName
              (st.lineNumber + (before.length : ℤ) + 1) line := by
  induction lines with
  | nil =>
    intro st e h
    cases h
  | cons l ls ih =>
    intro st e h
    simp only [IridasCube.parseLines] at h
    cases hl : IridasCube.parseLine P fileName st l with
    | error e0 =>
      rw [hl] at h
      cases h
      rcases iridas_parseLine_error P fileName st l e hl with h1 | ⟨reason, h2⟩
      · exact Or.inl h1
      · exact Or.inr ⟨reason, [], ls, l, rfl, by simpa using h2⟩
    | ok st1 =>
      rw [hl] at h
      simp only at h
      have hn := iridas_parseLine_lineNumber P fileName st st1 l hl
      rcases ih st1 e h with h1 | ⟨reason, before, after, line, hls, he⟩
      · exact Or.inl h1
      · refine Or.inr ⟨reason, l :: before, after, line, by rw [hls]; rfl, ?_⟩
        rw [he, hn]
        congr 1
        simp only [List.length_cons]
        push_cast
        ring

theorem iridas_interpret_error (create3D : Lut3D) (fileName : String)
    (st : IridasCube.Parsed) (e : String)
    (h : IridasCube.interpret create3D fileName st = Except.error e) :
    ∃ reason : String, e = IridasCube.ThrowErrorMessage reason fileName (-1) "" := by
  unfold IridasCube.interpret at h
  simp only at h
  repeat' split at h
  all_goals (cases h <;> exact ⟨_, rfl⟩)

theorem containsText_iridas_fileName (error fileName : String) (line : ℤ)
    (lineContent : String) :
    containsText (IridasCube.ThrowErrorMessage error fileName line lineContent) fileName := by
  unfold containsText IridasCube.ThrowErrorMessage
  refine ⟨"Error parsing Iridas .cube file (".data,
    (").  " ++ (if line ≠ -1 then "At line (" ++ toString line ++ "): '" ++ lineContent
      ++ "'.  " else "") ++ error).data, ?_⟩
  simp only [String.data_append, List.append_assoc]

theorem containsText_iridas_line (error fileName : String) (line : ℤ)
    (lineContent : String) (hline : line ≠ -1) :
    containsText (IridasCube.ThrowErrorMessage error fileName line lineContent)
        (toString line)
      ∧ containsText (IridasCube.ThrowErrorMessage error fileName line lineContent)
        lineContent := by
  unfold containsText IridasCube.ThrowErrorMessage
  rw [if_pos hline]
  constructor
  · refine ⟨("Error parsing Iridas .cube file (" ++ fileName ++ ").  " ++ "At line (").data,
      ("): '" ++ lineContent ++ "'.  " ++ error).data, ?_⟩
    simp only [String.data_append, List.append_assoc]
  · refine ⟨("Error parsing Iridas .cube file (" ++ fileName ++ ").  " ++ "At line ("
        ++ toString line ++ "): '").data, ("'.  " ++ error).data, ?_⟩
    simp only [String.data_append, List.append_assoc]


theorem containsText_spi1d_fileName (error fileName : String) (line : ℤ)
    (lineContent : String) :
    containsText (Spi1D.ThrowErrorMessage error fileName line lineContent) fileName := by
  unfold containsText Spi1D.ThrowErrorMessage
  refine ⟨"Error parsing .spi1d file (".data,
    (").  " ++ (if line ≠ -1 then "At line (" ++ toString line ++ "): '" ++ lineContent
      ++ "'.  " else "") ++ error).data, ?_⟩
  simp only [String.data_append, List.append_assoc]

theorem containsText_spi1d_line (error fileName : String) (line : ℤ)
    (lineContent : String) (hline : line ≠ -1) :
    containsText (Spi1D.ThrowErrorMessage error fileName line lineContent) (toString line)
      ∧ containsText (Spi1D.ThrowErrorMessage error fileName line lineContent)
        lineContent := by
  unfold containsText Spi1D.ThrowErrorMessage
  rw [if_pos hline]
  constructor
  · refine ⟨("Error parsing .spi1d file (" ++ fileName ++ ").  " ++ "At line (").data,
      ("): '" ++ lineContent ++ "'.  " ++ error).data, ?_⟩
    simp only [String.data_append, List.append_assoc]
  · refine ⟨("Error parsing .spi1d file (" ++ fileName ++ ").  " ++ "At line ("
        ++ toString line ++ "): '").data, ("'.  " ++ error).data, ?_⟩
    simp only [String.data_append, List.append_assoc]

theorem containsText_vf_fileName (error fileName : String) (line : ℤ)
    (lineContent : String) :
    containsText (VF.ThrowErrorMessage error fileName line lineContent) fileName := by
  unfold containsText VF.ThrowErrorMessage
  refine ⟨"Error parsing Nuke .vf file (".data,
    (").  " ++ (if line ≠ -1 then "At line (" ++ toString line ++ "): '" ++ lineContent
      ++ "'.  " else "") ++ error).data, ?_⟩
  simp only [String.data_append, List.append_assoc]

theorem containsText_vf_error (error fileName : String) (line : ℤ)
    (lineContent : String) :
    containsText (VF.ThrowErrorMessage error fileName line lineContent) error := by
  unfold containsText VF.ThrowErrorMessage
  simp only [String.data_append]
  exact (List.suffix_append _ _).isInfix

theorem containsText_vf_line (error fileName : String) (line : ℤ)
    (lineContent : String) (hline : line ≠ -1) :
    containsText (VF.ThrowErrorMessage error fileName line lineContent) (toString line)
      ∧ containsText (VF.ThrowErrorMessage error fileName line lineContent)
        lineContent := by
  unfold containsText VF.ThrowErrorMessage
  rw [if_pos hline]
  constructor
  · refine ⟨("Error parsing Nuke .vf file (" ++ fileName ++ ").  " ++ "At line (").data,
      ("): '" ++ lineContent ++ "'.  " ++ error).data, ?_⟩
    simp only [String.data_append, List.append_assoc]
  · refine ⟨("Error parsing Nuke .vf file (" ++ fileName ++ ").  " ++ "At line ("
        ++ toString line ++ "): '").data, ("'.  " ++ error).data, ?_⟩
    simp only [String.data_append, List.append_assoc]

theorem containsText_outsideMessage (fileName : String) (r g b : ℤ) :
    containsText (Spi3D.outsideMessage fileName r g b) fileName
      ∧ containsText (Spi3D.outsideMessage fileName r g b) "falls outside of the cube" := by
  unfold containsText Spi3D.outsideMessage
  constructor
  · refine ⟨"Error parsing .spi3d file (".data,
      ("). " ++ "Data is invalid. " ++ "A LUT entry is specified (" ++ toString r ++ " "
        ++ toString g ++ " " ++ toString b ++ ") that falls outside of the cube.").data, ?_⟩
    simp only [String.data_append, List.append_assoc]
  · refine ⟨("Error parsing .spi3d file (" ++ fileName ++ "). " ++ "Data is invalid. "
        ++ "A LUT entry is specified (" ++ toString r ++ " " ++ toString g ++ " "
        ++ toString b ++ ") that ").data, ".".data, ?_⟩
    simp only [String.data_append, List.append_assoc]
    rfl

theorem spi3d_tableLine_error (S : Scanf) (fileName : String) (rSize gSize bSize : ℤ)
    (t : Spi3D.Table) (l e : String)
    (h : Spi3D.tableLine S fileName rSize gSize bSize t l = some (Except.error e)) :
    ∃ r g b : ℤ, e = Spi3D.outsideMessage fileName r g b := by
  unfold Spi3D.tableLine at h
  cases hrow : S.sscanf_dddfff "%d %d %d %f %f %f" l with
  | none =>
    rw [hrow] at h
    cases h
  | some row =>
    obtain ⟨⟨r, g, b⟩, ⟨x, y, z⟩⟩ := row
    rw [hrow] at h
    simp only at h
    split_ifs at h with h1 h2
    · cases h
      exact ⟨_, _, _, rfl⟩
    · cases h
      exact ⟨_, _, _, rfl⟩
    · repeat' split at h
      all_goals cases h

theorem spi3d_tableLoop_error (S : Scanf) (fileName : String) (rSize gSize bSize : ℤ)
    (ls : List String) (last : String) :
    ∀ (t : Spi3D.Table) (e : String),
      Spi3D.tableLoop S fileName rSize gSize bSize ls last t = some (Except.error e) →
      ∃ r g b : ℤ, e = Spi3D.outsideMessage fileName r g b := by
  induction ls with
  | nil =>
    intro t e h
    unfold Spi3D.tableLoop at h
    split at h
    · exact spi3d_tableLine_error S fileName rSize gSize bSize t last e h
    · cases h
  | cons l ls ih =>
    intro t e h
    unfold Spi3D.tableLoop at h
    split at h
    · cases hl : Spi3D.tableLine S fileName rSize gSize bSize t l with
      | none =>
        rw [hl] at h
        cases h
      | some r =>
        cases r with
        | error e0 =>
          rw [hl] at h
          cases h
          exact spi3d_tableLine_error S fileName rSize gSize bSize t l e hl
        | ok t1 =>
          rw [hl] at h
          exact ih t1 e h
    · cases h

theorem spi3d_read_error (S : Scanf) (create : Lut3D) (istream : IStream)
    (fileName e : String)
    (h : Spi3D.read S create istream fileName = some (Except.error e)) :
    e = lengthError ∨ containsText e fileName := by
  unfold Spi3D.read at h
  generalize istream.getline = p1 at h
  obtain ⟨line1, s1⟩ := p1
  simp only at h
  split at h
  · cases h
    right
    unfold containsText
    refine ⟨"Error parsing .spi3d file (".data,
      (").  " ++ "LUT does not appear to be valid spilut format. "
        ++ "Expected 'SPILUT'.  Found: '" ++ line1 ++ "'.").data, ?_⟩
    simp only [String.data_append, List.append_assoc]
  · generalize s1.getline = p2 at h
    obtain ⟨line2, s2⟩ := p2
    simp only at h
    generalize s2.getline = p3 at h
    obtain ⟨line3, s3⟩ := p3
    simp only at h
    cases hsize : S.sscanf_ddd "%d %d %d" line3 with
    | none =>
      rw [hsize] at h
      cases h
      right
      unfold containsText
      refine ⟨"Error parsing .spi3d file (".data,
        ("). " ++ "Error while reading LUT size. Found: '" ++ line3 ++ "'.").data, ?_⟩
      simp only [String.data_append, List.append_assoc]
    | some sizes =>
      obtain ⟨rSize, gSize, bSize⟩ := sizes
      rw [hsize] at h
      simp only at h
      split at h
      · cases h
        exact Or.inl rfl
      · split at h
        · cases h
        · rename_i e0 hres
          cases h
          right
          split at hres
          · obtain ⟨r, g, b, he⟩ := spi3d_tableLoop_error S fileName rSize gSize bSize _ _ _ _ hres
            rw [he]
            exact (containsText_outsideMessage fileName r g b).1
          · cases hres
        · split at h
          · cases h
            right
            unfold containsText
            refine ⟨"Error parsing .spi3d file (".data,
              ("). " ++ "Not enough entries found.").data, ?_⟩
            simp only [String.data_append, List.append_assoc]
          · cases h

theorem vf_parseLine_error (P : ParseUtils) (fileName : String) (st : VF.Parsed)
    (line e : String) (h : VF.parseLine P fileName st line = Except.error e) :
    e = lengthError
      ∨ ∃ reason : String, e = VF.ThrowErrorMessage reason fileName (st.lineNumber + 1) line := by
  unfold VF.parseLine at h
  simp only at h
  repeat' split at h
  all_goals (cases h <;> first | exact Or.inl rfl | exact Or.inr ⟨_, rfl⟩)

theorem vf_parseLine_lineNumber (P : ParseUtils) (fileName : String) (st st2 : VF.Parsed)
    (line : String) (h : VF.parseLine P fileName st line = Except.ok st2) :
    st2.lineNumber = st.lineNumber + 1 := by
  unfold VF.parseLine at h
  simp only at h
  repeat' split at h
  all_goals (cases h <;> rfl)

theorem vf_parseLines_error (P : ParseUtils) (fileName : String) (lines : List String) :
    ∀ (st : VF.Parsed) (e : String),
      VF.parseLines P fileName lines st = Except.error e →
      e = lengthError
        ∨ ∃ (reason : String) (before after : List String) (line : String),
          lines = before ++ line :: after
            ∧ e = VF.ThrowErrorMessage reason fileName
              (st.lineNumber + (before.length : ℤ) + 1) line := by
  induction lines with
  | nil =>
    intro st e h
    cases h
  | cons l ls ih =>
    intro st e h
    simp only [VF.parseLines] at h
    cases hl : VF.parseLine P fileName st l with
    | error e0 =>
      rw [hl] at h
      cases h
      rcases vf_parseLine_error P fileName st l e hl with h1 | ⟨reason, h2⟩
      · exact Or.inl h1
      · exact Or.inr ⟨reason, [], ls, l, rfl, by simpa using h2⟩
    | ok st1 =>
      rw [hl] at h
      simp only at h
      have hn := vf_parseLine_lineNumber P fileName st st1 l hl
      rcases ih st1 e h with h1 | ⟨reason, before, after, line, hls, he⟩
      · exact Or.inl h1
      · refine Or.inr ⟨reason, l :: before, after, line, by rw [hls]; rfl, ?_⟩
        rw [he, hn]
        congr 1
        simp only [List.length_cons]
        push_cast
        ring

theorem vf_interpret_error (create3D : Lut3D) (fileName : String) (st : VF.Parsed) (e : String)
    (h : VF.interpret create3D fileName st = some (Except.error e)) :
    ∃ reason : String, e = VF.ThrowErrorMessage reason fileName (-1) "" := by
  unfold VF.interpret at h
  simp only at h
  repeat' split at h
  all_goals (cases h <;> exact ⟨_, rfl⟩)

/-- Every exception of the `.vf` `read` on a good stream. -/
theorem vf_read_error (P : ParseUtils) (create3D : Lut3D) (istream : IStream)
    (fileName e : String) (hgood : istream.good = true)
    (h : VF.read P create3D istream fileName = some (Except.error e)) :
    e = lengthError
      ∨ (∃ reason : String, e = VF.ThrowErrorMessage reason fileName (-1) "")
      ∨ (∃ reason : String, P.nextlines istream = []
          ∧ e = VF.ThrowErrorMessage reason fileName 1 "")
      ∨ ∃ (reason : String) (before after : List String) (line : String),
        P.nextlines istream = before ++ line :: after
          ∧ e = VF.ThrowErrorMessage reason fileName ((before.length : ℤ) + 1) line := by
  unfold VF.read at h
  rw [hgood] at h
  simp only [Bool.not_true, Bool.false_eq_true, if_false] at h
  cases hl : P.nextlines istream with
  | nil =>
    rw [hl] at h
    cases h
    exact Or.inr (Or.inr (Or.inl ⟨_, rfl, rfl⟩))
  | cons line rest =>
    rw [hl] at h
    simp only at h
    split at h
    · cases h
      exact Or.inr (Or.inr (Or.inr ⟨"Expecting '#Inventor V2.1 ascii'.", [], rest, line, rfl,
        by simp⟩))
    · cases hp : VF.parseLines P fileName rest VF.Parsed.init with
      | error e0 =>
        rw [hp] at h
        cases h
        rcases vf_parseLines_error P fileName rest _ e hp with h1 | ⟨reason, b, a, l, hls, he⟩
        · exact Or.inl h1
        · refine Or.inr (Or.inr (Or.inr ⟨reason, line :: b, a, l, by rw [hls]; rfl, ?_⟩))
          rw [he]
          congr 1
          simp only [VF.Parsed.init, List.length_cons]
          push_cast
          ring
      | ok st =>
        rw [hp] at h
        exact Or.inr (Or.inl (vf_interpret_error create3D fileName st e h))

/-- Every exception of the `.spi1d` `read`. -/
theorem spi1d_read_error (S : Scanf) (istream : IStream) (fileName e : String)
    (h : Spi1D.read S istream fileName = Except.error e) :
    e = "vector::reserve"
      ∨ (∃ reason : String, e = Spi1D.ThrowErrorMessage reason fileName (-1) "")
      ∨ ∃ (reason : String) (before after : List String) (line : String),
        Spi1D.header istream = before ++ line :: after
          ∧ e = Spi1D.ThrowErrorMessage reason fileName ((before.length : ℤ) + 1) line := by
  cases hf : Spi1D.headerFold S fileName (Spi1D.header istream) Spi1D.Header.init with
  | error e0 =>
    have hp := parseHeader_eq_fold S fileName istream
    rw [hf] at hp
    unfold Spi1D.read at h
    rw [hp] at h
    cases h
    obtain ⟨pre, l, post, reason, hls, he⟩ := headerFold_error S fileName _ _ e hf
    refine Or.inr (Or.inr ⟨reason, pre, post, l, hls, ?_⟩)
    rw [he]
    congr 1
    simp [Spi1D.Header.init]
  | ok h0 =>
    have hp := parseHeader_eq_fold S fileName istream
    rw [hf] at hp
    rcases read_cases S fileName istream h0 _ hp with
      ⟨-, hr⟩ | ⟨-, -, hr⟩ | ⟨-, -, -, hr⟩ | ⟨-, -, -, -, hr⟩ | ⟨-, -, -, -, hr⟩
        | ⟨-, -, -, -, -, hr⟩ | ⟨-, -, -, -, -, hr⟩
    all_goals rw [hr] at h
    all_goals cases h
    all_goals first
      | exact Or.inl rfl
      | exact Or.inr (Or.inl ⟨_, rfl⟩)

/-- An evaluation that is an error when its value is dropped is that error. -/
theorem except_error_of_map {α : Type} (r : Except String α) (e : String)
    (h : r.map (fun _ => ()) = Except.error e) : r = Except.error e := by
  cases r with
  | error e0 =>
    simp only [Except.map] at h
    cases h
    rfl
  | ok a =>
    simp only [Except.map] at h
    cases h
/-! ## Claims on the messages of the exceptions of the readers -/

/-- C33, counterexample to the claim as stated: the Truelight `read`, which does not use
the file name it is passed, throws "Malformed width tag in Truelight .cub LUT." for the
second line `# width 2 2` of a text, a message without the line; the `.spi3d` `read`
throws for the row `0 2 0` in the fifth line of a text a message that holds the file
name and the index triple, but not the line. -/
theorem reader_errors_without_line :
    (Truelight.read exampleParse exampleLut3D truelightBadWidthText).map
        (Except.map (fun _ => ()))
      = some (Except.error "Malformed width tag in Truelight .cub LUT.") ∧
    ¬ containsText "Malformed width tag in Truelight .cub LUT." "# width 2 2" ∧
    (Spi3D.read exampleScanf exampleLut3D spi3dOutsideText "Memory File").map
        (Except.map (fun _ => ()))
      = some (Except.error ("Error parsing .spi3d file (Memory File). Data is invalid. "
        ++ "A LUT entry is specified (0 2 0) that falls outside of the cube.")) ∧
    ¬ containsText ("Error parsing .spi3d file (Memory File). Data is invalid. "
        ++ "A LUT entry is specified (0 2 0) that falls outside of the cube.")
      "0 2 0 0.0 0.0 0.9" := by
  decide!

/-- C33, amended: a message of `ThrowErrorMessage` of the Iridas `.cube`, the `.spi1d`
and the Nuke `.vf` reader holds the file name and the reason, and the line number and the
line when the line number is not -1.  Every exception the Iridas `read` and the `.vf`
`read` throw for a good stream, and every exception the `.spi1d` `read` throws, is the
`std::length_error` of a negative size or has a message of `ThrowErrorMessage` for the
file name passed to `read`: without line, or with the 1-based number and the text of a
line the reader took from the stream (for an empty `.vf` text, with the number 1 and an
empty line).  Every exception the `.spi3d` `read` throws is that `std::length_error` or
has a message that holds the file name. -/
theorem reader_errors_embed_path (fileName : String) :
    (∀ (error : String) (line : ℤ) (lineContent : String),
      containsText (IridasCube.ThrowErrorMessage error fileName line lineContent) fileName ∧
      containsText (IridasCube.ThrowErrorMessage error fileName line lineContent) error ∧
      (line ≠ -1 →
        containsText (IridasCube.ThrowErrorMessage error fileName line lineContent)
            (toString line) ∧
        containsText (IridasCube.ThrowErrorMessage error fileName line lineContent)
            lineContent)) ∧
    (∀ (error : String) (line : ℤ) (lineContent : String),
      containsText (Spi1D.ThrowErrorMessage error fileName line lineContent) fileName ∧
      containsText (Spi1D.ThrowErrorMessage error fileName line lineContent) error ∧
      (line ≠ -1 →
        containsText (Spi1D.ThrowErrorMessage error fileName line lineContent)
            (toString line) ∧
        containsText (Spi1D.ThrowErrorMessage error fileName line lineContent)
            lineContent)) ∧
    (∀ (error : String) (line : ℤ) (lineContent : String),
      containsText (VF.ThrowErrorMessage error fileName line lineContent) fileName ∧
      containsText (VF.ThrowErrorMessage error fileName line lineContent) error ∧
      (line ≠ -1 →
        containsText (VF.ThrowErrorMessage error fileName line lineContent)
            (toString line) ∧
        containsText (VF.ThrowErrorMessage error fileName line lineContent)
            lineContent)) ∧
    (∀ (P : ParseUtils) (create3D : Lut3D) (istream : IStream) (e : String),
      istream.good = true →
      IridasCube.read P create3D istream fileName = Except.error e →
      e = lengthError
        ∨ (∃ reason : String, e = IridasCube.ThrowErrorMessage reason fileName (-1) "")
        ∨ ∃ (reason : String) (before after : List String) (line : String),
          P.nextlines istream = before ++ line :: after
            ∧ e = IridasCube.ThrowErrorMessage reason fileName ((before.length : ℤ) + 1)
              line) ∧
    (∀ (S : Scanf) (istream : IStream) (e : String),
      Spi1D.read S istream fileName = Except.error e →
      e = "vector::reserve"
        ∨ (∃ reason : String, e = Spi1D.ThrowErrorMessage reason fileName (-1) "")
        ∨ ∃ (reason : String) (before after : List String) (line : String),
          Spi1D.header istream = before ++ line :: after
            ∧ e = Spi1D.ThrowErrorMessage reason fileName ((before.length : ℤ) + 1) line) ∧
    (∀ (P : ParseUtils) (create3D : Lut3D) (istream : IStream) (e : String),
      istream.good = true →
      VF.read P create3D istream fileName = some (Except.error e) →
      e = lengthError
        ∨ (∃ reason : String, e = VF.ThrowErrorMessage reason fileName (-1) "")
        ∨ (∃ reason : String, P.nextlines istream = []
            ∧ e = VF.ThrowErrorMessage reason fileName 1 "")
        ∨ ∃ (reason : String) (before after : List String) (line : String),
          P.nextlines istream = before ++ line :: after
            ∧ e = VF.ThrowErrorMessage reason fileName ((before.length : ℤ) + 1) line) ∧
    (∀ (S : Scanf) (create : Lut3D) (istream : IStream) (e : String),
      Spi3D.read S create istream fileName = some (Except.error e) →
      e = lengthError ∨ containsText e fileName) := by
  refine ⟨fun error line lineContent =>
      ⟨containsText_iridas_fileName error fileName line lineContent,
        containsText_IridasMessage error fileName line lineContent,
        containsText_iridas_line error fileName line lineContent⟩,
    fun error line lineContent =>
      ⟨containsText_spi1d_fileName error fileName line lineContent,
        containsText_ThrowErrorMessage error fileName line lineContent,
        containsText_spi1d_line error fileName line lineContent⟩,
    fun error line lineContent =>
      ⟨containsText_vf_fileName error fileName line lineContent,
        containsText_vf_error error fileName line lineContent,
        containsText_vf_line error fileName line lineContent⟩,
    ?_, fun S istream e h => spi1d_read_error S istream fileName e h,
    fun P create3D istream e hgood h => vf_read_error P create3D istream fileName e hgood h,
    fun S create istream e h => spi3d_read_error S create istream fileName e h⟩
  intro P create3D istream e hgood hread
  unfold IridasCube.read at hread
  rw [hgood] at hread
  simp only [Bool.not_true, Bool.false_eq_true, if_false] at hread
  cases hparse : IridasCube.parseLines P fileName (P.nextlines istream)
      IridasCube.Parsed.init with
  | error e0 =>
    rw [hparse] at hread
    cases hread
    rcases iridas_parseLines_error P fileName _ _ e hparse with h1 | ⟨reason, b, a, l, hl, he⟩
    · exact Or.inl h1
    · refine Or.inr (Or.inr ⟨reason, b, a, l, hl, ?_⟩)
      rw [he]
      congr 1
      simp [IridasCube.Parsed.init]
  | ok st =>
    rw [hparse] at hread
    exact Or.inr (Or.inl (iridas_interpret_error create3D fileName st e hread))

/-- C33, witness: three reads of texts with a malformed second or first line.  The Iridas
`read` of the unit test text with the wrong size tag, the `.spi1d` `read` of a text with a
`From` tag of one number and the `.vf` `read` of a text with a `grid_size` tag of two
sizes throw messages that are, by the theorem, of one of the listed forms. -/
theorem reader_errors_embed_path_witness :
    ("Error parsing Iridas .cube file (Memory File).  "
          ++ "At line (1): 'LUT_3D_SIZE 2 2'.  Malformed LUT_3D_SIZE tag." = lengthError
      ∨ (∃ reason : String, "Error parsing Iridas .cube file (Memory File).  "
          ++ "At line (1): 'LUT_3D_SIZE 2 2'.  Malformed LUT_3D_SIZE tag."
            = IridasCube.ThrowErrorMessage reason "Memory File" (-1) "")
      ∨ ∃ (reason : String) (before after : List String) (line : String),
        exampleParse.nextlines iridasWrongSizeText = before ++ line :: after
          ∧ "Error parsing Iridas .cube file (Memory File).  "
              ++ "At line (1): 'LUT_3D_SIZE 2 2'.  Malformed LUT_3D_SIZE tag."
            = IridasCube.ThrowErrorMessage reason "Memory File" ((before.length : ℤ) + 1)
              line) ∧
    ("Error parsing .spi1d file (Memory File).  "
          ++ "At line (2): 'From 0.0'.  Invalid 'From' Tag." = "vector::reserve"
      ∨ (∃ reason : String, "Error parsing .spi1d file (Memory File).  "
          ++ "At line (2): 'From 0.0'.  Invalid 'From' Tag."
            = Spi1D.ThrowErrorMessage reason "Memory File" (-1) "")
      ∨ ∃ (reason : String) (before after : List String) (line : String),
        Spi1D.header spi1dBadFromText = before ++ line :: after
          ∧ "Error parsing .spi1d file (Memory File).  "
              ++ "At line (2): 'From 0.0'.  Invalid 'From' Tag."
            = Spi1D.ThrowErrorMessage reason "Memory File" ((before.length : ℤ) + 1) line) ∧
    ("Error parsing Nuke .vf file (Memory File).  "
          ++ "At line (2): 'grid_size 2 2'.  Malformed grid_size tag." = lengthError
      ∨ (∃ reason : String, "Error parsing Nuke .vf file (Memory File).  "
          ++ "At line (2): 'grid_size 2 2'.  Malformed grid_size tag."
            = VF.ThrowErrorMessage reason "Memory File" (-1) "")
      ∨ (∃ reason : String, exampleParse.nextlines vfBadGridText = []
          ∧ "Error parsing Nuke .vf file (Memory File).  "
              ++ "At line (2): 'grid_size 2 2'.  Malformed grid_size tag."
            = VF.ThrowErrorMessage reason "Memory File" 1 "")
      ∨ ∃ (reason : String) (before after : List String) (line : String),
        exampleParse.nextlines vfBadGridText = before ++ line :: after
          ∧ "Error parsing Nuke .vf file (Memory File).  "
              ++ "At line (2): 'grid_size 2 2'.  Malformed grid_size tag."
            = VF.ThrowErrorMessage reason "Memory File" ((before.length : ℤ) + 1) line) :=
  ⟨(reader_errors_embed_path "Memory File").2.2.2.1 exampleParse exampleLut3D
      iridasWrongSizeText _ rfl
      (except_error_of_map _ _ (by decide!)),
    (reader_errors_embed_path "Memory File").2.2.2.2.1 exampleScanf spi1dBadFromText _
      (except_error_of_map _ _ (by decide!)),
    (reader_errors_embed_path "Memory File").2.2.2.2.2.1 exampleParse exampleLut3D
      vfBadGridText _ rfl
      (by
        have h : (VF.read exampleParse exampleLut3D vfBadGridText "Memory File").map
            (Except.map (fun _ => ()))
            = some (Except.error ("Error parsing Nuke .vf file (Memory File).  "
              ++ "At line (2): 'grid_size 2 2'.  Malformed grid_size tag.")) := by
          decide!
        cases hr : VF.read exampleParse exampleLut3D vfBadGridText "Memory File" with
        | none =>
          rw [hr] at h
          cases h
        | some r =>
          rw [hr] at h
          simp only [Option.map_some'] at h
          exact congrArg some (except_error_of_map r _ (Option.some.inj h)))⟩
/-! ## The `.spi3d` reader with `int` arithmetic in 32 bits -/

/-- The value an `int` holds differs from the arithmetic result by a multiple of `2^32`. -/
theorem wrapInt32_modEq (a : ℤ) : wrapInt32 a ≡ a [ZMOD 2 ^ 32] := by
  unfold wrapInt32
  have h := (Int.mod_modEq (a + 2 ^ 31) (2 ^ 32)).sub_right (2 ^ 31)
  simpa using h

theorem wrapInt32_congr (a b : ℤ) (h : a ≡ b [ZMOD 2 ^ 32]) : wrapInt32 a = wrapInt32 b := by
  unfold wrapInt32
  have h2 := h.add_right (2 ^ 31)
  unfold Int.ModEq at h2
  rw [h2]

/-- A product of three `int` values holds the product of the values, wrapped once. -/
theorem mulInt32_three (a b c : ℤ) : mulInt32 (mulInt32 a b) c = wrapInt32 (a * b * c) := by
  unfold mulInt32
  exact wrapInt32_congr _ _ ((wrapInt32_modEq (a * b)).mul_right c)

/-- A product of four `int` values holds the product of the values, wrapped once. -/
theorem mulInt32_four (a b c d : ℤ) :
    mulInt32 (mulInt32 (mulInt32 a b) c) d = wrapInt32 (a * b * c * d) := by
  unfold mulInt32
  refine wrapInt32_congr _ _ (Int.ModEq.mul_right d ?_)
  exact (wrapInt32_modEq _).trans ((wrapInt32_modEq (a * b)).mul_right c)

/-- The index of a cell in the cube, computed on `int` values, when the number of floats
of the table is an `int`. -/
theorem Machine_index_eq (rSize gSize bSize : ℤ) (idx : ℤ × ℤ × ℤ)
    (hin : Spi3D.inCube rSize gSize bSize idx) (hfit : rSize * gSize * bSize * 3 < 2 ^ 31) :
    Machine.GetLut3DIndex_RedFast idx.1 idx.2.1 idx.2.2 rSize gSize bSize
        = GetLut3DIndex_RedFast idx.1 idx.2.1 idx.2.2 rSize gSize bSize ∧
      0 ≤ GetLut3DIndex_RedFast idx.1 idx.2.1 idx.2.2 rSize gSize bSize ∧
      GetLut3DIndex_RedFast idx.1 idx.2.1 idx.2.2 rSize gSize bSize + 2
        < rSize * gSize * bSize * 3 := by
  obtain ⟨hc0, hc1⟩ := cell_lt rSize gSize bSize idx hin
  obtain ⟨r0, r1, g0, g1, b0, b1⟩ := hin
  have hr : 1 ≤ rSize := by omega
  have hg : 1 ≤ gSize := by omega
  have h1 : 0 ≤ gSize * idx.2.2 := mul_nonneg (by omega) b0
  have h2 : 0 ≤ idx.2.1 + gSize * idx.2.2 := by omega
  have h3 : idx.2.1 + gSize * idx.2.2 ≤ rSize * (idx.2.1 + gSize * idx.2.2) := by
    nlinarith
  have h4 : 0 ≤ rSize * (idx.2.1 + gSize * idx.2.2) := mul_nonneg (by omega) h2
  unfold Machine.GetLut3DIndex_RedFast GetLut3DIndex_RedFast mulInt32 addInt32
  rw [wrapInt32_of_fits (gSize * idx.2.2) (by omega) (by omega),
    wrapInt32_of_fits (idx.2.1 + gSize * idx.2.2) (by omega) (by omega),
    wrapInt32_of_fits (rSize * (idx.2.1 + gSize * idx.2.2)) (by omega) (by omega),
    wrapInt32_of_fits (idx.1 + rSize * (idx.2.1 + gSize * idx.2.2)) (by omega) (by omega),
    wrapInt32_of_fits (3 * (idx.1 + rSize * (idx.2.1 + gSize * idx.2.2))) (by omega)
      (by omega)]
  exact ⟨rfl, by omega, by omega⟩

/-- An assignment keeps the length of the vector. -/
theorem writeAt_length (lut lut2 : List ℚ) (i : ℤ) (x : ℚ) (h : writeAt lut i x = some lut2) :
    lut2.length = lut.length := by
  unfold writeAt at h
  split_ifs at h
  cases h
  simp

/-- The loop body keeps the length of the table and counts down by one at most. -/
theorem tableLine_length (S : Scanf) (fileName : String) (rSize gSize bSize : ℤ)
    (t t' : Spi3D.Table) (l : String)
    (h : Spi3D.tableLine S fileName rSize gSize bSize t l = some (Except.ok t')) :
    t'.lut.length = t.lut.length ∧
      (t'.entriesRemaining = t.entriesRemaining
        ∨ t'.entriesRemaining = t.entriesRemaining - 1) := by
  unfold Spi3D.tableLine at h
  cases hrow : S.sscanf_dddfff "%d %d %d %f %f %f" l with
  | none =>
    rw [hrow] at h
    cases h
    exact ⟨rfl, Or.inl rfl⟩
  | some row =>
    obtain ⟨⟨r, g, b⟩, ⟨x, y, z⟩⟩ := row
    rw [hrow] at h
    simp only at h
    split_ifs at h with h1 h2
    · cases h
    · cases h
    · cases w0 : writeAt t.lut (GetLut3DIndex_RedFast r g b rSize gSize bSize + 0) x with
      | none =>
        rw [w0] at h
        cases h
      | some lut0 =>
        rw [w0] at h
        simp only at h
        cases w1 : writeAt lut0 (GetLut3DIndex_RedFast r g b rSize gSize bSize + 1) y with
        | none =>
          rw [w1] at h
          cases h
        | some lut1 =>
          rw [w1] at h
          simp only at h
          cases w2 : writeAt lut1 (GetLut3DIndex_RedFast r g b rSize gSize bSize + 2) z with
          | none =>
            rw [w2] at h
            cases h
          | some lut2 =>
            rw [w2] at h
            cases h
            refine ⟨?_, Or.inr rfl⟩
            simp only
            rw [writeAt_length _ _ _ _ w2, writeAt_length _ _ _ _ w1, writeAt_length _ _ _ _ w0]

/-- The loop body with `int` arithmetic in 32 bits is the loop body over exact integers
when the number of floats of the table is an `int`. -/
theorem Machine_tableLine_eq (S : Scanf) (fileName : String) (rSize gSize bSize : ℤ)
    (t : Spi3D.Table) (l : String) (hfit : rSize * gSize * bSize * 3 < 2 ^ 31)
    (hlen : (t.lut.length : ℤ) < 2 ^ 31)
    (hrem : 0 < t.entriesRemaining ∧ t.entriesRemaining < 2 ^ 31) :
    Machine.Spi3D.tableLine S fileName rSize gSize bSize t l
      = Spi3D.tableLine S fileName rSize gSize bSize t l := by
  unfold Machine.Spi3D.tableLine Spi3D.tableLine
  cases hrow : S.sscanf_dddfff "%d %d %d %f %f %f" l with
  | none => rfl
  | some row =>
    obtain ⟨⟨r, g, b⟩, ⟨x, y, z⟩⟩ := row
    simp only
    by_cases hout : r < 0 ∨ r ≥ rSize ∨ g < 0 ∨ g ≥ gSize ∨ b < 0 ∨ b ≥ bSize
    · rw [if_pos hout, if_pos hout]
    · rw [if_neg hout, if_neg hout]
      have hin : Spi3D.inCube rSize gSize bSize (r, g, b) := by
        unfold Spi3D.inCube
        simp only
        omega
      obtain ⟨e1, e2, e3⟩ := Machine_index_eq rSize gSize bSize (r, g, b) hin hfit
      simp only at e1 e2 e3
      have hnn := Int.natCast_nonneg t.lut.length
      rw [e1, wrapInt32_of_fits (t.lut.length : ℤ) (by omega) hlen]
      unfold addInt32
      rw [wrapInt32_of_fits (GetLut3DIndex_RedFast r g b rSize gSize bSize + 0) (by omega)
          (by omega),
        wrapInt32_of_fits (GetLut3DIndex_RedFast r g b rSize gSize bSize + 1) (by omega)
          (by omega),
        wrapInt32_of_fits (GetLut3DIndex_RedFast r g b rSize gSize bSize + 2) (by omega)
          (by omega),
        wrapInt32_of_fits (t.entriesRemaining - 1) (by omega) (by omega)]

/-- The table loop with `int` arithmetic in 32 bits is the table loop over exact integers
when the number of floats of the table is an `int`. -/
theorem Machine_tableLoop_eq (S : Scanf) (fileName : String) (rSize gSize bSize : ℤ)
    (hfit : rSize * gSize * bSize * 3 < 2 ^ 31) (ls : List String) (last : String) :
    ∀ t : Spi3D.Table, (t.lut.length : ℤ) < 2 ^ 31 → t.entriesRemaining < 2 ^ 31 →
      Machine.Spi3D.tableLoop S fileName rSize gSize bSize ls last t
        = Spi3D.tableLoop S fileName rSize gSize bSize ls last t := by
  induction ls with
  | nil =>
    intro t hlen hrem
    unfold Machine.Spi3D.tableLoop Spi3D.tableLoop
    by_cases hpos : t.entriesRemaining > 0
    · rw [if_pos hpos, if_pos hpos]
      exact Machine_tableLine_eq S fileName rSize gSize bSize t last hfit hlen ⟨hpos, hrem⟩
    · rw [if_neg hpos, if_neg hpos]
  | cons l ls ih =>
    intro t hlen hrem
    unfold Machine.Spi3D.tableLoop Spi3D.tableLoop
    by_cases hpos : t.entriesRemaining > 0
    · rw [if_pos hpos, if_pos hpos,
        Machine_tableLine_eq S fileName rSize gSize bSize t l hfit hlen ⟨hpos, hrem⟩]
      cases hl : Spi3D.tableLine S fileName rSize gSize bSize t l with
      | none => rfl
      | some res =>
        cases res with
        | error e => rfl
        | ok t' =>
          obtain ⟨hl1, hl2⟩ := tableLine_length S fileName rSize gSize bSize t t' l hl
          simp only
          exact ih t' (by rw [hl1]; exact hlen) (by omega)
    · rw [if_neg hpos, if_neg hpos]

/-- The reader with `int` arithmetic in 32 bits is the reader over exact integers for a
text whose declared sizes are such that the number of floats of the table is an `int`. -/
theorem Machine_read_eq (S : Scanf) (create : Lut3D) (istream : IStream) (fileName : String)
    (hfit : Spi3D.SizesFit S istream) :
    Machine.Spi3D.read S create istream fileName = Spi3D.read S create istream fileName := by
  unfold Spi3D.SizesFit Spi3D.sizeLine at hfit
  unfold Machine.Spi3D.read Spi3D.read
  generalize istream.getline = p1 at hfit ⊢
  obtain ⟨line1, s1⟩ := p1
  simp only at hfit ⊢
  split
  · rfl
  · generalize s1.getline = p2 at hfit ⊢
    obtain ⟨line2, s2⟩ := p2
    simp only at hfit ⊢
    generalize s2.getline = p3 at hfit ⊢
    obtain ⟨line3, s3⟩ := p3
    simp only at hfit ⊢
    cases hsize : S.sscanf_ddd "%d %d %d" line3 with
    | none => rfl
    | some sizes =>
      obtain ⟨rSize, gSize, bSize⟩ := sizes
      obtain ⟨hf1, hf2⟩ := hfit rSize gSize bSize hsize
      simp only
      have e4 : mulInt32 (mulInt32 (mulInt32 rSize gSize) bSize) 3
          = rSize * gSize * bSize * 3 := by
        rw [mulInt32_four, wrapInt32_of_fits _ hf1 hf2]
      rw [e4]
      by_cases hneg : rSize * gSize * bSize * 3 < 0
      · rw [if_pos hneg, if_pos hneg]
      · rw [if_neg hneg, if_neg hneg]
        have e3 : mulInt32 (mulInt32 rSize gSize) bSize = rSize * gSize * bSize := by
          rw [mulInt32_three, wrapInt32_of_fits _ (by omega) (by omega)]
        rw [e3]
        have hlen : ((resizeVector create.lut (rSize * gSize * bSize * 3)).length : ℤ)
            < 2 ^ 31 := by
          rw [resizeVector_length, Int.toNat_of_nonneg (by omega)]
          exact hf2
        by_cases hg : s3.good = true
        · simp only [hg, if_true]
          have hrem : rSize * gSize * bSize < 2 ^ 31 := by omega
          have ht := Machine_tableLoop_eq S fileName rSize gSize bSize hf2 s3.lines s3.last
            { lut := resizeVector create.lut (rSize * gSize * bSize * 3)
              entriesRemaining := rSize * gSize * bSize } hlen hrem
          rw [ht]
        · simp only [hg, Bool.false_eq_true, if_false]

/-- The third line of a text with a header of three lines declares the sizes. -/
theorem sizeLine_of_lines (istream : IStream) (l1 l2 l3 : String) (body : List String)
    (hgood : istream.good = true) (hlines : istream.lines = l1 :: l2 :: l3 :: body) :
    Spi3D.sizeLine istream = l3 := by
  obtain ⟨g1, g2, g3⟩ := getline_three istream l1 l2 l3 body hgood hlines
  unfold Spi3D.sizeLine
  rw [g1]
  simp only
  rw [g2]
  simp only
  rw [g3]

/-- The reader over exact integers on a text in which, before the declared number of
entries has been read, a line holds a row outside of the cube. -/
theorem read_outside_row (S : Scanf) (create : Lut3D) (istream : IStream)
    (fileName : String) (l1 l2 l3 : String) (body : List String) (Nr Ng Nb : ℤ)
    (pre : List String) (l : String) (post : List String) (r g b : ℤ) (vals : ℚ × ℚ × ℚ)
    (hgood : istream.good = true) (hlines : istream.lines = l1 :: l2 :: l3 :: body)
    (hmagic : startswith (lower l1) "spilut" = true)
    (hsize : S.sscanf_ddd "%d %d %d" l3 = some (Nr, Ng, Nb))
    (hsplit : body ++ [istream.last] = pre ++ l :: post)
    (hbefore : ((Spi3D.rows S pre).length : ℤ) < Nr * Ng * Nb)
    (hrow : S.sscanf_dddfff "%d %d %d %f %f %f" l = some ((r, g, b), vals))
    (hout : r < 0 ∨ Nr ≤ r ∨ g < 0 ∨ Ng ≤ g ∨ b < 0 ∨ Nb ≤ b) :
    ∃ idx : ℤ × ℤ × ℤ,
      Spi3D.read S create istream fileName
        = some (Except.error (Spi3D.outsideMessage fileName idx.1 idx.2.1 idx.2.2)) ∧
      ((∀ row ∈ Spi3D.rows S pre, Spi3D.inCube Nr Ng Nb row.1) → idx = (r, g, b)) := by
  have hnn := Int.natCast_nonneg (Spi3D.rows S pre).length
  have hprod : 0 ≤ Nr * Ng * Nb := by omega
  have hnotin : ¬ Spi3D.inCube Nr Ng Nb ((r, g, b), vals).1 := by
    unfold Spi3D.inCube
    simp only
    omega
  obtain ⟨idx, hfold, hfirst⟩ := tableFold_outside S fileName Nr Ng Nb pre l post
    { lut := resizeVector create.lut (Nr * Ng * Nb * 3), entriesRemaining := Nr * Ng * Nb }
    ((r, g, b), vals)
    (by
      simp only [resizeVector_length]
      omega)
    hbefore hrow hnotin
  refine ⟨idx, ?_, hfirst⟩
  rw [read_of_sizes S create istream fileName l1 l2 l3 body Nr Ng Nb hgood hlines hmagic
    hsize hprod, hsplit, hfold]
/-! ## Claims on the bounds test of the `.spi3d` reader -/

/-- C19, counterexample to the claim as stated, with `int` arithmetic in 32 bits.  The
text that declares the sizes `65536 65536 1` holds the row `0 70000 0`, whose green index
is not below the green size; the product of the sizes wraps to 0, so no line of the table
is looked at and `read` returns an empty table without the error "falls outside of the
cube".  For the text that declares the sizes `2 715827883 1` the argument of `resize`
wraps to 2; the row `0 0 0` lies in the cube and its index 0 is below the size 2 of the
table, so the bounds test lets it through, and the assignment to `lut[index+2]` lies
outside the table. -/
theorem spi3d_size_product_wraps :
    exampleScanf.sscanf_ddd "%d %d %d" (Spi3D.sizeLine spi3dWrapZeroText)
      = some (65536, 65536, 1) ∧
    exampleScanf.sscanf_dddfff "%d %d %d %f %f %f" "0 70000 0 0.1 0.2 0.3"
      = some ((0, 70000, 0), (1 / 10, 2 / 10, 3 / 10)) ∧
    mulInt32 (mulInt32 65536 65536) 1 = 0 ∧
    (Machine.Spi3D.read exampleScanf exampleLut3D spi3dWrapZeroText "Memory File").map
        (Except.map (fun lut3d : Lut3D => (lut3d.size 0, lut3d.size 1, lut3d.size 2, lut3d.lut)))
      = some (Except.ok (65536, 65536, 1, [])) ∧
    exampleScanf.sscanf_ddd "%d %d %d" (Spi3D.sizeLine spi3dWrapText)
      = some (2, 715827883, 1) ∧
    exampleScanf.sscanf_dddfff "%d %d %d %f %f %f" "0 0 0 0.1 0.2 0.3"
      = some ((0, 0, 0), (1 / 10, 2 / 10, 3 / 10)) ∧
    mulInt32 (mulInt32 (mulInt32 2 715827883) 1) 3 = 2 ∧
    (Machine.Spi3D.read exampleScanf exampleLut3D spi3dWrapText "Memory File").map
        (Except.map (fun _ : Lut3D => ()))
      = none :=
  ⟨by decide!, by decide!, by decide!, by decide!, by decide!, by decide!, by decide!,
    by decide!⟩

/-- C19 (as amended), with `int` arithmetic in 32 bits: a text with a header of three
lines that declares sizes `Nr Ng Nb` with `Nr*Ng*Nb*3 < 2^31`, in which, before
`Nr*Ng*Nb` rows have been read, a line holds a row of six values whose index triple lies
outside of the cube: `read` fails with the message that an entry "falls outside of the
cube", naming the first such index triple (the one of that line when the rows before it
lie in the cube).  And for every text whose declared sizes are such that `Nr*Ng*Nb*3` is
an `int`, no assignment to the LUT array lies outside the array. -/
theorem spi3d_bounds_validation (S : Scanf) (create : Lut3D) (istream : IStream)
    (fileName : String) (l1 l2 l3 : String) (body : List String) (Nr Ng Nb : ℤ)
    (pre : List String) (l : String) (post : List String) (r g b : ℤ) (vals : ℚ × ℚ × ℚ)
    (hgood : istream.good = true) (hlines : istream.lines = l1 :: l2 :: l3 :: body)
    (hmagic : startswith (lower l1) "spilut" = true)
    (hsize : S.sscanf_ddd "%d %d %d" l3 = some (Nr, Ng, Nb))
    (hfit : Nr * Ng * Nb * 3 < 2 ^ 31)
    (hsplit : body ++ [istream.last] = pre ++ l :: post)
    (hbefore : ((Spi3D.rows S pre).length : ℤ) < Nr * Ng * Nb)
    (hrow : S.sscanf_dddfff "%d %d %d %f %f %f" l = some ((r, g, b), vals))
    (hout : r < 0 ∨ Nr ≤ r ∨ g < 0 ∨ Ng ≤ g ∨ b < 0 ∨ Nb ≤ b) :
    (∃ idx : ℤ × ℤ × ℤ,
      Machine.Spi3D.read S create istream fileName
        = some (Except.error (Spi3D.outsideMessage fileName idx.1 idx.2.1 idx.2.2)) ∧
      containsText (Spi3D.outsideMessage fileName idx.1 idx.2.1 idx.2.2)
        "falls outside of the cube" ∧
      ((∀ row ∈ Spi3D.rows S pre, Spi3D.inCube Nr Ng Nb row.1) → idx = (r, g, b))) ∧
    (∀ (S2 : Scanf) (create2 : Lut3D) (istream2 : IStream) (fileName2 : String),
      Spi3D.SizesFit S2 istream2 →
      Machine.Spi3D.read S2 create2 istream2 fileName2 ≠ none) := by
  refine ⟨?_, fun S2 create2 istream2 fileName2 hfit2 => ?_⟩
  · have hnn := Int.natCast_nonneg (Spi3D.rows S pre).length
    have hsizes : Spi3D.SizesFit S istream := by
      intro rSize gSize bSize hs
      rw [sizeLine_of_lines istream l1 l2 l3 body hgood hlines, hsize] at hs
      simp only [Option.some.injEq, Prod.mk.injEq] at hs
      obtain ⟨h1, h2, h3⟩ := hs
      subst h1 h2 h3
      exact ⟨by omega, hfit⟩
    obtain ⟨idx, hread, hfirst⟩ := read_outside_row S create istream fileName l1 l2 l3 body
      Nr Ng Nb pre l post r g b vals hgood hlines hmagic hsize hsplit hbefore hrow hout
    refine ⟨idx, ?_, ?_, hfirst⟩
    · rw [Machine_read_eq S create istream fileName hsizes, hread]
    · unfold containsText Spi3D.outsideMessage
      simp only [String.data_append]
      exact List.IsInfix.trans (by decide : "falls outside of the cube".data
          <:+: ") that falls outside of the cube.".data)
        (List.suffix_append _ _).isInfix
  · rw [Machine_read_eq S2 create2 istream2 fileName2 hfit2]
    exact read_defined S2 create2 istream2 fileName2

/-- C19, witness: in the text for a cube of 2 x 2 x 2 cells whose second row is
`0 2 0 0.0 0.0 0.9`, `read` fails with the message for the entry `0 2 0`. -/
theorem spi3d_bounds_validation_witness :
    ∃ idx : ℤ × ℤ × ℤ,
      Machine.Spi3D.read exampleScanf exampleLut3D spi3dOutsideText "Memory File"
        = some (Except.error (Spi3D.outsideMessage "Memory File" idx.1 idx.2.1 idx.2.2)) ∧
      containsText (Spi3D.outsideMessage "Memory File" idx.1 idx.2.1 idx.2.2)
        "falls outside of the cube" ∧
      ((∀ row ∈ Spi3D.rows exampleScanf ["0 0 0 0.0 0.0 0.0"], Spi3D.inCube 2 2 2 row.1) →
        idx = (0, 2, 0)) :=
  (spi3d_bounds_validation exampleScanf exampleLut3D spi3dOutsideText "Memory File"
    "SPILUT 1.0" "3 3" "2 2 2"
    ["0 0 0 0.0 0.0 0.0", "0 2 0 0.0 0.0 0.9", "0 1 0 0.0 0.7 0.0", "0 1 1 0.0 0.8 0.8",
      "1 0 0 0.7 0.0 0.1", "1 0 1 0.7 0.6 0.1", "1 1 0 0.6 0.7 0.1", "1 1 1 0.6 0.7 0.7"]
    2 2 2 ["0 0 0 0.0 0.0 0.0"] "0 2 0 0.0 0.0 0.9"
    ["0 1 0 0.0 0.7 0.0", "0 1 1 0.0 0.8 0.8", "1 0 0 0.7 0.0 0.1", "1 0 1 0.7 0.6 0.1",
      "1 1 0 0.6 0.7 0.1", "1 1 1 0.6 0.7 0.7", ""]
    0 2 0 (0, 0, 9 / 10) rfl rfl (by decide!) (by decide!) (by decide) rfl (by decide!)
    (by decide!) (by decide)).1
/-! ## Binary32 rounding -/

theorem quantumLoop_spec (fuel : ℕ) : ∀ (u a : ℚ), 0 < u →
    ∃ j : ℕ, j ≤ fuel ∧ Binary32.quantumLoop fuel u a = 2 ^ j * u ∧
      (j = fuel ∨ a < 2 ^ 24 * (2 ^ j * u)) ∧ (j = 0 ∨ 2 ^ 23 * (2 ^ j * u) ≤ a) := by
  induction fuel with
  | zero =>
    intro u a _
    exact ⟨0, le_refl _, by simp [Binary32.quantumLoop], Or.inl rfl, Or.inl rfl⟩
  | succ n ih =>
    intro u a hu
    unfold Binary32.quantumLoop
    by_cases h : a < 2 ^ 24 * u
    · rw [if_pos h]
      exact ⟨0, Nat.zero_le _, by simp, Or.inr (by simpa using h), Or.inl rfl⟩
    · rw [if_neg h]
      obtain ⟨j, hj, heq, hup, hlow⟩ := ih (2 * u) a (by positivity)
      have e : (2 : ℚ) ^ (j + 1) * u = 2 ^ j * (2 * u) := by ring
      refine ⟨j + 1, by omega, by rw [heq, e], ?_, Or.inr ?_⟩
      · rcases hup with hup | hup
        · left
          omega
        · right
          rw [e]
          exact hup
      · rw [e]
        rcases hlow with hlow | hlow
        · subst hlow
          have := not_lt.mp h
          simp only [pow_zero, one_mul]
          linarith
        · exact hlow

/-- The spacing at a magnitude: a power of two between `2^-149` and `2^104`, above the
magnitude divided by `2^24` unless it is the largest spacing, and at most the magnitude
divided by `2^23` unless it is the smallest spacing. -/
theorem quantum_spec (a : ℚ) :
    ∃ j : ℕ, j ≤ 253 ∧ Binary32.quantum a = 2 ^ j / 2 ^ 149 ∧
      (j = 253 ∨ a < 2 ^ 24 * Binary32.quantum a) ∧
      (j = 0 ∨ 2 ^ 23 * Binary32.quantum a ≤ a) := by
  obtain ⟨j, hj, heq, hup, hlow⟩ := quantumLoop_spec 253 (1 / 2 ^ 149) a (by positivity)
  have e : Binary32.quantum a = 2 ^ j * (1 / 2 ^ 149) := heq
  refine ⟨j, hj, by rw [e]; ring, ?_, ?_⟩
  · rw [e]
    exact hup
  · rw [e]
    exact hlow

theorem quantum_pos (a : ℚ) : 0 < Binary32.quantum a := by
  obtain ⟨j, -, heq, -, -⟩ := quantum_spec a
  rw [heq]
  positivity

theorem roundHalfEven_bounds (x : ℚ) :
    ⌊x⌋ ≤ Binary32.roundHalfEven x ∧ Binary32.roundHalfEven x ≤ ⌊x⌋ + 1 := by
  unfold Binary32.roundHalfEven
  split_ifs <;> constructor <;> omega

theorem roundHalfEven_intCast (z : ℤ) : Binary32.roundHalfEven (z : ℚ) = z := by
  unfold Binary32.roundHalfEven
  rw [Int.floor_intCast]
  simp

theorem roundHalfEven_nonneg (x : ℚ) (h : 0 ≤ x) : 0 ≤ Binary32.roundHalfEven x :=
  le_trans (Int.floor_nonneg.mpr h) (roundHalfEven_bounds x).1

/-- Rounding to an integer does not pass an integer above the number. -/
theorem roundHalfEven_le (x : ℚ) (n : ℤ) (h : x ≤ n) : Binary32.roundHalfEven x ≤ n := by
  rcases eq_or_lt_of_le h with h | h
  · rw [h, roundHalfEven_intCast]
  · have hf : ⌊x⌋ < n := Int.floor_lt.mpr h
    have := (roundHalfEven_bounds x).2
    omega

/-- Rounding to an integer does not pass an integer below the number. -/
theorem le_roundHalfEven (x : ℚ) (n : ℤ) (h : (n : ℚ) ≤ x) : n ≤ Binary32.roundHalfEven x :=
  le_trans (Int.le_floor.mpr h) (roundHalfEven_bounds x).1

theorem binary32_round_eq (q : ℚ) :
    Binary32.round q = if 2 ^ 128 ≤ Binary32.magnitude q then Binary32.inf (decide (q < 0))
      else Binary32.fin (if q < 0 then -Binary32.magnitude q else Binary32.magnitude q) :=
  rfl

theorem magnitude_nonneg (q : ℚ) : 0 ≤ Binary32.magnitude q := by
  unfold Binary32.magnitude
  have h1 : 0 ≤ |q| / Binary32.quantum |q| := div_nonneg (abs_nonneg q) (quantum_pos _).le
  have h2 := roundHalfEven_nonneg _ h1
  have h3 : (0 : ℚ) ≤ (Binary32.roundHalfEven (|q| / Binary32.quantum |q|) : ℚ) := by
    exact_mod_cast h2
  exact mul_nonneg h3 (quantum_pos _).le

/-- The rounded magnitude is an integer number of spacings, at most `2^24` of them below
the largest spacing. -/
theorem magnitude_cases (q : ℚ) :
    ∃ (z : ℤ) (j : ℕ), j ≤ 253 ∧ 0 ≤ z ∧ Binary32.quantum |q| = 2 ^ j / 2 ^ 149 ∧
      z = Binary32.roundHalfEven (|q| / Binary32.quantum |q|) ∧
      Binary32.magnitude q = z * (2 ^ j / 2 ^ 149) ∧ (j = 253 ∨ z ≤ 2 ^ 24) ∧
      (j = 0 ∨ 2 ^ 23 ≤ z) := by
  obtain ⟨j, hj, heq, hup, hlow⟩ := quantum_spec |q|
  have hu := quantum_pos |q|
  refine ⟨Binary32.roundHalfEven (|q| / Binary32.quantum |q|), j, hj,
    roundHalfEven_nonneg _ (div_nonneg (abs_nonneg q) hu.le), heq, rfl, ?_, ?_, ?_⟩
  · unfold Binary32.magnitude
    rw [heq]
  · rcases hup with hup | hup
    · exact Or.inl hup
    · right
      apply roundHalfEven_le
      rw [div_le_iff₀ hu]
      push_cast
      linarith
  · rcases hlow with hlow | hlow
    · exact Or.inl hlow
    · right
      apply le_roundHalfEven
      rw [le_div_iff₀ hu]
      push_cast
      linarith

theorem pow_div_le_103 (j : ℕ) (hj : j ≤ 252) : (2 : ℚ) ^ j / 2 ^ 149 ≤ 2 ^ 103 := by
  rw [div_le_iff₀ (by positivity)]
  calc (2 : ℚ) ^ j ≤ 2 ^ 252 := pow_le_pow_right₀ (by norm_num) hj
    _ = 2 ^ 103 * 2 ^ 149 := by norm_num

/-- A magnitude below `2^128` is at most the largest finite number. -/
theorem magnitude_le_of_lt (q : ℚ) (h : Binary32.magnitude q < 2 ^ 128) :
    Binary32.magnitude q ≤ Binary32.maxFinite := by
  obtain ⟨z, j, hj, hz0, hq, -, hmag, hup, -⟩ := magnitude_cases q
  rw [hmag] at h ⊢
  unfold Binary32.maxFinite
  by_cases hj2 : j = 253
  · subst hj2
    have e : (2 : ℚ) ^ 253 / 2 ^ 149 = 2 ^ 104 := by norm_num
    rw [e] at h ⊢
    have hz2 : (z : ℚ) < 2 ^ 24 := by
      by_contra hc
      have h1 : (2 : ℚ) ^ 24 ≤ z := not_lt.mp hc
      have h2 : (2 : ℚ) ^ 24 * 2 ^ 104 ≤ z * 2 ^ 104 :=
        mul_le_mul_of_nonneg_right h1 (by positivity)
      have h3 : (2 : ℚ) ^ 24 * 2 ^ 104 = 2 ^ 128 := by norm_num
      linarith
    have hz3 : z < 2 ^ 24 := by exact_mod_cast hz2
    have hz4 : z ≤ 2 ^ 24 - 1 := by omega
    have hz5 : (z : ℚ) ≤ 2 ^ 24 - 1 := by exact_mod_cast hz4
    calc (z : ℚ) * 2 ^ 104 ≤ (2 ^ 24 - 1) * 2 ^ 104 :=
          mul_le_mul_of_nonneg_right hz5 (by positivity)
      _ = 2 ^ 128 - 2 ^ 104 := by norm_num
  · have hz2 : z ≤ 2 ^ 24 := by
      rcases hup with hup | hup
      · exact absurd hup hj2
      · exact hup
    have hz3 : (z : ℚ) ≤ 2 ^ 24 := by exact_mod_cast hz2
    have hz4 : (0 : ℚ) ≤ z := by exact_mod_cast hz0
    calc (z : ℚ) * (2 ^ j / 2 ^ 149) ≤ 2 ^ 24 * 2 ^ 103 :=
          mul_le_mul hz3 (pow_div_le_103 j (by omega)) (by positivity) (by positivity)
      _ ≤ 2 ^ 128 - 2 ^ 104 := by norm_num

/-- A magnitude of at most the largest finite number does not overflow. -/
theorem magnitude_lt_of_le (q : ℚ) (h : |q| ≤ Binary32.maxFinite) :
    Binary32.magnitude q < 2 ^ 128 := by
  obtain ⟨z, j, hj, hz0, hq, hz, hmag, hup, -⟩ := magnitude_cases q
  rw [hmag]
  unfold Binary32.maxFinite at h
  by_cases hj2 : j = 253
  · subst hj2
    have e : (2 : ℚ) ^ 253 / 2 ^ 149 = 2 ^ 104 := by norm_num
    rw [e] at hq ⊢
    rw [hq] at hz
    have h1 : |q| / 2 ^ 104 ≤ ((16777215 : ℤ) : ℚ) := by
      rw [div_le_iff₀ (by positivity)]
      calc |q| ≤ 2 ^ 128 - 2 ^ 104 := h
        _ = ((16777215 : ℤ) : ℚ) * 2 ^ 104 := by norm_num
    have h2 := roundHalfEven_le _ _ h1
    rw [← hz] at h2
    have h3 : (z : ℚ) ≤ 16777215 := by exact_mod_cast h2
    calc (z : ℚ) * 2 ^ 104 ≤ 16777215 * 2 ^ 104 :=
          mul_le_mul_of_nonneg_right h3 (by positivity)
      _ < 2 ^ 128 := by norm_num
  · have hz2 : z ≤ 2 ^ 24 := by
      rcases hup with hup | hup
      · exact absurd hup hj2
      · exact hup
    have hz3 : (z : ℚ) ≤ 2 ^ 24 := by exact_mod_cast hz2
    calc (z : ℚ) * (2 ^ j / 2 ^ 149) ≤ 2 ^ 24 * 2 ^ 103 :=
          mul_le_mul hz3 (pow_div_le_103 j (by omega)) (by positivity) (by positivity)
      _ < 2 ^ 128 := by norm_num

/-- The outcomes of rounding: the infinity of the sign of the number, or a finite number
of its sign whose magnitude is at most the largest finite number. -/
theorem round_cases (q : ℚ) :
    Binary32.round q = Binary32.inf (decide (q < 0)) ∨
    ∃ t : ℚ, Binary32.round q = Binary32.fin t ∧ |t| ≤ Binary32.maxFinite ∧
      (0 ≤ q → 0 ≤ t) ∧ (q ≤ 0 → t ≤ 0) := by
  rw [binary32_round_eq]
  by_cases h : (2 : ℚ) ^ 128 ≤ Binary32.magnitude q
  · left
    rw [if_pos h]
  · right
    rw [if_neg h]
    have hm := magnitude_nonneg q
    have hle := magnitude_le_of_lt q (not_le.mp h)
    refine ⟨_, rfl, ?_, ?_, ?_⟩
    · split_ifs
      · rw [abs_neg, abs_of_nonneg hm]
        exact hle
      · rw [abs_of_nonneg hm]
        exact hle
    · intro hq
      rw [if_neg (not_lt.mpr hq)]
      exact hm
    · intro hq
      split_ifs with hneg
      · linarith
      · have : q = 0 := le_antisymm hq (not_lt.mp hneg)
        subst this
        unfold Binary32.magnitude
        simp [Binary32.roundHalfEven]

/-- A number whose magnitude is at most the largest finite number rounds to a finite
number. -/
theorem round_finite (q : ℚ) (h : |q| ≤ Binary32.maxFinite) :
    ∃ t : ℚ, Binary32.round q = Binary32.fin t ∧ |t| ≤ Binary32.maxFinite ∧
      (0 ≤ q → 0 ≤ t) ∧ (q ≤ 0 → t ≤ 0) := by
  rcases round_cases q with hinf | hfin
  · exfalso
    rw [binary32_round_eq, if_neg (not_le.mpr (magnitude_lt_of_le q h))] at hinf
    cases hinf
  · exact hfin

theorem binary32_round_zero : Binary32.round 0 = Binary32.fin 0 := by
  decide!

theorem binary32_round_one : Binary32.round 1 = Binary32.fin 1 := by
  decide!

/-- Rounding never gives NaN. -/
theorem round_ne_nan (q : ℚ) : Binary32.round q ≠ Binary32.nan := by
  rw [binary32_round_eq]
  split_ifs <;> simp

/-- A number that is an integer number of spacings of its magnitude, below `2^128`, is a
binary32 value. -/
theorem exact_of_grid (q : ℚ) (z : ℤ) (hz : |q| / Binary32.quantum |q| = z)
    (hlt : |q| < 2 ^ 128) : Binary32.Exact q := by
  have hu := quantum_pos |q|
  have hmag : Binary32.magnitude q = |q| := by
    unfold Binary32.magnitude
    rw [hz, roundHalfEven_intCast, ← hz]
    field_simp
  unfold Binary32.Exact
  rw [binary32_round_eq, hmag, if_neg (not_le.mpr hlt)]
  congr 1
  split_ifs with h
  · rw [abs_of_neg h]
    ring
  · rw [abs_of_nonneg (not_lt.mp h)]

/-- The natural numbers up to `2^24` are binary32 values. -/
theorem exact_natCast (n : ℕ) (h : n ≤ 2 ^ 24) : Binary32.Exact (n : ℚ) := by
  obtain ⟨j, hj, heq, hup, hlow⟩ := quantum_spec |(n : ℚ)|
  have hn0 : (0 : ℚ) ≤ n := Nat.cast_nonneg n
  have hnq : (n : ℚ) ≤ 2 ^ 24 := by exact_mod_cast h
  rw [abs_of_nonneg hn0] at heq hup hlow
  by_cases hj2 : j ≤ 149
  · apply exact_of_grid (n : ℚ) ((n * 2 ^ (149 - j) : ℕ) : ℤ)
    · rw [abs_of_nonneg hn0, heq]
      have e : (2 : ℚ) ^ 149 = 2 ^ j * 2 ^ (149 - j) := by
        rw [← pow_add]
        congr 1
        omega
      rw [e]
      push_cast
      field_simp
      ring
    · rw [abs_of_nonneg hn0]
      calc (n : ℚ) ≤ 2 ^ 24 := hnq
        _ < 2 ^ 128 := by norm_num
  · have hj3 : 150 ≤ j := by omega
    have hlow2 : 2 ^ 23 * Binary32.quantum (n : ℚ) ≤ n := by
      rcases hlow with hlow | hlow
      · omega
      · exact hlow
    have hq2 : (2 : ℚ) ≤ Binary32.quantum (n : ℚ) := by
      rw [heq, le_div_iff₀ (by positivity)]
      calc (2 : ℚ) * 2 ^ 149 = 2 ^ 150 := by norm_num
        _ ≤ 2 ^ j := pow_le_pow_right₀ (by norm_num) hj3
    have hn24 : (n : ℚ) = 2 ^ 24 := by
      apply le_antisymm hnq
      calc (2 : ℚ) ^ 24 = 2 ^ 23 * 2 := by norm_num
        _ ≤ 2 ^ 23 * Binary32.quantum (n : ℚ) :=
          mul_le_mul_of_nonneg_left hq2 (by positivity)
        _ ≤ n := hlow2
    have hq3 : Binary32.quantum (n : ℚ) = 2 := by
      apply le_antisymm _ hq2
      have : 2 ^ 23 * Binary32.quantum (n : ℚ) ≤ 2 ^ 23 * 2 := by
        calc 2 ^ 23 * Binary32.quantum (n : ℚ) ≤ n := hlow2
          _ = 2 ^ 23 * 2 := by rw [hn24]; norm_num
      exact le_of_mul_le_mul_left this (by positivity)
    apply exact_of_grid (n : ℚ) ((2 ^ 23 : ℕ) : ℤ)
    · rw [abs_of_nonneg hn0, hq3, hn24]
      norm_num
    · rw [abs_of_nonneg hn0, hn24]
      norm_num

/-- The conversion of an index up to `2^24` to `float` is exact. -/
theorem ofInt_natCast (n : ℕ) (h : n ≤ 2 ^ 24) :
    Binary32.ofInt ((n : ℕ) : ℤ) = Binary32.fin (n : ℚ) := by
  unfold Binary32.ofInt
  have := exact_natCast n h
  unfold Binary32.Exact at this
  simpa using this

/-- A binary32 value is a multiple of the smallest spacing `2^-149`. -/
theorem exact_multiple (s : ℚ) (h : Binary32.Exact s) : ∃ z : ℤ, s = z / 2 ^ 149 := by
  unfold Binary32.Exact at h
  rw [binary32_round_eq] at h
  obtain ⟨z, j, -, -, -, -, hmag, -, -⟩ := magnitude_cases s
  split_ifs at h with h1 h2
  · have e : -Binary32.magnitude s = s := Binary32.fin.inj h
    refine ⟨-(z * 2 ^ j), ?_⟩
    rw [← e, hmag]
    push_cast
    ring
  · have e : Binary32.magnitude s = s := Binary32.fin.inj h
    refine ⟨z * 2 ^ j, ?_⟩
    rw [← e, hmag]
    push_cast
    ring

/-- A number of a magnitude of at least the smallest spacing does not round to zero. -/
theorem magnitude_pos (q : ℚ) (h : 1 / 2 ^ 149 ≤ |q|) : 0 < Binary32.magnitude q := by
  obtain ⟨z, j, hj, hz0, hq, hz, hmag, -, hlow⟩ := magnitude_cases q
  have hu := quantum_pos |q|
  rw [hmag]
  have hz1 : 1 ≤ z := by
    rcases hlow with hlow | hlow
    · subst hlow
      rw [hz]
      apply le_roundHalfEven
      rw [hq, le_div_iff₀ (by positivity)]
      push_cast
      calc (1 : ℚ) * (2 ^ 0 / 2 ^ 149) = 1 / 2 ^ 149 := by norm_num
        _ ≤ |q| := h
    · have : (1 : ℤ) ≤ 2 ^ 23 := by norm_num
      omega
  have hz2 : (0 : ℚ) < z := by exact_mod_cast hz1
  positivity

/-- The difference of two distinct binary32 values does not round to zero: it is an
infinity or a finite number of the sign of the difference, other than zero. -/
theorem round_sub_pos (a b : ℚ) (ha : Binary32.Exact a) (hb : Binary32.Exact b) (hlt : a < b) :
    Binary32.round (b - a) = Binary32.inf false ∨
    ∃ d : ℚ, Binary32.round (b - a) = Binary32.fin d ∧ 0 < d ∧ |d| ≤ Binary32.maxFinite := by
  obtain ⟨za, hza⟩ := exact_multiple a ha
  obtain ⟨zb, hzb⟩ := exact_multiple b hb
  have hpos : 0 < b - a := by linarith
  have hz : za < zb := by
    have : (za : ℚ) / 2 ^ 149 < zb / 2 ^ 149 := by rw [← hza, ← hzb]; exact hlt
    have h2 := (div_lt_div_iff_of_pos_right (by positivity : (0 : ℚ) < 2 ^ 149)).mp this
    exact_mod_cast h2
  have hge : 1 / 2 ^ 149 ≤ |b - a| := by
    rw [abs_of_pos hpos, hza, hzb, ← sub_div]
    apply (div_le_div_iff_of_pos_right (by positivity : (0 : ℚ) < 2 ^ 149)).mpr
    have : zb - za ≥ 1 := by omega
    have h2 : ((1 : ℤ) : ℚ) ≤ ((zb - za : ℤ) : ℚ) := by exact_mod_cast this
    push_cast at h2
    exact h2
  have hm := magnitude_pos (b - a) hge
  rw [binary32_round_eq]
  have hnn : ¬ b - a < 0 := not_lt.mpr hpos.le
  by_cases h : (2 : ℚ) ^ 128 ≤ Binary32.magnitude (b - a)
  · left
    rw [if_pos h]
    simp [hnn]
  · right
    rw [if_neg h, if_neg hnn]
    refine ⟨_, rfl, hm, ?_⟩
    rw [abs_of_pos hm]
    exact magnitude_le_of_lt _ (not_le.mp h)
/-! ## The kernels in binary32 arithmetic: clamping and the pixel loop -/

theorem Machine_sizeMinusOne_eq (v : List ℚ) (h1 : 1 ≤ v.length) (h2 : v.length ≤ 2 ^ 24 + 1) :
    Machine.sizeMinusOne v = Binary32.fin ((v.length - 1 : ℕ) : ℚ) := by
  unfold Machine.sizeMinusOne
  rw [if_neg (by omega)]
  exact ofInt_natCast (v.length - 1) (by omega)

theorem toInt_fin (q : ℚ) :
    Binary32.toInt (Binary32.fin q)
      = if -2 ^ 31 ≤ static_cast_int q ∧ static_cast_int q < 2 ^ 31 then
          some (static_cast_int q)
        else none :=
  rfl

theorem roundf_fin (q : ℚ) :
    Binary32.roundf (Binary32.fin q) = Binary32.fin (Lut1DOp.roundf q) :=
  rfl

theorem floor_fin (q : ℚ) : Binary32.floor (Binary32.fin q) = Binary32.fin ((⌊q⌋ : ℤ) : ℚ) :=
  rfl

theorem ceil_fin (q : ℚ) : Binary32.ceil (Binary32.fin q) = Binary32.fin ((⌈q⌉ : ℤ) : ℚ) :=
  rfl

theorem toInt_intCast (z : ℤ) (h1 : -2 ^ 31 ≤ z) (h2 : z < 2 ^ 31) :
    Binary32.toInt (Binary32.fin (z : ℚ)) = some z := by
  rw [toInt_fin, static_cast_int_intCast, if_pos ⟨h1, h2⟩]

theorem min_fin (q m : ℚ) :
    Binary32.min (Binary32.fin q) (Binary32.fin m) = Binary32.fin (min q m) := by
  unfold Binary32.min Binary32.lt
  by_cases h : m < q
  · simp [h, min_eq_right h.le]
  · simp [h, min_eq_left (not_lt.mp h)]

theorem max_fin (q m : ℚ) :
    Binary32.max (Binary32.fin q) (Binary32.fin m) = Binary32.fin (max q m) := by
  unfold Binary32.max Binary32.lt
  by_cases h : q < m
  · simp [h, max_eq_right h.le]
  · simp [h, max_eq_left (not_lt.mp h)]

/-- The clamp of a finite index, for a table of at most `2^24 + 1` samples: the exact
clamp. -/
theorem Machine_clamp_fin (q : ℚ) (n : ℕ) (hn : n ≤ 2 ^ 24) :
    Machine.clamp (Binary32.fin q) (Binary32.fin 0) (Binary32.fin (n : ℚ))
      = some (clamp q 0 (n : ℚ)) := by
  have hb := round_clamp_bounds q (n : ℤ) (Int.natCast_nonneg n)
  have hc : ((n : ℤ) : ℚ) = (n : ℚ) := by push_cast; rfl
  rw [hc] at hb
  unfold Machine.clamp
  rw [min_fin, max_fin, roundf_fin, roundf_of_nonneg (le_max_right _ _), clamp_eq_round]
  exact toInt_intCast _ (by omega) (by omega)

theorem Machine_clamp_inf (s : Bool) (n : ℕ) (hn : n ≤ 2 ^ 24) :
    Machine.clamp (Binary32.inf s) (Binary32.fin 0) (Binary32.fin (n : ℚ))
      = some (if s then 0 else (n : ℤ)) := by
  have hn0 : (0 : ℚ) ≤ n := Nat.cast_nonneg n
  cases s with
  | true =>
    have e : Machine.clamp (Binary32.inf true) (Binary32.fin 0) (Binary32.fin (n : ℚ))
        = Binary32.toInt (Binary32.fin (Lut1DOp.roundf 0)) := by
      unfold Machine.clamp Binary32.min Binary32.max Binary32.lt
      simp [Binary32.roundf]
    rw [e, roundf_of_nonneg le_rfl]
    simp only [binary32_round_zero, Bool.true_eq_false, if_true]
    have := toInt_intCast 0 (by norm_num) (by norm_num)
    simpa using this
  | false =>
    have e : Machine.clamp (Binary32.inf false) (Binary32.fin 0) (Binary32.fin (n : ℚ))
        = Binary32.toInt (Binary32.fin (Lut1DOp.roundf (n : ℚ))) := by
      unfold Machine.clamp Binary32.min Binary32.max Binary32.lt
      have h0 : ¬ (n : ℚ) < 0 := not_lt.mpr hn0
      simp [Binary32.roundf, h0]
    rw [e, roundf_of_nonneg hn0]
    have hr : (round (n : ℚ) : ℤ) = (n : ℤ) := by
      have : ((n : ℤ) : ℚ) = (n : ℚ) := by push_cast; rfl
      rw [← this, round_intCast]
    rw [hr]
    simp only [Bool.false_eq_true, if_false]
    have := toInt_intCast (n : ℤ) (by omega) (by omega)
    simpa using this

/-- The clamp of an index that is not NaN is defined and lies in the table. -/
theorem Machine_clamp_defined (k : Binary32) (n : ℕ) (hk : k ≠ Binary32.nan)
    (hn : n ≤ 2 ^ 24) :
    ∃ z : ℤ, Machine.clamp k (Binary32.fin 0) (Binary32.fin (n : ℚ)) = some z ∧ 0 ≤ z ∧
      z ≤ n := by
  cases k with
  | nan => exact absurd rfl hk
  | inf s =>
    refine ⟨_, Machine_clamp_inf s n hn, ?_, ?_⟩
    · split_ifs <;> omega
    · split_ifs <;> omega
  | fin q =>
    have hb := round_clamp_bounds q (n : ℤ) (Int.natCast_nonneg n)
    have hc : ((n : ℤ) : ℚ) = (n : ℚ) := by push_cast; rfl
    rw [hc, ← clamp_eq_round] at hb
    exact ⟨_, Machine_clamp_fin q n hn, hb.1, hb.2⟩

theorem floor_ne_nan (k : Binary32) (hk : k ≠ Binary32.nan) :
    Binary32.floor k ≠ Binary32.nan := by
  cases k <;> simp [Binary32.floor] at hk ⊢

theorem ceil_ne_nan (k : Binary32) (hk : k ≠ Binary32.nan) :
    Binary32.ceil k ≠ Binary32.nan := by
  cases k <;> simp [Binary32.ceil] at hk ⊢

/-- The nearest lookup at an index that is not NaN reads inside the table. -/
theorem Machine_lookupNearest_defined (index : Binary32) (lut : List ℚ)
    (hN1 : 1 ≤ lut.length) (hN2 : lut.length ≤ 2 ^ 24 + 1) (hk : index ≠ Binary32.nan) :
    ∃ (z : ℤ) (s : ℚ),
      Machine.clamp index (Binary32.fin 0) (Machine.sizeMinusOne lut) = some z ∧ 0 ≤ z ∧
      z < lut.length ∧ lut[z.toNat]? = some s ∧
      Machine.lookupNearest_1D index (Machine.sizeMinusOne lut) lut = some (Binary32.fin s) := by
  rw [Machine_sizeMinusOne_eq lut hN1 hN2]
  obtain ⟨z, hz, h0, h1⟩ := Machine_clamp_defined index (lut.length - 1) hk (by omega)
  have hlt : z.toNat < lut.length := by omega
  refine ⟨z, lut[z.toNat], hz, h0, by omega, List.getElem?_eq_getElem hlt, ?_⟩
  unfold Machine.lookupNearest_1D
  rw [hz]
  simp only
  rw [(readAt_of_lt lut z h0 (by omega)).1, List.getElem?_eq_getElem hlt]
  rfl

/-- The linear lookup at an index that is not NaN reads inside the table. -/
theorem Machine_lookupLinear_defined (index : Binary32) (lut : List ℚ)
    (hN1 : 1 ≤ lut.length) (hN2 : lut.length ≤ 2 ^ 24 + 1) (hk : index ≠ Binary32.nan) :
    ∃ (indexLow indexHigh : ℤ) (lo hi : ℚ),
      Machine.clamp (Binary32.floor index) (Binary32.fin 0) (Machine.sizeMinusOne lut)
        = some indexLow ∧
      Machine.clamp (Binary32.ceil index) (Binary32.fin 0) (Machine.sizeMinusOne lut)
        = some indexHigh ∧
      0 ≤ indexLow ∧ indexLow < lut.length ∧ 0 ≤ indexHigh ∧ indexHigh < lut.length ∧
      lut[indexLow.toNat]? = some lo ∧ lut[indexHigh.toNat]? = some hi ∧
      Machine.lookupLinear_1D index (Machine.sizeMinusOne lut) lut
        = some (Binary32.add (Binary32.fin lo)
            (Binary32.mul (Binary32.sub index (Binary32.ofInt indexLow))
              (Binary32.sub (Binary32.fin hi) (Binary32.fin lo)))) := by
  rw [Machine_sizeMinusOne_eq lut hN1 hN2]
  obtain ⟨zl, hzl, hl0, hl1⟩ := Machine_clamp_defined (Binary32.floor index) (lut.length - 1)
    (floor_ne_nan index hk) (by omega)
  obtain ⟨zh, hzh, hh0, hh1⟩ := Machine_clamp_defined (Binary32.ceil index) (lut.length - 1)
    (ceil_ne_nan index hk) (by omega)
  have hltl : zl.toNat < lut.length := by omega
  have hlth : zh.toNat < lut.length := by omega
  refine ⟨zl, zh, lut[zl.toNat], lut[zh.toNat], hzl, hzh, hl0, by omega, hh0, by omega,
    List.getElem?_eq_getElem hltl, List.getElem?_eq_getElem hlth, ?_⟩
  unfold Machine.lookupLinear_1D
  rw [hzl, hzh]
  simp only
  rw [(readAt_of_lt lut zl hl0 (by omega)).1, (readAt_of_lt lut zh hh0 (by omega)).1,
    List.getElem?_eq_getElem hltl, List.getElem?_eq_getElem hlth]

/-! ## The pixel loop over binary32 values -/

theorem Machine_pixelLoop_succ {f0 f1 f2 : Binary32 → Option Binary32} {n : ℕ}
    {buf out : List Binary32} (h : Machine.pixelLoop f0 f1 f2 (n + 1) buf = some out) :
    ∃ r g b a rest r' g' b' rest', buf = r :: g :: b :: a :: rest ∧
      Machine.applyChannel f0 r = some r' ∧ Machine.applyChannel f1 g = some g' ∧
      Machine.applyChannel f2 b = some b' ∧ Machine.pixelLoop f0 f1 f2 n rest = some rest' ∧
      out = r' :: g' :: b' :: a :: rest' := by
  match buf, h with
  | r :: g :: b :: a :: rest, h =>
    simp only [Machine.pixelLoop] at h
    cases h0 : Machine.applyChannel f0 r with
    | none => simp [h0] at h
    | some r' =>
      cases h1 : Machine.applyChannel f1 g with
      | none => simp [h0, h1] at h
      | some g' =>
        cases h2 : Machine.applyChannel f2 b with
        | none => simp [h0, h1, h2] at h
        | some b' =>
          cases h3 : Machine.pixelLoop f0 f1 f2 n rest with
          | none => simp [h0, h1, h2, h3] at h
          | some rest' =>
            simp only [h0, h1, h2, h3, Option.some.injEq] at h
            exact ⟨r, g, b, a, rest, r', g', b', rest', rfl, h0, h1, h2, h3, h.symm⟩
  | [], h => simp [Machine.pixelLoop] at h
  | [_], h => simp [Machine.pixelLoop] at h
  | [_, _], h => simp [Machine.pixelLoop] at h
  | [_, _, _], h => simp [Machine.pixelLoop] at h

theorem Machine_pixelLoop_get {f0 f1 f2 : Binary32 → Option Binary32} :
    ∀ (n : ℕ) (buf out : List Binary32), Machine.pixelLoop f0 f1 f2 n buf = some out →
      ∀ p, p < n →
        out[4 * p]? = (buf[4 * p]?).bind (Machine.applyChannel f0) ∧
        out[4 * p + 1]? = (buf[4 * p + 1]?).bind (Machine.applyChannel f1) ∧
        out[4 * p + 2]? = (buf[4 * p + 2]?).bind (Machine.applyChannel f2) ∧
        out[4 * p + 3]? = buf[4 * p + 3]?
  | 0, _, _, _ => by intro p hp; omega
  | n + 1, buf, out, h => by
    obtain ⟨r, g, b, a, rest, r', g', b', rest', rfl, h0, h1, h2, hrest, rfl⟩ :=
      Machine_pixelLoop_succ h
    intro p hp
    cases p with
    | zero => simp [h0, h1, h2]
    | succ q =>
      have ih := Machine_pixelLoop_get n rest rest' hrest q (by omega)
      have e0 : 4 * (q + 1) = 4 * q + 4 := by ring
      have e1 : 4 * q + 4 + 1 = 4 * q + 1 + 4 := by ring
      have e2 : 4 * q + 4 + 2 = 4 * q + 2 + 4 := by ring
      have e3 : 4 * q + 4 + 3 = 4 * q + 3 + 4 := by ring
      rw [e0, e1, e2, e3]
      simp only [getElem?_cons4]
      exact ih

/-- What a successful run of the pixel loop leaves at channel `c` of pixel `p`. -/
theorem Machine_pixelLoop_channel {f : Fin 3 → Binary32 → Option Binary32} {n : ℕ}
    {buf out : List Binary32}
    (h : Machine.pixelLoop (f 0) (f 1) (f 2) n buf = some out) {p : ℕ} (hp : p < n)
    (c : Fin 3) :
    out[4 * p + c.val]? = (buf[4 * p + c.val]?).bind (Machine.applyChannel (f c)) := by
  obtain ⟨h0, h1, h2, -⟩ := Machine_pixelLoop_get n buf out h p hp
  fin_cases c
  · simpa using h0
  · simpa using h1
  · simpa using h2

/-- The pixel loop returns when the channel functions are defined at the values of the
three channels of the pixels it runs over that are not NaN. -/
theorem Machine_pixelLoop_total {f : Fin 3 → Binary32 → Option Binary32} :
    ∀ (n : ℕ) (buf : List Binary32), 4 * n ≤ buf.length →
      (∀ (q : ℕ) (c : Fin 3) (y : Binary32), q < n → buf[4 * q + c.val]? = some y →
        y ≠ Binary32.nan → (f c y).isSome) →
      ∃ out, Machine.pixelLoop (f 0) (f 1) (f 2) n buf = some out
  | 0, buf, _, _ => ⟨buf, rfl⟩
  | n + 1, buf, hlen, hf => by
    match buf, hlen, hf with
    | r :: g :: b :: a :: rest, hlen, hf =>
      obtain ⟨rest', hrest⟩ := Machine_pixelLoop_total n rest
        (by simp only [List.length_cons] at hlen; omega)
        (fun q c y hq hy hn => hf (q + 1) c y (by omega)
          (by
            have e : 4 * (q + 1) + c.val = 4 * q + c.val + 4 := by ring
            rw [e, getElem?_cons4]
            exact hy) hn)
      have a0 : ∀ (c : Fin 3) (v : Binary32),
          (v ≠ Binary32.nan → (f c v).isSome) → ∃ w, Machine.applyChannel (f c) v = some w := by
        intro c v hv
        unfold Machine.applyChannel
        cases v with
        | nan => exact ⟨Binary32.nan, rfl⟩
        | inf s =>
          obtain ⟨y, hy⟩ := Option.isSome_iff_exists.mp (hv (by simp))
          exact ⟨y, by simp [Machine.IsNan, hy]⟩
        | fin x =>
          obtain ⟨y, hy⟩ := Option.isSome_iff_exists.mp (hv (by simp))
          exact ⟨y, by simp [Machine.IsNan, hy]⟩
      obtain ⟨r', hr⟩ := a0 0 r (hf 0 0 r (by omega) (by simp))
      obtain ⟨g', hg⟩ := a0 1 g (hf 0 1 g (by omega) (by simp))
      obtain ⟨b', hb⟩ := a0 2 b (hf 0 2 b (by omega) (by simp))
      exact ⟨r' :: g' :: b' :: a :: rest', by simp [Machine.pixelLoop, hr, hg, hb, hrest]⟩
    | [], hlen, _ =>
      exfalso; simp only [List.length_cons, List.length_nil] at hlen; omega
    | [_], hlen, _ =>
      exfalso; simp only [List.length_cons, List.length_nil] at hlen; omega
    | [_, _], hlen, _ =>
      exfalso; simp only [List.length_cons, List.length_nil] at hlen; omega
    | [_, _, _], hlen, _ =>
      exfalso; simp only [List.length_cons, List.length_nil] at hlen; omega
/-! ## The forward kernels in binary32 arithmetic -/

/-- The test `Machine.indicesDefined` decides the condition on the indices. -/
theorem indicesDefined_spec (lut : Lut1D) (rgbaBuffer : List Binary32) (numPixels : ℤ)
    (h : Machine.indicesDefined lut rgbaBuffer numPixels.toNat = true) :
    ∀ (q : ℕ) (i : Fin 3) (y : Binary32), (q : ℤ) < numPixels →
      rgbaBuffer[4 * q + i.val]? = some y → y ≠ Binary32.nan →
      Machine.index lut i y ≠ Binary32.nan := by
  intro q i y hq hy hn
  unfold Machine.indicesDefined at h
  rw [List.all_eq_true] at h
  have h1 := h q (List.mem_range.mpr (by omega))
  rw [List.all_eq_true] at h1
  have h2 := h1 i (List.mem_finRange i)
  rw [hy] at h2
  simp only [Bool.or_eq_true, Bool.not_eq_true'] at h2
  rcases h2 with h2 | h2
  · cases y <;> simp [Machine.IsNan] at h2 hn
  · intro hc
    rw [hc] at h2
    simp [Machine.IsNan] at h2

/-- An index is not NaN when the factor of the set-up and the difference `x - b` are
finite. -/
theorem Machine_index_ne_nan (lut : Lut1D) (i : Fin 3) (x : Binary32) (m d : ℚ)
    (hm : Machine.mInv_x_maxIndex lut i = Binary32.fin m)
    (hd : Binary32.sub x (Binary32.fin (lut.from_min i)) = Binary32.fin d) :
    Machine.index lut i x ≠ Binary32.nan := by
  unfold Machine.index
  simp only [hm, hd]
  exact round_ne_nan (m * d)

/-- A channel function of the forward kernels is defined at a value whose index is not
NaN. -/
theorem Machine_forward_defined (lut : Lut1D) (i : Fin 3) (x : Binary32)
    (hN1 : 1 ≤ (lut.luts i).length) (hN2 : (lut.luts i).length ≤ 2 ^ 24 + 1)
    (hk : Machine.index lut i x ≠ Binary32.nan) :
    (Machine.Lut1D_Nearest_channel lut i x).isSome ∧
      (Machine.Lut1D_Linear_channel lut i x).isSome := by
  obtain ⟨z, s, -, -, -, -, h1⟩ := Machine_lookupNearest_defined _ (lut.luts i) hN1 hN2 hk
  obtain ⟨zl, zh, lo, hi, -, -, -, -, -, -, -, -, h2⟩ :=
    Machine_lookupLinear_defined _ (lut.luts i) hN1 hN2 hk
  unfold Machine.Lut1D_Nearest_channel Machine.Lut1D_Linear_channel
  rw [h1, h2]
  exact ⟨rfl, rfl⟩

/-- The forward kernels return when no index is NaN. -/
theorem Machine_forward_total (lut : Lut1D) (rgbaBuffer : List Binary32) (numPixels : ℤ)
    (hN : ∀ i, 1 ≤ (lut.luts i).length ∧ (lut.luts i).length ≤ 2 ^ 24 + 1)
    (hbuf : 4 * numPixels.toNat ≤ rgbaBuffer.length)
    (hidx : ∀ (q : ℕ) (i : Fin 3) (y : Binary32), (q : ℤ) < numPixels →
      rgbaBuffer[4 * q + i.val]? = some y → y ≠ Binary32.nan →
      Machine.index lut i y ≠ Binary32.nan) :
    (∃ out, Machine.Lut1D_Nearest rgbaBuffer numPixels lut = some out) ∧
      ∃ out, Machine.Lut1D_Linear rgbaBuffer numPixels lut = some out := by
  constructor
  · exact Machine_pixelLoop_total (f := Machine.Lut1D_Nearest_channel lut) numPixels.toNat
      rgbaBuffer hbuf (fun q c y hq hy hn =>
        (Machine_forward_defined lut c y (hN c).1 (hN c).2
          (hidx q c y (by omega) hy hn)).1)
  · exact Machine_pixelLoop_total (f := Machine.Lut1D_Linear_channel lut) numPixels.toNat
      rgbaBuffer hbuf (fun q c y hq hy hn =>
        (Machine_forward_defined lut c y (hN c).1 (hN c).2
          (hidx q c y (by omega) hy hn)).2)

theorem Machine_applyChannel_of_ne_nan (f : Binary32 → Option Binary32) (x : Binary32)
    (hx : x ≠ Binary32.nan) : Machine.applyChannel f x = f x := by
  unfold Machine.applyChannel
  cases x with
  | nan => exact absurd rfl hx
  | inf s => rfl
  | fin q => rfl
/-! ## Claims on the forward kernels in binary32 arithmetic -/

/-- C39, counterexample to the claim as stated, in binary32 arithmetic.  The LUT
`wideLut` has three samples per channel and the domain `[-2^127, 2^127]`; for the finite
input `2^127` both `from_max - from_min` and `x - from_min` overflow to infinity, the
factor of the set-up is `1/inf * 2 = 0`, and the index `0 * inf` is NaN.  NaN passes
`std::min`, `std::max` and `roundf`, and its conversion to `int` has no defined result, so
neither kernel has a defined read.  And the conversion `(float)(size - 1)` of a channel of
`2^24 + 4` samples is `2^24 + 4`, the size itself, so a large index is clamped to one past
the last sample. -/
theorem forward_kernel_index_undefined_on_wide_domain :
    wideLut.IsBinary32 ∧ (∀ i, wideLut.from_min i ≠ wideLut.from_max i) ∧
    Binary32.Exact (2 ^ 127) ∧
    Binary32.sub (Binary32.fin (wideLut.from_max 0)) (Binary32.fin (wideLut.from_min 0))
      = Binary32.inf false ∧
    Machine.mInv_x_maxIndex wideLut 0 = Binary32.fin 0 ∧
    Machine.index wideLut 0 (Binary32.fin (2 ^ 127)) = Binary32.nan ∧
    Machine.clamp Binary32.nan (Binary32.fin 0) (Machine.sizeMinusOne (wideLut.luts 0))
      = none ∧
    Machine.Lut1D_Nearest
        [Binary32.fin (2 ^ 127), Binary32.fin 0, Binary32.fin 0, Binary32.fin 1] 1 wideLut
      = none ∧
    Machine.Lut1D_Linear
        [Binary32.fin (2 ^ 127), Binary32.fin 0, Binary32.fin 0, Binary32.fin 1] 1 wideLut
      = none ∧
    Binary32.ofInt (2 ^ 24 + 3) = Binary32.fin (2 ^ 24 + 4) ∧
    Machine.clamp (Binary32.inf false) (Binary32.fin 0) (Binary32.ofInt (2 ^ 24 + 3))
      = some (2 ^ 24 + 4) :=
  ⟨by decide!, by decide!, by decide!, by decide!, by decide!, by decide!, by decide!,
    by decide!, by decide!, by decide!, by decide!⟩

/-- C39 (as amended), in binary32 arithmetic: for every Lut1D with `1 ≤ N ≤ 2^24 + 1`
samples per channel and a buffer in which every channel value of the pixels run over that
is not NaN has an index `mInv_x_maxIndex * (x - b)` that is not NaN (as it is whenever the
factor `mInv_x_maxIndex` and the difference `x - b` are finite), and for every such channel
value `x`: the rounded clamped index of `Lut1D_Nearest` and the clamped floor and the
clamped ceiling of `Lut1D_Linear` are defined and lie in `[0, N-1]`, and both kernels
return, so no lookup reads outside the sample array. -/
theorem forward_kernel_indices_in_table (lut : Lut1D) (rgbaBuffer : List Binary32)
    (numPixels : ℤ) (p : ℕ) (c : Fin 3) (x : Binary32)
    (hN : ∀ i, 1 ≤ (lut.luts i).length ∧ (lut.luts i).length ≤ 2 ^ 24 + 1)
    (hbuf : 4 * numPixels.toNat ≤ rgbaBuffer.length) (hp : (p : ℤ) < numPixels)
    (hidx : ∀ (q : ℕ) (i : Fin 3) (y : Binary32), (q : ℤ) < numPixels →
      rgbaBuffer[4 * q + i.val]? = some y → y ≠ Binary32.nan →
      Machine.index lut i y ≠ Binary32.nan)
    (hx : rgbaBuffer[4 * p + c.val]? = some x) (hxn : x ≠ Binary32.nan) :
    (∃ k : ℤ,
      Machine.clamp (Machine.index lut c x) (Binary32.fin 0)
          (Machine.sizeMinusOne (lut.luts c)) = some k ∧
      0 ≤ k ∧ k ≤ ((lut.luts c).length : ℤ) - 1) ∧
    (∃ indexLow indexHigh : ℤ,
      Machine.clamp (Binary32.floor (Machine.index lut c x)) (Binary32.fin 0)
          (Machine.sizeMinusOne (lut.luts c)) = some indexLow ∧
      Machine.clamp (Binary32.ceil (Machine.index lut c x)) (Binary32.fin 0)
          (Machine.sizeMinusOne (lut.luts c)) = some indexHigh ∧
      0 ≤ indexLow ∧ indexLow ≤ ((lut.luts c).length : ℤ) - 1 ∧
      0 ≤ indexHigh ∧ indexHigh ≤ ((lut.luts c).length : ℤ) - 1) ∧
    (∃ out, Machine.Lut1D_Nearest rgbaBuffer numPixels lut = some out) ∧
    (∃ out, Machine.Lut1D_Linear rgbaBuffer numPixels lut = some out) ∧
    (∀ (i : Fin 3) (y : Binary32) (m d : ℚ),
      Machine.mInv_x_maxIndex lut i = Binary32.fin m →
      Binary32.sub y (Binary32.fin (lut.from_min i)) = Binary32.fin d →
      Machine.index lut i y ≠ Binary32.nan) := by
  have hk := hidx p c x hp hx hxn
  obtain ⟨z, s, hz, hz0, hz1, -, -⟩ :=
    Machine_lookupNearest_defined _ (lut.luts c) (hN c).1 (hN c).2 hk
  obtain ⟨zl, zh, lo, hi, hzl, hzh, hl0, hl1, hh0, hh1, -, -, -⟩ :=
    Machine_lookupLinear_defined _ (lut.luts c) (hN c).1 (hN c).2 hk
  obtain ⟨t1, t2⟩ := Machine_forward_total lut rgbaBuffer numPixels hN hbuf hidx
  exact ⟨⟨z, hz, hz0, by omega⟩, ⟨zl, zh, hzl, hzh, hl0, by omega, hh0, by omega⟩, t1, t2,
    fun i y m d hm hd => Machine_index_ne_nan lut i y m d hm hd⟩

/-- C39, witness: the three-sample LUT `y = x + 1/8` over the domain `[0, 1]` and the
value `10.125` above its domain: the index is 20.25, and the three clamped indices are 2,
the last index. -/
theorem forward_kernel_indices_in_table_witness :
    (∃ k : ℤ,
      Machine.clamp (Machine.index eighthLut 0 (Binary32.fin (81 / 8))) (Binary32.fin 0)
          (Machine.sizeMinusOne (eighthLut.luts 0)) = some k ∧
      0 ≤ k ∧ k ≤ ((eighthLut.luts 0).length : ℤ) - 1) ∧
    (∃ out, Machine.Lut1D_Nearest
      [Binary32.fin (81 / 8), Binary32.nan, Binary32.inf true, Binary32.fin 0] 1 eighthLut
        = some out) ∧
    (∃ out, Machine.Lut1D_Linear
      [Binary32.fin (81 / 8), Binary32.nan, Binary32.inf true, Binary32.fin 0] 1 eighthLut
        = some out) :=
  ⟨(forward_kernel_indices_in_table eighthLut
      [Binary32.fin (81 / 8), Binary32.nan, Binary32.inf true, Binary32.fin 0] 1 0 0
      (Binary32.fin (81 / 8)) (by decide) (by decide) (by decide)
      (indicesDefined_spec _ _ _ (by decide!)) (by rfl) (by simp)).1,
    (forward_kernel_indices_in_table eighthLut
      [Binary32.fin (81 / 8), Binary32.nan, Binary32.inf true, Binary32.fin 0] 1 0 0
      (Binary32.fin (81 / 8)) (by decide) (by decide) (by decide)
      (indicesDefined_spec _ _ _ (by decide!)) (by rfl) (by simp)).2.2.1,
    (forward_kernel_indices_in_table eighthLut
      [Binary32.fin (81 / 8), Binary32.nan, Binary32.inf true, Binary32.fin 0] 1 0 0
      (Binary32.fin (81 / 8)) (by decide) (by decide) (by decide)
      (indicesDefined_spec _ _ _ (by decide!)) (by rfl) (by simp)).2.2.2.1⟩
/-! ## The values of the forward kernels in binary32 arithmetic -/

theorem round_fin_bound {q t : ℚ} (h : Binary32.round q = Binary32.fin t) :
    |t| ≤ Binary32.maxFinite ∧ (0 ≤ q → 0 ≤ t) ∧ (q ≤ 0 → t ≤ 0) := by
  rcases round_cases q with hinf | ⟨u, hu, hb⟩
  · rw [hinf] at h
    cases h
  · rw [hu] at h
    cases h
    exact hb

theorem round_of_exact {q : ℚ} (h : Binary32.Exact q) : Binary32.round q = Binary32.fin q :=
  h

/-- A finite product is the rounded product of two finite factors. -/
theorem mul_fin_inv {a b : Binary32} {t : ℚ} (h : Binary32.mul a b = Binary32.fin t) :
    ∃ x y : ℚ, a = Binary32.fin x ∧ b = Binary32.fin y ∧
      Binary32.round (x * y) = Binary32.fin t := by
  cases a with
  | nan => simp [Binary32.mul] at h
  | inf s =>
    cases b with
    | nan => simp [Binary32.mul] at h
    | inf u => simp [Binary32.mul] at h
    | fin y =>
      simp only [Binary32.mul] at h
      split_ifs at h
  | fin x =>
    cases b with
    | nan => simp [Binary32.mul] at h
    | inf u =>
      simp only [Binary32.mul] at h
      split_ifs at h
    | fin y => exact ⟨x, y, rfl, rfl, h⟩

/-- A finite difference from a finite number is the rounded difference of two finite
numbers. -/
theorem sub_fin_inv {a : Binary32} {y t : ℚ}
    (h : Binary32.sub a (Binary32.fin y) = Binary32.fin t) :
    ∃ x : ℚ, a = Binary32.fin x ∧ Binary32.round (x - y) = Binary32.fin t := by
  cases a with
  | nan => simp [Binary32.sub] at h
  | inf s => simp [Binary32.sub] at h
  | fin x => exact ⟨x, rfl, h⟩

/-- A finite index is the rounded product of a finite factor and a finite difference, and
its magnitude is at most the largest finite number. -/
theorem Machine_index_fin_inv {lut : Lut1D} {i : Fin 3} {x : Binary32} {t : ℚ}
    (h : Machine.index lut i x = Binary32.fin t) :
    |t| ≤ Binary32.maxFinite ∧
    ∃ m d xq : ℚ, Machine.mInv_x_maxIndex lut i = Binary32.fin m ∧ x = Binary32.fin xq ∧
      Binary32.round (xq - lut.from_min i) = Binary32.fin d ∧
      Binary32.round (m * d) = Binary32.fin t := by
  unfold Machine.index at h
  obtain ⟨m, d, hm, hd, hr⟩ := mul_fin_inv h
  obtain ⟨xq, hx, hxr⟩ := sub_fin_inv hd
  exact ⟨(round_fin_bound hr).1, m, d, xq, hm, hx, hxr, hr⟩

/-- The factor of the set-up is not negative when it is finite, for a domain with
`from_min < from_max`. -/
theorem Machine_factor_nonneg (lut : Lut1D) (i : Fin 3)
    (hlt : lut.from_min i < lut.from_max i)
    (hN1 : 1 ≤ (lut.luts i).length) (hN2 : (lut.luts i).length ≤ 2 ^ 24 + 1) (m : ℚ)
    (hm : Machine.mInv_x_maxIndex lut i = Binary32.fin m) : 0 ≤ m := by
  unfold Machine.mInv_x_maxIndex at hm
  rw [Machine_sizeMinusOne_eq _ hN1 hN2] at hm
  obtain ⟨a, n, ha, hn, hr⟩ := mul_fin_inv hm
  cases hn
  have hn0 : (0 : ℚ) ≤ (((lut.luts i).length - 1 : ℕ) : ℚ) := Nat.cast_nonneg _
  have ha0 : 0 ≤ a := by
    have hw : Binary32.sub (Binary32.fin (lut.from_max i)) (Binary32.fin (lut.from_min i))
        = Binary32.round (lut.from_max i - lut.from_min i) := rfl
    rw [hw] at ha
    rcases round_cases (lut.from_max i - lut.from_min i) with hinf | ⟨w, hw2, -, hw0, -⟩
    · rw [hinf] at ha
      simp only [Binary32.div] at ha
      cases ha
      exact le_rfl
    · rw [hw2] at ha
      have hw1 : 0 ≤ w := hw0 (by linarith)
      simp only [Binary32.div] at ha
      split_ifs at ha with h0 h1
      exact (round_fin_bound ha).2.1 (by positivity)
  exact (round_fin_bound hr).2.1 (mul_nonneg ha0 hn0)

/-- A finite index of a value at or below `from_min` is not positive. -/
theorem Machine_index_nonpos (lut : Lut1D) (i : Fin 3) (xq t : ℚ)
    (hlt : lut.from_min i < lut.from_max i)
    (hN1 : 1 ≤ (lut.luts i).length) (hN2 : (lut.luts i).length ≤ 2 ^ 24 + 1)
    (hx : xq ≤ lut.from_min i)
    (ht : Machine.index lut i (Binary32.fin xq) = Binary32.fin t) : t ≤ 0 := by
  obtain ⟨-, m, d, x2, hm, hx2, hd, hr⟩ := Machine_index_fin_inv ht
  cases hx2
  have hm0 := Machine_factor_nonneg lut i hlt hN1 hN2 m hm
  have hd0 : d ≤ 0 := (round_fin_bound hd).2.2 (by linarith)
  exact (round_fin_bound hr).2.2 (mul_nonpos_of_nonneg_of_nonpos hm0 hd0)

/-- When no operation of the index computation rounds, the index is the normalized
index. -/
theorem Machine_index_exact (lut : Lut1D) (i : Fin 3) (xq : ℚ)
    (hN1 : 1 ≤ (lut.luts i).length) (hN2 : (lut.luts i).length ≤ 2 ^ 24 + 1)
    (hne : lut.from_min i ≠ lut.from_max i)
    (hops : ∀ q ∈ Machine.indexOps lut i xq, Binary32.Exact q) :
    Machine.index lut i (Binary32.fin xq) = Binary32.fin (normalizedIndex lut i xq) := by
  unfold Machine.indexOps at hops
  simp only [List.mem_cons, List.mem_singleton, List.not_mem_nil, or_false,
    forall_eq_or_imp, forall_eq] at hops
  obtain ⟨h1, h2, h3, h4, h5⟩ := hops
  have hw0 : lut.from_max i - lut.from_min i ≠ 0 := fun h => hne (by linarith)
  unfold Machine.index Machine.mInv_x_maxIndex
  rw [Machine_sizeMinusOne_eq _ hN1 hN2]
  have e1 : Binary32.sub (Binary32.fin (lut.from_max i)) (Binary32.fin (lut.from_min i))
      = Binary32.fin (lut.from_max i - lut.from_min i) := h1
  have e2 : Binary32.div (Binary32.fin 1) (Binary32.fin (lut.from_max i - lut.from_min i))
      = Binary32.fin (1 / (lut.from_max i - lut.from_min i)) := by
    simp only [Binary32.div]
    rw [if_neg hw0]
    exact h2
  have e3 : Binary32.mul (Binary32.fin (1 / (lut.from_max i - lut.from_min i)))
      (Binary32.fin (((lut.luts i).length - 1 : ℕ) : ℚ))
      = Binary32.fin (1 / (lut.from_max i - lut.from_min i)
          * (((lut.luts i).length - 1 : ℕ) : ℚ)) := h3
  have e4 : Binary32.sub (Binary32.fin xq) (Binary32.fin (lut.from_min i))
      = Binary32.fin (xq - lut.from_min i) := h4
  have e5 : Binary32.mul (Binary32.fin (1 / (lut.from_max i - lut.from_min i)
          * (((lut.luts i).length - 1 : ℕ) : ℚ))) (Binary32.fin (xq - lut.from_min i))
      = Binary32.fin (1 / (lut.from_max i - lut.from_min i)
          * (((lut.luts i).length - 1 : ℕ) : ℚ) * (xq - lut.from_min i)) := h5
  simp only [e1, e2, e3, e4, e5]
  congr 1
  unfold normalizedIndex
  rw [Nat.cast_sub hN1]
  field_simp
  ring

/-- The argument of the conversion in `clamp` for an index that is not NaN: a finite
number between 0 and the last index. -/
theorem Machine_clamp_argument (k : Binary32) (n : ℕ) (hk : k ≠ Binary32.nan) :
    ∃ y : ℚ, Binary32.max (Binary32.min k (Binary32.fin (n : ℚ))) (Binary32.fin 0)
        = Binary32.fin y ∧ 0 ≤ y ∧ y ≤ n ∧
      ∀ q : ℚ, k = Binary32.fin q → y = max (min q (n : ℚ)) 0 := by
  have hn0 : (0 : ℚ) ≤ n := Nat.cast_nonneg n
  cases k with
  | nan => exact absurd rfl hk
  | inf s =>
    cases s with
    | true =>
      refine ⟨0, ?_, le_rfl, hn0, fun q hq => by cases hq⟩
      unfold Binary32.min Binary32.max Binary32.lt
      simp
    | false =>
      refine ⟨n, ?_, hn0, le_rfl, fun q hq => by cases hq⟩
      unfold Binary32.min Binary32.max Binary32.lt
      have h0 : ¬ (n : ℚ) < 0 := not_lt.mpr hn0
      simp [h0]
  | fin q =>
    refine ⟨max (min q (n : ℚ)) 0, by rw [min_fin, max_fin], le_max_right _ _, ?_,
      fun q2 hq => by cases hq; rfl⟩
    exact max_le (min_le_right _ _) hn0

/-- The result of `clamp` in terms of the argument of its conversion: the nearest integer,
halfway cases up. -/
theorem Machine_clamp_of_argument (k maxVal : Binary32) (y : ℚ)
    (h : Binary32.max (Binary32.min k maxVal) (Binary32.fin 0) = Binary32.fin y)
    (h0 : 0 ≤ y) (h1 : y ≤ 2 ^ 24) :
    Machine.clamp k (Binary32.fin 0) maxVal = some (round y) := by
  unfold Machine.clamp
  rw [h, roundf_fin, roundf_of_nonneg h0]
  have hr0 : 0 ≤ round y := by
    rw [round_eq]
    exact Int.floor_nonneg.mpr (by linarith)
  have hr1 : round y ≤ 2 ^ 24 := by
    rw [round_eq]
    have : ⌊y + 1 / 2⌋ < 2 ^ 24 + 1 := by
      rw [Int.floor_lt]
      push_cast
      linarith
    omega
  exact toInt_intCast _ (by omega) (by omega)

/-- The linear lookup at a finite index whose clamped floor and clamped ceiling coincide
returns the sample at that index, for binary32 samples. -/
theorem Machine_lookupLinear_coincide (t : ℚ) (lut : List ℚ)
    (hN1 : 1 ≤ lut.length) (hN2 : lut.length ≤ 2 ^ 24 + 1)
    (hex : ∀ s ∈ lut, Binary32.Exact s) (htM : |t| ≤ Binary32.maxFinite) (k : ℤ)
    (hlo : Machine.clamp (Binary32.floor (Binary32.fin t)) (Binary32.fin 0)
      (Machine.sizeMinusOne lut) = some k)
    (hhi : Machine.clamp (Binary32.ceil (Binary32.fin t)) (Binary32.fin 0)
      (Machine.sizeMinusOne lut) = some k) :
    ∃ s : ℚ, lut[k.toNat]? = some s ∧ 0 ≤ k ∧ k < lut.length ∧
      Machine.lookupLinear_1D (Binary32.fin t) (Machine.sizeMinusOne lut) lut
        = some (Binary32.fin s) := by
  obtain ⟨zl, zh, lo, hi, hzl, hzh, hl0, hl1, -, -, hlo2, hhi2, hval⟩ :=
    Machine_lookupLinear_defined (Binary32.fin t) lut hN1 hN2 (by simp)
  have ezl : zl = k := Option.some.inj (hzl.symm.trans hlo)
  have ezh : zh = k := Option.some.inj (hzh.symm.trans hhi)
  rw [ezl] at hl0 hl1 hlo2 hval
  rw [ezh] at hhi2
  have elo : lo = hi := Option.some.inj (hlo2.symm.trans hhi2)
  rw [elo] at hlo2 hval
  refine ⟨hi, hlo2, hl0, hl1, ?_⟩
  rw [hval]
  -- the bound on the fraction
  have hc : ((( lut.length - 1 : ℕ) : ℤ) : ℚ) = ((lut.length - 1 : ℕ) : ℚ) := by
    push_cast
    rfl
  have kf := hlo
  have kc := hhi
  rw [Machine_sizeMinusOne_eq lut hN1 hN2, floor_fin,
    Machine_clamp_fin _ _ (by omega), ← hc, clamp_intCast] at kf
  rw [Machine_sizeMinusOne_eq lut hN1 hN2, ceil_fin,
    Machine_clamp_fin _ _ (by omega), ← hc, clamp_intCast] at kc
  have kf2 := Option.some.inj kf
  have kc2 := Option.some.inj kc
  have hfl : ((⌊t⌋ : ℤ) : ℚ) ≤ t := Int.floor_le t
  have hce : t ≤ ((⌈t⌉ : ℤ) : ℚ) := Int.le_ceil t
  have hbound : |t - (k : ℚ)| ≤ |t| := by
    rcases le_or_lt t 0 with ht0 | ht0
    · have hf0 : ⌊t⌋ ≤ 0 := by
        have : ((⌊t⌋ : ℤ) : ℚ) ≤ ((0 : ℤ) : ℚ) := by push_cast; linarith
        exact_mod_cast this
      have : k = 0 := by omega
      rw [this]
      simp
    · have hc1 : 1 ≤ ⌈t⌉ := Int.one_le_ceil_iff.mpr ht0
      have hf1 : 0 ≤ ⌊t⌋ := Int.floor_nonneg.mpr ht0.le
      rcases le_or_lt (((lut.length - 1 : ℕ) : ℤ) : ℚ) t with htn | htn
      · have hfn : ((lut.length - 1 : ℕ) : ℤ) ≤ ⌊t⌋ := Int.le_floor.mpr htn
        have hk : k = ((lut.length - 1 : ℕ) : ℤ) := by omega
        have hk0 : (0 : ℚ) ≤ (k : ℚ) := by exact_mod_cast hl0
        rw [abs_of_nonneg (by rw [hk]; linarith), abs_of_pos ht0]
        linarith
      · have hcn : ⌈t⌉ ≤ ((lut.length - 1 : ℕ) : ℤ) := Int.ceil_le.mpr htn.le
        have hfn : ⌊t⌋ ≤ ((lut.length - 1 : ℕ) : ℤ) := (Int.floor_le_ceil t).trans hcn
        have e1 : k = ⌊t⌋ := by omega
        have e2 : k = ⌈t⌉ := by omega
        have : t = (k : ℚ) := le_antisymm (by rw [e2]; exact hce) (by rw [e1]; exact hfl)
        rw [← this]
        simp
  have hof : Binary32.ofInt k = Binary32.fin (k : ℚ) := by
    have h := ofInt_natCast k.toNat (by omega)
    rw [Int.toNat_of_nonneg hl0] at h
    rw [h]
    congr 1
    have : ((k.toNat : ℤ) : ℚ) = (k : ℚ) := by rw [Int.toNat_of_nonneg hl0]
    rw [← this]
    push_cast
    rfl
  rw [hof]
  obtain ⟨d, hd, -, -, -⟩ := round_finite (t - (k : ℚ)) (hbound.trans htM)
  have e1 : Binary32.sub (Binary32.fin t) (Binary32.fin (k : ℚ)) = Binary32.fin d := hd
  have e2 : Binary32.sub (Binary32.fin hi) (Binary32.fin hi) = Binary32.fin 0 := by
    show Binary32.round (hi - hi) = _
    rw [sub_self, binary32_round_zero]
  have e3 : Binary32.mul (Binary32.fin d) (Binary32.fin 0) = Binary32.fin 0 := by
    show Binary32.round (d * 0) = _
    rw [mul_zero, binary32_round_zero]
  have e4 : Binary32.add (Binary32.fin hi) (Binary32.fin 0) = Binary32.fin hi := by
    show Binary32.round (hi + 0) = _
    rw [add_zero]
    exact hex hi (List.mem_iff_getElem?.mpr ⟨_, hlo2⟩)
  rw [e1, e2, e3, e4]
/-! ## Claims on the values of the forward kernels in binary32 arithmetic -/

/-- C3, counterexample to the claim as stated, in binary32 arithmetic.  The LUT `fourLut`
has the samples `0, 1, 2, 3` over the domain `[0, 1]`.  For the binary32 input
`x = 13981013/2^24` (the `float` nearest 5/6) the normalized index is
`3x = 41943039/2^24 < 5/2`, whose nearest integer is 2; the kernel computes the index in
binary32, where the product rounds to `5/2` exactly, `roundf` rounds the halfway case up,
and sample 3 is returned.  And on the LUT `wideLut` with the domain `[-2^127, 2^127]` the
index of the finite input `2^127` is NaN, for which the conversion to `int` has no defined
result. -/
theorem Lut1D_Nearest_rounds_the_computed_index :
    fourLut.IsBinary32 ∧ Binary32.Exact (13981013 / 2 ^ 24) ∧
    (∀ i, fourLut.from_min i < fourLut.from_max i) ∧
    normalizedIndex fourLut 0 (13981013 / 2 ^ 24) = 41943039 / 2 ^ 24 ∧
    clamp (normalizedIndex fourLut 0 (13981013 / 2 ^ 24)) 0 3 = 2 ∧
    (fourLut.luts 0)[2]? = some 2 ∧
    Machine.index fourLut 0 (Binary32.fin (13981013 / 2 ^ 24)) = Binary32.fin (5 / 2) ∧
    Machine.Lut1D_Nearest
        [Binary32.fin (13981013 / 2 ^ 24), Binary32.fin 0, Binary32.fin 0, Binary32.fin 1]
        1 fourLut
      = some [Binary32.fin 3, Binary32.fin 0, Binary32.fin 0, Binary32.fin 1] ∧
    wideLut.IsBinary32 ∧ (∀ i, wideLut.from_min i < wideLut.from_max i) ∧
    Machine.Lut1D_Nearest
        [Binary32.fin (2 ^ 127), Binary32.fin 0, Binary32.fin 0, Binary32.fin 1] 1 wideLut
      = none :=
  ⟨by decide!, by decide!, by decide!, by decide!, by decide!, by decide!, by decide!,
    by decide!, by decide!, by decide!, by decide!⟩

/-- C3 (as amended), in binary32 arithmetic: for every Lut1D with `1 ≤ N ≤ 2^24 + 1`
samples per channel and a buffer in which every channel value of the pixels run over that
is not NaN has an index that is not NaN, `Lut1D_Nearest` returns, and it replaces a channel
value `x` that is not NaN by `luts[c][k]`, where `k` is the index the kernel computes in
binary32, `mInv_x_maxIndex * (x - b)`, first clamped to `[0, N-1]` by `std::min` and
`std::max` (to the number `y`) and then rounded to the nearest integer with ties rounded
up; the computed index is the normalized index `t` whenever none of the five operations
that compute it rounds. -/
theorem Lut1D_Nearest_selects_rounded_clamped_index (lut : Lut1D)
    (rgbaBuffer : List Binary32) (numPixels : ℤ) (p : ℕ) (c : Fin 3) (x : Binary32)
    (hN : ∀ i, 1 ≤ (lut.luts i).length ∧ (lut.luts i).length ≤ 2 ^ 24 + 1)
    (hbuf : 4 * numPixels.toNat ≤ rgbaBuffer.length) (hp : (p : ℤ) < numPixels)
    (hidx : ∀ (q : ℕ) (i : Fin 3) (y : Binary32), (q : ℤ) < numPixels →
      rgbaBuffer[4 * q + i.val]? = some y → y ≠ Binary32.nan →
      Machine.index lut i y ≠ Binary32.nan)
    (hx : rgbaBuffer[4 * p + c.val]? = some x) (hxn : x ≠ Binary32.nan) :
    (∃ (out : List Binary32) (k : ℤ) (s y : ℚ),
      Machine.Lut1D_Nearest rgbaBuffer numPixels lut = some out ∧
      Binary32.max (Binary32.min (Machine.index lut c x)
          (Machine.sizeMinusOne (lut.luts c))) (Binary32.fin 0) = Binary32.fin y ∧
      0 ≤ y ∧ y ≤ ((lut.luts c).length : ℚ) - 1 ∧
      (∀ t : ℚ, Machine.index lut c x = Binary32.fin t →
        y = max (min t (((lut.luts c).length : ℚ) - 1)) 0) ∧
      (k : ℚ) - 1 / 2 ≤ y ∧ y < (k : ℚ) + 1 / 2 ∧
      0 ≤ k ∧ k ≤ ((lut.luts c).length : ℤ) - 1 ∧
      (lut.luts c)[k.toNat]? = some s ∧
      out[4 * p + c.val]? = some (Binary32.fin s)) ∧
    (∀ xq : ℚ, x = Binary32.fin xq → lut.from_min c ≠ lut.from_max c →
      (∀ q ∈ Machine.indexOps lut c xq, Binary32.Exact q) →
      Machine.index lut c x = Binary32.fin (normalizedIndex lut c xq)) := by
  have hk := hidx p c x hp hx hxn
  obtain ⟨⟨out, hout⟩, -⟩ := Machine_forward_total lut rgbaBuffer numPixels hN hbuf hidx
  obtain ⟨z, s, hz, hz0, hz1, hs, hval⟩ :=
    Machine_lookupNearest_defined _ (lut.luts c) (hN c).1 (hN c).2 hk
  have hsz := Machine_sizeMinusOne_eq (lut.luts c) (hN c).1 (hN c).2
  obtain ⟨y, hy, hy0, hy1, hyt⟩ :=
    Machine_clamp_argument (Machine.index lut c x) ((lut.luts c).length - 1) hk
  have hcast : (((lut.luts c).length - 1 : ℕ) : ℚ) = ((lut.luts c).length : ℚ) - 1 := by
    rw [Nat.cast_sub (hN c).1]
    simp
  have h24 : (((lut.luts c).length - 1 : ℕ) : ℚ) ≤ 2 ^ 24 := by
    have : (lut.luts c).length - 1 ≤ 2 ^ 24 := by have := (hN c).2; omega
    exact_mod_cast this
  have hz2 := Machine_clamp_of_argument (Machine.index lut c x)
    (Binary32.fin (((lut.luts c).length - 1 : ℕ) : ℚ)) y hy hy0 (hy1.trans h24)
  rw [hsz] at hz
  have ez : z = round y := Option.some.inj (hz.symm.trans hz2)
  have hch := Machine_pixelLoop_channel (f := Machine.Lut1D_Nearest_channel lut) hout
    (p := p) (by omega) c
  rw [hx, Option.some_bind, Machine_applyChannel_of_ne_nan _ _ hxn] at hch
  refine ⟨⟨out, z, s, y, hout, ?_, hy0, ?_, ?_, ?_, ?_, hz0, by omega, hs, ?_⟩, ?_⟩
  · rw [hsz]
    exact hy
  · rw [← hcast]
    exact hy1
  · intro t ht
    rw [← hcast]
    exact hyt t ht
  · rw [ez, round_eq]
    have := Int.floor_le (y + 1 / 2)
    linarith
  · rw [ez, round_eq]
    have := Int.lt_floor_add_one (y + 1 / 2)
    linarith
  · rw [hch]
    exact hval
  · intro xq hxq hne hops
    rw [hxq]
    exact Machine_index_exact lut c xq (hN c).1 (hN c).2 hne hops

/-- C3, witness: on the four-sample LUT `0, 1, 2, 3` over `[0, 1]` the value `1/2` has the
index `3/2`, a tie, and is replaced by sample 2; no operation of its index rounds. -/
theorem Lut1D_Nearest_selects_rounded_clamped_index_witness :
    (∃ (out : List Binary32) (k : ℤ) (s y : ℚ),
      Machine.Lut1D_Nearest
          [Binary32.fin (1 / 2), Binary32.nan, Binary32.inf false, Binary32.fin 1] 1 fourLut
        = some out ∧
      Binary32.max (Binary32.min (Machine.index fourLut 0 (Binary32.fin (1 / 2)))
          (Machine.sizeMinusOne (fourLut.luts 0))) (Binary32.fin 0) = Binary32.fin y ∧
      0 ≤ y ∧ y ≤ ((fourLut.luts 0).length : ℚ) - 1 ∧
      (∀ t : ℚ, Machine.index fourLut 0 (Binary32.fin (1 / 2)) = Binary32.fin t →
        y = max (min t (((fourLut.luts 0).length : ℚ) - 1)) 0) ∧
      (k : ℚ) - 1 / 2 ≤ y ∧ y < (k : ℚ) + 1 / 2 ∧
      0 ≤ k ∧ k ≤ ((fourLut.luts 0).length : ℤ) - 1 ∧
      (fourLut.luts 0)[k.toNat]? = some s ∧
      out[4 * 0 + (0 : Fin 3).val]? = some (Binary32.fin s)) ∧
    Machine.index fourLut 0 (Binary32.fin (1 / 2))
      = Binary32.fin (normalizedIndex fourLut 0 (1 / 2)) ∧
    Machine.Lut1D_Nearest
        [Binary32.fin (1 / 2), Binary32.nan, Binary32.inf false, Binary32.fin 1] 1 fourLut
      = some [Binary32.fin 2, Binary32.nan, Binary32.fin 3, Binary32.fin 1] :=
  ⟨(Lut1D_Nearest_selects_rounded_clamped_index fourLut
      [Binary32.fin (1 / 2), Binary32.nan, Binary32.inf false, Binary32.fin 1] 1 0 0
      (Binary32.fin (1 / 2)) (by decide) (by decide) (by decide)
      (indicesDefined_spec _ _ _ (by decide!)) (by rfl) (by simp)).1,
    (Lut1D_Nearest_selects_rounded_clamped_index fourLut
      [Binary32.fin (1 / 2), Binary32.nan, Binary32.inf false, Binary32.fin 1] 1 0 0
      (Binary32.fin (1 / 2)) (by decide) (by decide) (by decide)
      (indicesDefined_spec _ _ _ (by decide!)) (by rfl) (by simp)).2 (1 / 2) rfl
        (by decide!) (by decide!),
    by decide!⟩

/-- C2, counterexample to the claim as stated, in binary32 arithmetic.  On the two-sample
LUT `[0, 1]` over the domain `[0, 41]` the input `x = from_max = 41` has the normalized
index 1, the last index; the kernel computes `(1/41 rounded) * 1 * 41`, which rounds to
`1 - 2^-24`, so the clamped floor is 0, the clamped ceiling is 1, and the output is
`1 - 2^-24`, not the last sample 1.  On the LUT `y = x + 1/8` over `[0, 1]` the finite
input `2^127` has the index `2 * 2^127`, which overflows to infinity: both clamped indices
are the last index, and the output is `9/8 + (inf - 2) * (9/8 - 9/8)`, which is NaN. -/
theorem Lut1D_Linear_misses_last_sample_at_from_max :
    fortyOneLut.IsBinary32 ∧ (∀ i, fortyOneLut.from_min i < fortyOneLut.from_max i) ∧
    normalizedIndex fortyOneLut 0 41 = 1 ∧
    Machine.index fortyOneLut 0 (Binary32.fin 41) = Binary32.fin (1 - 1 / 2 ^ 24) ∧
    Machine.Lut1D_Linear
        [Binary32.fin 41, Binary32.fin 0, Binary32.fin 0, Binary32.fin 1] 1 fortyOneLut
      = some [Binary32.fin (1 - 1 / 2 ^ 24), Binary32.fin 0, Binary32.fin 0, Binary32.fin 1] ∧
    (fortyOneLut.luts 0)[1]? = some 1 ∧
    eighthLut.IsBinary32 ∧ (∀ i, eighthLut.from_min i < eighthLut.from_max i) ∧
    Binary32.Exact (2 ^ 127) ∧
    Machine.index eighthLut 0 (Binary32.fin (2 ^ 127)) = Binary32.inf false ∧
    Machine.clamp (Binary32.floor (Binary32.inf false)) (Binary32.fin 0)
        (Machine.sizeMinusOne (eighthLut.luts 0)) = some 2 ∧
    Machine.clamp (Binary32.ceil (Binary32.inf false)) (Binary32.fin 0)
        (Machine.sizeMinusOne (eighthLut.luts 0)) = some 2 ∧
    Machine.Lut1D_Linear
        [Binary32.fin (2 ^ 127), Binary32.fin 0, Binary32.fin 0, Binary32.fin 1] 1 eighthLut
      = some [Binary32.nan, Binary32.fin (1 / 8), Binary32.fin (1 / 8), Binary32.fin 1] :=
  ⟨by decide!, by decide!, by decide!, by decide!, by decide!, by decide!, by decide!,
    by decide!, by decide!, by decide!, by decide!, by decide!, by decide!⟩

/-- C2 (as amended), in binary32 arithmetic: for every Lut1D with `1 ≤ N ≤ 2^24 + 1`
binary32 samples per channel and a buffer in which every channel value of the pixels run
over that is not NaN has an index that is not NaN, `Lut1D_Linear` returns, and for a
channel value `x` whose computed index `mInv_x_maxIndex * (x - b)` is a finite number `t`:
whenever the clamped floor and the clamped ceiling of `t` coincide, the output is exactly
the single sample at that index.  They coincide at 0 for `t ≤ 0`, which is the case for
`x ≤ from_min[c]` when `from_min[c] < from_max[c]`, so the output is `luts[c][0]`; they
coincide at `N-1` for `t ≥ N-1`, so the output is `luts[c][N-1]`; and they coincide at `t`
for an integer `t` in `[0, N-1]`.  The computed index is the normalized index whenever none
of the five operations that compute it rounds. -/
theorem Lut1D_Linear_never_extrapolates (lut : Lut1D) (rgbaBuffer : List Binary32)
    (numPixels : ℤ) (p : ℕ) (c : Fin 3) (x : Binary32) (t : ℚ)
    (hN : ∀ i, 1 ≤ (lut.luts i).length ∧ (lut.luts i).length ≤ 2 ^ 24 + 1)
    (hex : lut.IsBinary32)
    (hbuf : 4 * numPixels.toNat ≤ rgbaBuffer.length) (hp : (p : ℤ) < numPixels)
    (hidx : ∀ (q : ℕ) (i : Fin 3) (y : Binary32), (q : ℤ) < numPixels →
      rgbaBuffer[4 * q + i.val]? = some y → y ≠ Binary32.nan →
      Machine.index lut i y ≠ Binary32.nan)
    (hx : rgbaBuffer[4 * p + c.val]? = some x)
    (ht : Machine.index lut c x = Binary32.fin t) :
    ∃ (out : List Binary32) (first last : ℚ),
      Machine.Lut1D_Linear rgbaBuffer numPixels lut = some out ∧
      (lut.luts c)[0]? = some first ∧
      (lut.luts c)[(lut.luts c).length - 1]? = some last ∧
      (∀ k : ℤ,
        Machine.clamp (Binary32.floor (Binary32.fin t)) (Binary32.fin 0)
          (Machine.sizeMinusOne (lut.luts c)) = some k →
        Machine.clamp (Binary32.ceil (Binary32.fin t)) (Binary32.fin 0)
          (Machine.sizeMinusOne (lut.luts c)) = some k →
        ∃ s : ℚ, (lut.luts c)[k.toNat]? = some s ∧
          out[4 * p + c.val]? = some (Binary32.fin s)) ∧
      (t ≤ 0 → out[4 * p + c.val]? = some (Binary32.fin first)) ∧
      (((lut.luts c).length : ℚ) - 1 ≤ t → out[4 * p + c.val]? = some (Binary32.fin last)) ∧
      (∀ (k : ℕ) (s : ℚ), t = k → (lut.luts c)[k]? = some s →
        out[4 * p + c.val]? = some (Binary32.fin s)) ∧
      (∀ xq : ℚ, x = Binary32.fin xq → lut.from_min c < lut.from_max c →
        xq ≤ lut.from_min c → t ≤ 0) ∧
      (∀ xq : ℚ, x = Binary32.fin xq → lut.from_min c ≠ lut.from_max c →
        (∀ q ∈ Machine.indexOps lut c xq, Binary32.Exact q) →
        t = normalizedIndex lut c xq) := by
  have hN1 := (hN c).1
  have hN2 := (hN c).2
  have hxn : x ≠ Binary32.nan := by
    intro h
    rw [h] at ht
    simp [Machine.index, Binary32.sub, Binary32.mul] at ht
    cases hm : Machine.mInv_x_maxIndex lut c <;> rw [hm] at ht <;> simp [Binary32.mul] at ht
  obtain ⟨-, ⟨out, hout⟩⟩ := Machine_forward_total lut rgbaBuffer numPixels hN hbuf hidx
  have hch := Machine_pixelLoop_channel (f := Machine.Lut1D_Linear_channel lut) hout
    (p := p) (by omega) c
  rw [hx, Option.some_bind, Machine_applyChannel_of_ne_nan _ _ hxn] at hch
  unfold Machine.Lut1D_Linear_channel at hch
  rw [ht] at hch
  obtain ⟨htM, -⟩ := Machine_index_fin_inv ht
  have hsz := Machine_sizeMinusOne_eq (lut.luts c) hN1 hN2
  have hcQ : ((((lut.luts c).length - 1 : ℕ) : ℤ) : ℚ) = (((lut.luts c).length - 1 : ℕ) : ℚ) := by
    push_cast
    rfl
  have hcast : (((lut.luts c).length - 1 : ℕ) : ℚ) = ((lut.luts c).length : ℚ) - 1 := by
    rw [Nat.cast_sub hN1]
    simp
  -- the two clamped indices
  have kf : Machine.clamp (Binary32.floor (Binary32.fin t)) (Binary32.fin 0)
      (Machine.sizeMinusOne (lut.luts c))
      = some (max (min ⌊t⌋ (((lut.luts c).length - 1 : ℕ) : ℤ)) 0) := by
    rw [hsz, floor_fin, Machine_clamp_fin _ _ (by omega), ← hcQ, clamp_intCast]
  have kc : Machine.clamp (Binary32.ceil (Binary32.fin t)) (Binary32.fin 0)
      (Machine.sizeMinusOne (lut.luts c))
      = some (max (min ⌈t⌉ (((lut.luts c).length - 1 : ℕ) : ℤ)) 0) := by
    rw [hsz, ceil_fin, Machine_clamp_fin _ _ (by omega), ← hcQ, clamp_intCast]
  have hco : ∀ k : ℤ,
      Machine.clamp (Binary32.floor (Binary32.fin t)) (Binary32.fin 0)
        (Machine.sizeMinusOne (lut.luts c)) = some k →
      Machine.clamp (Binary32.ceil (Binary32.fin t)) (Binary32.fin 0)
        (Machine.sizeMinusOne (lut.luts c)) = some k →
      ∃ s : ℚ, (lut.luts c)[k.toNat]? = some s ∧
        out[4 * p + c.val]? = some (Binary32.fin s) := by
    intro k h1 h2
    obtain ⟨s, hs, -, -, hv⟩ := Machine_lookupLinear_coincide t (lut.luts c) hN1 hN2
      (hex c).2.2 htM k h1 h2
    exact ⟨s, hs, by rw [hch]; exact hv⟩
  have hfirst : (lut.luts c)[0]? = some (lut.luts c)[0] := List.getElem?_eq_getElem (by omega)
  have hlast : (lut.luts c)[(lut.luts c).length - 1]?
      = some (lut.luts c)[(lut.luts c).length - 1] := List.getElem?_eq_getElem (by omega)
  refine ⟨out, _, _, hout, hfirst, hlast, hco, ?_, ?_, ?_, ?_, ?_⟩
  · intro ht0
    have hf0 : ⌊t⌋ ≤ 0 := by
      have : ((⌊t⌋ : ℤ) : ℚ) ≤ ((0 : ℤ) : ℚ) := by
        have := Int.floor_le t
        push_cast
        linarith
      exact_mod_cast this
    have hc0 : ⌈t⌉ ≤ 0 := Int.ceil_le.mpr (by simpa using ht0)
    obtain ⟨s, hs, ho⟩ := hco 0 (by rw [kf]; congr 1; omega) (by rw [kc]; congr 1; omega)
    rw [ho]
    simp only [Int.toNat_zero] at hs
    rw [hfirst] at hs
    rw [Option.some.inj hs]
  · intro htn
    rw [← hcast, ← hcQ] at htn
    have hfn : (((lut.luts c).length - 1 : ℕ) : ℤ) ≤ ⌊t⌋ := Int.le_floor.mpr htn
    have hcn : (((lut.luts c).length - 1 : ℕ) : ℤ) ≤ ⌈t⌉ := hfn.trans (Int.floor_le_ceil t)
    obtain ⟨s, hs, ho⟩ := hco (((lut.luts c).length - 1 : ℕ) : ℤ)
      (by rw [kf]; congr 1; omega) (by rw [kc]; congr 1; omega)
    rw [ho]
    simp only [Int.toNat_ofNat] at hs
    rw [hlast] at hs
    rw [Option.some.inj hs]
  · intro k s htk hs
    have hkl : k < (lut.luts c).length := by
      by_contra h
      rw [List.getElem?_eq_none (by omega)] at hs
      cases hs
    have hfl : ⌊t⌋ = (k : ℤ) := by
      rw [htk]
      exact Int.floor_natCast k
    have hcl : ⌈t⌉ = (k : ℤ) := by
      rw [htk]
      exact Int.ceil_natCast k
    obtain ⟨s2, hs2, ho⟩ := hco (k : ℤ) (by rw [kf, hfl]; congr 1; omega)
      (by rw [kc, hcl]; congr 1; omega)
    rw [ho]
    simp only [Int.toNat_ofNat] at hs2
    rw [hs] at hs2
    rw [Option.some.inj hs2]
  · intro xq hxq hlt hle
    rw [hxq] at ht
    exact Machine_index_nonpos lut c xq t hlt hN1 hN2 hle ht
  · intro xq hxq hne hops
    rw [hxq, Machine_index_exact lut c xq hN1 hN2 hne hops] at ht
    exact (Binary32.fin.inj ht).symm

/-- C2, witness: the LUT `y = x + 1/8` over `[0, 1]` and the value `81/8` above its domain:
the index is `81/4`, at least the last index 2, and the output is the last sample 9/8. -/
theorem Lut1D_Linear_never_extrapolates_witness :
    ∃ (out : List Binary32) (last : ℚ),
      Machine.Lut1D_Linear
          [Binary32.fin (81 / 8), Binary32.nan, Binary32.fin (-3), Binary32.fin 0] 1 eighthLut
        = some out ∧
      (eighthLut.luts 0)[(eighthLut.luts 0).length - 1]? = some last ∧
      out[4 * 0 + (0 : Fin 3).val]? = some (Binary32.fin last) := by
  obtain ⟨out, first, last, h1, -, h3, -, -, h6, -⟩ :=
    Lut1D_Linear_never_extrapolates eighthLut
      [Binary32.fin (81 / 8), Binary32.nan, Binary32.fin (-3), Binary32.fin 0] 1 0 0
      (Binary32.fin (81 / 8)) (81 / 4) (by decide) (by decide!) (by decide) (by decide)
      (indicesDefined_spec _ _ _ (by decide!)) (by rfl) (by decide!)
  exact ⟨out, last, h1, h3, h6 (by norm_num [eighthLut])⟩
/-! ## Binary32 rounding is monotone -/

theorem roundHalfEven_mono {x y : ℚ} (h : x ≤ y) :
    Binary32.roundHalfEven x ≤ Binary32.roundHalfEven y := by
  have hf : ⌊x⌋ ≤ ⌊y⌋ := Int.floor_mono h
  rcases lt_or_eq_of_le hf with hlt | heq
  · have h1 := (roundHalfEven_bounds x).2
    have h2 := (roundHalfEven_bounds y).1
    omega
  · unfold Binary32.roundHalfEven
    rw [← heq]
    split_ifs <;> first | omega | (exfalso; linarith)

theorem roundHalfEven_le_add_half (x : ℚ) :
    (Binary32.roundHalfEven x : ℚ) ≤ x + 1 / 2 := by
  unfold Binary32.roundHalfEven
  have := Int.floor_le x
  split_ifs <;> push_cast <;> linarith

theorem sub_half_le_roundHalfEven (x : ℚ) :
    x - 1 / 2 ≤ (Binary32.roundHalfEven x : ℚ) := by
  unfold Binary32.roundHalfEven
  have := Int.lt_floor_add_one x
  split_ifs <;> push_cast <;> linarith

/-- The rounded magnitude is monotone in the magnitude. -/
theorem magnitude_mono {a b : ℚ} (h : |a| ≤ |b|) :
    Binary32.magnitude a ≤ Binary32.magnitude b := by
  obtain ⟨j1, hj1, hu1, hup1, hlow1⟩ := quantum_spec |a|
  obtain ⟨j2, hj2, hu2, hup2, hlow2⟩ := quantum_spec |b|
  have hq1 := quantum_pos |a|
  have hq2 := quantum_pos |b|
  unfold Binary32.magnitude
  rcases lt_trichotomy j1 j2 with hlt | heq | hgt
  · have hz1 : Binary32.roundHalfEven (|a| / Binary32.quantum |a|) ≤ 2 ^ 24 := by
      apply roundHalfEven_le
      rw [div_le_iff₀ hq1]
      push_cast
      rcases hup1 with h1 | h1
      · omega
      · linarith
    have hz2 : 2 ^ 23 ≤ Binary32.roundHalfEven (|b| / Binary32.quantum |b|) := by
      apply le_roundHalfEven
      rw [le_div_iff₀ hq2]
      push_cast
      rcases hlow2 with h1 | h1
      · omega
      · linarith
    have hu : 2 * Binary32.quantum |a| ≤ Binary32.quantum |b| := by
      rw [hu1, hu2]
      have hp : (2 : ℚ) ^ (j1 + 1) ≤ 2 ^ j2 := pow_le_pow_right₀ (by norm_num) (by omega)
      rw [pow_succ] at hp
      rw [← mul_div_assoc, div_le_div_iff_of_pos_right (by positivity)]
      linarith
    have c1 : ((Binary32.roundHalfEven (|a| / Binary32.quantum |a|) : ℤ) : ℚ) ≤ 2 ^ 24 := by
      exact_mod_cast hz1
    have c2 : (2 ^ 23 : ℚ) ≤ ((Binary32.roundHalfEven (|b| / Binary32.quantum |b|) : ℤ) : ℚ) := by
      exact_mod_cast hz2
    calc ((Binary32.roundHalfEven (|a| / Binary32.quantum |a|) : ℤ) : ℚ) * Binary32.quantum |a|
        ≤ 2 ^ 24 * Binary32.quantum |a| := mul_le_mul_of_nonneg_right c1 hq1.le
      _ = 2 ^ 23 * (2 * Binary32.quantum |a|) := by ring
      _ ≤ 2 ^ 23 * Binary32.quantum |b| := mul_le_mul_of_nonneg_left hu (by positivity)
      _ ≤ ((Binary32.roundHalfEven (|b| / Binary32.quantum |b|) : ℤ) : ℚ)
            * Binary32.quantum |b| := mul_le_mul_of_nonneg_right c2 hq2.le
  · have hu : Binary32.quantum |a| = Binary32.quantum |b| := by rw [hu1, hu2, heq]
    rw [hu]
    apply mul_le_mul_of_nonneg_right _ hq2.le
    have hd : |a| / Binary32.quantum |b| ≤ |b| / Binary32.quantum |b| :=
      (div_le_div_iff_of_pos_right hq2).mpr h
    exact_mod_cast roundHalfEven_mono hd
  · exfalso
    have hu : 2 * Binary32.quantum |b| ≤ Binary32.quantum |a| := by
      rw [hu1, hu2]
      have hp : (2 : ℚ) ^ (j2 + 1) ≤ 2 ^ j1 := pow_le_pow_right₀ (by norm_num) (by omega)
      rw [pow_succ] at hp
      rw [← mul_div_assoc, div_le_div_iff_of_pos_right (by positivity)]
      linarith
    have h1 : 2 ^ 23 * Binary32.quantum |a| ≤ |a| := by
      rcases hlow1 with h1 | h1
      · omega
      · exact h1
    have h2 : |b| < 2 ^ 24 * Binary32.quantum |b| := by
      rcases hup2 with h2 | h2
      · omega
      · exact h2
    linarith

/-- Rounding is monotone: finite results keep the order, and an overflow carries over to
the larger, resp. the smaller, number. -/
theorem round_mono {a b : ℚ} (h : a ≤ b) :
    (∀ s t : ℚ, Binary32.round a = Binary32.fin s → Binary32.round b = Binary32.fin t →
      s ≤ t) ∧
    (Binary32.round a = Binary32.inf false → Binary32.round b = Binary32.inf false) ∧
    (Binary32.round b = Binary32.inf true → Binary32.round a = Binary32.inf true) := by
  have hma := magnitude_nonneg a
  have hmb := magnitude_nonneg b
  have M1 : ¬ a < 0 → Binary32.magnitude a ≤ Binary32.magnitude b := fun h0 =>
    magnitude_mono (by
      rw [abs_of_nonneg (not_lt.mp h0), abs_of_nonneg ((not_lt.mp h0).trans h)]
      exact h)
  have M2 : b < 0 → Binary32.magnitude b ≤ Binary32.magnitude a := fun h0 =>
    magnitude_mono (by
      rw [abs_of_neg h0, abs_of_neg (lt_of_le_of_lt h h0)]
      linarith)
  rw [binary32_round_eq a, binary32_round_eq b]
  refine ⟨?_, ?_, ?_⟩
  · intro s t hs ht
    by_cases c1 : (2 : ℚ) ^ 128 ≤ Binary32.magnitude a
    · rw [if_pos c1] at hs
      cases hs
    by_cases c2 : (2 : ℚ) ^ 128 ≤ Binary32.magnitude b
    · rw [if_pos c2] at ht
      cases ht
    rw [if_neg c1] at hs
    rw [if_neg c2] at ht
    rw [← Binary32.fin.inj hs, ← Binary32.fin.inj ht]
    split_ifs with x1 x2 x2
    · have := M2 x2
      linarith
    · linarith
    · linarith
    · exact M1 x1
  · intro hs
    by_cases c1 : (2 : ℚ) ^ 128 ≤ Binary32.magnitude a
    · rw [if_pos c1] at hs
      have hd : decide (a < 0) = false := Binary32.inf.inj hs
      have ha : ¬ a < 0 := by simpa using hd
      have hb : ¬ b < 0 := fun hb => ha (lt_of_le_of_lt h hb)
      rw [if_pos (c1.trans (M1 ha))]
      simp [hb]
    · rw [if_neg c1] at hs
      cases hs
  · intro hs
    by_cases c2 : (2 : ℚ) ^ 128 ≤ Binary32.magnitude b
    · rw [if_pos c2] at hs
      have hd : decide (b < 0) = true := Binary32.inf.inj hs
      have hb : b < 0 := by simpa using hd
      have ha : a < 0 := lt_of_le_of_lt h hb
      rw [if_pos (c2.trans (M2 hb))]
      simp [ha]
    · rw [if_neg c2] at hs
      cases hs

/-- The rounded value of a number at most `e`, where `e` rounds to the finite `t`: minus
infinity or a finite number at most `t`. -/
theorem round_le_of_le {q e t : ℚ} (h : q ≤ e) (he : Binary32.round e = Binary32.fin t) :
    Binary32.round q = Binary32.inf true ∨
    ∃ s : ℚ, Binary32.round q = Binary32.fin s ∧ s ≤ t := by
  obtain ⟨m1, m2, -⟩ := round_mono h
  cases hq : Binary32.round q with
  | nan => exact absurd hq (round_ne_nan q)
  | inf s =>
    cases s with
    | true => exact Or.inl rfl
    | false =>
      have := m2 hq
      rw [he] at this
      cases this
  | fin s => exact Or.inr ⟨s, rfl, m1 s t hq he⟩

/-- The rounded value of a number at least `e`, where `e` rounds to the finite `t`: plus
infinity or a finite number at least `t`. -/
theorem round_ge_of_ge {q e t : ℚ} (h : e ≤ q) (he : Binary32.round e = Binary32.fin t) :
    Binary32.round q = Binary32.inf false ∨
    ∃ s : ℚ, Binary32.round q = Binary32.fin s ∧ t ≤ s := by
  obtain ⟨m1, -, m3⟩ := round_mono h
  cases hq : Binary32.round q with
  | nan => exact absurd hq (round_ne_nan q)
  | inf s =>
    cases s with
    | false => exact Or.inl rfl
    | true =>
      have := m3 hq
      rw [he] at this
      cases this
  | fin s => exact Or.inr ⟨s, rfl, m1 t s he hq⟩

/-- The rounded value of a number that is not negative: plus infinity or a finite number
that is not negative. -/
theorem round_nonneg_cases {q : ℚ} (h : 0 ≤ q) :
    Binary32.round q = Binary32.inf false ∨
    ∃ s : ℚ, Binary32.round q = Binary32.fin s ∧ 0 ≤ s :=
  round_ge_of_ge h binary32_round_zero

/-- The rounded value of a number that is not positive: minus infinity or a finite number
that is not positive. -/
theorem round_nonpos_cases {q : ℚ} (h : q ≤ 0) :
    Binary32.round q = Binary32.inf true ∨
    ∃ s : ℚ, Binary32.round q = Binary32.fin s ∧ s ≤ 0 :=
  round_le_of_le h binary32_round_zero

/-- The rounded reciprocal of a size up to `2^24`: a positive finite number `r` with
`n * r ≤ 1 + 2^-24`. -/
theorem round_inv_natCast (n : ℕ) (h1 : 1 ≤ n) (h2 : n ≤ 2 ^ 24) :
    ∃ r : ℚ, Binary32.round (1 / (n : ℚ)) = Binary32.fin r ∧ 0 < r ∧
      (n : ℚ) * r ≤ 1 + 1 / 2 ^ 24 := by
  have hn1 : (1 : ℚ) ≤ n := by exact_mod_cast h1
  have hn2 : (n : ℚ) ≤ 2 ^ 24 := by exact_mod_cast h2
  have hn0 : (0 : ℚ) < n := by linarith
  have hq0 : (0 : ℚ) < 1 / (n : ℚ) := by positivity
  have hq1 : 1 / (n : ℚ) ≤ 1 := by
    rw [div_le_iff₀ hn0]
    linarith
  have hq2 : (1 : ℚ) / 2 ^ 24 ≤ 1 / (n : ℚ) :=
    one_div_le_one_div_of_le hn0 hn2
  have habs : |1 / (n : ℚ)| = 1 / (n : ℚ) := abs_of_pos hq0
  have hfin : |1 / (n : ℚ)| ≤ Binary32.maxFinite := by
    rw [habs]
    unfold Binary32.maxFinite
    calc 1 / (n : ℚ) ≤ 1 := hq1
      _ ≤ 2 ^ 128 - 2 ^ 104 := by norm_num
  have hlt := magnitude_lt_of_le _ hfin
  have hr : Binary32.round (1 / (n : ℚ)) = Binary32.fin (Binary32.magnitude (1 / (n : ℚ))) := by
    rw [binary32_round_eq, if_neg (not_le.mpr hlt), if_neg (not_lt.mpr hq0.le)]
  refine ⟨_, hr, magnitude_pos _ ?_, ?_⟩
  · rw [habs]
    calc (1 : ℚ) / 2 ^ 149 ≤ 1 / 2 ^ 24 := by norm_num
      _ ≤ 1 / (n : ℚ) := hq2
  · obtain ⟨j, hj, hu, hup, hlow⟩ := quantum_spec |1 / (n : ℚ)|
    have hq := quantum_pos |1 / (n : ℚ)|
    rw [habs] at hu hup hlow hq
    have hlow2 : 2 ^ 23 * Binary32.quantum (1 / (n : ℚ)) ≤ 1 / (n : ℚ) := by
      rcases hlow with h0 | h0
      · exfalso
        subst h0
        rcases hup with h3 | h3
        · omega
        · rw [hu] at h3
          have : (2 : ℚ) ^ 24 * (2 ^ 0 / 2 ^ 149) < 1 / 2 ^ 24 := by norm_num
          linarith
      · exact h0
    unfold Binary32.magnitude
    rw [habs]
    have hhalf := roundHalfEven_le_add_half (1 / (n : ℚ) / Binary32.quantum (1 / (n : ℚ)))
    have hmul : ((Binary32.roundHalfEven (1 / (n : ℚ) / Binary32.quantum (1 / (n : ℚ))) : ℤ) : ℚ)
        * Binary32.quantum (1 / (n : ℚ))
        ≤ 1 / (n : ℚ) + Binary32.quantum (1 / (n : ℚ)) / 2 := by
      calc ((Binary32.roundHalfEven (1 / (n : ℚ) / Binary32.quantum (1 / (n : ℚ))) : ℤ) : ℚ)
            * Binary32.quantum (1 / (n : ℚ))
          ≤ (1 / (n : ℚ) / Binary32.quantum (1 / (n : ℚ)) + 1 / 2)
            * Binary32.quantum (1 / (n : ℚ)) := mul_le_mul_of_nonneg_right hhalf hq.le
        _ = 1 / (n : ℚ) + Binary32.quantum (1 / (n : ℚ)) / 2 := by
          field_simp
          ring
    have hb : ((Binary32.roundHalfEven (1 / (n : ℚ) / Binary32.quantum (1 / (n : ℚ))) : ℤ) : ℚ)
        * Binary32.quantum (1 / (n : ℚ)) ≤ 1 / (n : ℚ) * (1 + 1 / 2 ^ 24) := by
      have : Binary32.quantum (1 / (n : ℚ)) / 2 ≤ 1 / (n : ℚ) * (1 / 2 ^ 24) := by
        have e : 1 / (n : ℚ) * (1 / 2 ^ 24) = 1 / (n : ℚ) / 2 ^ 23 / 2 := by
          field_simp
          ring
        rw [e]
        apply (div_le_div_iff_of_pos_right (by norm_num : (0 : ℚ) < 2)).mpr
        rw [le_div_iff₀ (by positivity)]
        linarith
      linarith
    calc (n : ℚ) * (((Binary32.roundHalfEven (1 / (n : ℚ) / Binary32.quantum (1 / (n : ℚ))) : ℤ) : ℚ)
          * Binary32.quantum (1 / (n : ℚ)))
        ≤ (n : ℚ) * (1 / (n : ℚ) * (1 + 1 / 2 ^ 24)) := mul_le_mul_of_nonneg_left hb hn0.le
      _ = 1 + 1 / 2 ^ 24 := by
        field_simp
        ring

theorem round_one_plus_half_ulp : Binary32.round (1 + 1 / 2 ^ 24) = Binary32.fin 1 := by
  decide!
/-! ## The inverse lookups in binary32 arithmetic -/

theorem Machine_lower_bound_loop_le (lut : List ℚ) (v : Binary32) :
    ∀ (fuel first len : ℕ), first + len ≤ lut.length →
      first ≤ Machine.lower_bound_loop lut v fuel first len ∧
      Machine.lower_bound_loop lut v fuel first len ≤ first + len
  | 0, first, len, _ => by simp [Machine.lower_bound_loop]
  | fuel + 1, first, len, h => by
    unfold Machine.lower_bound_loop
    by_cases hlen : len = 0
    · simp [hlen]
    · simp only [hlen, if_false]
      have hmid : first + len / 2 < lut.length := by omega
      rw [List.getElem?_eq_getElem hmid]
      simp only []
      split
      · have ih := Machine_lower_bound_loop_le lut v fuel (first + len / 2 + 1)
          (len - len / 2 - 1) (by omega)
        omega
      · have ih := Machine_lower_bound_loop_le lut v fuel first (len / 2) (by omega)
        omega

theorem Machine_lower_bound_le (lut : List ℚ) (v : Binary32) :
    Machine.lower_bound lut v ≤ lut.length := by
  have h := Machine_lower_bound_loop_le lut v lut.length 0 lut.length (by omega)
  simpa [Machine.lower_bound] using h.2

/-- The bracketing positions lie in the table, for every value. -/
theorem Machine_bracket_bounds (lut : List ℚ) (v : Binary32) (hN : 1 ≤ lut.length) :
    0 ≤ (Machine.bracket lut v).1 ∧ (Machine.bracket lut v).1 ≤ (Machine.bracket lut v).2 ∧
      (Machine.bracket lut v).2 < lut.length := by
  have h := Machine_lower_bound_le lut v
  simp only [Machine.bracket]
  split_ifs <;> omega

theorem Machine_lower_bound_loop_fin (lut : List ℚ) (v : ℚ) :
    ∀ (fuel first len : ℕ),
      Machine.lower_bound_loop lut (Binary32.fin v) fuel first len
        = lower_bound_loop lut v fuel first len
  | 0, first, len => rfl
  | fuel + 1, first, len => by
    unfold Machine.lower_bound_loop lower_bound_loop
    by_cases hlen : len = 0
    · simp [hlen]
    · simp only [hlen, if_false]
      cases hm : lut[first + len / 2]? with
      | none => rfl
      | some m =>
        simp only [Binary32.lt, decide_eq_true_eq]
        rw [Machine_lower_bound_loop_fin lut v fuel, Machine_lower_bound_loop_fin lut v fuel]

/-- The binary search for a finite value is the search over the numbers. -/
theorem Machine_bracket_fin (lut : List ℚ) (v : ℚ) :
    Machine.bracket lut (Binary32.fin v) = bracket lut v := by
  unfold Machine.bracket bracket Machine.lower_bound lower_bound
  rw [Machine_lower_bound_loop_fin]

/-- The bracket of a value in a non-decreasing table of at least two samples: two
positions `i ≤ j` of the table, and when the sample at `i` is below the sample at `j`, the
positions are neighbours and the value is at most the sample at `j`. -/
theorem bracket_sorted (v : ℚ) (lut : List ℚ) (hN : 2 ≤ lut.length)
    (hs : lut.Pairwise (· ≤ ·)) :
    ∃ (i j : ℕ) (lo hi : ℚ), bracket lut v = ((i : ℤ), (j : ℤ)) ∧
      lut[i]? = some lo ∧ lut[j]? = some hi ∧ i ≤ j ∧ j ≤ lut.length - 1 ∧
      (lo < hi → v ≤ hi ∧ j = i + 1) := by
  obtain ⟨k, hk, hlow, hhigh⟩ := sorted_split v lut hs
  have hlb := lower_bound_eq lut v k hk hlow hhigh
  rcases Nat.eq_zero_or_pos k with hk0 | hkpos
  · subst hk0
    have hb := bracket_of_lower_bound_zero lut v hlb hN
    have hv : v ≤ lut[0] := not_lt.mp (hhigh 0 (by omega) le_rfl)
    have h01 : lut[0] ≤ lut[1] := List.pairwise_iff_getElem.mp hs 0 1 (by omega) (by omega)
      (by omega)
    refine ⟨0, 1, lut[0], lut[1], by simpa using hb, List.getElem?_eq_getElem (by omega),
      List.getElem?_eq_getElem (by omega), by omega, by omega, fun _ => ⟨hv.trans h01, rfl⟩⟩
  · rcases Nat.lt_or_ge k lut.length with hkN | hkN
    · have hb := bracket_of_lower_bound_pos lut v k hlb hkpos hkN
      have hhi : v ≤ lut[k] := not_lt.mp (hhigh k hkN le_rfl)
      refine ⟨k - 1, k, lut[k - 1], lut[k], hb, List.getElem?_eq_getElem (by omega),
        List.getElem?_eq_getElem hkN, by omega, by omega, fun _ => ⟨hhi, by omega⟩⟩
    · have hkeq : k = lut.length := by omega
      have hb : bracket lut v = ((lut.length : ℤ) - 1, (lut.length : ℤ) - 1) := by
        simp only [bracket, hlb, hkeq]
        have h1 : ((lut.length : ℤ) ≠ 0) := by omega
        rw [if_pos h1]
        rw [if_neg (by omega)]
      have hc : ((lut.length : ℤ) - 1) = ((lut.length - 1 : ℕ) : ℤ) := by omega
      rw [hc] at hb
      refine ⟨lut.length - 1, lut.length - 1, lut[lut.length - 1], lut[lut.length - 1], hb,
        List.getElem?_eq_getElem (by omega), List.getElem?_eq_getElem (by omega), le_rfl,
        le_rfl, fun h => absurd h (lt_irrefl _)⟩

/-- The conversion of a position of a table of at most `2^24 + 1` samples to `float` is
exact. -/
theorem ofInt_of_bounds (z : ℤ) (h0 : 0 ≤ z) (h1 : z ≤ 2 ^ 24) :
    Binary32.ofInt z = Binary32.fin (z : ℚ) := by
  have h := ofInt_natCast z.toNat (by omega)
  rw [Int.toNat_of_nonneg h0] at h
  rw [h]
  congr 1
  have : ((z.toNat : ℤ) : ℚ) = (z : ℚ) := by rw [Int.toNat_of_nonneg h0]
  rw [← this]
  push_cast
  rfl

/-- The nearest inverse lookup returns, for every value, a position of the table. -/
theorem Machine_reverseLookupNearest_defined (v : Binary32) (lut : List ℚ)
    (hN1 : 1 ≤ lut.length) (hN2 : lut.length ≤ 2 ^ 24 + 1) :
    ∃ k : ℤ, Machine.reverseLookupNearest_1D v lut = some (Binary32.fin (k : ℚ)) ∧ 0 ≤ k ∧
      k < lut.length := by
  obtain ⟨h0, h1, h2⟩ := Machine_bracket_bounds lut v hN1
  obtain ⟨lo, hlo⟩ := Option.isSome_iff_exists.mp
    (readAt_of_lt lut _ h0 (by omega)).2
  obtain ⟨hi, hhi⟩ := Option.isSome_iff_exists.mp
    (readAt_of_lt lut ((Machine.bracket lut v).2) (by omega) h2).2
  unfold Machine.reverseLookupNearest_1D
  simp only [hlo, hhi]
  split_ifs
  · exact ⟨_, by rw [ofInt_of_bounds _ h0 (by omega)], h0, by omega⟩
  · exact ⟨_, by rw [ofInt_of_bounds _ (by omega) (by omega)], by omega, h2⟩

/-- The shape of the linear inverse lookup. -/
theorem Machine_reverseLookupLinear_shape (v : Binary32) (lut : List ℚ)
    (invMaxIndex : Binary32) (lo hi : ℚ)
    (hlo : readAt lut (Machine.bracket lut v).1 = some lo)
    (hhi : readAt lut (Machine.bracket lut v).2 = some hi) :
    Machine.reverseLookupLinear_1D v lut invMaxIndex
      = some (Binary32.max (Binary32.mul (Binary32.add
          (Binary32.ofInt (Machine.bracket lut v).1)
          (if Binary32.lt (Binary32.fin lo) (Binary32.fin hi) then
            Binary32.div (Binary32.sub v (Binary32.fin lo))
              (Binary32.sub (Binary32.fin hi) (Binary32.fin lo))
          else Binary32.fin 0)) invMaxIndex) (Binary32.fin 0)) := by
  unfold Machine.reverseLookupLinear_1D
  simp only [hlo, hhi]

/-- The linear inverse lookup returns for every value. -/
theorem Machine_reverseLookupLinear_isSome (v : Binary32) (lut : List ℚ)
    (invMaxIndex : Binary32) (hN1 : 1 ≤ lut.length) :
    (Machine.reverseLookupLinear_1D v lut invMaxIndex).isSome := by
  obtain ⟨h0, h1, h2⟩ := Machine_bracket_bounds lut v hN1
  obtain ⟨lo, hlo⟩ := Option.isSome_iff_exists.mp
    (readAt_of_lt lut _ h0 (by omega)).2
  obtain ⟨hi, hhi⟩ := Option.isSome_iff_exists.mp
    (readAt_of_lt lut ((Machine.bracket lut v).2) (by omega) h2).2
  rw [Machine_reverseLookupLinear_shape v lut invMaxIndex lo hi hlo hhi]
  rfl

/-- The factor `invMaxIndex` of a table of `2 ≤ N ≤ 2^24 + 1` samples: a positive finite
number with `(N-1) * invMaxIndex ≤ 1 + 2^-24`. -/
theorem Machine_invMaxIndex (lut : List ℚ) (hN : 2 ≤ lut.length)
    (hN2 : lut.length ≤ 2 ^ 24 + 1) :
    ∃ inv : ℚ, Binary32.div (Binary32.fin 1) (Machine.sizeMinusOne lut) = Binary32.fin inv ∧
      0 < inv ∧ ((lut.length - 1 : ℕ) : ℚ) * inv ≤ 1 + 1 / 2 ^ 24 := by
  rw [Machine_sizeMinusOne_eq lut (by omega) hN2]
  obtain ⟨r, hr, hr0, hr1⟩ := round_inv_natCast (lut.length - 1) (by omega) (by omega)
  have hne : ((lut.length - 1 : ℕ) : ℚ) ≠ 0 := by
    have : (1 : ℚ) ≤ ((lut.length - 1 : ℕ) : ℚ) := by
      have : 1 ≤ lut.length - 1 := by omega
      exact_mod_cast this
    linarith
  refine ⟨r, ?_, hr0, hr1⟩
  simp only [Binary32.div]
  rw [if_neg hne]
  exact hr

/-- The end of the linear inverse lookup: position plus fraction, times `invMaxIndex`,
clamped below at zero, for a fraction that is minus infinity or a finite number that
keeps the sum at most the last position. -/
theorem Machine_reverseLookupLinear_tail (i n : ℕ) (inv : ℚ) (delta : Binary32)
    (hn : n ≤ 2 ^ 24) (hinv0 : 0 < inv) (hinv1 : (n : ℚ) * inv ≤ 1 + 1 / 2 ^ 24)
    (hd : delta = Binary32.inf true ∨ ∃ δ : ℚ, delta = Binary32.fin δ ∧ (i : ℚ) + δ ≤ n) :
    ∃ r : ℚ, Binary32.max (Binary32.mul (Binary32.add (Binary32.fin (i : ℚ)) delta)
        (Binary32.fin inv)) (Binary32.fin 0) = Binary32.fin r ∧ 0 ≤ r ∧ r ≤ 1 := by
  have hneg : ∀ x : Binary32, x = Binary32.inf true →
      ∃ r : ℚ, Binary32.max (Binary32.mul x (Binary32.fin inv)) (Binary32.fin 0)
        = Binary32.fin r ∧ 0 ≤ r ∧ r ≤ 1 := by
    intro x hx
    refine ⟨0, ?_, le_rfl, zero_le_one⟩
    rw [hx]
    have h1 : ¬ inv < 0 := not_lt.mpr hinv0.le
    simp [Binary32.mul, Binary32.max, Binary32.lt, hinv0.ne', h1]
  have hmax : ∀ x : Binary32, (x = Binary32.inf true ∨ ∃ t : ℚ, x = Binary32.fin t ∧ t ≤ 1) →
      ∃ r : ℚ, Binary32.max x (Binary32.fin 0) = Binary32.fin r ∧ 0 ≤ r ∧ r ≤ 1 := by
    intro x hx
    rcases hx with rfl | ⟨t, rfl, ht⟩
    · exact ⟨0, by simp [Binary32.max, Binary32.lt], le_rfl, zero_le_one⟩
    · exact ⟨max t 0, max_fin t 0, le_max_right _ _, max_le ht zero_le_one⟩
  have hfin : ∀ s : ℚ, s ≤ n →
      ∃ r : ℚ, Binary32.max (Binary32.mul (Binary32.fin s) (Binary32.fin inv)) (Binary32.fin 0)
        = Binary32.fin r ∧ 0 ≤ r ∧ r ≤ 1 := by
    intro s hs
    apply hmax
    have hle : s * inv ≤ 1 + 1 / 2 ^ 24 :=
      (mul_le_mul_of_nonneg_right hs hinv0.le).trans hinv1
    exact round_le_of_le hle round_one_plus_half_ulp
  rcases hd with rfl | ⟨δ, rfl, hδ⟩
  · exact hneg _ rfl
  · rcases round_le_of_le hδ (exact_natCast n hn) with h | ⟨s, hs, hsn⟩
    · exact hneg _ h
    · have e : Binary32.add (Binary32.fin (i : ℚ)) (Binary32.fin δ) = Binary32.fin s := hs
      rw [e]
      exact hfin s hsn

/-- The linear inverse lookup of a finite value in a non-decreasing table of binary32
samples: it returns NaN, which takes a difference of the bracketing samples that
overflows, or a finite number in `[0, 1]`. -/
theorem Machine_reverseLookupLinear_bounds (v : ℚ) (lut : List ℚ) (inv : ℚ)
    (hN : 2 ≤ lut.length) (hN2 : lut.length ≤ 2 ^ 24 + 1) (hs : lut.Pairwise (· ≤ ·))
    (hex : ∀ s ∈ lut, Binary32.Exact s) (hinv0 : 0 < inv)
    (hinv1 : ((lut.length - 1 : ℕ) : ℚ) * inv ≤ 1 + 1 / 2 ^ 24) :
    ∃ (r : Binary32) (lo hi : ℚ),
      Machine.reverseLookupLinear_1D (Binary32.fin v) lut (Binary32.fin inv) = some r ∧
      readAt lut (Machine.bracket lut (Binary32.fin v)).1 = some lo ∧
      readAt lut (Machine.bracket lut (Binary32.fin v)).2 = some hi ∧
      ((r = Binary32.nan ∧ lo < hi ∧
          Binary32.sub (Binary32.fin hi) (Binary32.fin lo) = Binary32.inf false) ∨
        ∃ q : ℚ, r = Binary32.fin q ∧ 0 ≤ q ∧ q ≤ 1) := by
  obtain ⟨i, j, lo, hi, hb, hlo, hhi, hij, hjN, hlt⟩ := bracket_sorted v lut hN hs
  have hb1 : (Machine.bracket lut (Binary32.fin v)).1 = (i : ℤ) := by
    rw [Machine_bracket_fin, hb]
  have hb2 : (Machine.bracket lut (Binary32.fin v)).2 = (j : ℤ) := by
    rw [Machine_bracket_fin, hb]
  have rlo : readAt lut (Machine.bracket lut (Binary32.fin v)).1 = some lo := by
    rw [hb1, (readAt_of_lt lut (i : ℤ) (by omega) (by omega)).1]
    simpa using hlo
  have rhi : readAt lut (Machine.bracket lut (Binary32.fin v)).2 = some hi := by
    rw [hb2, (readAt_of_lt lut (j : ℤ) (by omega) (by omega)).1]
    simpa using hhi
  have hshape := Machine_reverseLookupLinear_shape (Binary32.fin v) lut (Binary32.fin inv)
    lo hi rlo rhi
  rw [hb1, ofInt_of_bounds (i : ℤ) (by omega) (by omega)] at hshape
  have hcast : (((i : ℤ) : ℤ) : ℚ) = (i : ℚ) := by push_cast; rfl
  rw [hcast] at hshape
  have tail := fun delta hd => Machine_reverseLookupLinear_tail i (lut.length - 1) inv delta
    (by omega) hinv0 hinv1 hd
  refine ⟨_, lo, hi, hshape, rlo, rhi, ?_⟩
  have hexlo := hex lo (List.mem_iff_getElem?.mpr ⟨_, hlo⟩)
  have hexhi := hex hi (List.mem_iff_getElem?.mpr ⟨_, hhi⟩)
  have hi0 : (i : ℚ) + 0 ≤ ((lut.length - 1 : ℕ) : ℚ) := by
    have : i ≤ lut.length - 1 := by omega
    have : (i : ℚ) ≤ ((lut.length - 1 : ℕ) : ℚ) := by exact_mod_cast this
    linarith
  by_cases hgt : lo < hi
  · obtain ⟨hvhi, hji⟩ := hlt hgt
    have hi1 : (i : ℚ) + 1 ≤ ((lut.length - 1 : ℕ) : ℚ) := by
      have : i + 1 ≤ lut.length - 1 := by omega
      exact_mod_cast this
    have hlt2 : Binary32.lt (Binary32.fin lo) (Binary32.fin hi) = true := by
      simp [Binary32.lt, hgt]
    rw [if_pos hlt2]
    have hnum : Binary32.sub (Binary32.fin v) (Binary32.fin lo) = Binary32.round (v - lo) := rfl
    have hden : Binary32.sub (Binary32.fin hi) (Binary32.fin lo) = Binary32.round (hi - lo) :=
      rfl
    rcases round_sub_pos lo hi hexlo hexhi hgt with hinf | ⟨d, hd, hd0, -⟩
    · cases hq : Binary32.round (v - lo) with
      | nan => exact absurd hq (round_ne_nan _)
      | inf s =>
        left
        refine ⟨?_, hgt, by rw [hden, hinf]⟩
        rw [hnum, hden, hq, hinf]
        simp [Binary32.div, Binary32.add, Binary32.mul, Binary32.max, Binary32.lt]
      | fin a =>
        right
        rw [hnum, hden, hq, hinf]
        have e : Binary32.div (Binary32.fin a) (Binary32.inf false) = Binary32.fin 0 := rfl
        rw [e]
        exact tail _ (Or.inr ⟨0, rfl, hi0⟩)
    · right
      rw [hnum, hden, hd]
      rcases round_le_of_le (by linarith : v - lo ≤ hi - lo) hd with h | ⟨a, ha, had⟩
      · rw [h]
        have e : Binary32.div (Binary32.inf true) (Binary32.fin d) = Binary32.inf true := by
          have h1 : ¬ d < 0 := not_lt.mpr hd0.le
          simp [Binary32.div, h1]
        rw [e]
        exact tail _ (Or.inl rfl)
      · rw [ha]
        have e : Binary32.div (Binary32.fin a) (Binary32.fin d) = Binary32.round (a / d) := by
          simp only [Binary32.div]
          rw [if_neg hd0.ne']
        rw [e]
        have hq1 : a / d ≤ 1 := by
          rw [div_le_iff₀ hd0]
          linarith
        rcases round_le_of_le hq1 binary32_round_one with h | ⟨δ, hδ, hδ1⟩
        · rw [h]
          exact tail _ (Or.inl rfl)
        · rw [hδ]
          exact tail _ (Or.inr ⟨δ, rfl, by linarith⟩)
  · right
    have hlt2 : ¬ Binary32.lt (Binary32.fin lo) (Binary32.fin hi) = true := by
      simp [Binary32.lt, hgt]
    rw [if_neg hlt2]
    exact tail _ (Or.inr ⟨0, rfl, hi0⟩)
/-! ## The outputs of the inverse kernels in binary32 arithmetic -/

/-- The rounded value of a number between two binary32 values lies between them. -/
theorem round_between {q lo hi : ℚ} (h1 : lo ≤ q) (h2 : q ≤ hi)
    (e1 : Binary32.Exact lo) (e2 : Binary32.Exact hi) :
    ∃ y : ℚ, Binary32.round q = Binary32.fin y ∧ lo ≤ y ∧ y ≤ hi := by
  rcases round_ge_of_ge h1 e1 with hinf | ⟨s, hs, hls⟩
  · rcases round_le_of_le h2 e2 with hinf2 | ⟨t, ht, -⟩
    · rw [hinf] at hinf2
      cases hinf2
    · rw [hinf] at ht
      cases ht
  · rcases round_le_of_le h2 e2 with hinf2 | ⟨t, ht, hth⟩
    · rw [hs] at hinf2
      cases hinf2
    · rw [hs] at ht
      cases ht
      exact ⟨s, hs, hls, hth⟩

/-- The sum `p + b` of a finite number that is not negative, or plus infinity, and the
binary32 value `b`: plus infinity or a finite number at least `b`. -/
theorem add_offset_ge (x : Binary32) (b : ℚ) (hb : Binary32.Exact b)
    (hx : x = Binary32.inf false ∨ ∃ p : ℚ, x = Binary32.fin p ∧ 0 ≤ p) :
    Binary32.add x (Binary32.fin b) = Binary32.inf false ∨
    ∃ y : ℚ, Binary32.add x (Binary32.fin b) = Binary32.fin y ∧ b ≤ y := by
  rcases hx with rfl | ⟨p, rfl, hp⟩
  · exact Or.inl rfl
  · exact round_ge_of_ge (by linarith : b ≤ p + b) hb

/-- Channel `c` of `Lut1D_NearestInverse` for a finite width of the domain: the output is
plus infinity or a finite number at least `from_min`, and a number of the domain when the
width and the step `(from_max - from_min) / (N-1)` are binary32 values. -/
theorem Machine_NearestInverse_channel_bounds (lut : Lut1D) (c : Fin 3) (v : Binary32)
    (w : ℚ) (hN1 : 2 ≤ (lut.luts c).length) (hN2 : (lut.luts c).length ≤ 2 ^ 24 + 1)
    (hdom : lut.from_min c ≤ lut.from_max c)
    (hmin : Binary32.Exact (lut.from_min c)) (hmax : Binary32.Exact (lut.from_max c))
    (hw : Binary32.sub (Binary32.fin (lut.from_max c)) (Binary32.fin (lut.from_min c))
      = Binary32.fin w) :
    ∃ y : Binary32, Machine.Lut1D_NearestInverse_channel lut c v = some y ∧
      (y = Binary32.inf false ∨ ∃ q : ℚ, y = Binary32.fin q ∧ lut.from_min c ≤ q) ∧
      (Binary32.Exact (lut.from_max c - lut.from_min c) →
        Binary32.Exact ((lut.from_max c - lut.from_min c) / (((lut.luts c).length : ℚ) - 1)) →
        ∃ q : ℚ, y = Binary32.fin q ∧ lut.from_min c ≤ q ∧ q ≤ lut.from_max c) := by
  obtain ⟨k, hk, hk0, hk1⟩ := Machine_reverseLookupNearest_defined v (lut.luts c)
    (by omega) hN2
  have hcast : (((lut.luts c).length - 1 : ℕ) : ℚ) = ((lut.luts c).length : ℚ) - 1 := by
    rw [Nat.cast_sub (by omega)]
    simp
  have hn1 : (1 : ℚ) ≤ (((lut.luts c).length - 1 : ℕ) : ℚ) := by
    have : 1 ≤ (lut.luts c).length - 1 := by omega
    exact_mod_cast this
  have hkq0 : (0 : ℚ) ≤ (k : ℚ) := by exact_mod_cast hk0
  have hkq1 : (k : ℚ) ≤ (((lut.luts c).length - 1 : ℕ) : ℚ) := by
    have : k ≤ (((lut.luts c).length - 1 : ℕ) : ℤ) := by omega
    exact_mod_cast this
  have hwr : Binary32.round (lut.from_max c - lut.from_min c) = Binary32.fin w := hw
  obtain ⟨hwM, hw0, -⟩ := round_fin_bound hwr
  have hw0 := hw0 (by linarith)
  -- the step
  have hstep0 : 0 ≤ w / (((lut.luts c).length - 1 : ℕ) : ℚ) := by positivity
  have hstep1 : w / (((lut.luts c).length - 1 : ℕ) : ℚ) ≤ w := by
    rw [div_le_iff₀ (by linarith)]
    nlinarith
  obtain ⟨m, hm, -, hm0, -⟩ := round_finite (w / (((lut.luts c).length - 1 : ℕ) : ℚ)) (by
    rw [abs_of_nonneg hstep0]
    rw [abs_of_nonneg hw0] at hwM
    linarith)
  have hm0 := hm0 hstep0
  have hdiv : Binary32.div
      (Binary32.sub (Binary32.fin (lut.from_max c)) (Binary32.fin (lut.from_min c)))
      (Machine.sizeMinusOne (lut.luts c)) = Binary32.fin m := by
    rw [hw, Machine_sizeMinusOne_eq _ (by omega) hN2]
    simp only [Binary32.div]
    rw [if_neg (by linarith)]
    exact hm
  have hch : Machine.Lut1D_NearestInverse_channel lut c v
      = some (Binary32.add (Binary32.round (m * (k : ℚ))) (Binary32.fin (lut.from_min c))) := by
    unfold Machine.Lut1D_NearestInverse_channel
    simp only [hk, hdiv, Option.map_some']
    rfl
  refine ⟨_, hch, ?_, ?_⟩
  · have := add_offset_ge (Binary32.round (m * (k : ℚ))) (lut.from_min c) hmin
      (round_nonneg_cases (mul_nonneg hm0 hkq0))
    rcases this with h | ⟨y, hy, hby⟩
    · exact Or.inl h
    · exact Or.inr ⟨y, hy, hby⟩
  · intro hW hS
    have ew : w = lut.from_max c - lut.from_min c := by
      have : Binary32.fin w = Binary32.fin (lut.from_max c - lut.from_min c) := by
        rw [← hwr]
        exact hW
      exact Binary32.fin.inj this
    have em : m = (lut.from_max c - lut.from_min c) / (((lut.luts c).length : ℚ) - 1) := by
      have : Binary32.fin m
          = Binary32.fin ((lut.from_max c - lut.from_min c) / (((lut.luts c).length : ℚ) - 1)) := by
        rw [← hm, ew, hcast]
        exact hS
      exact Binary32.fin.inj this
    have hprod0 : 0 ≤ m * (k : ℚ) := mul_nonneg hm0 hkq0
    have hprod1 : m * (k : ℚ) ≤ lut.from_max c - lut.from_min c := by
      rw [em, div_mul_eq_mul_div, div_le_iff₀ (by rw [← hcast]; linarith)]
      rw [← hcast]
      exact mul_le_mul_of_nonneg_left hkq1 (by linarith)
    obtain ⟨pq, hp, hp0, hp1⟩ := round_between hprod0 hprod1 binary32_round_zero hW
    rw [hp]
    obtain ⟨y, hy, hy0, hy1⟩ := round_between (by linarith : lut.from_min c ≤ pq + lut.from_min c)
      (by linarith : pq + lut.from_min c ≤ lut.from_max c) hmin hmax
    exact ⟨y, hy, hy0, hy1⟩

/-- Channel `c` of `Lut1D_LinearInverse` for a finite width of the domain and a finite
normalised index in `[0, 1]`: the output is plus infinity or a finite number at least
`from_min`, and a number of the domain when the width is a binary32 value. -/
theorem Machine_LinearInverse_output_bounds (lut : Lut1D) (c : Fin 3) (w r : ℚ)
    (hdom : lut.from_min c ≤ lut.from_max c)
    (hmin : Binary32.Exact (lut.from_min c)) (hmax : Binary32.Exact (lut.from_max c))
    (hw : Binary32.sub (Binary32.fin (lut.from_max c)) (Binary32.fin (lut.from_min c))
      = Binary32.fin w)
    (hr0 : 0 ≤ r) (hr1 : r ≤ 1) :
    (Binary32.add (Binary32.mul (Binary32.fin w) (Binary32.fin r))
        (Binary32.fin (lut.from_min c)) = Binary32.inf false ∨
      ∃ q : ℚ, Binary32.add (Binary32.mul (Binary32.fin w) (Binary32.fin r))
        (Binary32.fin (lut.from_min c)) = Binary32.fin q ∧ lut.from_min c ≤ q) ∧
    (Binary32.Exact (lut.from_max c - lut.from_min c) →
      ∃ q : ℚ, Binary32.add (Binary32.mul (Binary32.fin w) (Binary32.fin r))
        (Binary32.fin (lut.from_min c)) = Binary32.fin q ∧
        lut.from_min c ≤ q ∧ q ≤ lut.from_max c) := by
  have hwr : Binary32.round (lut.from_max c - lut.from_min c) = Binary32.fin w := hw
  obtain ⟨-, hw0, -⟩ := round_fin_bound hwr
  have hw0 := hw0 (by linarith)
  have hmul : Binary32.mul (Binary32.fin w) (Binary32.fin r) = Binary32.round (w * r) := rfl
  rw [hmul]
  constructor
  · exact add_offset_ge _ _ hmin (round_nonneg_cases (mul_nonneg hw0 hr0))
  · intro hW
    have ew : w = lut.from_max c - lut.from_min c := by
      have : Binary32.fin w = Binary32.fin (lut.from_max c - lut.from_min c) := by
        rw [← hwr]
        exact hW
      exact Binary32.fin.inj this
    have hprod1 : w * r ≤ lut.from_max c - lut.from_min c := by
      rw [← ew]
      nlinarith
    obtain ⟨pq, hp, hp0, hp1⟩ := round_between (mul_nonneg hw0 hr0) hprod1
      binary32_round_zero hW
    rw [hp]
    exact round_between (by linarith : lut.from_min c ≤ pq + lut.from_min c)
      (by linarith : pq + lut.from_min c ≤ lut.from_max c) hmin hmax

/-- The inverse kernels return for every buffer that holds the pixels. -/
theorem Machine_inverse_total (lut : Lut1D) (rgbaBuffer : List Binary32) (numPixels : ℤ)
    (hN : ∀ i, 1 ≤ (lut.luts i).length ∧ (lut.luts i).length ≤ 2 ^ 24 + 1)
    (hbuf : 4 * numPixels.toNat ≤ rgbaBuffer.length) :
    (∃ out, Machine.Lut1D_NearestInverse rgbaBuffer numPixels lut = some out) ∧
      ∃ out, Machine.Lut1D_LinearInverse rgbaBuffer numPixels lut = some out := by
  constructor
  · refine Machine_pixelLoop_total (f := Machine.Lut1D_NearestInverse_channel lut)
      numPixels.toNat rgbaBuffer hbuf (fun q c y _ _ _ => ?_)
    obtain ⟨k, hk, -, -⟩ := Machine_reverseLookupNearest_defined y (lut.luts c) (hN c).1
      (hN c).2
    unfold Machine.Lut1D_NearestInverse_channel
    rw [hk]
    rfl
  · refine Machine_pixelLoop_total (f := Machine.Lut1D_LinearInverse_channel lut)
      numPixels.toNat rgbaBuffer hbuf (fun q c y _ _ _ => ?_)
    unfold Machine.Lut1D_LinearInverse_channel
    simp only [Option.isSome_map']
    exact Machine_reverseLookupLinear_isSome y (lut.luts c) _ (hN c).1
/-! ## Claims on the inverse kernels in binary32 arithmetic -/

/-- C40, counterexample to the claim as stated, in binary32 arithmetic.  On the two-sample
LUT `[0, 1]` over the domain `[-7.5, 1.1f]` the width `from_max - from_min` rounds to
`4508877/2^19`, and for the input 5, above the last sample, `Lut1D_LinearInverse` returns
`m * 1 + b = 576717/2^19`, which is above `from_max = 9227469/2^23`.  On the LUT over the
domain `[-2^127, 2^127]` the width overflows, and the kernel returns plus infinity for the
input 1 and NaN for the input 0.  On the two-sample table `[-2^127, 2^127]` the difference
of the samples overflows, and the linear inverse lookup of `2^127` returns NaN, no number
of `[0, 1]`.  On the identity LUT of 14 samples over `[0, 7]`, whose width 7 is a binary32
value, the step `7/13` rounds up and `Lut1D_NearestInverse` returns `14680065/2^21 > 7`
for the input 20.  And the conversion to `float` of the position `2^24 + 3` is
`2^24 + 4`. -/
theorem inverse_kernel_output_leaves_domain :
    (offsetDomainLut.IsBinary32 ∧ (∀ i, (offsetDomainLut.luts i).length = 2) ∧
      (∀ i, (offsetDomainLut.luts i).Pairwise (· ≤ ·)) ∧
      (∀ i, offsetDomainLut.from_min i ≤ offsetDomainLut.from_max i)) ∧
    Binary32.sub (Binary32.fin (offsetDomainLut.from_max 0))
        (Binary32.fin (offsetDomainLut.from_min 0)) = Binary32.fin (4508877 / 2 ^ 19) ∧
    Machine.Lut1D_LinearInverse
        [Binary32.fin 5, Binary32.fin 0, Binary32.fin 0, Binary32.fin 1] 1 offsetDomainLut
      = some [Binary32.fin (576717 / 2 ^ 19), Binary32.fin (-(15 / 2)),
          Binary32.fin (-(15 / 2)), Binary32.fin 1] ∧
    Machine.Lut1D_NearestInverse
        [Binary32.fin 5, Binary32.fin 0, Binary32.fin 0, Binary32.fin 1] 1 offsetDomainLut
      = some [Binary32.fin (576717 / 2 ^ 19), Binary32.fin (-(15 / 2)),
          Binary32.fin (-(15 / 2)), Binary32.fin 1] ∧
    offsetDomainLut.from_max 0 < 576717 / 2 ^ 19 ∧
    (wideLut.IsBinary32 ∧ (∀ i, (wideLut.luts i).length = 3) ∧
      (∀ i, (wideLut.luts i).Pairwise (· ≤ ·)) ∧
      (∀ i, wideLut.from_min i ≤ wideLut.from_max i)) ∧
    Machine.Lut1D_LinearInverse
        [Binary32.fin 1, Binary32.fin 0, Binary32.fin (1 / 2), Binary32.fin 1] 1 wideLut
      = some [Binary32.inf false, Binary32.nan, Binary32.inf false, Binary32.fin 1] ∧
    (wideSampleLut.IsBinary32 ∧ (∀ i, (wideSampleLut.luts i).length = 2) ∧
      (∀ i, (wideSampleLut.luts i).Pairwise (· ≤ ·)) ∧
      (∀ i, wideSampleLut.from_min i ≤ wideSampleLut.from_max i)) ∧
    Machine.reverseLookupLinear_1D (Binary32.fin (2 ^ 127)) (wideSampleLut.luts 0)
        (Binary32.div (Binary32.fin 1) (Machine.sizeMinusOne (wideSampleLut.luts 0)))
      = some Binary32.nan ∧
    (fourteenLut.IsBinary32 ∧ (∀ i, (fourteenLut.luts i).length = 14) ∧
      (∀ i, (fourteenLut.luts i).Pairwise (· ≤ ·)) ∧
      (∀ i, fourteenLut.from_min i ≤ fourteenLut.from_max i) ∧
      Binary32.Exact (fourteenLut.from_max 0 - fourteenLut.from_min 0)) ∧
    Machine.Lut1D_NearestInverse
        [Binary32.fin 20, Binary32.fin 0, Binary32.fin 0, Binary32.fin 1] 1 fourteenLut
      = some [Binary32.fin (14680065 / 2 ^ 21), Binary32.fin 0, Binary32.fin 0,
          Binary32.fin 1] ∧
    fourteenLut.from_max 0 < 14680065 / 2 ^ 21 ∧
    Binary32.ofInt (2 ^ 24 + 3) = Binary32.fin (2 ^ 24 + 4) :=
  ⟨⟨by decide!, by decide!, by decide!, by decide!⟩, by decide!, by decide!, by decide!,
    by decide!, ⟨by decide!, by decide!, by decide!, by decide!⟩, by decide!,
    ⟨by decide!, by decide!, by decide!, by decide!⟩, by decide!,
    ⟨by decide!, by decide!, by decide!, by decide!, by decide!⟩, by decide!, by decide!,
    by decide!⟩

/-- C40 (as amended), in binary32 arithmetic: for every Lut1D whose three channels have
the same length `2 ≤ N ≤ 2^24 + 1` with non-decreasing binary32 samples, binary32 bounds
`from_min[c] ≤ from_max[c]`, and every finite input `v`: the bracketing positions of the
inverse lookups lie inside the sample array; `reverseLookupNearest_1D` returns an integer
position in `[0, N-1]`; `reverseLookupLinear_1D`, with the factor `invMaxIndex[0]` of the
kernel, returns NaN, which takes a difference of the two bracketing samples that
overflows, or a number in `[0, 1]`; both kernels return; and when the width
`from_max[c] - from_min[c]` is finite in binary32 (and, for `Lut1D_LinearInverse`, the
normalised index is not NaN), the output is plus infinity or a finite number at least
`from_min[c]`, and it is a number of `[from_min[c], from_max[c]]` when the width is a
binary32 value (and, for `Lut1D_NearestInverse`, the step `(from_max[c] - from_min[c]) /
(N-1)` is one too). -/
theorem inverse_kernels_stay_in_domain (lut : Lut1D) (rgbaBuffer : List Binary32)
    (numPixels : ℤ) (p : ℕ) (c : Fin 3) (v : ℚ)
    (hN : ∀ i, 2 ≤ (lut.luts i).length ∧ (lut.luts i).length ≤ 2 ^ 24 + 1)
    (hsame : ∀ i, (lut.luts i).length = (lut.luts 0).length)
    (hmono : ∀ i, (lut.luts i).Pairwise (· ≤ ·))
    (hdom : ∀ i, lut.from_min i ≤ lut.from_max i)
    (hex : lut.IsBinary32)
    (hbuf : 4 * numPixels.toNat ≤ rgbaBuffer.length) (hp : (p : ℤ) < numPixels)
    (hv : rgbaBuffer[4 * p + c.val]? = some (Binary32.fin v)) :
    (0 ≤ (Machine.bracket (lut.luts c) (Binary32.fin v)).1 ∧
      (Machine.bracket (lut.luts c) (Binary32.fin v)).1
        ≤ (Machine.bracket (lut.luts c) (Binary32.fin v)).2 ∧
      (Machine.bracket (lut.luts c) (Binary32.fin v)).2 ≤ ((lut.luts c).length : ℤ) - 1) ∧
    (∃ k : ℤ, Machine.reverseLookupNearest_1D (Binary32.fin v) (lut.luts c)
        = some (Binary32.fin (k : ℚ)) ∧ 0 ≤ k ∧ k ≤ ((lut.luts c).length : ℤ) - 1) ∧
    (∃ (out : List Binary32) (y : Binary32),
      Machine.Lut1D_NearestInverse rgbaBuffer numPixels lut = some out ∧
      out[4 * p + c.val]? = some y ∧
      ∀ w : ℚ, Binary32.sub (Binary32.fin (lut.from_max c)) (Binary32.fin (lut.from_min c))
          = Binary32.fin w →
        (y = Binary32.inf false ∨ ∃ q : ℚ, y = Binary32.fin q ∧ lut.from_min c ≤ q) ∧
        (Binary32.Exact (lut.from_max c - lut.from_min c) →
          Binary32.Exact
            ((lut.from_max c - lut.from_min c) / (((lut.luts c).length : ℚ) - 1)) →
          ∃ q : ℚ, y = Binary32.fin q ∧ lut.from_min c ≤ q ∧ q ≤ lut.from_max c)) ∧
    (∃ (r : Binary32) (lo hi : ℚ) (out : List Binary32) (y : Binary32),
      Machine.reverseLookupLinear_1D (Binary32.fin v) (lut.luts c)
          (Binary32.div (Binary32.fin 1) (Machine.sizeMinusOne (lut.luts 0))) = some r ∧
      readAt (lut.luts c) (Machine.bracket (lut.luts c) (Binary32.fin v)).1 = some lo ∧
      readAt (lut.luts c) (Machine.bracket (lut.luts c) (Binary32.fin v)).2 = some hi ∧
      ((r = Binary32.nan ∧ lo < hi ∧
          Binary32.sub (Binary32.fin hi) (Binary32.fin lo) = Binary32.inf false) ∨
        ∃ q : ℚ, r = Binary32.fin q ∧ 0 ≤ q ∧ q ≤ 1) ∧
      Machine.Lut1D_LinearInverse rgbaBuffer numPixels lut = some out ∧
      out[4 * p + c.val]? = some y ∧
      ∀ w : ℚ, Binary32.sub (Binary32.fin (lut.from_max c)) (Binary32.fin (lut.from_min c))
          = Binary32.fin w → r ≠ Binary32.nan →
        (y = Binary32.inf false ∨ ∃ q : ℚ, y = Binary32.fin q ∧ lut.from_min c ≤ q) ∧
        (Binary32.Exact (lut.from_max c - lut.from_min c) →
          ∃ q : ℚ, y = Binary32.fin q ∧ lut.from_min c ≤ q ∧ q ≤ lut.from_max c)) := by
  have hN1 : ∀ i, 1 ≤ (lut.luts i).length ∧ (lut.luts i).length ≤ 2 ^ 24 + 1 :=
    fun i => ⟨by have := (hN i).1; omega, (hN i).2⟩
  have hp2 : p < numPixels.toNat := by omega
  obtain ⟨b0, b1, b2⟩ := Machine_bracket_bounds (lut.luts c) (Binary32.fin v) (hN1 c).1
  obtain ⟨k, hk, hk0, hk1⟩ := Machine_reverseLookupNearest_defined (Binary32.fin v)
    (lut.luts c) (hN1 c).1 (hN c).2
  obtain ⟨⟨outN, houtN⟩, ⟨outL, houtL⟩⟩ := Machine_inverse_total lut rgbaBuffer numPixels
    hN1 hbuf
  have hchN := Machine_pixelLoop_channel (f := Machine.Lut1D_NearestInverse_channel lut)
    houtN hp2 c
  rw [hv, Option.some_bind, Machine_applyChannel_of_ne_nan _ _ (by simp)] at hchN
  have hchL := Machine_pixelLoop_channel (f := Machine.Lut1D_LinearInverse_channel lut)
    houtL hp2 c
  rw [hv, Option.some_bind, Machine_applyChannel_of_ne_nan _ _ (by simp)] at hchL
  -- the factor of the linear lookup
  obtain ⟨inv, hinv, hinv0, hinv1⟩ := Machine_invMaxIndex (lut.luts 0) (hN 0).1 (hN 0).2
  rw [← hsame c] at hinv1
  obtain ⟨r, lo, hi, hr, hlo, hhi, hcase⟩ := Machine_reverseLookupLinear_bounds v
    (lut.luts c) inv (hN c).1 (hN c).2 (hmono c) (hex c).2.2 hinv0 hinv1
  rw [← hinv] at hr
  obtain ⟨yL, hyL⟩ := Option.isSome_iff_exists.mp (by
    rw [hchL]
    unfold Machine.Lut1D_LinearInverse_channel
    simp only [Option.isSome_map']
    exact Machine_reverseLookupLinear_isSome _ _ _ (hN1 c).1 :
      (outL[4 * p + c.val]?).isSome)
  obtain ⟨yN, hyN⟩ := Option.isSome_iff_exists.mp (by
    rw [hchN]
    unfold Machine.Lut1D_NearestInverse_channel
    rw [hk]
    rfl : (outN[4 * p + c.val]?).isSome)
  refine ⟨⟨b0, b1, by omega⟩, ⟨k, hk, hk0, by omega⟩, ⟨outN, yN, houtN, hyN, ?_⟩,
    ⟨r, lo, hi, outL, yL, hr, hlo, hhi, hcase, houtL, hyL, ?_⟩⟩
  · intro w hw
    obtain ⟨y, hy, h1, h2⟩ := Machine_NearestInverse_channel_bounds lut c (Binary32.fin v) w
      (hN c).1 (hN c).2 (hdom c) (hex c).1 (hex c).2.1 hw
    rw [hchN, hy] at hyN
    rw [← Option.some.inj hyN]
    exact ⟨h1, h2⟩
  · intro w hw hrn
    rcases hcase with ⟨hnan, -, -⟩ | ⟨q, hq, hq0, hq1⟩
    · exact absurd hnan hrn
    · have hch : Machine.Lut1D_LinearInverse_channel lut c (Binary32.fin v)
          = some (Binary32.add (Binary32.mul (Binary32.fin w) (Binary32.fin q))
              (Binary32.fin (lut.from_min c))) := by
        unfold Machine.Lut1D_LinearInverse_channel
        simp only [hr, hw, hq, Option.map_some']
      rw [hchL, hch] at hyL
      rw [← Option.some.inj hyL]
      exact Machine_LinearInverse_output_bounds lut c w q (hdom c) (hex c).1 (hex c).2.1 hw
        hq0 hq1

/-- C40, witness: the LUT `y = x + 1/8` over `[0, 1]` and the value 5 above its last
sample: `Lut1D_LinearInverse` returns `from_max = 1`, and `Lut1D_NearestInverse` a number
of the domain too. -/
theorem inverse_kernels_stay_in_domain_witness :
    (∃ (out : List Binary32) (y : Binary32),
      Machine.Lut1D_NearestInverse
          [Binary32.fin 5, Binary32.nan, Binary32.inf true, Binary32.fin 9] 1 eighthLut
        = some out ∧
      out[4 * 0 + (0 : Fin 3).val]? = some y ∧
      ∃ q : ℚ, y = Binary32.fin q ∧ eighthLut.from_min 0 ≤ q ∧ q ≤ eighthLut.from_max 0) ∧
    Machine.Lut1D_LinearInverse
        [Binary32.fin 5, Binary32.nan, Binary32.inf true, Binary32.fin 9] 1 eighthLut
      = some [Binary32.fin 1, Binary32.nan, Binary32.fin 0, Binary32.fin 9] := by
  obtain ⟨-, -, ⟨out, y, h1, h2, h3⟩, -⟩ := inverse_kernels_stay_in_domain eighthLut
    [Binary32.fin 5, Binary32.nan, Binary32.inf true, Binary32.fin 9] 1 0 0 5
    (by decide) (by decide) (by decide!) (by decide!) (by decide!) (by decide) (by decide)
    (by rfl)
  exact ⟨⟨out, y, h1, h2, (h3 1 (by decide!)).2 (by decide!) (by decide!)⟩, by decide!⟩
/-! ## The linear kernels at the ends of the table, in binary32 arithmetic -/

theorem Machine_pixelLoop_length {f0 f1 f2 : Binary32 → Option Binary32} :
    ∀ (n : ℕ) (buf out : List Binary32), Machine.pixelLoop f0 f1 f2 n buf = some out →
      out.length = buf.length
  | 0, buf, out, h => by
    simp only [Machine.pixelLoop, Option.some.injEq] at h
    rw [h]
  | n + 1, buf, out, h => by
    obtain ⟨r, g, b, a, rest, r', g', b', rest', rfl, -, -, -, hrest, rfl⟩ :=
      Machine_pixelLoop_succ h
    have ih := Machine_pixelLoop_length n rest rest' hrest
    simp [ih]

/-- The two clamped indices of the linear lookup at a finite index. -/
theorem Machine_clamp_floor_ceil (t : ℚ) (lut : List ℚ) (hN1 : 1 ≤ lut.length)
    (hN2 : lut.length ≤ 2 ^ 24 + 1) :
    Machine.clamp (Binary32.floor (Binary32.fin t)) (Binary32.fin 0) (Machine.sizeMinusOne lut)
        = some (max (min ⌊t⌋ ((lut.length - 1 : ℕ) : ℤ)) 0) ∧
    Machine.clamp (Binary32.ceil (Binary32.fin t)) (Binary32.fin 0) (Machine.sizeMinusOne lut)
        = some (max (min ⌈t⌉ ((lut.length - 1 : ℕ) : ℤ)) 0) := by
  have hsz := Machine_sizeMinusOne_eq lut hN1 hN2
  have hcQ : (((lut.length - 1 : ℕ) : ℤ) : ℚ) = ((lut.length - 1 : ℕ) : ℚ) := by
    push_cast
    rfl
  constructor
  · rw [hsz, floor_fin, Machine_clamp_fin _ _ (by omega), ← hcQ, clamp_intCast]
  · rw [hsz, ceil_fin, Machine_clamp_fin _ _ (by omega), ← hcQ, clamp_intCast]

/-- Channel `c` of `Lut1D_Linear` at a value whose index is a finite number that is not
positive: the first sample. -/
theorem Machine_Linear_channel_of_nonpos (lut : Lut1D) (c : Fin 3) (x : Binary32) (t : ℚ)
    (hN1 : 1 ≤ (lut.luts c).length) (hN2 : (lut.luts c).length ≤ 2 ^ 24 + 1)
    (hex : ∀ s ∈ lut.luts c, Binary32.Exact s)
    (ht : Machine.index lut c x = Binary32.fin t) (ht0 : t ≤ 0) (first : ℚ)
    (hfirst : (lut.luts c)[0]? = some first) :
    Machine.Lut1D_Linear_channel lut c x = some (Binary32.fin first) := by
  obtain ⟨kf, kc⟩ := Machine_clamp_floor_ceil t (lut.luts c) hN1 hN2
  obtain ⟨htM, -⟩ := Machine_index_fin_inv ht
  have hf0 : ⌊t⌋ ≤ 0 := by
    have : ((⌊t⌋ : ℤ) : ℚ) ≤ ((0 : ℤ) : ℚ) := by
      have := Int.floor_le t
      push_cast
      linarith
    exact_mod_cast this
  have hc0 : ⌈t⌉ ≤ 0 := Int.ceil_le.mpr (by simpa using ht0)
  obtain ⟨s, hs, -, -, hv⟩ := Machine_lookupLinear_coincide t (lut.luts c) hN1 hN2 hex htM 0
    (by rw [kf]; congr 1; omega) (by rw [kc]; congr 1; omega)
  simp only [Int.toNat_zero] at hs
  rw [hfirst] at hs
  unfold Machine.Lut1D_Linear_channel
  rw [ht, hv, Option.some.inj hs]

/-- Channel `c` of `Lut1D_Linear` at a value whose index is a finite number at least the
last index: the last sample. -/
theorem Machine_Linear_channel_of_ge (lut : Lut1D) (c : Fin 3) (x : Binary32) (t : ℚ)
    (hN1 : 1 ≤ (lut.luts c).length) (hN2 : (lut.luts c).length ≤ 2 ^ 24 + 1)
    (hex : ∀ s ∈ lut.luts c, Binary32.Exact s)
    (ht : Machine.index lut c x = Binary32.fin t)
    (htn : ((lut.luts c).length : ℚ) - 1 ≤ t) (last : ℚ)
    (hlast : (lut.luts c)[(lut.luts c).length - 1]? = some last) :
    Machine.Lut1D_Linear_channel lut c x = some (Binary32.fin last) := by
  obtain ⟨kf, kc⟩ := Machine_clamp_floor_ceil t (lut.luts c) hN1 hN2
  obtain ⟨htM, -⟩ := Machine_index_fin_inv ht
  have hcast : ((((lut.luts c).length - 1 : ℕ) : ℤ) : ℚ) = ((lut.luts c).length : ℚ) - 1 := by
    rw [Int.cast_natCast, Nat.cast_sub hN1]
    simp
  rw [← hcast] at htn
  have hfn : (((lut.luts c).length - 1 : ℕ) : ℤ) ≤ ⌊t⌋ := Int.le_floor.mpr htn
  have hcn : (((lut.luts c).length - 1 : ℕ) : ℤ) ≤ ⌈t⌉ := hfn.trans (Int.floor_le_ceil t)
  obtain ⟨s, hs, -, -, hv⟩ := Machine_lookupLinear_coincide t (lut.luts c) hN1 hN2 hex htM
    (((lut.luts c).length - 1 : ℕ) : ℤ)
    (by rw [kf]; congr 1; omega) (by rw [kc]; congr 1; omega)
  simp only [Int.toNat_ofNat] at hs
  rw [hlast] at hs
  unfold Machine.Lut1D_Linear_channel
  rw [ht, hv, Option.some.inj hs]

/-- The linear inverse lookup of the first sample of a strictly increasing table of
binary32 samples: zero. -/
theorem Machine_reverseLookupLinear_first (lut : List ℚ) (inv : ℚ) (hN : 2 ≤ lut.length)
    (hN2 : lut.length ≤ 2 ^ 24 + 1) (hs : lut.Pairwise (· < ·))
    (hex : ∀ s ∈ lut, Binary32.Exact s) (first : ℚ) (hfirst : lut[0]? = some first) :
    Machine.reverseLookupLinear_1D (Binary32.fin first) lut (Binary32.fin inv)
      = some (Binary32.fin 0) := by
  have e0 : first = lut[0] := by
    rw [List.getElem?_eq_getElem (by omega)] at hfirst
    exact (Option.some.inj hfirst).symm
  have hlb : lower_bound lut first = 0 := by
    apply lower_bound_eq lut first 0 (Nat.zero_le _)
    · intro i _ h
      omega
    · intro i hi _
      rw [e0]
      apply not_lt.mpr
      rcases Nat.eq_zero_or_pos i with h0 | hpos
      · subst h0
        exact le_rfl
      · exact (List.pairwise_iff_getElem.mp hs 0 i (by omega) hi hpos).le
  have hb := bracket_of_lower_bound_zero lut first hlb hN
  have hb1 : (Machine.bracket lut (Binary32.fin first)).1 = 0 := by
    rw [Machine_bracket_fin, hb]
  have hb2 : (Machine.bracket lut (Binary32.fin first)).2 = 1 := by
    rw [Machine_bracket_fin, hb]
  have h01 : lut[0] < lut[1] := List.pairwise_iff_getElem.mp hs 0 1 (by omega) (by omega)
    (by omega)
  have rlo : readAt lut (Machine.bracket lut (Binary32.fin first)).1 = some first := by
    rw [hb1, (readAt_of_lt lut 0 le_rfl (by omega)).1]
    simpa using hfirst
  have rhi : readAt lut (Machine.bracket lut (Binary32.fin first)).2 = some lut[1] := by
    rw [hb2, (readAt_of_lt lut 1 (by omega) (by omega)).1]
    simp only [Int.toNat_one]
    exact List.getElem?_eq_getElem (by omega)
  rw [Machine_reverseLookupLinear_shape _ lut _ first lut[1] rlo rhi, hb1,
    ofInt_of_bounds 0 le_rfl (by norm_num)]
  have hlt : Binary32.lt (Binary32.fin first) (Binary32.fin lut[1]) = true := by
    rw [e0]
    simp [Binary32.lt, h01]
  rw [if_pos hlt]
  have hnum : Binary32.sub (Binary32.fin first) (Binary32.fin first) = Binary32.fin 0 := by
    show Binary32.round (first - first) = _
    rw [sub_self, binary32_round_zero]
  have hexlo : Binary32.Exact first := hex first (List.mem_iff_getElem?.mpr ⟨_, hfirst⟩)
  have hexhi : Binary32.Exact lut[1] := hex _ (List.getElem_mem _)
  have hdelta : Binary32.div (Binary32.fin 0)
      (Binary32.sub (Binary32.fin lut[1]) (Binary32.fin first)) = Binary32.fin 0 := by
    have hden : Binary32.sub (Binary32.fin lut[1]) (Binary32.fin first)
        = Binary32.round (lut[1] - first) := rfl
    rw [hden]
    rcases round_sub_pos first lut[1] hexlo hexhi (by rw [e0]; exact h01) with
      hinf | ⟨d, hd, hd0, -⟩
    · rw [hinf]
      rfl
    · rw [hd]
      simp only [Binary32.div]
      rw [if_neg hd0.ne', zero_div, binary32_round_zero]
  rw [hnum, hdelta]
  have e1 : Binary32.add (Binary32.fin (((0 : ℤ) : ℤ) : ℚ)) (Binary32.fin 0) = Binary32.fin 0 := by
    show Binary32.round (((0 : ℤ) : ℚ) + 0) = _
    simp [binary32_round_zero]
  rw [e1]
  have e2 : Binary32.mul (Binary32.fin 0) (Binary32.fin inv) = Binary32.fin 0 := by
    show Binary32.round (0 * inv) = _
    rw [zero_mul, binary32_round_zero]
  rw [e2, max_fin]
  simp

/-- The linear inverse lookup of the last sample of a strictly increasing table of
binary32 samples whose last difference is finite: the last position times
`invMaxIndex`. -/
theorem Machine_reverseLookupLinear_last (lut : List ℚ) (inv : ℚ) (hN : 2 ≤ lut.length)
    (hN2 : lut.length ≤ 2 ^ 24 + 1) (hs : lut.Pairwise (· < ·))
    (hex : ∀ s ∈ lut, Binary32.Exact s) (lo last d : ℚ)
    (hlo : lut[lut.length - 2]? = some lo) (hlast : lut[lut.length - 1]? = some last)
    (hd : Binary32.sub (Binary32.fin last) (Binary32.fin lo) = Binary32.fin d) :
    Machine.reverseLookupLinear_1D (Binary32.fin last) lut (Binary32.fin inv)
      = some (Binary32.max (Binary32.mul (Binary32.fin ((lut.length - 1 : ℕ) : ℚ))
          (Binary32.fin inv)) (Binary32.fin 0)) := by
  have e0 : last = lut[lut.length - 1] := by
    rw [List.getElem?_eq_getElem (by omega)] at hlast
    exact (Option.some.inj hlast).symm
  have e1 : lo = lut[lut.length - 2] := by
    rw [List.getElem?_eq_getElem (by omega)] at hlo
    exact (Option.some.inj hlo).symm
  have hlb : lower_bound lut last = lut.length - 1 := by
    apply lower_bound_eq lut last (lut.length - 1) (by omega)
    · intro i hi h
      rw [e0]
      exact List.pairwise_iff_getElem.mp hs i (lut.length - 1) hi (by omega) h
    · intro i hi h
      have : i = lut.length - 1 := by omega
      subst this
      rw [e0]
      exact lt_irrefl _
  have hb := bracket_of_lower_bound_pos lut last (lut.length - 1) hlb (by omega) (by omega)
  have e2 : lut.length - 1 - 1 = lut.length - 2 := by omega
  rw [e2] at hb
  have hb1 : (Machine.bracket lut (Binary32.fin last)).1 = ((lut.length - 2 : ℕ) : ℤ) := by
    rw [Machine_bracket_fin, hb]
  have hb2 : (Machine.bracket lut (Binary32.fin last)).2 = ((lut.length - 1 : ℕ) : ℤ) := by
    rw [Machine_bracket_fin, hb]
  have hlt0 : lo < last := by
    rw [e0, e1]
    exact List.pairwise_iff_getElem.mp hs _ _ (by omega) (by omega) (by omega)
  have rlo : readAt lut (Machine.bracket lut (Binary32.fin last)).1 = some lo := by
    rw [hb1, (readAt_of_lt lut _ (by omega) (by omega)).1]
    simpa using hlo
  have rhi : readAt lut (Machine.bracket lut (Binary32.fin last)).2 = some last := by
    rw [hb2, (readAt_of_lt lut _ (by omega) (by omega)).1]
    simpa using hlast
  rw [Machine_reverseLookupLinear_shape _ lut _ lo last rlo rhi, hb1,
    ofInt_of_bounds _ (by omega) (by omega)]
  have hlt : Binary32.lt (Binary32.fin lo) (Binary32.fin last) = true := by
    simp [Binary32.lt, hlt0]
  rw [if_pos hlt, hd]
  have hexlo : Binary32.Exact lo := hex lo (List.mem_iff_getElem?.mpr ⟨_, hlo⟩)
  have hexhi : Binary32.Exact last := hex last (List.mem_iff_getElem?.mpr ⟨_, hlast⟩)
  have hd0 : 0 < d := by
    rcases round_sub_pos lo last hexlo hexhi hlt0 with hinf | ⟨d2, hd2, hd20, -⟩
    · have h : Binary32.round (last - lo) = Binary32.fin d := hd
      rw [hinf] at h
      cases h
    · have h : Binary32.round (last - lo) = Binary32.fin d := hd
      rw [hd2] at h
      cases h
      exact hd20
  have hdelta : Binary32.div (Binary32.fin d) (Binary32.fin d) = Binary32.fin 1 := by
    simp only [Binary32.div]
    rw [if_neg hd0.ne', div_self hd0.ne', binary32_round_one]
  rw [hdelta]
  have hadd : Binary32.add (Binary32.fin ((((lut.length - 2 : ℕ) : ℤ) : ℤ) : ℚ)) (Binary32.fin 1)
      = Binary32.fin ((lut.length - 1 : ℕ) : ℚ) := by
    show Binary32.round (_ + 1) = _
    have e : ((((lut.length - 2 : ℕ) : ℤ) : ℤ) : ℚ) + 1 = ((lut.length - 1 : ℕ) : ℚ) := by
      have : lut.length - 1 = lut.length - 2 + 1 := by omega
      rw [this]
      push_cast
      ring
    rw [e]
    exact exact_natCast _ (by omega)
  rw [hadd]
/-! ## Claim on the round trip outside of the domain, in binary32 arithmetic -/

set_option maxHeartbeats 1000000 in
/-- C36, counterexample to the claim as stated, in binary32 arithmetic; every LUT below has
strictly increasing binary32 samples and binary32 bounds `from_min < from_max`.
On the identity LUT of 30 samples over `[0, 1831]` the input `1831 + 2^-13` above
`from_max` has the computed index `15204351/2^19 < 29`, and the round trip gives
`1831 - 2^-13`.  On the 42-sample LUT over `[0, 1]` the input 2 comes back as `1 - 2^-24`,
because `41 * (1/41 rounded)` rounds below 1.  On the LUT over `[-7.5, 1.1f]` the input 5
comes back as `576717/2^19 > from_max`, because the width is not a binary32 value.  On the
two-sample table `[-2^127, 2^127]` the input 2 comes back as NaN, because the difference of
the samples overflows.  On the LUT `y = x + 1/8` the finite input `2^127` has an infinite
index and comes back as NaN.  On the LUT over `[-2^127, 2^127]` the input `-(2^127 + 2^126)`
below `from_min` comes back as NaN, because the width overflows. -/
theorem Lut1D_roundtrip_misses_domain_bound :
    (thirtyLut.IsBinary32 ∧ (∀ i, (thirtyLut.luts i).Pairwise (· < ·)) ∧
      (∀ i, thirtyLut.from_min i < thirtyLut.from_max i) ∧
      thirtyLut.from_max 0 < 14999553 / 2 ^ 13 ∧
      Machine.index thirtyLut 0 (Binary32.fin (14999553 / 2 ^ 13))
        = Binary32.fin (15204351 / 2 ^ 19) ∧
      Machine.Lut1D_Linear
          [Binary32.fin (14999553 / 2 ^ 13), Binary32.fin 0, Binary32.fin 0, Binary32.fin 1]
          1 thirtyLut
        = some [Binary32.fin (15204351 / 2 ^ 19), Binary32.fin 0, Binary32.fin 0,
            Binary32.fin 1] ∧
      Machine.Lut1D_LinearInverse
          [Binary32.fin (15204351 / 2 ^ 19), Binary32.fin 0, Binary32.fin 0, Binary32.fin 1]
          1 thirtyLut
        = some [Binary32.fin (14999551 / 2 ^ 13), Binary32.fin 0, Binary32.fin 0,
            Binary32.fin 1]) ∧
    (fortyTwoLut.IsBinary32 ∧ (∀ i, (fortyTwoLut.luts i).Pairwise (· < ·)) ∧
      (∀ i, fortyTwoLut.from_min i < fortyTwoLut.from_max i) ∧
      Machine.Lut1D_Linear
          [Binary32.fin 2, Binary32.fin 0, Binary32.fin 0, Binary32.fin 1] 1 fortyTwoLut
        = some [Binary32.fin 41, Binary32.fin 0, Binary32.fin 0, Binary32.fin 1] ∧
      Machine.Lut1D_LinearInverse
          [Binary32.fin 41, Binary32.fin 0, Binary32.fin 0, Binary32.fin 1] 1 fortyTwoLut
        = some [Binary32.fin (1 - 1 / 2 ^ 24), Binary32.fin 0, Binary32.fin 0,
            Binary32.fin 1]) ∧
    (offsetDomainLut.IsBinary32 ∧ (∀ i, (offsetDomainLut.luts i).Pairwise (· < ·)) ∧
      (∀ i, offsetDomainLut.from_min i < offsetDomainLut.from_max i) ∧
      Machine.Lut1D_Linear
          [Binary32.fin 5, Binary32.fin (-8), Binary32.fin (-8), Binary32.fin 1] 1
          offsetDomainLut
        = some [Binary32.fin 1, Binary32.fin 0, Binary32.fin 0, Binary32.fin 1] ∧
      Machine.Lut1D_LinearInverse
          [Binary32.fin 1, Binary32.fin 0, Binary32.fin 0, Binary32.fin 1] 1 offsetDomainLut
        = some [Binary32.fin (576717 / 2 ^ 19), Binary32.fin (-(15 / 2)),
            Binary32.fin (-(15 / 2)), Binary32.fin 1] ∧
      offsetDomainLut.from_max 0 < 576717 / 2 ^ 19) ∧
    (wideSampleLut.IsBinary32 ∧ (∀ i, (wideSampleLut.luts i).Pairwise (· < ·)) ∧
      (∀ i, wideSampleLut.from_min i < wideSampleLut.from_max i) ∧
      Machine.Lut1D_Linear
          [Binary32.fin 2, Binary32.fin 2, Binary32.fin 2, Binary32.fin 1] 1 wideSampleLut
        = some [Binary32.fin (2 ^ 127), Binary32.fin (2 ^ 127), Binary32.fin (2 ^ 127),
            Binary32.fin 1] ∧
      Machine.Lut1D_LinearInverse
          [Binary32.fin (2 ^ 127), Binary32.fin (2 ^ 127), Binary32.fin (2 ^ 127),
            Binary32.fin 1] 1 wideSampleLut
        = some [Binary32.nan, Binary32.nan, Binary32.nan, Binary32.fin 1]) ∧
    (eighthLut.IsBinary32 ∧ (∀ i, (eighthLut.luts i).Pairwise (· < ·)) ∧
      (∀ i, eighthLut.from_min i < eighthLut.from_max i) ∧
      Machine.Lut1D_Linear
          [Binary32.fin (2 ^ 127), Binary32.fin 0, Binary32.fin 0, Binary32.fin 1] 1 eighthLut
        = some [Binary32.nan, Binary32.fin (1 / 8), Binary32.fin (1 / 8), Binary32.fin 1] ∧
      Machine.Lut1D_LinearInverse
          [Binary32.nan, Binary32.fin (1 / 8), Binary32.fin (1 / 8), Binary32.fin 1] 1
          eighthLut
        = some [Binary32.nan, Binary32.fin 0, Binary32.fin 0, Binary32.fin 1]) ∧
    (wideLut.IsBinary32 ∧ (∀ i, (wideLut.luts i).Pairwise (· < ·)) ∧
      (∀ i, wideLut.from_min i < wideLut.from_max i) ∧
      Binary32.Exact (-(2 ^ 127 + 2 ^ 126)) ∧
      Machine.index wideLut 0 (Binary32.fin (-(2 ^ 127 + 2 ^ 126))) = Binary32.fin 0 ∧
      Machine.Lut1D_Linear
          [Binary32.fin (-(2 ^ 127 + 2 ^ 126)), Binary32.nan, Binary32.nan, Binary32.fin 1]
          1 wideLut
        = some [Binary32.fin 0, Binary32.nan, Binary32.nan, Binary32.fin 1] ∧
      Machine.Lut1D_LinearInverse
          [Binary32.fin 0, Binary32.nan, Binary32.nan, Binary32.fin 1] 1 wideLut
        = some [Binary32.nan, Binary32.nan, Binary32.nan, Binary32.fin 1]) :=
  ⟨⟨by decide!, by decide!, by decide!, by decide!, by decide!, by decide!, by decide!⟩,
    ⟨by decide!, by decide!, by decide!, by decide!, by decide!⟩,
    ⟨by decide!, by decide!, by decide!, by decide!, by decide!, by decide!⟩,
    ⟨by decide!, by decide!, by decide!, by decide!, by decide!⟩,
    ⟨by decide!, by decide!, by decide!, by decide!, by decide!⟩,
    ⟨by decide!, by decide!, by decide!, by decide!, by decide!, by decide!, by decide!⟩⟩

/-- C36 (as amended), in binary32 arithmetic: for every Lut1D whose three channels have
the same length `2 ≤ N ≤ 2^24 + 1` with strictly increasing binary32 samples and binary32
bounds `from_min[c] < from_max[c]`, a buffer in which every channel value of the pixels
run over that is not NaN has an index that is not NaN, and a finite channel value `x`
whose computed index is a finite number `t`: `Lut1D_Linear` and then `Lut1D_LinearInverse`
return.  When `t ≤ 0`, which is the case for `x ≤ from_min[c]`, and the width
`from_max[c] - from_min[c]` is finite in binary32, the round trip gives `from_min[c]`.
When `t ≥ N-1`, which is the case for `x ≥ from_max[c]` when the computed index of
`from_max[c]` is at least `N-1`, the difference of the last two samples is finite in
binary32, `(N-1) * invMaxIndex[0]` is 1 in binary32 and the width is a binary32 value, the
round trip gives `from_max[c]`. -/
theorem Lut1D_roundtrip_clamps_outside_domain (lut : Lut1D) (rgbaBuffer : List Binary32)
    (numPixels : ℤ) (p : ℕ) (c : Fin 3) (x t : ℚ)
    (hN : ∀ i, 2 ≤ (lut.luts i).length ∧ (lut.luts i).length ≤ 2 ^ 24 + 1)
    (hsame : ∀ i, (lut.luts i).length = (lut.luts 0).length)
    (hmono : ∀ i, (lut.luts i).Pairwise (· < ·))
    (hdom : ∀ i, lut.from_min i < lut.from_max i)
    (hex : lut.IsBinary32)
    (hbuf : 4 * numPixels.toNat ≤ rgbaBuffer.length) (hp : (p : ℤ) < numPixels)
    (hidx : ∀ (q : ℕ) (i : Fin 3) (y : Binary32), (q : ℤ) < numPixels →
      rgbaBuffer[4 * q + i.val]? = some y → y ≠ Binary32.nan →
      Machine.index lut i y ≠ Binary32.nan)
    (hx : rgbaBuffer[4 * p + c.val]? = some (Binary32.fin x))
    (ht : Machine.index lut c (Binary32.fin x) = Binary32.fin t) :
    ∃ mid out : List Binary32,
      Machine.Lut1D_Linear rgbaBuffer numPixels lut = some mid ∧
      Machine.Lut1D_LinearInverse mid numPixels lut = some out ∧
      (x ≤ lut.from_min c → t ≤ 0) ∧
      (∀ tmax : ℚ, Machine.index lut c (Binary32.fin (lut.from_max c)) = Binary32.fin tmax →
        ((lut.luts c).length : ℚ) - 1 ≤ tmax → lut.from_max c ≤ x →
        ((lut.luts c).length : ℚ) - 1 ≤ t) ∧
      (t ≤ 0 →
        (∃ w : ℚ, Binary32.sub (Binary32.fin (lut.from_max c)) (Binary32.fin (lut.from_min c))
          = Binary32.fin w) →
        out[4 * p + c.val]? = some (Binary32.fin (lut.from_min c))) ∧
      (((lut.luts c).length : ℚ) - 1 ≤ t →
        (∃ lo last d : ℚ, (lut.luts c)[(lut.luts c).length - 2]? = some lo ∧
          (lut.luts c)[(lut.luts c).length - 1]? = some last ∧
          Binary32.sub (Binary32.fin last) (Binary32.fin lo) = Binary32.fin d) →
        Binary32.mul (Machine.sizeMinusOne (lut.luts 0))
          (Binary32.div (Binary32.fin 1) (Machine.sizeMinusOne (lut.luts 0)))
          = Binary32.fin 1 →
        Binary32.Exact (lut.from_max c - lut.from_min c) →
        out[4 * p + c.val]? = some (Binary32.fin (lut.from_max c))) := by
  have hN1 : ∀ i, 1 ≤ (lut.luts i).length ∧ (lut.luts i).length ≤ 2 ^ 24 + 1 :=
    fun i => ⟨by have := (hN i).1; omega, (hN i).2⟩
  have hp2 : p < numPixels.toNat := by omega
  have hc1 : 1 ≤ (lut.luts c).length := (hN1 c).1
  obtain ⟨-, ⟨mid, hmid⟩⟩ := Machine_forward_total lut rgbaBuffer numPixels hN1 hbuf hidx
  have hlen := Machine_pixelLoop_length _ _ _ hmid
  obtain ⟨-, ⟨out, hout⟩⟩ := Machine_inverse_total lut mid numPixels hN1 (by omega)
  have hch1 := Machine_pixelLoop_channel (f := Machine.Lut1D_Linear_channel lut) hmid hp2 c
  rw [hx, Option.some_bind, Machine_applyChannel_of_ne_nan _ _ (by simp)] at hch1
  have hch2 := Machine_pixelLoop_channel (f := Machine.Lut1D_LinearInverse_channel lut) hout
    hp2 c
  obtain ⟨inv, hinv, hinv0, hinv1⟩ := Machine_invMaxIndex (lut.luts 0) (hN 0).1 (hN 0).2
  have hfirst : (lut.luts c)[0]? = some (lut.luts c)[0] :=
    List.getElem?_eq_getElem (by omega)
  have hlast : (lut.luts c)[(lut.luts c).length - 1]?
      = some (lut.luts c)[(lut.luts c).length - 1] :=
    List.getElem?_eq_getElem (by omega)
  refine ⟨mid, out, hmid, hout, ?_, ?_, ?_, ?_⟩
  · intro hle
    exact Machine_index_nonpos lut c x t (hdom c) (hN1 c).1 (hN1 c).2 hle ht
  · intro tmax htmax hge hxge
    obtain ⟨-, m, d, x2, hm, hx2, hd, hr⟩ := Machine_index_fin_inv ht
    obtain ⟨-, m', d', x3, hm', hx3, hd', hr'⟩ := Machine_index_fin_inv htmax
    cases hx2
    cases hx3
    rw [hm] at hm'
    cases hm'
    have hm0 := Machine_factor_nonneg lut c (hdom c) (hN1 c).1 (hN1 c).2 m hm
    have hdd : d' ≤ d := (round_mono (by linarith :
      lut.from_max c - lut.from_min c ≤ x - lut.from_min c)).1 d' d hd' hd
    have := (round_mono (mul_le_mul_of_nonneg_left hdd hm0)).1 tmax t hr' hr
    linarith
  · intro ht0 hw
    obtain ⟨w, hw⟩ := hw
    rw [Machine_Linear_channel_of_nonpos lut c _ t (hN1 c).1 (hN1 c).2 (hex c).2.2 ht ht0 _
      hfirst] at hch1
    rw [hch1, Option.some_bind, Machine_applyChannel_of_ne_nan _ _ (by simp)] at hch2
    rw [hch2]
    unfold Machine.Lut1D_LinearInverse_channel
    simp only [hinv, hw]
    rw [Machine_reverseLookupLinear_first (lut.luts c) inv (hN c).1 (hN c).2 (hmono c)
      (hex c).2.2 _ hfirst]
    simp only [Option.map_some']
    have e1 : Binary32.mul (Binary32.fin w) (Binary32.fin 0) = Binary32.fin 0 := by
      show Binary32.round (w * 0) = _
      rw [mul_zero, binary32_round_zero]
    have e2 : Binary32.add (Binary32.fin 0) (Binary32.fin (lut.from_min c))
        = Binary32.fin (lut.from_min c) := by
      show Binary32.round (0 + lut.from_min c) = _
      rw [zero_add]
      exact (hex c).1
    rw [e1, e2]
  · intro htn hd hone hW
    obtain ⟨lo, last, d, hlo, hlast2, hd⟩ := hd
    rw [Machine_Linear_channel_of_ge lut c _ t (hN1 c).1 (hN1 c).2 (hex c).2.2 ht htn _
      hlast2] at hch1
    rw [hch1, Option.some_bind, Machine_applyChannel_of_ne_nan _ _ (by simp)] at hch2
    rw [hch2]
    have hWr : Binary32.sub (Binary32.fin (lut.from_max c)) (Binary32.fin (lut.from_min c))
        = Binary32.fin (lut.from_max c - lut.from_min c) := hW
    rw [Machine_sizeMinusOne_eq _ (hN1 0).1 (hN1 0).2, ← hsame c] at hone
    rw [Machine_sizeMinusOne_eq _ (hN1 0).1 (hN1 0).2, ← hsame c] at hinv
    rw [hinv] at hone
    unfold Machine.Lut1D_LinearInverse_channel
    simp only [hWr]
    rw [Machine_sizeMinusOne_eq _ (hN1 0).1 (hN1 0).2, ← hsame c, hinv]
    rw [Machine_reverseLookupLinear_last (lut.luts c) inv (hN c).1 (hN c).2 (hmono c)
      (hex c).2.2 lo last d hlo hlast2 hd, hone]
    simp only [Option.map_some']
    have e0 : Binary32.max (Binary32.fin 1) (Binary32.fin 0) = Binary32.fin 1 := by
      rw [max_fin]
      simp
    have e1 : Binary32.mul (Binary32.fin (lut.from_max c - lut.from_min c)) (Binary32.fin 1)
        = Binary32.fin (lut.from_max c - lut.from_min c) := by
      show Binary32.round ((lut.from_max c - lut.from_min c) * 1) = _
      rw [mul_one]
      exact hW
    have e2 : Binary32.add (Binary32.fin (lut.from_max c - lut.from_min c))
        (Binary32.fin (lut.from_min c)) = Binary32.fin (lut.from_max c) := by
      show Binary32.round (lut.from_max c - lut.from_min c + lut.from_min c) = _
      rw [sub_add_cancel]
      exact (hex c).2.1
    rw [e0, e1, e2]

/-- C36, witness: the LUT `y = x + 1/8` over `[0, 1]`, one pixel whose red value `-3`
comes back as `from_min = 0` and whose green value `81/8` comes back as `from_max = 1`. -/
theorem Lut1D_roundtrip_clamps_outside_domain_witness :
    (∃ mid out : List Binary32,
      Machine.Lut1D_Linear
          [Binary32.fin (-3), Binary32.fin (81 / 8), Binary32.nan, Binary32.fin 9] 1 eighthLut
        = some mid ∧
      Machine.Lut1D_LinearInverse mid 1 eighthLut = some out ∧
      out[4 * 0 + (0 : Fin 3).val]? = some (Binary32.fin (eighthLut.from_min 0))) ∧
    (∃ mid out : List Binary32,
      Machine.Lut1D_Linear
          [Binary32.fin (-3), Binary32.fin (81 / 8), Binary32.nan, Binary32.fin 9] 1 eighthLut
        = some mid ∧
      Machine.Lut1D_LinearInverse mid 1 eighthLut = some out ∧
      out[4 * 0 + (1 : Fin 3).val]? = some (Binary32.fin (eighthLut.from_max 1))) := by
  constructor
  · obtain ⟨mid, out, h1, h2, h3, -, h5, -⟩ := Lut1D_roundtrip_clamps_outside_domain eighthLut
      [Binary32.fin (-3), Binary32.fin (81 / 8), Binary32.nan, Binary32.fin 9] 1 0 0 (-3) (-6)
      (by decide) (by decide) (by decide!) (by decide!) (by decide!) (by decide) (by decide)
      (indicesDefined_spec _ _ _ (by decide!)) (by rfl) (by decide!)
    exact ⟨mid, out, h1, h2, h5 (h3 (by decide!)) ⟨1, by decide!⟩⟩
  · obtain ⟨mid, out, h1, h2, -, h4, -, h6⟩ := Lut1D_roundtrip_clamps_outside_domain eighthLut
      [Binary32.fin (-3), Binary32.fin (81 / 8), Binary32.nan, Binary32.fin 9] 1 0 1 (81 / 8)
      (81 / 4)
      (by decide) (by decide) (by decide!) (by decide!) (by decide!) (by decide) (by decide)
      (indicesDefined_spec _ _ _ (by decide!)) (by rfl) (by decide!)
    exact ⟨mid, out, h1, h2, h6 (h4 2 (by decide!) (by decide!) (by decide!))
      ⟨5 / 8, 9 / 8, 1 / 2, by decide!, by decide!, by decide!⟩ (by decide!) (by decide!)⟩
/-! ## The linear kernels when no operation rounds -/

theorem Machine_noOpSamples_all (H : Machine.Helpers) (l : Lut1D) (c : Fin 3)
    (htype : l.errortype = ErrorType.ERROR_ABSOLUTE ∨ l.errortype = ErrorType.ERROR_RELATIVE) :
    ∀ (samples : List ℚ) (i0 : ℕ),
      (∀ k s, samples[k]? = some s → Machine.sampleWithinTolerance H l c (i0 + k) s = true) →
      Machine.noOpSamples H l.maxerror l.errortype (l.luts c).length
        (Binary32.sub (Binary32.fin (l.from_max c)) (Binary32.fin (l.from_min c)))
        (Binary32.fin (l.from_min c)) i0 samples = Except.ok true
  | [], _, _ => by simp [Machine.noOpSamples]
  | s :: rest, i0, h => by
    have h0 := h 0 s (by simp)
    have ih := Machine_noOpSamples_all H l c htype rest (i0 + 1) (fun k s' hk => by
      have := h (k + 1) s' (by simpa using hk)
      rwa [show i0 + (k + 1) = i0 + 1 + k by ring] at this)
    rcases htype with ht | ht
    · simp only [Machine.sampleWithinTolerance, ht, Nat.add_zero] at h0
      rw [ht] at ih
      simp [Machine.noOpSamples, ht, h0, ih]
    · simp only [Machine.sampleWithinTolerance, ht, Nat.add_zero] at h0
      rw [ht] at ih
      simp [Machine.noOpSamples, ht, h0, ih]

theorem Machine_noOpSamples_some (H : Machine.Helpers) (l : Lut1D) (c : Fin 3)
    (htype : l.errortype = ErrorType.ERROR_ABSOLUTE ∨ l.errortype = ErrorType.ERROR_RELATIVE) :
    ∀ (samples : List ℚ) (i0 : ℕ),
      (∃ k s, samples[k]? = some s ∧ Machine.sampleWithinTolerance H l c (i0 + k) s = false) →
      Machine.noOpSamples H l.maxerror l.errortype (l.luts c).length
        (Binary32.sub (Binary32.fin (l.from_max c)) (Binary32.fin (l.from_min c)))
        (Binary32.fin (l.from_min c)) i0 samples = Except.ok false
  | [], _, h => by
    obtain ⟨k, s, hk, -⟩ := h
    simp at hk
  | s :: rest, i0, h => by
    obtain ⟨k, s', hk, hbad⟩ := h
    by_cases hfirst : Machine.sampleWithinTolerance H l c i0 s = true
    · have hk0 : k ≠ 0 := by
        rintro rfl
        simp only [List.getElem?_cons_zero, Option.some.injEq] at hk
        subst hk
        rw [Nat.add_zero, hfirst] at hbad
        exact Bool.noConfusion hbad
      obtain ⟨k', rfl⟩ := Nat.exists_eq_succ_of_ne_zero hk0
      have ih := Machine_noOpSamples_some H l c htype rest (i0 + 1) ⟨k', s', by simpa using hk, by
        rwa [show i0 + (k' + 1) = i0 + 1 + k' by ring] at hbad⟩
      rcases htype with ht | ht
      · simp only [Machine.sampleWithinTolerance, ht] at hfirst
        rw [ht] at ih
        simp [Machine.noOpSamples, ht, hfirst, ih]
      · simp only [Machine.sampleWithinTolerance, ht] at hfirst
        rw [ht] at ih
        simp [Machine.noOpSamples, ht, hfirst, ih]
    · rcases htype with ht | ht
      · simp only [Machine.sampleWithinTolerance, ht] at hfirst
        simp [Machine.noOpSamples, ht, hfirst]
      · simp only [Machine.sampleWithinTolerance, ht] at hfirst
        simp [Machine.noOpSamples, ht, hfirst]

theorem Machine_noOpSamples_ok (H : Machine.Helpers) (maxerror : ℚ) (errortype : ErrorType) (size : ℕ)
    (m b : Binary32)
    (htype : errortype = ErrorType.ERROR_ABSOLUTE ∨ errortype = ErrorType.ERROR_RELATIVE) :
    ∀ (samples : List ℚ) (i0 : ℕ),
      ∃ r, Machine.noOpSamples H maxerror errortype size m b i0 samples = Except.ok r
  | [], _ => ⟨true, by simp [Machine.noOpSamples]⟩
  | s :: rest, i0 => by
    obtain ⟨r, hr⟩ := Machine_noOpSamples_ok H maxerror errortype size m b htype rest (i0 + 1)
    rcases htype with ht | ht
    · subst ht
      by_cases h : H.EqualWithAbsError (Machine.identval size m b i0) (Binary32.fin s)
          (Binary32.fin maxerror) = true
      · exact ⟨r, by simp [Machine.noOpSamples, h, hr]⟩
      · exact ⟨false, by simp [Machine.noOpSamples, h]⟩
    · subst ht
      by_cases h : H.EqualWithRelError (Machine.identval size m b i0) (Binary32.fin s)
          (Binary32.fin maxerror) = true
      · exact ⟨r, by simp [Machine.noOpSamples, h, hr]⟩
      · exact ⟨false, by simp [Machine.noOpSamples, h]⟩

theorem Machine_noOpChannel_ok (H : Machine.Helpers) (l : Lut1D) (maxerror : ℚ) (errortype : ErrorType)
    (c : Fin 3)
    (htype : errortype = ErrorType.ERROR_ABSOLUTE ∨ errortype = ErrorType.ERROR_RELATIVE) :
    ∃ r, Machine.noOpChannel H l maxerror errortype c = Except.ok r := by
  unfold Machine.noOpChannel
  split
  · exact ⟨true, rfl⟩
  · exact Machine_noOpSamples_ok H maxerror errortype _ _ _ htype _ 0

theorem Machine_noOpChannel_all (H : Machine.Helpers) (l : Lut1D) (c : Fin 3)
    (htype : l.errortype = ErrorType.ERROR_ABSOLUTE ∨ l.errortype = ErrorType.ERROR_RELATIVE)
    (h : ∀ i s, (l.luts c)[i]? = some s → Machine.sampleWithinTolerance H l c i s = true) :
    Machine.noOpChannel H l l.maxerror l.errortype c = Except.ok true := by
  unfold Machine.noOpChannel
  split
  · rfl
  · exact Machine_noOpSamples_all H l c htype (l.luts c) 0 (fun k s hk => by
      rw [Nat.zero_add]; exact h k s hk)

theorem Machine_noOpChannel_some (H : Machine.Helpers) (l : Lut1D) (c : Fin 3)
    (htype : l.errortype = ErrorType.ERROR_ABSOLUTE ∨ l.errortype = ErrorType.ERROR_RELATIVE)
    (h : ∃ i s, (l.luts c)[i]? = some s ∧ Machine.sampleWithinTolerance H l c i s = false) :
    Machine.noOpChannel H l l.maxerror l.errortype c = Except.ok false := by
  obtain ⟨i, s, hi, hbad⟩ := h
  unfold Machine.noOpChannel
  split
  · rename_i hlen
    rw [List.length_eq_zero] at hlen
    rw [hlen] at hi
    simp at hi
  · exact Machine_noOpSamples_some H l c htype (l.luts c) 0 ⟨i, s, hi, by rw [Nat.zero_add]; exact hbad⟩

/-- With a positive tolerance and a known error type, `IsLut1DNoOp` answers `true` when
every sample passes its test. -/
theorem Machine_IsLut1DNoOp_all (H : Machine.Helpers) (l : Lut1D) (hpos : 0 < l.maxerror)
    (htype : l.errortype = ErrorType.ERROR_ABSOLUTE ∨ l.errortype = ErrorType.ERROR_RELATIVE)
    (h : ∀ c i s, (l.luts c)[i]? = some s → Machine.sampleWithinTolerance H l c i s = true) :
    Machine.IsLut1DNoOp H l l.maxerror l.errortype = Except.ok true := by
  unfold Machine.IsLut1DNoOp
  rw [if_neg (by simpa using hpos)]
  simp only [Machine_noOpChannel_all H l 0 htype (h 0), Machine_noOpChannel_all H l 1 htype (h 1),
    Machine_noOpChannel_all H l 2 htype (h 2)]

/-- With a known error type, `IsLut1DNoOp` answers `false` when some sample fails its
test. -/
theorem Machine_IsLut1DNoOp_some (H : Machine.Helpers) (l : Lut1D)
    (htype : l.errortype = ErrorType.ERROR_ABSOLUTE ∨ l.errortype = ErrorType.ERROR_RELATIVE)
    (h : ∃ c i s, (l.luts c)[i]? = some s ∧ Machine.sampleWithinTolerance H l c i s = false) :
    Machine.IsLut1DNoOp H l l.maxerror l.errortype = Except.ok false := by
  obtain ⟨c, i, s, hi, hbad⟩ := h
  unfold Machine.IsLut1DNoOp
  split
  · rfl
  · obtain ⟨r0, h0⟩ := Machine_noOpChannel_ok H l l.maxerror l.errortype 0 htype
    obtain ⟨r1, h1⟩ := Machine_noOpChannel_ok H l l.maxerror l.errortype 1 htype
    obtain ⟨r2, h2⟩ := Machine_noOpChannel_ok H l l.maxerror l.errortype 2 htype
    have hc := Machine_noOpChannel_some H l c htype ⟨i, s, hi, hbad⟩
    fin_cases c
    · simp only [Fin.zero_eta] at hc
      simp [hc]
    · simp only [Fin.mk_one] at hc
      rw [h0, hc]
      cases r0 <;> simp
    · have hc' : Machine.noOpChannel H l l.maxerror l.errortype 2 = Except.ok false := hc
      rw [h0, h1, hc']
      cases r0 <;> cases r1 <;> simp

/-- What `finalize` returns, by the answer of the no-op test. -/
theorem Machine_finalize_cases (H : Machine.Helpers) (l : Lut1D) :
    (∃ e, Machine.IsLut1DNoOp H l l.maxerror l.errortype = Except.error e ∧
      Machine.finalize H l = Except.error e) ∨
    (Machine.IsLut1DNoOp H l l.maxerror l.errortype = Except.ok true ∧
      Machine.finalize H l = Except.ok { l with m_isNoOp := true, m_cacheID := "<NULL 1D>" }) ∨
    (Machine.IsLut1DNoOp H l l.maxerror l.errortype = Except.ok false ∧
      Machine.finalize H l = Except.ok { l with
        m_isNoOp := false
        m_cacheID := H.GetPrintableHash (H.md5_finish (hashInput l)) }) := by
  unfold Machine.finalize
  rcases h : Machine.IsLut1DNoOp H l l.maxerror l.errortype with e | b
  · exact Or.inl ⟨e, rfl, rfl⟩
  · cases b
    · exact Or.inr (Or.inr ⟨rfl, rfl⟩)
    · exact Or.inr (Or.inl ⟨rfl, rfl⟩)

theorem Machine_CacheCurrent_of_unfinalized (H : Machine.Helpers) (l : Lut1D) (h : l.m_cacheID = "") :
    Machine.CacheCurrent H l := fun hne => absurd h hne

/-- On a valid object whose cache is current, `isNoOp` returns what `finalize`
computes. -/
theorem Machine_isNoOp_of_current (H : Machine.Helpers) (l : Lut1D) (hvalid : ∀ c, l.luts c ≠ [])
    (hcur : Machine.CacheCurrent H l) :
    Machine.isNoOp H l = match Machine.finalize H l with
      | Except.error e => Except.error e
      | Except.ok l' => Except.ok (l'.m_isNoOp, l') := by
  unfold Machine.isNoOp
  rw [if_neg (by simp [hvalid 0, hvalid 1, hvalid 2])]
  by_cases h : l.m_cacheID = ""
  · rw [if_neg (by simpa using h)]
  · rw [if_pos h, hcur h]


/-- The flag `isNoOp` returns on a valid object whose cache is current. -/
theorem Machine_noOpFlag_of_current (H : Machine.Helpers) (l : Lut1D) (hvalid : ∀ c, l.luts c ≠ [])
    (hcur : Machine.CacheCurrent H l) :
    Machine.noOpFlag H l = match Machine.IsLut1DNoOp H l l.maxerror l.errortype with
      | Except.error _ => none
      | Except.ok b => some b := by
  unfold Machine.noOpFlag
  rw [Machine_isNoOp_of_current H l hvalid hcur]
  rcases Machine_finalize_cases H l with ⟨e, h1, h2⟩ | ⟨h1, h2⟩ | ⟨h1, h2⟩ <;> rw [h1, h2]

/-- The identity value the code computes is the identity value of the specification when
none of its operations rounds. -/
theorem Machine_identval_exact (l : Lut1D) (c : Fin 3) (i : ℕ)
    (hN : 2 ≤ (l.luts c).length)
    (hops : ∀ q ∈ Machine.identvalOps l c i, Binary32.Exact q) :
    Machine.identval (l.luts c).length
        (Binary32.sub (Binary32.fin (l.from_max c)) (Binary32.fin (l.from_min c)))
        (Binary32.fin (l.from_min c)) i
      = Binary32.fin (l.identityValue c i) := by
  unfold Machine.identvalOps at hops
  simp only [List.mem_cons, List.mem_singleton, List.not_mem_nil, or_false,
    forall_eq_or_imp, forall_eq] at hops
  obtain ⟨o1, o2, o3, o4, o5, o6, o7, o8⟩ := hops
  have hne : ((l.luts c).length : ℚ) - 1 ≠ 0 := by
    have : (2 : ℚ) ≤ ((l.luts c).length : ℚ) := by exact_mod_cast hN
    linarith
  have e1 : Binary32.sub (Binary32.fin (l.from_max c)) (Binary32.fin (l.from_min c))
      = Binary32.fin (l.from_max c - l.from_min c) := o1
  have e2 : Binary32.ofInt (((l.luts c).length : ℕ) : ℤ)
      = Binary32.fin ((l.luts c).length : ℚ) := by
    unfold Binary32.ofInt
    have : (((((l.luts c).length : ℕ) : ℤ)) : ℚ) = ((l.luts c).length : ℚ) := by
      push_cast
      rfl
    rw [this]
    exact o2
  have e3 : Binary32.ofInt ((i : ℕ) : ℤ) = Binary32.fin (i : ℚ) := by
    unfold Binary32.ofInt
    have : ((((i : ℕ) : ℤ)) : ℚ) = (i : ℚ) := by
      push_cast
      rfl
    rw [this]
    exact o3
  have e4 : Binary32.sub (Binary32.fin ((l.luts c).length : ℚ)) (Binary32.fin 1)
      = Binary32.fin (((l.luts c).length : ℚ) - 1) := o4
  have e5 : Binary32.div (Binary32.fin 1) (Binary32.fin (((l.luts c).length : ℚ) - 1))
      = Binary32.fin (1 / (((l.luts c).length : ℚ) - 1)) := by
    simp only [Binary32.div]
    rw [if_neg hne]
    exact o5
  have e6 : Binary32.mul (Binary32.fin (i : ℚ))
      (Binary32.fin (1 / (((l.luts c).length : ℚ) - 1)))
      = Binary32.fin ((i : ℚ) * (1 / (((l.luts c).length : ℚ) - 1))) := o6
  have e7 : Binary32.mul (Binary32.fin (l.from_max c - l.from_min c))
      (Binary32.fin ((i : ℚ) * (1 / (((l.luts c).length : ℚ) - 1))))
      = Binary32.fin ((l.from_max c - l.from_min c)
          * ((i : ℚ) * (1 / (((l.luts c).length : ℚ) - 1)))) := o7
  have e8 : Binary32.add (Binary32.fin ((l.from_max c - l.from_min c)
          * ((i : ℚ) * (1 / (((l.luts c).length : ℚ) - 1))))) (Binary32.fin (l.from_min c))
      = Binary32.fin ((l.from_max c - l.from_min c)
          * ((i : ℚ) * (1 / (((l.luts c).length : ℚ) - 1))) + l.from_min c) := o8
  unfold Machine.identval
  simp only []
  rw [e1, e2, e3, e4, e5, e6, e7, e8]
  congr 1
  unfold Lut1D.identityValue
  ring
/-! ## Claim on no-op detection, in binary32 arithmetic -/

/-- C7, counterexample to the claim as stated.  Every sample of the exact identity LUT
`zeroToleranceIdentityLut` equals its identity value, so it is within the tolerance
`maxerror = 0`, yet `isNoOp()` returns false.  And the identity value the code compares
with is computed in binary32: on the LUT `[0, 1/3, 2/3, 1]` with its samples rounded to
binary32 and the absolute tolerance `2^-30`, sample 1 differs from the identity value `1/3`
by more than the tolerance, yet `isNoOp()` returns true, because the code computes the
identity value `1 * (1/3 rounded)`, the sample itself; on the LUT
`[from_min, from_max]` over `[-7.5, 1.1f]` with the absolute tolerance `2^-24` both
samples equal their identity values, yet `isNoOp()` returns false, because the code
computes `576717/2^19` as the identity value of index 1. -/
theorem isNoOp_false_when_tolerance_not_positive :
    ((∀ c, zeroToleranceIdentityLut.luts c ≠ []) ∧
      (∀ (c : Fin 3) (i : Fin 2),
        (zeroToleranceIdentityLut.luts c)[i.val]?
            = some (zeroToleranceIdentityLut.identityValue c i.val) ∧
        Machine.sampleWithinTolerance Machine.exampleHelpers zeroToleranceIdentityLut c i.val
            (zeroToleranceIdentityLut.identityValue c i.val) = true) ∧
      Machine.noOpFlag Machine.exampleHelpers zeroToleranceIdentityLut = some false) ∧
    ((∀ c, thirdsLut.luts c ≠ []) ∧ thirdsLut.IsBinary32 ∧ 0 < thirdsLut.maxerror ∧
      thirdsLut.errortype = ErrorType.ERROR_ABSOLUTE ∧
      (thirdsLut.luts 0)[1]? = some (11184811 / 2 ^ 25) ∧
      thirdsLut.identityValue 0 1 = 1 / 3 ∧
      thirdsLut.maxerror < |(11184811 / 2 ^ 25 : ℚ) - thirdsLut.identityValue 0 1| ∧
      Machine.identval 4 (Binary32.sub (Binary32.fin (thirdsLut.from_max 0))
          (Binary32.fin (thirdsLut.from_min 0))) (Binary32.fin (thirdsLut.from_min 0)) 1
        = Binary32.fin (11184811 / 2 ^ 25) ∧
      Machine.noOpFlag Machine.exampleHelpers thirdsLut = some true) ∧
    ((∀ c, offsetIdentityLut.luts c ≠ []) ∧ offsetIdentityLut.IsBinary32 ∧
      0 < offsetIdentityLut.maxerror ∧
      offsetIdentityLut.errortype = ErrorType.ERROR_ABSOLUTE ∧
      (∀ (c : Fin 3) (i : Fin 2),
        (offsetIdentityLut.luts c)[i.val]?
            = some (offsetIdentityLut.identityValue c i.val)) ∧
      Machine.identval 2 (Binary32.sub (Binary32.fin (offsetIdentityLut.from_max 0))
          (Binary32.fin (offsetIdentityLut.from_min 0)))
          (Binary32.fin (offsetIdentityLut.from_min 0)) 1
        = Binary32.fin (576717 / 2 ^ 19) ∧
      Machine.noOpFlag Machine.exampleHelpers offsetIdentityLut = some false) :=
  ⟨⟨by decide!, by decide!, by decide!⟩,
    ⟨by decide!, by decide!, by decide!, by decide!, by decide!, by decide!, by decide!,
      by decide!, by decide!⟩,
    ⟨by decide!, by decide!, by decide!, by decide!, by decide!, by decide!, by decide!⟩⟩

/-- C7 (as amended), in binary32 arithmetic: for every valid Lut1D (three non-empty
channels) whose cache is current (in particular after `unfinalize`), with errortype
ABSOLUTE or RELATIVE: if `maxerror` is positive and every sample is within tolerance of
the identity value the code computes for its index, `isNoOp()` returns true; if some
sample is not within tolerance of that value, `isNoOp()` returns false.  The identity
value the code computes for index `i` of a channel with at least two samples is
`from_min[c] + (from_max[c] - from_min[c]) * i/(N-1)` when none of the operations that
compute it rounds. -/
theorem isNoOp_detects_identity (H : Machine.Helpers) (l : Lut1D)
    (hvalid : ∀ c, l.luts c ≠ []) (hcur : Machine.CacheCurrent H l)
    (htype : l.errortype = ErrorType.ERROR_ABSOLUTE ∨ l.errortype = ErrorType.ERROR_RELATIVE) :
    (0 < l.maxerror →
      (∀ c i s, (l.luts c)[i]? = some s → Machine.sampleWithinTolerance H l c i s = true) →
      Machine.noOpFlag H l = some true) ∧
    ((∃ c i s, (l.luts c)[i]? = some s ∧ Machine.sampleWithinTolerance H l c i s = false) →
      Machine.noOpFlag H l = some false) ∧
    (∀ c i, 2 ≤ (l.luts c).length →
      (∀ q ∈ Machine.identvalOps l c i, Binary32.Exact q) →
      Machine.identval (l.luts c).length
          (Binary32.sub (Binary32.fin (l.from_max c)) (Binary32.fin (l.from_min c)))
          (Binary32.fin (l.from_min c)) i
        = Binary32.fin (l.identityValue c i)) := by
  have hflag := Machine_noOpFlag_of_current H l hvalid hcur
  refine ⟨fun hpos hall => ?_, fun hsome => ?_,
    fun c i hN hops => Machine_identval_exact l c i hN hops⟩
  · rw [hflag, Machine_IsLut1DNoOp_all H l hpos htype hall]
  · rw [hflag, Machine_IsLut1DNoOp_some H l htype hsome]

/-- C7, witness: the exact two-sample identity LUT with absolute tolerance `1/10` is a
no-op, and the identity values the code computes for it are those of the
specification. -/
theorem isNoOp_detects_identity_witness :
    Machine.noOpFlag Machine.exampleHelpers identityLut = some true ∧
    Machine.identval (identityLut.luts 0).length
        (Binary32.sub (Binary32.fin (identityLut.from_max 0))
          (Binary32.fin (identityLut.from_min 0)))
        (Binary32.fin (identityLut.from_min 0)) 1
      = Binary32.fin (identityLut.identityValue 0 1) :=
  ⟨(isNoOp_detects_identity Machine.exampleHelpers identityLut (by decide)
      (Machine_CacheCurrent_of_unfinalized _ _ rfl) (by decide)).1 (by decide!) (by
        intro c i s h
        fin_cases c <;> rcases i with _ | _ | i <;>
          simp [identityLut, Lut1D.Create] at h <;> subst h <;> decide!),
    (isNoOp_detects_identity Machine.exampleHelpers identityLut (by decide)
      (Machine_CacheCurrent_of_unfinalized _ _ rfl) (by decide)).2.2 0 1 (by decide)
      (by decide!)⟩

end Lut1DOp
